import Mathlib

/-!
# Scene-graph compiler and acceleration-structure builder

A shallow embedding of the scene factory (`SceneFactory.cpp`, `TriangleMeshD3D12.cpp`,
`Scene.cpp`, `Scene.hpp`) and of the instance-descriptor assembly of the ray-tracing
tutorial (`RayTracingRenderer.cpp`).

Conventions.

* `ui32` values are natural numbers; every place where the source narrows to, or computes
  in, 32 bits is written with `ui32 n = n % 2 ^ 32`.
* Container sizes (`std::vector::size`) are natural numbers.
* The scalar type `F` of coordinates and matrix entries is a parameter; the embedding uses
  only the operations the source applies to it.
* The bounding-box class `AABB` belongs to an external library; it enters through the
  record `AABBOps`.
-/

set_option autoImplicit false

namespace gims

/-! ## Machine integers -/

/-- Narrowing of a natural number to the 32-bit unsigned type `ui32`. -/
def ui32 (n : Nat) : Nat := n % 2 ^ 32

/-! ## Vector types -/

/-- Three-component vector `f32v3` (`glm::vec3`). -/
structure f32v3 (F : Type) where
  x : F
  y : F
  z : F
deriving DecidableEq, Repr

/-- Three-component index triple `ui32v3`. -/
structure ui32v3 where
  x : Nat
  y : Nat
  z : Nat
deriving DecidableEq, Repr

/-- Importer vector `aiVector3D`. -/
structure aiVector3D (F : Type) where
  x : F
  y : F
  z : F
deriving DecidableEq, Repr

/-! ## Importer geometry -/

/-- Importer face `aiFace`: `mNumIndices` is the length of `mIndices`. -/
structure aiFace where
  mIndices : List Nat
deriving DecidableEq, Repr

/-- Importer mesh `aiMesh`. `mNumVertices` is the length of `mVertices`, `mNumFaces` the
length of `mFaces`. An optional attribute array is `none` when its pointer is null. -/
structure aiMesh (F : Type) where
  mVertices : List (aiVector3D F)
  mNormals : Option (List (aiVector3D F))
  mTextureCoords0 : Option (List (aiVector3D F))
  mTangents : Option (List (aiVector3D F))
  mFaces : List aiFace
  mMaterialIndex : Nat
deriving DecidableEq, Repr

/-- The count `aiMesh::mNumVertices`. -/
def aiMesh.mNumVertices {F : Type} (mesh : aiMesh F) : Nat := mesh.mVertices.length

/-- One face of `getTriangleIndicesFromAiMesh`: a face with exactly three indices yields a
triple whose entries are offset by the base vertex in 32-bit arithmetic; any other face
yields nothing. -/
def triangleOfFace (baseVertexForMesh : Nat) (currentFace : aiFace) : Option ui32v3 :=
  match currentFace.mIndices with
  | [a, b, c] =>
      some ⟨ui32 (a + baseVertexForMesh), ui32 (b + baseVertexForMesh),
        ui32 (c + baseVertexForMesh)⟩
  | _ => none

/-- The function `getTriangleIndicesFromAiMesh`. -/
def getTriangleIndicesFromAiMesh {F : Type} (mesh : aiMesh F) (baseVertexForMesh : Nat) :
    List ui32v3 :=
  if mesh.mFaces.isEmpty then []
  else mesh.mFaces.filterMap (triangleOfFace baseVertexForMesh)

/-! ## Mesh record -/

/-- Vertex record stored in the global vertex buffer. -/
structure Vertex (F : Type) where
  position : f32v3 F
  normal : f32v3 F
  textureCoordinate : f32v3 F
  tangent : f32v3 F
  materialIndex : Nat
deriving DecidableEq, Repr

/-- The mesh record `TriangleMeshD3D12` (CPU-side members; byte sizes and GPU views are
not part of the embedding). `B` is the type of bounding boxes. -/
structure TriangleMeshD3D12 (F B : Type) where
  m_nIndices : Nat
  m_nVertices : Nat
  m_aabb : B
  m_materialIndex : Nat
  m_vertices : List (Vertex F)
  m_indices : List Nat
  m_startVertex : Nat
  m_startIndex : Nat
  m_isReflective : Bool
deriving DecidableEq, Repr

/-- The zero vector `f32v3(0.0f, 0.0f, 0.0f)`. -/
def f32v3.zero {F : Type} [Zero F] : f32v3 F := ⟨0, 0, 0⟩

/-- The constructor `TriangleMeshD3D12::TriangleMeshD3D12`: the vertex loop runs over
`i < nVertices`, the index loop over `i < nIndices / 3`. A read past the end of an
argument array (undefined in the source) yields the zero element. -/
def TriangleMeshD3D12.create {F B : Type} [Zero F] (mkAABB : List (f32v3 F) → Nat → B)
    (positions normals textureCoordinates : List (f32v3 F)) (nVertices : Nat)
    (indexBuffer : List ui32v3) (nIndices : Nat) (tangents : List (f32v3 F))
    (materialIndex : Nat) : TriangleMeshD3D12 F B where
  m_nIndices := nIndices
  m_nVertices := nVertices
  m_aabb := mkAABB positions nVertices
  m_materialIndex := materialIndex
  m_vertices := (List.range nVertices).map fun i =>
    { position := positions.getD i f32v3.zero
      normal := normals.getD i f32v3.zero
      textureCoordinate := textureCoordinates.getD i f32v3.zero
      tangent := tangents.getD i f32v3.zero
      materialIndex := materialIndex }
  m_indices := (List.range (nIndices / 3)).flatMap fun i =>
    let t := indexBuffer.getD i ⟨0, 0, 0⟩
    [t.x, t.y, t.z]
  m_startVertex := 0
  m_startIndex := 0
  m_isReflective := false

/-- Running state of the mesh loop of `createMeshes`: the two global arrays and the mesh
array of the output scene. -/
structure MeshState (F B : Type) where
  globalVertices : List (Vertex F)
  globalIndices : List Nat
  m_meshes : List (TriangleMeshD3D12 F B)
deriving DecidableEq, Repr

/-- The per-vertex attribute arrays built at the top of the mesh loop of `createMeshes`
for mesh number `i`. The tangent of every vertex is read at position `i`, the mesh
number, as in the source. -/
def meshAttributes {F : Type} [Zero F] (i : Nat) (currentMesh : aiMesh F) :
    List (f32v3 F) × List (f32v3 F) × List (f32v3 F) × List (f32v3 F) :=
  let numVertices := currentMesh.mNumVertices
  let positions := (List.range numVertices).map fun n =>
    match currentMesh.mVertices.get? n with
    | some p => (⟨p.x, p.y, p.z⟩ : f32v3 F)
    | none => f32v3.zero
  let normals := (List.range numVertices).map fun n =>
    match currentMesh.mNormals with
    | some ns =>
        (match ns.get? n with
         | some p => (⟨p.x, p.y, p.z⟩ : f32v3 F)
         | none => f32v3.zero)
    | none => f32v3.zero
  let textureCoords := (List.range numVertices).map fun n =>
    match currentMesh.mTextureCoords0 with
    | some ts =>
        (match ts.get? n with
         | some p => (⟨p.x, p.y, 0⟩ : f32v3 F)
         | none => f32v3.zero)
    | none => f32v3.zero
  let tangents := (List.range numVertices).map fun _ =>
    match currentMesh.mTangents with
    | some ts =>
        (match ts.get? i with
         | some p => (⟨p.x, p.y, p.z⟩ : f32v3 F)
         | none => f32v3.zero)
    | none => f32v3.zero
  (positions, normals, textureCoords, tangents)

/-- One iteration of the mesh loop of `createMeshes`, for mesh number `i`. -/
def createMeshesBody {F B : Type} [Zero F] (mkAABB : List (f32v3 F) → Nat → B) (i : Nat)
    (currentMesh : aiMesh F) (st : MeshState F B) : MeshState F B :=
  let numVertices := currentMesh.mNumVertices
  let attrs := meshAttributes i currentMesh
  let indexBuffer := getTriangleIndicesFromAiMesh currentMesh (ui32 st.globalVertices.length)
  let numIndices := ui32 (3 * ui32 indexBuffer.length)
  let createdMesh : TriangleMeshD3D12 F B :=
    TriangleMeshD3D12.create mkAABB attrs.1 attrs.2.1 attrs.2.2.1 numVertices indexBuffer
      numIndices attrs.2.2.2 currentMesh.mMaterialIndex
  let createdMesh := { createdMesh with m_isReflective := decide (i = 2) }
  let createdMesh := { createdMesh with m_startVertex := ui32 st.globalVertices.length }
  let globalVertices := st.globalVertices ++ createdMesh.m_vertices
  let createdMesh := { createdMesh with m_startIndex := ui32 st.globalIndices.length }
  let globalIndices := st.globalIndices ++ createdMesh.m_indices
  { globalVertices := globalVertices
    globalIndices := globalIndices
    m_meshes := st.m_meshes ++ [createdMesh] }

/-- The mesh loop of `createMeshes`, from mesh number `i` on. -/
def createMeshesLoop {F B : Type} [Zero F] (mkAABB : List (f32v3 F) → Nat → B) :
    Nat → List (aiMesh F) → MeshState F B → MeshState F B
  | _, [], st => st
  | i, currentMesh :: rest, st =>
      createMeshesLoop mkAABB (i + 1) rest (createMeshesBody mkAABB i currentMesh st)

/-- The function `SceneGraphFactory::createMeshes` on the mesh list of the input scene:
it starts from empty global arrays and appends to the mesh array of the output scene. -/
def createMeshes {F B : Type} [Zero F] (mkAABB : List (f32v3 F) → Nat → B)
    (mMeshes : List (aiMesh F)) (m_meshes : List (TriangleMeshD3D12 F B)) : MeshState F B :=
  createMeshesLoop mkAABB 0 mMeshes
    { globalVertices := [], globalIndices := [], m_meshes := m_meshes }

/-! ## Specification vocabulary for the offset bookkeeping -/

/-- Number of faces of a source mesh that have exactly three indices. -/
def triangleCount {F : Type} (mesh : aiMesh F) : Nat :=
  (mesh.mFaces.filter fun f => f.mIndices.length = 3).length

/-- The value `createMeshes` stores as the index count `m_nIndices` of a mesh: three times
the number of triangles, computed in 32 bits. -/
def storedIndexCount {F : Type} (mesh : aiMesh F) : Nat :=
  ui32 (3 * ui32 (triangleCount mesh))

/-- Number of entries the mesh constructor copies into `m_indices`. -/
def storedIndexLength {F : Type} (mesh : aiMesh F) : Nat :=
  3 * (storedIndexCount mesh / 3)

/-- Running offsets: the starts of consecutive ranges of the given counts, laid out from
`start`. -/
def offsets : List Nat → Nat → List Nat
  | [], _ => []
  | c :: cs, start => start :: offsets cs (start + c)

/-- Sum of a list of counts. -/
def total (counts : List Nat) : Nat := counts.sum

/-- A list of `(start, count)` ranges tiles `[0, bound)` in list order: earlier ranges end
before later ones begin, every range lies inside `[0, bound)`, and every position below
`bound` lies in some range. -/
def Tiles (ranges : List (Nat × Nat)) (bound : Nat) : Prop :=
  (∀ (j k : Nat) (a b : Nat × Nat), j < k → ranges[j]? = some a → ranges[k]? = some b →
      a.1 + a.2 ≤ b.1) ∧
  (∀ (k : Nat) (a : Nat × Nat), ranges[k]? = some a → a.1 + a.2 ≤ bound) ∧
  (∀ p, p < bound → ∃ (k : Nat) (a : Nat × Nat), ranges[k]? = some a ∧ a.1 ≤ p ∧ p < a.1 + a.2)

/-- The offset bookkeeping of a mesh state: every mesh starts at the sum of the counts of
the meshes before it, the global arrays have the summed lengths, and the vertex ranges and
the index ranges tile the global arrays. -/
def OffsetsTile {F B : Type} (r : MeshState F B) : Prop :=
  (∀ (k : Nat) (m : TriangleMeshD3D12 F B), r.m_meshes[k]? = some m →
      m.m_startVertex = total ((r.m_meshes.take k).map fun x => x.m_nVertices) ∧
      m.m_startIndex = total ((r.m_meshes.take k).map fun x => x.m_nIndices)) ∧
  r.globalVertices.length = total (r.m_meshes.map fun x => x.m_nVertices) ∧
  r.globalIndices.length = total (r.m_meshes.map fun x => x.m_nIndices) ∧
  Tiles (r.m_meshes.map fun x => (x.m_startVertex, x.m_nVertices)) r.globalVertices.length ∧
  Tiles (r.m_meshes.map fun x => (x.m_startIndex, x.m_nIndices)) r.globalIndices.length

/-- Every index of every face of every source mesh is less than the vertex count of its
mesh. -/
def FaceIndicesValid {F : Type} (ms : List (aiMesh F)) : Prop :=
  ∀ mesh ∈ ms, ∀ f ∈ mesh.mFaces, ∀ a ∈ f.mIndices, a < mesh.mNumVertices

instance {F : Type} (ms : List (aiMesh F)) : Decidable (FaceIndicesValid ms) := by
  unfold FaceIndicesValid
  infer_instance

/-- Provenance of a compiled mesh `m` from the source mesh `src`: the stored counts, the
lengths of the stored arrays, and the origin of every stored index value. -/
def MeshFrom {F B : Type} (src : aiMesh F) (m : TriangleMeshD3D12 F B) : Prop :=
  m.m_nVertices = src.mNumVertices ∧
  m.m_vertices.length = src.mNumVertices ∧
  m.m_nIndices = storedIndexCount src ∧
  m.m_indices.length = storedIndexLength src ∧
  ∀ v ∈ m.m_indices, ∃ f ∈ src.mFaces, ∃ a ∈ f.mIndices, v = ui32 (a + m.m_startVertex)

/-- The index values stored for a mesh are the entries of the global index array at the
positions `[m_startIndex, m_startIndex + m_nIndices)`. This is the reading of C2 as
stated: each such value, offset by the start vertex of the mesh, is below the total
vertex count. -/
def OffsetIndicesBelowTotal {F B : Type} (r : MeshState F B) : Prop :=
  ∀ (k : Nat) (m : TriangleMeshD3D12 F B), r.m_meshes[k]? = some m →
    ∀ (p v : Nat), m.m_startIndex ≤ p → p < m.m_startIndex + m.m_nIndices →
      r.globalIndices[p]? = some v → v + m.m_startVertex < r.globalVertices.length

/-- Each index value stored for a mesh, taken as it stands in the global index array, is
below the total vertex count. -/
def StoredIndicesBelowTotal {F B : Type} (r : MeshState F B) : Prop :=
  ∀ (k : Nat) (m : TriangleMeshD3D12 F B), r.m_meshes[k]? = some m →
    ∀ (p v : Nat), m.m_startIndex ≤ p → p < m.m_startIndex + m.m_nIndices →
      r.globalIndices[p]? = some v → v < r.globalVertices.length

/-! ## Matrices -/

/-- Four-component vector `f32v4` (`glm::vec4`). -/
structure f32v4 (F : Type) where
  x : F
  y : F
  z : F
  w : F
deriving DecidableEq, Repr

/-- The matrix type `f32m4` (`glm::mat4`): four columns, so that the source expression
`m[c][r]` is component `r` of column `c`. -/
structure f32m4 (F : Type) where
  c0 : f32v4 F
  c1 : f32v4 F
  c2 : f32v4 F
  c3 : f32v4 F
deriving DecidableEq, Repr

/-- Component `r` of a vector, the source expression `v[r]`. -/
def f32v4.get {F : Type} (v : f32v4 F) : Fin 4 → F
  | 0 => v.x
  | 1 => v.y
  | 2 => v.z
  | 3 => v.w

/-- Column `c` of a matrix, the source expression `m[c]`. -/
def f32m4.col {F : Type} (m : f32m4 F) : Fin 4 → f32v4 F
  | 0 => m.c0
  | 1 => m.c1
  | 2 => m.c2
  | 3 => m.c3

/-- The entry `m[c][r]`: column `c`, row `r`. -/
def f32m4.get {F : Type} (m : f32m4 F) (c r : Fin 4) : F := (m.col c).get r

/-- Vector times scalar, componentwise. -/
def f32v4.scale {F : Type} [Mul F] (v : f32v4 F) (s : F) : f32v4 F :=
  ⟨v.x * s, v.y * s, v.z * s, v.w * s⟩

/-- Vector sum, componentwise. -/
def f32v4.add {F : Type} [Add F] (a b : f32v4 F) : f32v4 F :=
  ⟨a.x + b.x, a.y + b.y, a.z + b.z, a.w + b.w⟩

/-- One column of the matrix product: the combination of the columns of `m1` with the
components of `b`, summed from left to right. -/
def f32m4.mulVec {F : Type} [Add F] [Mul F] (m1 : f32m4 F) (b : f32v4 F) : f32v4 F :=
  (((m1.c0.scale b.x).add (m1.c1.scale b.y)).add (m1.c2.scale b.z)).add (m1.c3.scale b.w)

/-- The matrix product `m1 * m2` of `glm::mat4`, column by column. -/
def f32m4.mul {F : Type} [Add F] [Mul F] (m1 m2 : f32m4 F) : f32m4 F :=
  ⟨m1.mulVec m2.c0, m1.mulVec m2.c1, m1.mulVec m2.c2, m1.mulVec m2.c3⟩

instance {F : Type} [Add F] [Mul F] : Mul (f32m4 F) := ⟨f32m4.mul⟩

/-- The identity matrix `glm::identity<f32m4>()`. -/
def glm.identity {F : Type} [Zero F] [One F] : f32m4 F :=
  ⟨⟨1, 0, 0, 0⟩, ⟨0, 1, 0, 0⟩, ⟨0, 0, 1, 0⟩, ⟨0, 0, 0, 1⟩⟩

/-- The transposition `glm::transpose`: `result[c][r] = m[r][c]`. -/
def glm.transpose {F : Type} (m : f32m4 F) : f32m4 F :=
  ⟨⟨m.c0.x, m.c1.x, m.c2.x, m.c3.x⟩, ⟨m.c0.y, m.c1.y, m.c2.y, m.c3.y⟩,
   ⟨m.c0.z, m.c1.z, m.c2.z, m.c3.z⟩, ⟨m.c0.w, m.c1.w, m.c2.w, m.c3.w⟩⟩

/-- Importer matrix `aiMatrix4x4`: sixteen scalars stored row by row, `a1 .. a4` being the
first row. -/
structure aiMatrix4x4 (F : Type) where
  a1 : F
  a2 : F
  a3 : F
  a4 : F
  b1 : F
  b2 : F
  b3 : F
  b4 : F
  c1 : F
  c2 : F
  c3 : F
  c4 : F
  d1 : F
  d2 : F
  d3 : F
  d4 : F
deriving DecidableEq, Repr

/-- The call `glm::make_mat4(&from.a1)`: sixteen consecutive scalars fill the columns in
order. -/
def glm.make_mat4 {F : Type} (m : aiMatrix4x4 F) : f32m4 F :=
  ⟨⟨m.a1, m.a2, m.a3, m.a4⟩, ⟨m.b1, m.b2, m.b3, m.b4⟩,
   ⟨m.c1, m.c2, m.c3, m.c4⟩, ⟨m.d1, m.d2, m.d3, m.d4⟩⟩

/-- The function `aiMatrix4x4ToGlm` of `Scene.hpp`. -/
def aiMatrix4x4ToGlm {F : Type} (m : aiMatrix4x4 F) : f32m4 F :=
  glm.transpose (glm.make_mat4 m)

/-! ## Nodes -/

/-- The scene-graph node `Scene::Node`. -/
structure Node (F : Type) where
  transformation : f32m4 F
  worldSpaceTransformation : f32m4 F
  meshIndices : List Nat
  childIndices : List Nat
deriving DecidableEq, Repr

/-- Importer node `aiNode`: local transformation, mesh references, children. -/
inductive aiNode (F : Type) where
  | mk (mTransformation : aiMatrix4x4 F) (mMeshes : List Nat) (mChildren : List (aiNode F))

/-- Appending a child index to a node, the statement
`m_nodes.at(currentNodeIndex).childIndices.emplace_back(childNodeIndex)`. -/
def Node.addChild {F : Type} (childNodeIndex : Nat) (n : Node F) : Node F :=
  { n with childIndices := n.childIndices ++ [childNodeIndex] }

mutual
/-- The function `SceneGraphFactory::createNodes`, threading the node array `m_nodes` of
the output scene; it returns the new array and the index of the node it created. The
index is the 32-bit narrowing of `m_nodes.size() - 1` after the node was appended. -/
def createNodes {F : Type} [Add F] [Mul F] (m_nodes : List (Node F)) (assimpNode : aiNode F)
    (worldSpaceTransformation : f32m4 F) : List (Node F) × Nat :=
  match assimpNode with
  | .mk mTransformation mMeshes mChildren =>
      let currentNodeIndex := ui32 (m_nodes.length + 1 - 1)
      let convertedAssimpTrafo := aiMatrix4x4ToGlm mTransformation
      let worldSpaceTransformation := worldSpaceTransformation * convertedAssimpTrafo
      let currentNode : Node F :=
        { transformation := convertedAssimpTrafo
          worldSpaceTransformation := worldSpaceTransformation
          meshIndices := mMeshes
          childIndices := [] }
      (createNodesChildren (m_nodes ++ [currentNode]) mChildren currentNodeIndex
        worldSpaceTransformation, currentNodeIndex)
/-- The child loop of `createNodes`: each child is created by the recursive call and its
returned index is appended to the child list of the node at `currentNodeIndex`. -/
def createNodesChildren {F : Type} [Add F] [Mul F] (m_nodes : List (Node F))
    (children : List (aiNode F)) (currentNodeIndex : Nat)
    (worldSpaceTransformation : f32m4 F) : List (Node F) :=
  match children with
  | [] => m_nodes
  | child :: rest =>
      let r := createNodes m_nodes child worldSpaceTransformation
      createNodesChildren (r.1.modify (Node.addChild r.2) currentNodeIndex) rest
        currentNodeIndex worldSpaceTransformation
end

mutual
/-- Number of nodes of a source tree. -/
def aiNode.size {F : Type} : aiNode F → Nat
  | .mk _ _ children => 1 + aiNode.sizeList children
/-- Number of nodes of a list of source trees. -/
def aiNode.sizeList {F : Type} : List (aiNode F) → Nat
  | [] => 0
  | child :: rest => aiNode.size child + aiNode.sizeList rest
end

/-- Sizes of the source trees of a list, one entry per tree. -/
def aiNode.sizes {F : Type} : List (aiNode F) → List Nat
  | [] => []
  | child :: rest => aiNode.size child :: aiNode.sizes rest

mutual
/-- Depth-first pre-order layout of a source tree whose root is placed at index `base`,
below a parent with the given world transformation: the root comes first, its child list
holds the start indices of its subtrees, and the subtrees follow in source order. -/
def layout {F : Type} [Add F] [Mul F] (t : aiNode F) (parentWorld : f32m4 F) (base : Nat) :
    List (Node F) :=
  match t with
  | .mk mTransformation mMeshes mChildren =>
      { transformation := aiMatrix4x4ToGlm mTransformation
        worldSpaceTransformation := parentWorld * aiMatrix4x4ToGlm mTransformation
        meshIndices := mMeshes
        childIndices := offsets (aiNode.sizes mChildren) (base + 1) } ::
      layoutChildren mChildren (parentWorld * aiMatrix4x4ToGlm mTransformation) (base + 1)
/-- Layout of a list of sibling subtrees, the first one placed at index `base`. -/
def layoutChildren {F : Type} [Add F] [Mul F] (children : List (aiNode F))
    (parentWorld : f32m4 F) (base : Nat) : List (Node F) :=
  match children with
  | [] => []
  | child :: rest =>
      layout child parentWorld base ++ layoutChildren rest parentWorld (base + aiNode.size child)
end

/-- All entries of all child lists of a node array, in array order. -/
def childIndexList {F : Type} (nodes : List (Node F)) : List Nat :=
  nodes.flatMap fun n => n.childIndices

/-- The relation C3 states for a node array: the root has the identity as parent world
transformation, every other node is listed as a child by some node, and every node listed
as a child has the world transformation of the listing node times its own
transformation. -/
def WorldTransformsCompose {F : Type} [Add F] [Mul F] [Zero F] [One F]
    (nodes : List (Node F)) : Prop :=
  (∃ n0, nodes[0]? = some n0 ∧
    n0.worldSpaceTransformation = glm.identity * n0.transformation) ∧
  (∀ (i : Nat), 0 < i → i < nodes.length →
    ∃ (p : Nat) (np : Node F), nodes[p]? = some np ∧ i ∈ np.childIndices) ∧
  ∀ (p : Nat) (np : Node F) (c : Nat) (nc : Node F), nodes[p]? = some np →
    c ∈ np.childIndices → nodes[c]? = some nc →
    nc.worldSpaceTransformation = np.worldSpaceTransformation * nc.transformation

/-- The property C4 states for a node array: every child index is a valid index, index 0
is in no child list, and every other index occurs exactly once over all child lists. -/
def ChildListsFormTree {F : Type} (nodes : List (Node F)) : Prop :=
  (∀ n ∈ nodes, ∀ c ∈ n.childIndices, c < nodes.length) ∧
  0 ∉ childIndexList nodes ∧
  ∀ (i : Nat), 0 < i → i < nodes.length → (childIndexList nodes).count i = 1

/-- Every child index is greater than the index of the node that lists it. -/
def ChildrenAfterParents {F : Type} (nodes : List (Node F)) : Prop :=
  ∀ (p : Nat) (np : Node F), nodes[p]? = some np → ∀ c ∈ np.childIndices, p < c

/-! ## Materials and textures -/

/-- The importer's texture-type tags `aiTextureType_*`, by their enumeration values. The
enumeration belongs to the importer library; the scan of `textureFilenameToIndex` runs
over the values from `aiTextureType_NONE` up to, not including, `aiTextureType_UNKNOWN`. -/
def aiTextureType_NONE : Nat := 0

/-- Tag of diffuse textures. -/
def aiTextureType_DIFFUSE : Nat := 1

/-- Tag of specular textures. -/
def aiTextureType_SPECULAR : Nat := 2

/-- Tag of ambient textures. -/
def aiTextureType_AMBIENT : Nat := 3

/-- Tag of emissive textures. -/
def aiTextureType_EMISSIVE : Nat := 4

/-- Tag of height textures. -/
def aiTextureType_HEIGHT : Nat := 5

/-- End marker of the scanned texture types. -/
def aiTextureType_UNKNOWN : Nat := 18

/-- Importer colour `aiColor3D`. -/
structure aiColor3D (F : Type) where
  r : F
  g : F
  b : F
deriving DecidableEq, Repr

/-- Importer material `aiMaterial`: per texture type the list of texture paths
(`GetTextureCount` is its length, `GetTexture(type, i)` its entry `i`), and the colour and
scalar properties the factory reads, each absent or present. -/
structure aiMaterial (F : Type) where
  textures : Nat → List String
  colorEmissive : Option (aiColor3D F)
  colorAmbient : Option (aiColor3D F)
  colorDiffuse : Option (aiColor3D F)
  colorSpecular : Option (aiColor3D F)
  shininess : Option F
  reflectivity : Option F

/-- The function `getDefaultTextureIndexForTextureType`. -/
def getDefaultTextureIndexForTextureType (aiTextureTypeValue : Nat) : Nat :=
  if aiTextureTypeValue = aiTextureType_AMBIENT then 1
  else if aiTextureTypeValue = aiTextureType_DIFFUSE then 0
  else if aiTextureTypeValue = aiTextureType_SPECULAR then 0
  else if aiTextureTypeValue = aiTextureType_EMISSIVE then 1
  else if aiTextureTypeValue = aiTextureType_HEIGHT then 2
  else 0

/-- State of the scan of `textureFilenameToIndex`: the map, as the list of its entries in
insertion order, and the next slot `textureIdx`. -/
structure ScanState where
  map : List (String × Nat)
  textureIdx : Nat
deriving DecidableEq, Repr

/-- Innermost loop body of `textureFilenameToIndex`: a path that is not yet a key is
inserted with the current slot, and the slot counter is incremented in 32 bits. -/
def scanPath (st : ScanState) (path : String) : ScanState :=
  match st.map.lookup path with
  | some _ => st
  | none => { map := st.map ++ [(path, st.textureIdx)], textureIdx := ui32 (st.textureIdx + 1) }

/-- The function `textureFilenameToIndex`: materials by index, texture types ascending from
`aiTextureType_NONE` below `aiTextureType_UNKNOWN`, texture indices ascending. -/
def textureFilenameToIndex {F : Type} (mMaterials : List (aiMaterial F)) :
    List (String × Nat) :=
  (mMaterials.foldl (fun (st : ScanState) (material : aiMaterial F) =>
      (List.range' aiTextureType_NONE (aiTextureType_UNKNOWN - aiTextureType_NONE)).foldl
        (fun (st : ScanState) (textureType : Nat) =>
          (material.textures textureType).foldl scanPath st) st)
    ({ map := [], textureIdx := 3 } : ScanState)).map

/-- The paths in the order the scan of `textureFilenameToIndex` visits them. -/
def scanOrder {F : Type} (mMaterials : List (aiMaterial F)) : List String :=
  mMaterials.flatMap fun material =>
    (List.range' aiTextureType_NONE (aiTextureType_UNKNOWN - aiTextureType_NONE)).flatMap
      fun textureType => material.textures textureType

/-- The distinct elements of a list in the order of their first occurrence. -/
def firstSeen : List String → List String → List String
  | _, [] => []
  | seen, p :: rest =>
      if p ∈ seen then firstSeen seen rest else p :: firstSeen (seen ++ [p]) rest

/-- Slots of a list of distinct paths: consecutive 32-bit values counted from `idx`. -/
def assignSlots : Nat → List String → List (String × Nat)
  | _, [] => []
  | idx, p :: rest => (p, ui32 idx) :: assignSlots (idx + 1) rest

/-- The assignment C5 states for a texture map and the scan order it was built from: the
keys are the distinct paths in first-seen order, the `k`-th of them is mapped to `3 + k`,
the slots are `3, 4, ...` in that order, the map is injective, and no slot is below 3. -/
def FirstSeenSlots (map : List (String × Nat)) (order : List String) : Prop :=
  map.map Prod.fst = firstSeen [] order ∧
  (∀ (k : Nat) (p : String), (firstSeen [] order)[k]? = some p →
    map.lookup p = some (3 + k)) ∧
  map.map Prod.snd = List.range' 3 map.length ∧
  (∀ (p q : String) (s : Nat), map.lookup p = some s → map.lookup q = some s → p = q) ∧
  (∀ (p : String) (s : Nat), map.lookup p = some s → 3 ≤ s)

/-- Four-component byte vector `ui8v4`. -/
structure ui8v4 where
  x : Nat
  y : Nat
  z : Nat
  w : Nat
deriving DecidableEq, Repr

/-- The texture class `Texture2DD3D12`, by what a texture was constructed from: nothing
(default constructed), a block of texels of the given size, or a file. -/
inductive Texture2DD3D12 where
  | unset
  | solid (texel : ui8v4) (width height : Nat)
  | fromFile (path : String)
deriving DecidableEq, Repr

/-- Ways in which a run of the scene factory or of the traversal ends without a result:
`exception` is a `throw std::exception(message)` of the factory; `outOfRange` is the
`std::out_of_range` of the checked access `vector::at`; `textureLoadFailed` is the
failure of the texture constructor for a file that cannot be loaded; `nullDereference`
is the use of a null pointer; `invalidRead` is an unchecked read `operator[]` beyond the
size of the array, which has no defined result; `diverges` is a recursion that needs
more depth than the model was given. -/
inductive LoadError where
  | exception (message : String)
  | outOfRange
  | textureLoadFailed (path : String)
  | nullDereference
  | invalidRead
  | diverges
deriving DecidableEq, Repr

/-- GPU objects the scene factory creates, in creation order: a descriptor heap of a
number of descriptors, a buffer of a size in bytes, a view of a buffer in a slot of the
heap, a texture, a constant buffer, and a view of a texture. -/
inductive GpuEvent where
  | createDescriptorHeap (numDescriptors : Nat)
  | createBuffer (sizeInBytes : Nat)
  | createBufferView (slot : Nat)
  | createTexture (texture : Texture2DD3D12)
  | createConstantBuffer
  | createTextureView (slot : Int) (textureIndex : Nat)
deriving DecidableEq, Repr

/-- A run of a factory step: the GPU objects created so far, and the result or the
failure that ended the run. -/
structure Run (α : Type) where
  gpu : List GpuEvent
  result : Except LoadError α

/-- The checked access `vector::at(i) = v`: it throws `std::out_of_range` when `i` is not
below the size. -/
def setAt {α : Type} (l : List α) (i : Nat) (v : α) : Except LoadError (List α) :=
  if i < l.length then .ok (l.set i v) else .error .outOfRange

/-- The call `vector::resize(n)` with default-constructed new elements. -/
def resize {α : Type} (l : List α) (n : Nat) (d : α) : List α :=
  l.take n ++ List.replicate (n - l.length) d

/-- The path `parentPath / name` of a texture file. -/
def texturePath (parentPath name : String) : String := parentPath ++ "/" ++ name

/-- The loop of `createTextures` over the entries of the map, in the order the map yields
them: the texture is constructed from the file `parentPath / entry.first`, which fails
when the file cannot be loaded, and is then stored with `at(entry.second)`. -/
def createFileTextures (fileLoads : String → Bool) (parentPath : String) :
    List (String × Nat) → List GpuEvent → List Texture2DD3D12 → Run (List Texture2DD3D12)
  | [], gpu, m_textures => { gpu := gpu, result := .ok m_textures }
  | entry :: rest, gpu, m_textures =>
      let pathToFilename := texturePath parentPath entry.1
      if fileLoads pathToFilename then
        let createdTexture := Texture2DD3D12.fromFile pathToFilename
        let gpu := gpu ++ [GpuEvent.createTexture createdTexture]
        match setAt m_textures entry.2 createdTexture with
        | .error e => { gpu := gpu, result := .error e }
        | .ok m_textures => createFileTextures fileLoads parentPath rest gpu m_textures
      else { gpu := gpu, result := .error (.textureLoadFailed pathToFilename) }

/-- The white texel `(255, 255, 255, 255)`. -/
def white : ui8v4 := ⟨255, 255, 255, 255⟩

/-- The black texel `(0, 0, 0, 255)`. -/
def black : ui8v4 := ⟨0, 0, 0, 255⟩

/-- The blue texel `(0, 0, 255, 255)`. -/
def blue : ui8v4 := ⟨0, 0, 255, 255⟩

/-- The function `SceneGraphFactory::createTextures`. `entries` are the entries of the
texture map in the order the map yields them; `gpu` are the GPU objects created before
the call. -/
def createTextures (fileLoads : String → Bool) (entries : List (String × Nat))
    (parentPath : String) (gpu : List GpuEvent) (m_textures : List Texture2DD3D12) :
    Run (List Texture2DD3D12) :=
  let m_textures := resize m_textures (ui32 (entries.length + 3)) Texture2DD3D12.unset
  let gpu := gpu ++ [GpuEvent.createTexture (.solid white 1 1)]
  match setAt m_textures 0 (.solid white 1 1) with
  | .error e => { gpu := gpu, result := .error e }
  | .ok m_textures =>
    let gpu := gpu ++ [GpuEvent.createTexture (.solid black 1 1)]
    match setAt m_textures 1 (.solid black 1 1) with
    | .error e => { gpu := gpu, result := .error e }
    | .ok m_textures =>
      let gpu := gpu ++ [GpuEvent.createTexture (.solid blue 1 1)]
      match setAt m_textures 2 (.solid blue 1 1) with
      | .error e => { gpu := gpu, result := .error e }
      | .ok m_textures => createFileTextures fileLoads parentPath entries gpu m_textures

/-- Conversion of a `ui32` value to the signed 32-bit type `i32`. -/
def toI32 (n : Nat) : Int := if n < 2 ^ 31 then (n : Int) else (n : Int) - 2 ^ 32

/-- One descriptor-heap write of `addTextureToDescriptorHeap`: the texture type, the slot
`offsetInDescriptors`, and the index of the element of `m_textures` that is bound. -/
structure HeapWrite where
  aiTextureTypeValue : Nat
  offsetInDescriptors : Int
  textureIndex : Nat
deriving DecidableEq, Repr

/-- The function `addTextureToDescriptorHeap`: a material without a texture of the type
binds the default texture of the type; otherwise it binds the element the map gives for
the path of its first texture of the type (`operator[]` of the map yields 0 for a path
that is not a key). The element of `m_textures` is accessed unchecked. -/
def addTextureToDescriptorHeap {F : Type} (aiTextureTypeValue : Nat)
    (offsetInDescriptors : Int) (inputMaterial : aiMaterial F)
    (textureFileNameToTextureIndex : List (String × Nat)) : HeapWrite :=
  match inputMaterial.textures aiTextureTypeValue with
  | [] =>
      { aiTextureTypeValue := aiTextureTypeValue
        offsetInDescriptors := offsetInDescriptors
        textureIndex := getDefaultTextureIndexForTextureType aiTextureTypeValue }
  | path :: _ =>
      { aiTextureTypeValue := aiTextureTypeValue
        offsetInDescriptors := offsetInDescriptors
        textureIndex := (textureFileNameToTextureIndex.lookup path).getD 0 }

/-- The function `getColor`: the colour with fourth component 0, or the zero vector when
the property is absent. -/
def getColor {F : Type} [Zero F] (color : Option (aiColor3D F)) : f32v4 F :=
  match color with
  | some c => ⟨c.r, c.g, c.b, 0⟩
  | none => ⟨0, 0, 0, 0⟩

/-- The call `aiGetMaterialFloat(material, key, &out)`: it writes the property to `out`
when it is present and leaves `out` untouched otherwise. -/
def aiGetMaterialFloat {F : Type} (property : Option F) (out : F) : F :=
  match property with
  | some v => v
  | none => out

/-- The record `Scene::MaterialConstantBuffer`. -/
structure MaterialConstantBuffer (F : Type) where
  ambientColor : f32v4 F
  diffuseColor : f32v4 F
  specularColorAndExponent : f32v4 F
  reflectivity : F
deriving DecidableEq, Repr

/-- The record `Scene::Material` (constant buffer contents and descriptor index). -/
structure Material (F : Type) where
  materialConstantBuffer : MaterialConstantBuffer F
  m_descriptorIndex : Nat
deriving DecidableEq, Repr

/-- Running state of the material loop of `createMaterials`. -/
structure MaterialState (F : Type) where
  descriptorIndex : Nat
  m_materials : List (Material F)
  heapWrites : List HeapWrite
  gpu : List GpuEvent
deriving DecidableEq, Repr

/-- The constant-buffer payload of one material. `uninit` holds the values of the two
locals `specularExponent` and `reflectivity` before the calls of `aiGetMaterialFloat`;
the source does not initialise them. -/
def materialConstants {F : Type} [Zero F] [Add F] (uninit : F × F)
    (currentMaterial : aiMaterial F) : MaterialConstantBuffer F :=
  let emissiveFactors := getColor currentMaterial.colorEmissive
  let specularExponent := aiGetMaterialFloat currentMaterial.shininess uninit.1
  let reflectivity := aiGetMaterialFloat currentMaterial.reflectivity uninit.2
  let specularColor := getColor currentMaterial.colorSpecular
  { ambientColor := (getColor currentMaterial.colorAmbient).add emissiveFactors
    diffuseColor := getColor currentMaterial.colorDiffuse
    specularColorAndExponent := ⟨specularColor.x, specularColor.y, specularColor.z, specularExponent⟩
    reflectivity := reflectivity }

/-- One iteration of the material loop of `createMaterials`: the material is appended with
the current descriptor index, and the five textures are bound at the current index and
its four successors, each increment being a 32-bit increment and each offset the signed
conversion of the index. -/
def createMaterialsBody {F : Type} [Zero F] [Add F] (uninit : F × F)
    (textureFileNameToTextureIndex : List (String × Nat)) (st : MaterialState F)
    (currentMaterial : aiMaterial F) : MaterialState F :=
  let d0 := st.descriptorIndex
  let d1 := ui32 (d0 + 1)
  let d2 := ui32 (d1 + 1)
  let d3 := ui32 (d2 + 1)
  let d4 := ui32 (d3 + 1)
  let writes :=
    [addTextureToDescriptorHeap aiTextureType_AMBIENT (toI32 d0) currentMaterial
       textureFileNameToTextureIndex,
     addTextureToDescriptorHeap aiTextureType_DIFFUSE (toI32 d1) currentMaterial
       textureFileNameToTextureIndex,
     addTextureToDescriptorHeap aiTextureType_SPECULAR (toI32 d2) currentMaterial
       textureFileNameToTextureIndex,
     addTextureToDescriptorHeap aiTextureType_EMISSIVE (toI32 d3) currentMaterial
       textureFileNameToTextureIndex,
     addTextureToDescriptorHeap aiTextureType_HEIGHT (toI32 d4) currentMaterial
       textureFileNameToTextureIndex]
  { descriptorIndex := ui32 (d4 + 1)
    m_materials := st.m_materials ++
      [{ materialConstantBuffer := materialConstants uninit currentMaterial
         m_descriptorIndex := d0 }]
    heapWrites := st.heapWrites ++ writes
    gpu := st.gpu ++ GpuEvent.createConstantBuffer ::
      writes.map fun w => GpuEvent.createTextureView w.offsetInDescriptors w.textureIndex }

/-- The material loop of `createMaterials`, from material number `i` on. -/
def createMaterialsLoop {F : Type} [Zero F] [Add F] (uninit : Nat → F × F)
    (textureFileNameToTextureIndex : List (String × Nat)) :
    Nat → List (aiMaterial F) → MaterialState F → MaterialState F
  | _, [], st => st
  | i, currentMaterial :: rest, st =>
      createMaterialsLoop uninit textureFileNameToTextureIndex (i + 1) rest
        (createMaterialsBody (uninit i) textureFileNameToTextureIndex st currentMaterial)

/-- The function `SceneGraphFactory::createMaterials` on the material list of the input
scene; the descriptor index starts at 2. -/
def createMaterials {F : Type} [Zero F] [Add F] (uninit : Nat → F × F)
    (mMaterials : List (aiMaterial F)) (textureFileNameToTextureIndex : List (String × Nat))
    (m_materials : List (Material F)) : MaterialState F :=
  createMaterialsLoop uninit textureFileNameToTextureIndex 0 mMaterials
    { descriptorIndex := 2, m_materials := m_materials, heapWrites := [], gpu := [] }

/-- The descriptor count `numOfDescriptors` of `createFromAssImpScene`, computed in 32
bits from the material count. -/
def numOfDescriptors (mNumMaterials : Nat) : Nat := ui32 (ui32 (mNumMaterials * 5) + 2)

/-- The first part of C6 for a run of `createTextures` on a fresh texture array: the run
succeeds, the texture array has one element per key of the map and three more, after the
three default textures exactly one file texture is created per key of the map, and the
slot of every key holds the texture of its file. -/
def TexturesCreatedOnce (parentPath : String) (map : List (String × Nat))
    (run : Run (List Texture2DD3D12)) : Prop :=
  ∃ (textures : List Texture2DD3D12) (created : List GpuEvent),
    run.result = .ok textures ∧
    textures.length = map.length + 3 ∧
    run.gpu = [GpuEvent.createTexture (.solid white 1 1),
        GpuEvent.createTexture (.solid black 1 1),
        GpuEvent.createTexture (.solid blue 1 1)] ++ created ∧
    created.Perm (map.map fun e => GpuEvent.createTexture (.fromFile (texturePath parentPath e.1))) ∧
    ∀ e ∈ map, textures[e.2]? = some (.fromFile (texturePath parentPath e.1))

/-- The second part of C6: two texture bindings whose source texture has the same path
bind the same index of the texture array. -/
def SharedByIndex {F : Type} (map : List (String × Nat)) : Prop :=
  ∀ (m1 m2 : aiMaterial F) (type1 type2 : Nat) (offset1 offset2 : Int) (path : String)
    (rest1 rest2 : List String),
    m1.textures type1 = path :: rest1 → m2.textures type2 = path :: rest2 →
    (addTextureToDescriptorHeap type1 offset1 m1 map).textureIndex
      = (addTextureToDescriptorHeap type2 offset2 m2 map).textureIndex

/-- A heap write binds the default texture of index `index` and texel `texel`: it binds
that index, and the texture array holds the 1×1 texture of that texel there. -/
def BindsDefault (textures : List Texture2DD3D12) (write : HeapWrite) (index : Nat)
    (texel : ui8v4) : Prop :=
  write.textureIndex = index ∧ textures[index]? = some (.solid texel 1 1)

/-! ## Scene -/

/-- The operations of the external bounding-box class `AABB` the factory uses: the
constructor from positions, the default constructor, `getUnion` and `getTransformed`. -/
structure AABBOps (F B : Type) where
  ofPositions : List (f32v3 F) → Nat → B
  empty : B
  getUnion : B → B → B
  getTransformed : B → f32m4 F → B

/-- The class `Scene`: its arrays, bounding box and descriptor count, the contents of the
two global buffers, and the texture views written into the global descriptor heap. -/
structure Scene (F B : Type) where
  m_nodes : List (Node F)
  m_meshes : List (TriangleMeshD3D12 F B)
  m_aabb : B
  m_materials : List (Material F)
  m_textures : List Texture2DD3D12
  m_totalDescriptorCount : Nat
  globalVertices : List (Vertex F)
  globalIndices : List Nat
  heapWrites : List HeapWrite

/-- The mesh loop of `computeSceneAABB`: the bounding box of every referenced mesh is
transformed and merged into the accumulator. The mesh array is read unchecked; a read out
of range has no defined value. -/
def mergeMeshAABBs {F B : Type} (ops : AABBOps F B) (m_meshes : List (TriangleMeshD3D12 F B))
    (accuTransformation : f32m4 F) : List Nat → B → Except LoadError B
  | [], accuAABB => .ok accuAABB
  | meshIndex :: rest, accuAABB =>
      match m_meshes[meshIndex]? with
      | none => .error .invalidRead
      | some mesh =>
          mergeMeshAABBs ops m_meshes accuTransformation rest
            (ops.getUnion accuAABB (ops.getTransformed mesh.m_aabb accuTransformation))

/-- A loop over child indices that threads an accumulator through a visit of each child
and stops at the first failure. -/
def forChildren {B : Type} (visit : B → Nat → Except LoadError B) :
    List Nat → B → Except LoadError B
  | [], acc => .ok acc
  | child :: rest, acc =>
      match visit acc child with
      | .error e => .error e
      | .ok acc => forChildren visit rest acc

/-- The function `SceneGraphFactory::computeSceneAABB`, with the recursion depth bounded
by `fuel`: a run that needs more depth is reported as `diverges`. The node array is read
unchecked, and the child loop runs while the 32-bit counter is below the narrowed size
of the child list. -/
def computeSceneAABB {F B : Type} [Add F] [Mul F] (ops : AABBOps F B) (scene : Scene F B) :
    Nat → B → Nat → f32m4 F → Except LoadError B
  | 0, _, _, _ => .error .diverges
  | fuel + 1, accuAABB, nodeIdx, accuTransformation =>
      match scene.m_nodes[nodeIdx]? with
      | none => .error .invalidRead
      | some currentNode =>
          let accuTransformation := accuTransformation * currentNode.transformation
          match mergeMeshAABBs ops scene.m_meshes accuTransformation currentNode.meshIndices
              accuAABB with
          | .error e => .error e
          | .ok accuAABB =>
              forChildren (fun acc child => computeSceneAABB ops scene fuel acc child
                accuTransformation)
                (currentNode.childIndices.take (ui32 currentNode.childIndices.length)) accuAABB

/-- The union the specification describes: over the nodes in array order and the mesh
references of each node in list order, the bounding box of the mesh transformed by the
stored world transformation of the node. -/
def unionOverNodes {F B : Type} (ops : AABBOps F B) (m_meshes : List (TriangleMeshD3D12 F B)) :
    List (Node F) → B → Except LoadError B
  | [], accuAABB => .ok accuAABB
  | n :: rest, accuAABB =>
      match mergeMeshAABBs ops m_meshes n.worldSpaceTransformation n.meshIndices accuAABB with
      | .error e => .error e
      | .ok accuAABB => unionOverNodes ops m_meshes rest accuAABB

/-- The five texture types `createMaterials` binds for a material whose descriptor index
is `d`, with their slots, in binding order. -/
def fiveSlots (d : Nat) : List (Nat × Int) :=
  [(aiTextureType_AMBIENT, (d : Int)), (aiTextureType_DIFFUSE, (d : Int) + 1),
   (aiTextureType_SPECULAR, (d : Int) + 2), (aiTextureType_EMISSIVE, (d : Int) + 3),
   (aiTextureType_HEIGHT, (d : Int) + 4)]

/-- The descriptor layout C7 states for `m` materials, a descriptor count and the state
after `createMaterials`: the count is `5 m + 2`, material `i` has descriptor index
`2 + 5 i`, its five textures are bound at the five slots from `2 + 5 i` on in the order
ambient, diffuse, specular, emissive, height, the written slots are `2, ..., 5 m + 1`,
each once, and every written slot lies in the heap. -/
def DescriptorLayout {F : Type} (m count : Nat) (st : MaterialState F) : Prop :=
  count = 5 * m + 2 ∧
  st.m_materials.map (fun x => x.m_descriptorIndex) = (List.range m).map (fun i => 2 + 5 * i) ∧
  st.heapWrites.map (fun w => (w.aiTextureTypeValue, w.offsetInDescriptors))
    = (List.range m).flatMap (fun i => fiveSlots (2 + 5 * i)) ∧
  st.heapWrites.map (fun w => w.offsetInDescriptors)
    = (List.range' 2 (5 * m)).map (fun (k : Nat) => (k : Int)) ∧
  ∀ w ∈ st.heapWrites, 0 ≤ w.offsetInDescriptors ∧ w.offsetInDescriptors < (count : Int)

/-! ## The factory entry point -/

/-- Importer scene `aiScene`: meshes, materials, and the root node, which is `none` when
the pointer `mRootNode` is null. -/
structure aiScene (F : Type) where
  mMeshes : List (aiMesh F)
  mMaterials : List (aiMaterial F)
  mRootNode : Option (aiNode F)

/-- What `createFromAssImpScene` obtains from outside the program: whether the resolved
path exists, the scene the importer returns for it (`none` for a null pointer), which
texture files can be loaded, the order in which the hash map yields its entries, the
values the uninitialised locals of the material loop hold in iteration `i`, whether the
device creates a descriptor heap of a given number of descriptors and a committed buffer
of a given size in bytes, and the value of `sizeof(Vertex)`, a structure declared in a
header outside the sources. -/
structure Environment (F : Type) where
  pathExists : Bool
  ReadFile : Option (aiScene F)
  fileLoads : String → Bool
  mapOrder : List (String × Nat) → List (String × Nat)
  uninit : Nat → F × F
  CreateDescriptorHeap : Nat → Bool
  CreateCommittedResource : Nat → Bool
  sizeofVertex : Nat

/-- The byte size `indexBufferSize` of the global index buffer: the product of the element
count and `sizeof(ui32)`, narrowed to 32 bits. -/
def indexBufferSize (numIndices : Nat) : Nat := ui32 (numIndices * 4)

/-- The byte size `vertexBufferSize` of the global vertex buffer: the product of the
element count and `sizeof(Vertex)`, narrowed to 32 bits. -/
def vertexBufferSize (numVertices sizeofVertex : Nat) : Nat :=
  ui32 (numVertices * sizeofVertex)

/-- The function `SceneGraphFactory::createFromAssImpScene` for the resolved path
`absolutePath` with parent directory `parentPath`. The results of `CreateDescriptorHeap`
and of the two calls of `CreateCommittedResource` at the end of `createMeshes` are not
checked: the heap is dereferenced right after its creation, and each buffer is handed to
the upload helper and used through its pointer, so that a run in which the device does
not create one of them ends with the use of a null pointer, after the objects created
before. The upload helper is an external collaborator and not part of the model. The
bounding-box pass runs with a recursion depth of one more than the node count, which a
terminating run never exceeds. The root node is dereferenced unchecked. -/
def createFromAssImpScene {F B : Type} [Zero F] [One F] [Add F] [Mul F] (ops : AABBOps F B)
    (env : Environment F) (absolutePath parentPath : String) : Run (Scene F B) :=
  if env.pathExists = false then
    { gpu := [], result := .error (.exception (absolutePath ++ " does not exist.")) }
  else
    match env.ReadFile with
    | none =>
        { gpu := []
          result := .error (.exception (absolutePath ++ " can't be loaded. with Assimp.")) }
    | some inputScene =>
        let textureFileNameToTextureIndex := textureFilenameToIndex inputScene.mMaterials
        let numDescriptors := numOfDescriptors inputScene.mMaterials.length
        if env.CreateDescriptorHeap numDescriptors = false then
          { gpu := [], result := .error .nullDereference }
        else
          let meshState := createMeshes ops.ofPositions inputScene.mMeshes []
          let indexBytes := indexBufferSize meshState.globalIndices.length
          let vertexBytes := vertexBufferSize meshState.globalVertices.length env.sizeofVertex
          if env.CreateCommittedResource indexBytes = false then
            { gpu := [GpuEvent.createDescriptorHeap numDescriptors]
              result := .error .nullDereference }
          else if env.CreateCommittedResource vertexBytes = false then
            { gpu := [GpuEvent.createDescriptorHeap numDescriptors,
                      GpuEvent.createBuffer indexBytes]
              result := .error .nullDereference }
          else
            let gpu :=
              [GpuEvent.createDescriptorHeap numDescriptors,
               GpuEvent.createBuffer indexBytes,
               GpuEvent.createBuffer vertexBytes,
               GpuEvent.createBufferView 0,
               GpuEvent.createBufferView 1]
            match inputScene.mRootNode with
            | none => { gpu := gpu, result := .error .nullDereference }
            | some mRootNode =>
                let m_nodes := (createNodes [] mRootNode glm.identity).1
                let outputScene : Scene F B :=
                  { m_nodes := m_nodes
                    m_meshes := meshState.m_meshes
                    m_aabb := ops.empty
                    m_materials := []
                    m_textures := []
                    m_totalDescriptorCount := numDescriptors
                    globalVertices := meshState.globalVertices
                    globalIndices := meshState.globalIndices
                    heapWrites := [] }
                match computeSceneAABB ops outputScene (m_nodes.length + 1) outputScene.m_aabb 0
                    glm.identity with
                | .error e => { gpu := gpu, result := .error e }
                | .ok m_aabb =>
                    let textureRun := createTextures env.fileLoads
                      (env.mapOrder textureFileNameToTextureIndex) parentPath gpu []
                    match textureRun.result with
                    | .error e => { gpu := textureRun.gpu, result := .error e }
                    | .ok m_textures =>
                        let materialState := createMaterials env.uninit inputScene.mMaterials
                          textureFileNameToTextureIndex []
                        { gpu := textureRun.gpu ++ materialState.gpu
                          result := .ok
                            { outputScene with
                              m_aabb := m_aabb
                              m_textures := m_textures
                              m_materials := materialState.m_materials
                              heapWrites := materialState.heapWrites } }

/-! ## Ray-tracing renderer: instance descriptors -/

/-- The constructor of `f32m4` from sixteen scalars, which fill the columns in order. -/
def f32m4.ofScalars {F : Type} (x0 y0 z0 w0 x1 y1 z1 w1 x2 y2 z2 w2 x3 y3 z3 w3 : F) :
    f32m4 F :=
  ⟨⟨x0, y0, z0, w0⟩, ⟨x1, y1, z1, w1⟩, ⟨x2, y2, z2, w2⟩, ⟨x3, y3, z3, w3⟩⟩

/-- The record `RayTracingRenderer::InstanceData`. -/
structure InstanceData (F : Type) where
  worldMatrix : f32m4 F
deriving DecidableEq, Repr

/-- GPU resources of the ray-tracing renderer. -/
inductive RtResource where
  | triangleVertexBuffer
  | triangleIndexBuffer
  | instanceBuffer
  | planeVertexBuffer
  | planeIndexBuffer
  | blasScratch (i : Nat)
  | blasResult (i : Nat)
  | instanceDescs
  | tlasScratch
  | tlasResult
deriving DecidableEq, Repr

/-- The array `FLOAT Transform[3][4]` of an instance descriptor: three rows of four. -/
structure Transform3x4 (F : Type) where
  r0 : f32v4 F
  r1 : f32v4 F
  r2 : f32v4 F
deriving DecidableEq, Repr

/-- Row `r` of a 3×4 transform. -/
def Transform3x4.row {F : Type} (t : Transform3x4 F) : Fin 3 → f32v4 F
  | 0 => t.r0
  | 1 => t.r1
  | 2 => t.r2

/-- The entry `Transform[r][c]`. -/
def Transform3x4.get {F : Type} (t : Transform3x4 F) (r : Fin 3) (c : Fin 4) : F :=
  (t.row r).get c

/-- The record `D3D12_RAYTRACING_INSTANCE_DESC`; the acceleration structure is named by
the resource whose GPU address the source stores. -/
structure D3D12_RAYTRACING_INSTANCE_DESC (F : Type) where
  Transform : Transform3x4 F
  InstanceID : Nat
  InstanceMask : Nat
  InstanceContributionToHitGroupIndex : Nat
  Flags : Nat
  AccelerationStructure : RtResource
deriving DecidableEq, Repr

/-- The flag `D3D12_RAYTRACING_INSTANCE_FLAG_NONE`. -/
def D3D12_RAYTRACING_INSTANCE_FLAG_NONE : Nat := 0

/-- The body of the loop of `createTriangleInstanceDescriptions` for instance `i`: the
twelve assignments copy the first three columns of the transposed world matrix. -/
def instanceDesc {F : Type} (i : Nat) (worldMatrix : f32m4 F) (bottomLevelAS : RtResource) :
    D3D12_RAYTRACING_INSTANCE_DESC F :=
  let worldSpaceTransformation := glm.transpose worldMatrix
  { InstanceID := i
    InstanceContributionToHitGroupIndex := 0
    Flags := D3D12_RAYTRACING_INSTANCE_FLAG_NONE
    AccelerationStructure := bottomLevelAS
    InstanceMask := 1
    Transform :=
      { r0 := ⟨worldSpaceTransformation.c0.x, worldSpaceTransformation.c0.y,
               worldSpaceTransformation.c0.z, worldSpaceTransformation.c0.w⟩
        r1 := ⟨worldSpaceTransformation.c1.x, worldSpaceTransformation.c1.y,
               worldSpaceTransformation.c1.z, worldSpaceTransformation.c1.w⟩
        r2 := ⟨worldSpaceTransformation.c2.x, worldSpaceTransformation.c2.y,
               worldSpaceTransformation.c2.z, worldSpaceTransformation.c2.w⟩ } }

/-- The local array `instanceDescs` that the loop of `createTriangleInstanceDescriptions`
fills: one descriptor for each of the three elements of `m_triangleInstanceData`,
referring to the element of `m_bottomLevelAS` of the same index. -/
def instanceDescArray {F : Type} (m_triangleInstanceData : Nat → InstanceData F)
    (m_bottomLevelAS : Nat → RtResource) : List (D3D12_RAYTRACING_INSTANCE_DESC F) :=
  (List.range 3).map fun i =>
    instanceDesc i (m_triangleInstanceData i).worldMatrix (m_bottomLevelAS i)

/-- The instance data `createTriangleInstances` stores: the identity, the translation by
`-triangleDistance` along x, and the translation by `triangleDistance` along x. The
source constant `triangleDistance` is the floating-point value `0.7f`. -/
def createTriangleInstances {F : Type} [Zero F] [One F] [Neg F] (triangleDistance : F) :
    Nat → InstanceData F
  | 0 => ⟨f32m4.ofScalars 1 0 0 0 0 1 0 0 0 0 1 0 0 0 0 1⟩
  | 1 => ⟨f32m4.ofScalars 1 0 0 0 0 1 0 0 0 0 1 0 (-triangleDistance) 0 0 1⟩
  | _ => ⟨f32m4.ofScalars 1 0 0 0 0 1 0 0 0 0 1 0 triangleDistance 0 0 1⟩

/-! ## Ray-tracing renderer: resource creation -/

/-- Failures of resource creation. -/
inductive RtError where
  | buildSizeUnavailable
  | resourceCreationFailed
  | nullDereference
deriving DecidableEq, Repr

/-- The calls `createResources` makes on the device, the command list and the command
queue, and the releases of resources, in program order. -/
inductive RtEvent where
  | createRootSignature
  | uploadDefaultBuffer (dataDst : RtResource)
  | resetCommandList
  | getPrebuildInfoBottomLevel (i : Nat)
  | getPrebuildInfoTopLevel (NumDescs : Nat)
  | allocateUAVBuffer (bufferSize : Nat) (resource : RtResource)
  | buildBottomLevel (i : Nat) (scratch dest : RtResource)
  | uavBarrier (resource : RtResource)
  | buildTopLevel (NumDescs : Nat) (InstanceDescs scratch dest : RtResource)
  | close
  | executeCommandLists
  | waitForGPU
  | release (resource : RtResource)
deriving DecidableEq, Repr

/-- What the device answers: the prebuild sizes it reports for the bottom-level build of
iteration `i` and for the top-level build, and whether `CreateCommittedResource` succeeds
for a buffer that `AllocateUAVBuffer` requests. -/
structure RtDevice where
  bottomLevelResultDataMaxSizeInBytes : Nat → Nat
  bottomLevelScratchDataSizeInBytes : Nat → Nat
  topLevelResultDataMaxSizeInBytes : Nat
  topLevelScratchDataSizeInBytes : Nat
  createCommittedResource : RtResource → Bool

/-- The members of `RayTracingRenderer` that resource creation writes, the contents of
the uploaded instance-descriptor buffer, and the events issued so far. A null `ComPtr`
is `none`. -/
structure RayTracingRenderer (F : Type) where
  events : List RtEvent
  m_triangleInstanceData : Nat → InstanceData F
  m_bottomLevelAS : List (Option RtResource)
  m_topLevelScratchResource : Option RtResource
  m_topLevelAS : Option RtResource
  instanceDescs : List (D3D12_RAYTRACING_INSTANCE_DESC F)

/-- Appending events to the log of the renderer. -/
def RayTracingRenderer.issue {F : Type} (r : RayTracingRenderer F) (es : List RtEvent) :
    RayTracingRenderer F :=
  { r with events := r.events ++ es }

/-- Modelled from the spec: the helper `throwIfZero` of the framework library is not among
the sources. A build-size query that returns zero is fatal with the condition "build-size
unavailable": the helper raises that failure when its argument is false and returns
otherwise. -/
def throwIfZero (condition : Bool) : Except RtError Unit :=
  if condition then .ok () else .error .buildSizeUnavailable

/-- Modelled from the spec: the helper `throwIfFailed` of the framework library is not
among the sources. A failure of GPU resource creation is not recovered and is raised as
fatal. -/
def throwIfFailed (succeeded : Bool) : Except RtError Unit :=
  if succeeded then .ok () else .error .resourceCreationFailed

/-- The function `RayTracingRenderer::AllocateUAVBuffer`: the buffer is created, or the
failure of `CreateCommittedResource` is raised and the `ComPtr` stays null. -/
def AllocateUAVBuffer (dev : RtDevice) (bufferSize : Nat) (resource : RtResource) :
    Except RtError RtEvent :=
  match throwIfFailed (dev.createCommittedResource resource) with
  | .error e => .error e
  | .ok () => .ok (.allocateUAVBuffer bufferSize resource)

/-- The releases that destroying a vector of `ComPtr` performs: one for each element that
is not null, in element order. -/
def releaseAll (resources : List (Option RtResource)) : List RtEvent :=
  resources.reduceOption.map RtEvent.release

/-- State of the loop of `createBottomLevelAccelerationStructures`: the renderer and
the local vector `bottomLevelScratchResources`. -/
structure BlasLoop (F : Type) where
  renderer : RayTracingRenderer F
  bottomLevelScratchResources : List (Option RtResource)

/-- One iteration of the loop of `createBottomLevelAccelerationStructures`: the prebuild
query, the check of the result size, the two allocations, the build command and the UAV
barrier on the result. The state is returned as it is when a failure is raised. -/
def createBottomLevelBody {F : Type} (dev : RtDevice) (i : Nat) (st : BlasLoop F) :
    BlasLoop F × Except RtError Unit :=
  let st := { st with renderer := st.renderer.issue [.getPrebuildInfoBottomLevel i] }
  match throwIfZero (decide (dev.bottomLevelResultDataMaxSizeInBytes i > 0)) with
  | .error e => (st, .error e)
  | .ok () =>
      match AllocateUAVBuffer dev (dev.bottomLevelScratchDataSizeInBytes i) (.blasScratch i) with
      | .error e => (st, .error e)
      | .ok allocated =>
          let st : BlasLoop F :=
            { renderer := st.renderer.issue [allocated]
              bottomLevelScratchResources :=
                st.bottomLevelScratchResources.set i (some (.blasScratch i)) }
          match AllocateUAVBuffer dev (dev.bottomLevelResultDataMaxSizeInBytes i)
              (.blasResult i) with
          | .error e => (st, .error e)
          | .ok allocated =>
              let renderer := st.renderer.issue [allocated]
              let renderer :=
                { renderer with
                  m_bottomLevelAS := renderer.m_bottomLevelAS.set i (some (.blasResult i)) }
              ({ st with
                 renderer := renderer.issue
                   [.buildBottomLevel i (.blasScratch i) (.blasResult i),
                    .uavBarrier (.blasResult i)] }, .ok ())

/-- The loop of `createBottomLevelAccelerationStructures` over the given iterations,
which stops at the first failure. -/
def createBottomLevelLoop {F : Type} (dev : RtDevice) :
    List Nat → BlasLoop F → BlasLoop F × Except RtError Unit
  | [], st => (st, .ok ())
  | i :: rest, st =>
      match createBottomLevelBody dev i st with
      | (st, .error e) => (st, .error e)
      | (st, .ok ()) => createBottomLevelLoop dev rest st

/-- The function `RayTracingRenderer::createBottomLevelAccelerationStructures`. It
returns the scratch buffers; when an iteration fails, the local vector of scratch
buffers is destroyed while the failure propagates. -/
def createBottomLevelAccelerationStructures {F : Type} (dev : RtDevice)
    (r : RayTracingRenderer F) :
    RayTracingRenderer F × Except RtError (List (Option RtResource)) :=
  let numBlas := 3
  let st : BlasLoop F :=
    { renderer := { r with m_bottomLevelAS := resize r.m_bottomLevelAS numBlas none }
      bottomLevelScratchResources := List.replicate numBlas none }
  match createBottomLevelLoop dev (List.range numBlas) st with
  | (st, .error e) =>
      (st.renderer.issue (releaseAll st.bottomLevelScratchResources), .error e)
  | (st, .ok ()) => (st.renderer, .ok st.bottomLevelScratchResources)

/-- The function `RayTracingRenderer::createTriangleInstanceDescriptions`: the three
descriptors are filled from the instance data and the bottom-level structures, whose
pointers are dereferenced unchecked, and uploaded into a new buffer, which is returned. -/
def createTriangleInstanceDescriptions {F : Type} (r : RayTracingRenderer F) :
    RayTracingRenderer F × Except RtError RtResource :=
  match r.m_bottomLevelAS with
  | some b0 :: some b1 :: some b2 :: _ =>
      ({ r.issue [.uploadDefaultBuffer .instanceDescs] with
         instanceDescs := instanceDescArray r.m_triangleInstanceData
           (fun i => [b0, b1, b2].getD i b2) }, .ok .instanceDescs)
  | _ => (r, .error .nullDereference)

/-- The record `D3D12_BUILD_RAYTRACING_ACCELERATION_STRUCTURE_DESC` of the top-level
build. -/
structure TopLevelBuildDesc where
  NumDescs : Nat
  InstanceDescs : RtResource
  DestAccelerationStructureData : RtResource
  ScratchAccelerationStructureData : RtResource
deriving DecidableEq, Repr

/-- The function `RayTracingRenderer::createTopLevelAccelerationStructure`: the prebuild
query for three instance descriptors, the check of the result size, and the allocation
of the scratch and result buffers into members of the renderer. -/
def createTopLevelAccelerationStructure {F : Type} (dev : RtDevice) (r : RayTracingRenderer F)
    (instanceDescriptionBuffer : RtResource) :
    RayTracingRenderer F × Except RtError TopLevelBuildDesc :=
  let NumDescs := 3
  let r := r.issue [.getPrebuildInfoTopLevel NumDescs]
  match throwIfZero (decide (dev.topLevelResultDataMaxSizeInBytes > 0)) with
  | .error e => (r, .error e)
  | .ok () =>
      match AllocateUAVBuffer dev dev.topLevelScratchDataSizeInBytes .tlasScratch with
      | .error e => (r, .error e)
      | .ok allocated =>
          let r := { r.issue [allocated] with m_topLevelScratchResource := some .tlasScratch }
          match AllocateUAVBuffer dev dev.topLevelResultDataMaxSizeInBytes .tlasResult with
          | .error e => (r, .error e)
          | .ok allocated =>
              let r := { r.issue [allocated] with m_topLevelAS := some .tlasResult }
              (r, .ok
                { NumDescs := NumDescs
                  InstanceDescs := instanceDescriptionBuffer
                  DestAccelerationStructureData := .tlasResult
                  ScratchAccelerationStructureData := .tlasScratch })

/-- The function `RayTracingRenderer::createAccelerationStructures`. The locals
`instanceDescsBuffer` and `blasScratchResources` are destroyed, in this order, when the
function is left, by the return after `waitForGPU` or by a failure that propagates. -/
def createAccelerationStructures {F : Type} (dev : RtDevice) (r : RayTracingRenderer F) :
    RayTracingRenderer F × Except RtError Unit :=
  let r := r.issue [.resetCommandList]
  match createBottomLevelAccelerationStructures dev r with
  | (r, .error e) => (r, .error e)
  | (r, .ok blasScratchResources) =>
      match createTriangleInstanceDescriptions r with
      | (r, .error e) => (r.issue (releaseAll blasScratchResources), .error e)
      | (r, .ok instanceDescsBuffer) =>
          match createTopLevelAccelerationStructure dev r instanceDescsBuffer with
          | (r, .error e) =>
              (r.issue (.release instanceDescsBuffer :: releaseAll blasScratchResources),
                .error e)
          | (r, .ok topLevelBuildDescription) =>
              let r := r.issue
                [.buildTopLevel topLevelBuildDescription.NumDescs
                   topLevelBuildDescription.InstanceDescs
                   topLevelBuildDescription.ScratchAccelerationStructureData
                   topLevelBuildDescription.DestAccelerationStructureData,
                 .close, .executeCommandLists, .waitForGPU]
              (r.issue (.release instanceDescsBuffer :: releaseAll blasScratchResources),
                .ok ())

/-- The function `RayTracingRenderer::createGeometries`: `createTriangleInstances` stores
the instance data and uploads the triangle vertices, indices and the instance data, and
`createPlaneGeometry` uploads the plane vertices and indices. -/
def createGeometries {F : Type} [Zero F] [One F] [Neg F] (triangleDistance : F)
    (r : RayTracingRenderer F) : RayTracingRenderer F :=
  let r := { r with m_triangleInstanceData := createTriangleInstances triangleDistance }
  let r := r.issue [.uploadDefaultBuffer .triangleVertexBuffer,
    .uploadDefaultBuffer .triangleIndexBuffer, .uploadDefaultBuffer .instanceBuffer]
  r.issue [.uploadDefaultBuffer .planeVertexBuffer, .uploadDefaultBuffer .planeIndexBuffer]

/-- The function `RayTracingRenderer::createResources`. -/
def createResources {F : Type} [Zero F] [One F] [Neg F] (dev : RtDevice) (triangleDistance : F)
    (r : RayTracingRenderer F) : RayTracingRenderer F × Except RtError Unit :=
  let r := r.issue [.createRootSignature]
  let r := createGeometries triangleDistance r
  createAccelerationStructures dev r

/-- The renderer before `createResources`: no event, null pointers, and the given
contents of the instance-data array. -/
def RayTracingRenderer.fresh {F : Type} (m_triangleInstanceData : Nat → InstanceData F) :
    RayTracingRenderer F :=
  { events := []
    m_triangleInstanceData := m_triangleInstanceData
    m_bottomLevelAS := []
    m_topLevelScratchResource := none
    m_topLevelAS := none
    instanceDescs := [] }

/-! ## Ray-tracing renderer: properties of the event log -/

/-- Whether a resource is a temporary of `createAccelerationStructures`: a bottom-level
scratch buffer or the instance-descriptor buffer. -/
def isTemporary : RtResource → Bool
  | .blasScratch _ => true
  | .instanceDescs => true
  | _ => false

/-- Whether an event records a build command. -/
def isBuild : RtEvent → Bool
  | .buildBottomLevel _ _ _ => true
  | .buildTopLevel _ _ _ _ => true
  | _ => false

/-- Every release of a temporary occurs after a `waitForGPU`. -/
def ReleasedAfterWait (events : List RtEvent) : Prop :=
  ∀ (resource : RtResource) (before after : List RtEvent), isTemporary resource = true →
    events = before ++ .release resource :: after → .waitForGPU ∈ before

/-- Every `waitForGPU` occurs after the submission of the command list, and no build
command is recorded after a submission. -/
def WaitAfterSubmission (events : List RtEvent) : Prop :=
  (∀ (before after : List RtEvent), events = before ++ .waitForGPU :: after →
    .executeCommandLists ∈ before) ∧
  ∀ (before after : List RtEvent), events = before ++ .executeCommandLists :: after →
    ∀ e ∈ after, isBuild e = false

/-- Stage of an event in the dependency chain: geometry upload, bottom-level build and
barrier, upload of the instance descriptors, top-level build, submission, fence wait,
release. Events outside the chain have no stage. -/
def chainStage : RtEvent → Option Nat
  | .uploadDefaultBuffer .instanceDescs => some 2
  | .uploadDefaultBuffer _ => some 0
  | .buildBottomLevel _ _ _ => some 1
  | .uavBarrier _ => some 1
  | .buildTopLevel _ _ _ _ => some 3
  | .executeCommandLists => some 4
  | .waitForGPU => some 5
  | .release _ => some 6
  | _ => none

/-- The events of the chain occur in the order of their stages: no event of a later stage
comes before an event of an earlier stage. -/
def ChainOrdered (events : List RtEvent) : Prop :=
  (events.filterMap chainStage).Pairwise (fun a b => a ≤ b)

/-- Every bottom-level build `i` writes result buffer `i` and is immediately followed by
a UAV barrier on that buffer. -/
def BarrierFollowsBuild (events : List RtEvent) : Prop :=
  ∀ (before after : List RtEvent) (i : Nat) (scratch dest : RtResource),
    events = before ++ .buildBottomLevel i scratch dest :: after →
    dest = .blasResult i ∧ after.head? = some (.uavBarrier dest)

/-- Every top-level build over `NumDescs` instances is recorded after the UAV barrier of
each of the bottom-level results `0, ..., NumDescs - 1`, which its instance descriptors
reference. -/
def TopLevelAfterBarriers (events : List RtEvent) : Prop :=
  ∀ (before after : List RtEvent) (NumDescs : Nat) (InstanceDescs scratch dest : RtResource),
    events = before ++ .buildTopLevel NumDescs InstanceDescs scratch dest :: after →
    ∀ i, i < NumDescs → .uavBarrier (.blasResult i) ∈ before

/-- A check of every event against the events after it. -/
def eachFollowed (check : RtEvent → List RtEvent → Bool) : List RtEvent → Bool
  | [] => true
  | e :: rest => check e rest && eachFollowed check rest

/-- A check of every event against the events before it, latest first. -/
def eachPreceded (check : RtEvent → List RtEvent → Bool) (events : List RtEvent) : Bool :=
  eachFollowed check events.reverse

/-- The check of `ReleasedAfterWait` at one event. -/
def checkReleasedAfterWait (e : RtEvent) (earlier : List RtEvent) : Bool :=
  match e with
  | .release resource => !isTemporary resource || earlier.contains .waitForGPU
  | _ => true

/-- The check of the first part of `WaitAfterSubmission` at one event. -/
def checkWaitAfterSubmission (e : RtEvent) (earlier : List RtEvent) : Bool :=
  match e with
  | .waitForGPU => earlier.contains .executeCommandLists
  | _ => true

/-- The check of the second part of `WaitAfterSubmission` at one event. -/
def checkNoBuildAfterSubmission (e : RtEvent) (later : List RtEvent) : Bool :=
  match e with
  | .executeCommandLists => later.all fun x => !isBuild x
  | _ => true

/-- The check of `BarrierFollowsBuild` at one event. -/
def checkBarrierFollowsBuild (e : RtEvent) (later : List RtEvent) : Bool :=
  match e with
  | .buildBottomLevel i _ dest =>
      decide (dest = .blasResult i) && decide (later.head? = some (.uavBarrier dest))
  | _ => true

/-- The check of `TopLevelAfterBarriers` at one event. -/
def checkTopLevelAfterBarriers (e : RtEvent) (earlier : List RtEvent) : Bool :=
  match e with
  | .buildTopLevel NumDescs _ _ _ =>
      (List.range NumDescs).all fun i => earlier.contains (.uavBarrier (.blasResult i))
  | _ => true

/-- The entry of an importer matrix at row `r` and column `c`: the letter of a field names
its row and the digit its column, so `a1` is row 0, column 0 and `b4` is row 1,
column 3. -/
def aiMatrix4x4.get {F : Type} (m : aiMatrix4x4 F) : Fin 4 → Fin 4 → F
  | 0, 0 => m.a1
  | 0, 1 => m.a2
  | 0, 2 => m.a3
  | 0, 3 => m.a4
  | 1, 0 => m.b1
  | 1, 1 => m.b2
  | 1, 2 => m.b3
  | 1, 3 => m.b4
  | 2, 0 => m.c1
  | 2, 1 => m.c2
  | 2, 2 => m.c3
  | 2, 3 => m.c4
  | 3, 0 => m.d1
  | 3, 1 => m.d2
  | 3, 2 => m.d3
  | 3, 3 => m.d4

/-! ## Source trees in pre-order -/

/-- The mesh references `mMeshes` of a source node. -/
def aiNode.mMeshes {F : Type} : aiNode F → List Nat
  | .mk _ mMeshes _ => mMeshes

/-- The children `mChildren` of a source node. -/
def aiNode.mChildren {F : Type} : aiNode F → List (aiNode F)
  | .mk _ _ mChildren => mChildren

/-- The local transformation `mTransformation` of a source node. -/
def aiNode.mTransformation {F : Type} : aiNode F → aiMatrix4x4 F
  | .mk mTransformation _ _ => mTransformation

mutual
/-- The nodes of a source tree in depth-first pre-order: the node, then the nodes of each
child subtree in source order. -/
def aiNode.preorder {F : Type} : aiNode F → List (aiNode F)
  | .mk mTransformation mMeshes mChildren =>
      .mk mTransformation mMeshes mChildren :: aiNode.preorderList mChildren
/-- The nodes of a list of source trees in pre-order. -/
def aiNode.preorderList {F : Type} : List (aiNode F) → List (aiNode F)
  | [] => []
  | child :: rest => aiNode.preorder child ++ aiNode.preorderList rest
end

/-- The property C25 states for a source tree and a node array: the array has one node
per source node; the source node at pre-order position `k` is stored at index `k` with
its local transformation and its mesh references; its child list holds, in source order,
the pre-order positions of its children, the first right after the node and each next one
after the subtree of the one before; and every child index is greater than the index of
the node. -/
def PreorderLayout {F : Type} (t : aiNode F) (nodes : List (Node F)) : Prop :=
  nodes.length = t.size ∧
  ∀ (k : Nat) (s : aiNode F), t.preorder[k]? = some s →
    ∃ n, nodes[k]? = some n ∧
      n.transformation = aiMatrix4x4ToGlm s.mTransformation ∧
      n.meshIndices = s.mMeshes ∧
      n.childIndices = offsets (aiNode.sizes s.mChildren) (k + 1) ∧
      (∀ (j : Nat) (c : aiNode F), s.mChildren[j]? = some c →
        ∃ i, n.childIndices[j]? = some i ∧ t.preorder[i]? = some c) ∧
      ∀ i ∈ n.childIndices, k < i

/-! ## Texture bindings -/

/-- The five texture types `createMaterials` binds, in binding order. -/
def boundTextureTypes : List Nat :=
  [aiTextureType_AMBIENT, aiTextureType_DIFFUSE, aiTextureType_SPECULAR,
   aiTextureType_EMISSIVE, aiTextureType_HEIGHT]

/-- The first part of C26 for the materials of a scene: whenever a material has a texture
of a bound type, the path of its first texture of that type is a key of the texture map,
the binding of `addTextureToDescriptorHeap` is the slot of that key, and the slot is at
least 3 and below the number of keys plus 3. -/
def CustomBindingsRegistered {F : Type} (ms : List (aiMaterial F)) : Prop :=
  ∀ material ∈ ms, ∀ textureType ∈ boundTextureTypes,
    ∀ (offset : Int) (path : String) (rest : List String),
    material.textures textureType = path :: rest →
    ∃ slot, (textureFilenameToIndex ms).lookup path = some slot ∧
      (addTextureToDescriptorHeap textureType offset material
        (textureFilenameToIndex ms)).textureIndex = slot ∧
      3 ≤ slot ∧ slot < (textureFilenameToIndex ms).length + 3

/-- The second part of C26: in whatever order the map yields its entries, no checked
access of `createTextures` is out of range, and a run that succeeds returns an array of
one element per key and three more. -/
def RegisteredWritesInBounds {F : Type} (ms : List (aiMaterial F)) : Prop :=
  ∀ (fileLoads : String → Bool) (entries : List (String × Nat)) (parentPath : String)
    (gpu : List GpuEvent), entries.Perm (textureFilenameToIndex ms) →
    (createTextures fileLoads entries parentPath gpu []).result ≠ .error .outOfRange ∧
    ∀ T, (createTextures fileLoads entries parentPath gpu []).result = .ok T →
      T.length = (textureFilenameToIndex ms).length + 3

/-! ## Scene accessors and the traversal -/

/-- The function `Scene::getNumberOfNodes`: the size of the node array narrowed to 32
bits. -/
def Scene.getNumberOfNodes {F B : Type} (scene : Scene F B) : Nat := ui32 scene.m_nodes.length

/-- The function `Scene::getNode`: the unchecked read `m_nodes[nodeIdx]`, which has no
defined result for an index that is not below the size. -/
def Scene.getNode {F B : Type} (scene : Scene F B) (nodeIdx : Nat) : Except LoadError (Node F) :=
  match scene.m_nodes[nodeIdx]? with
  | some node => .ok node
  | none => .error .invalidRead

/-- The function `Scene::getMesh`: the unchecked read `m_meshes[meshIdx]`. -/
def Scene.getMesh {F B : Type} (scene : Scene F B) (meshIdx : Nat) :
    Except LoadError (TriangleMeshD3D12 F B) :=
  match scene.m_meshes[meshIdx]? with
  | some mesh => .ok mesh
  | none => .error .invalidRead

/-- The function `Scene::getMaterial`: the unchecked read `m_materials[materialIdx]`. -/
def Scene.getMaterial {F B : Type} (scene : Scene F B) (materialIdx : Nat) :
    Except LoadError (Material F) :=
  match scene.m_materials[materialIdx]? with
  | some material => .ok material
  | none => .error .invalidRead

/-- The arguments of a call of `DrawIndexedInstanced`. -/
structure DrawIndexedInstanced where
  IndexCountPerInstance : Nat
  InstanceCount : Nat
  StartIndexLocation : Nat
  BaseVertexLocation : Int
  StartInstanceLocation : Nat
deriving DecidableEq, Repr

/-- The function `TriangleMeshD3D12::addToCommandList`. -/
def TriangleMeshD3D12.addToCommandList {F B : Type} (mesh : TriangleMeshD3D12 F B) :
    DrawIndexedInstanced :=
  { IndexCountPerInstance := mesh.m_nIndices
    InstanceCount := 1
    StartIndexLocation := mesh.m_startIndex
    BaseVertexLocation := 0
    StartInstanceLocation := 0 }

/-- The commands the traversal records for one mesh reference: the four groups of root
constants, the constant buffer of the material, and the draw call of the mesh. -/
structure DrawCall (F : Type) where
  accuModelView : f32m4 F
  worldTransformation : f32m4 F
  isReflectiveFlag : Int
  meshDescriptorIndex : Int
  materialConstantBuffer : MaterialConstantBuffer F
  draw : DrawIndexedInstanced
deriving DecidableEq, Repr

/-- What a traversal does, in program order: the visit of a node, which begins with the
read `getNode(nodeIdx)`, and the commands recorded during the visit of node `nodeIdx` for
a mesh reference, after the reads `getMesh(meshIdx)` and `getMaterial(materialIdx)`. -/
inductive TraversalEvent (F : Type) where
  | getNode (nodeIdx : Nat)
  | draw (nodeIdx meshIdx materialIdx : Nat) (call : DrawCall F)
deriving DecidableEq, Repr

/-- The value of `meshMaterial.m_descriptorIndex - 2` stored in an `int`: the difference
is taken in unsigned 32-bit arithmetic and converted. -/
def meshDescriptorIndexOf (m_descriptorIndex : Nat) : Int :=
  toI32 (ui32 (m_descriptorIndex + 2 ^ 32 - 2))

/-- The mesh loop of `addToCommandListImpl` during the visit of node `nodeIdx`, over the
given mesh references. -/
def drawMeshes {F B : Type} (scene : Scene F B) (nodeIdx : Nat)
    (accuModelView worldTransformation : f32m4 F) :
    List Nat → Except LoadError (List (TraversalEvent F))
  | [] => .ok []
  | meshIdx :: rest =>
      match scene.getMesh meshIdx with
      | .error e => .error e
      | .ok meshToDraw =>
          match scene.getMaterial meshToDraw.m_materialIndex with
          | .error e => .error e
          | .ok meshMaterial =>
              match drawMeshes scene nodeIdx accuModelView worldTransformation rest with
              | .error e => .error e
              | .ok events =>
                  .ok (.draw nodeIdx meshIdx meshToDraw.m_materialIndex
                      { accuModelView := accuModelView
                        worldTransformation := worldTransformation
                        isReflectiveFlag := if meshToDraw.m_isReflective then 1 else 0
                        meshDescriptorIndex :=
                          meshDescriptorIndexOf meshMaterial.m_descriptorIndex
                        materialConstantBuffer := meshMaterial.materialConstantBuffer
                        draw := meshToDraw.addToCommandList } :: events)

/-- A loop over child indices that concatenates what the visits do and stops at the first
failure. -/
def visitChildren {E : Type} (visit : Nat → Except LoadError (List E)) :
    List Nat → Except LoadError (List E)
  | [] => .ok []
  | child :: rest =>
      match visit child with
      | .error e => .error e
      | .ok events =>
          match visitChildren visit rest with
          | .error e => .error e
          | .ok more => .ok (events ++ more)

/-- The function `addToCommandListImpl`, with the recursion depth bounded by `fuel`: a run
that needs more depth is reported as `diverges`. A node index that is not below
`getNumberOfNodes()` returns at once; both loops run while the 32-bit counter is below
the narrowed size of the list. -/
def addToCommandListImpl {F B : Type} [Add F] [Mul F] (scene : Scene F B) :
    Nat → Nat → f32m4 F → Except LoadError (List (TraversalEvent F))
  | 0, _, _ => .error .diverges
  | fuel + 1, nodeIdx, accuModelView =>
      if nodeIdx ≥ scene.getNumberOfNodes then .ok []
      else
        match scene.getNode nodeIdx with
        | .error e => .error e
        | .ok currentNode =>
            let worldTransformation := currentNode.worldSpaceTransformation
            let accuModelView := accuModelView * currentNode.transformation
            match drawMeshes scene nodeIdx accuModelView worldTransformation
                (currentNode.meshIndices.take (ui32 currentNode.meshIndices.length)) with
            | .error e => .error e
            | .ok draws =>
                match visitChildren
                    (fun child => addToCommandListImpl scene fuel child accuModelView)
                    (currentNode.childIndices.take (ui32 currentNode.childIndices.length)) with
                | .error e => .error e
                | .ok events => .ok (.getNode nodeIdx :: draws ++ events)

/-- The function `Scene::addToCommandList`: the traversal from node 0. -/
def Scene.addToCommandList {F B : Type} [Add F] [Mul F] (scene : Scene F B) (fuel : Nat)
    (modelView : f32m4 F) : Except LoadError (List (TraversalEvent F)) :=
  addToCommandListImpl scene fuel 0 modelView

/-! ## The draw sequence of the specification -/

/-- The draw the specification describes for the mesh reference `meshIdx` of the node
`nodeIdx`: it carries the accumulated transformation of the node, the world
transformation of the node, the reflectivity flag of the mesh, the descriptor offset and
the constant buffer of the material of the mesh, and the draw call of the mesh. It is
defined when the scene has the mesh and the material of the mesh. -/
def drawOfMeshReference {F B : Type} (scene : Scene F B) (nodeIdx : Nat)
    (accuModelView worldTransformation : f32m4 F) (meshIdx : Nat) :
    Option (TraversalEvent F) :=
  match scene.m_meshes[meshIdx]? with
  | none => none
  | some mesh =>
      match scene.m_materials[mesh.m_materialIndex]? with
      | none => none
      | some material =>
          some (.draw nodeIdx meshIdx mesh.m_materialIndex
            { accuModelView := accuModelView
              worldTransformation := worldTransformation
              isReflectiveFlag := if mesh.m_isReflective then 1 else 0
              meshDescriptorIndex := meshDescriptorIndexOf material.m_descriptorIndex
              materialConstantBuffer := material.materialConstantBuffer
              draw := mesh.addToCommandList })

/-- The entries of a list when all of them are defined. -/
def allDefined {E : Type} : List (Option E) → Option (List E)
  | [] => some []
  | none :: _ => none
  | some e :: rest =>
      match allDefined rest with
      | none => none
      | some more => some (e :: more)

mutual
/-- The sequence the specification describes for the subtree of the source node `t` whose
root stands at index `k` of the node array: the walk over the tree in pre-order, which
visits the node, issues one draw for each mesh reference of the node in list order, and
then walks the children in list order, the subtree of each child standing behind the
subtrees of its elder siblings. Every draw of a node carries the transformation
`accuModelView` handed down from the root multiplied by the local transformation of the
node, and the world transformation stored in node `k` of the scene. The sequence is
defined when the node and every draw are. -/
def preorderWalk {F B : Type} [Add F] [Mul F] (scene : Scene F B) (t : aiNode F) (k : Nat)
    (accuModelView : f32m4 F) : Option (List (TraversalEvent F)) :=
  match t with
  | .mk mTransformation mMeshes mChildren =>
      match scene.m_nodes[k]? with
      | none => none
      | some node =>
          let accuModelView := accuModelView * aiMatrix4x4ToGlm mTransformation
          match allDefined (mMeshes.map
              (drawOfMeshReference scene k accuModelView node.worldSpaceTransformation)) with
          | none => none
          | some draws =>
              match preorderWalkChildren scene mChildren (k + 1) accuModelView with
              | none => none
              | some events => some (.getNode k :: draws ++ events)
/-- The sequence for a list of sibling subtrees, the first at index `k`. -/
def preorderWalkChildren {F B : Type} [Add F] [Mul F] (scene : Scene F B)
    (children : List (aiNode F)) (k : Nat) (accuModelView : f32m4 F) :
    Option (List (TraversalEvent F)) :=
  match children with
  | [] => some []
  | child :: rest =>
      match preorderWalk scene child k accuModelView with
      | none => none
      | some events =>
          match preorderWalkChildren scene rest (k + aiNode.size child) accuModelView with
          | none => none
          | some more => some (events ++ more)
end

/-- What a traversal returns when the specification describes the sequence `walk`: the
sequence, and the failure of a read without target when no sequence is defined. -/
def resultOfWalk {E : Type} : Option (List E) → Except LoadError (List E)
  | some events => .ok events
  | none => .error .invalidRead

/-- The mesh references a sequence draws, in order: the node and the mesh of each draw. -/
def drawnReferences {F : Type} (events : List (TraversalEvent F)) : List (Nat × Nat) :=
  events.filterMap fun e =>
    match e with
    | .getNode _ => none
    | .draw nodeIdx meshIdx _ _ => some (nodeIdx, meshIdx)

/-- The mesh references of the nodes of a list that starts at index `k` of the node array:
for each node in index order, the node with each of its mesh references in list order. -/
def meshReferencesFrom {F : Type} (k : Nat) : List (Node F) → List (Nat × Nat)
  | [] => []
  | node :: rest =>
      node.meshIndices.map (fun meshIdx => (k, meshIdx)) ++ meshReferencesFrom (k + 1) rest

/-- The mesh references of a node array. -/
def meshReferences {F : Type} (m_nodes : List (Node F)) : List (Nat × Nat) :=
  meshReferencesFrom 0 m_nodes

/-! ## The traversal as a recursion on the source tree -/

mutual
/-- The traversal of the subtree of the source node `t` whose root stands at index `k` of
the node array, written as a recursion on the tree in place of the child indices: the
read of node `k`, the mesh loop `drawMeshes` over the mesh references of the node with
the transformation handed down multiplied by the local transformation of the node, and
the subtrees of the children in list order, each behind the subtrees of its elder
siblings. In this form the traversal is compared with the sequence of the
specification. -/
def preorderTrace {F B : Type} [Add F] [Mul F] (scene : Scene F B) (t : aiNode F) (k : Nat)
    (accuModelView : f32m4 F) : Except LoadError (List (TraversalEvent F)) :=
  match t with
  | .mk mTransformation mMeshes mChildren =>
      match scene.getNode k with
      | .error e => .error e
      | .ok node =>
          let accuModelView := accuModelView * aiMatrix4x4ToGlm mTransformation
          match drawMeshes scene k accuModelView node.worldSpaceTransformation mMeshes with
          | .error e => .error e
          | .ok draws =>
              match preorderTraceChildren scene mChildren (k + 1) accuModelView with
              | .error e => .error e
              | .ok events => .ok (.getNode k :: draws ++ events)
/-- The same recursion for a list of sibling subtrees, the first at index `k`. -/
def preorderTraceChildren {F B : Type} [Add F] [Mul F] (scene : Scene F B)
    (children : List (aiNode F)) (k : Nat) (accuModelView : f32m4 F) :
    Except LoadError (List (TraversalEvent F)) :=
  match children with
  | [] => .ok []
  | child :: rest =>
      match preorderTrace scene child k accuModelView with
      | .error e => .error e
      | .ok events =>
          match preorderTraceChildren scene rest (k + aiNode.size child) accuModelView with
          | .error e => .error e
          | .ok more => .ok (events ++ more)
end

/-- The node indices a traversal visits, in order. -/
def visitedNodes {F : Type} (events : List (TraversalEvent F)) : List Nat :=
  events.filterMap fun e =>
    match e with
    | .getNode nodeIdx => some nodeIdx
    | .draw _ _ _ _ => none

/-- Every mesh count of the source tree fits the type `unsigned int` of `mNumMeshes`. -/
def aiNode.MeshCountsFit {F : Type} (t : aiNode F) : Prop :=
  ∀ s ∈ t.preorder, s.mMeshes.length < 2 ^ 32

/-! ## Sample inputs -/

/-- A bounding-box constructor that records nothing, for inputs whose boxes play no role. -/
def noAABB (_ : List (f32v3 Int)) (_ : Nat) : Unit := ()

/-- A source mesh with three vertices and one triangular face. -/
def triangleMesh : aiMesh Int :=
  { mVertices := [⟨0, 0, 0⟩, ⟨1, 0, 0⟩, ⟨0, 1, 0⟩]
    mNormals := none
    mTextureCoords0 := none
    mTangents := none
    mFaces := [⟨[0, 1, 2]⟩]
    mMaterialIndex := 0 }

/-- The importer matrix with `s` on the diagonal and zero elsewhere. -/
def aiScaling (s : Int) : aiMatrix4x4 Int :=
  { a1 := s, a2 := 0, a3 := 0, a4 := 0
    b1 := 0, b2 := s, b3 := 0, b4 := 0
    c1 := 0, c2 := 0, c3 := s, c4 := 0
    d1 := 0, d2 := 0, d3 := 0, d4 := s }

/-- A source node without meshes and children, with the identity transformation. -/
def leafNode : aiNode Int := .mk (aiScaling 1) [] []

/-- A source tree with four nodes: a root with mesh 0 and two children, the second of
which has mesh 1 and one child. -/
def smallTree : aiNode Int :=
  .mk (aiScaling 2) [0] [.mk (aiScaling 3) [] [], .mk (aiScaling 5) [1] [leafNode]]

/-- A child count of one less than the 32-bit range. -/
def hugeChildCount : Nat := 2 ^ 32 - 1

/-- A source tree with `n + 2` nodes: a root scaled by 2 whose only child has `n` leaf
children. -/
def wideTree (n : Nat) : aiNode Int :=
  .mk (aiScaling 2) [] [.mk (aiScaling 1) [] (List.replicate n leafNode)]

/-- A source tree with `2 ^ 32 + 1` nodes: a root scaled by 2 whose only child has
`2 ^ 32 - 1` leaf children. -/
def hugeTree : aiNode Int := wideTree hugeChildCount

/-- The node `createNodes` stores for `leafNode` below a parent with world transformation
`w`. -/
def leafNodeOut (w : f32m4 Int) : Node Int :=
  { transformation := aiMatrix4x4ToGlm (aiScaling 1)
    worldSpaceTransformation := w * aiMatrix4x4ToGlm (aiScaling 1)
    meshIndices := []
    childIndices := [] }

/-- A material without colour and scalar properties and with the given textures. -/
def textureMaterial (textures : Nat → List String) : aiMaterial Int :=
  { textures := textures
    colorEmissive := none
    colorAmbient := none
    colorDiffuse := none
    colorSpecular := none
    shininess := none
    reflectivity := none }

/-- A material with the diffuse textures `a.png`, `b.png` and the height texture
`a.png`. -/
def materialAB : aiMaterial Int :=
  textureMaterial fun textureType =>
    if textureType = aiTextureType_DIFFUSE then ["a.png", "b.png"]
    else if textureType = aiTextureType_HEIGHT then ["a.png"]
    else []

/-- A material with the ambient texture `b.png` and the diffuse texture `c.png`. -/
def materialBC : aiMaterial Int :=
  textureMaterial fun textureType =>
    if textureType = aiTextureType_AMBIENT then ["b.png"]
    else if textureType = aiTextureType_DIFFUSE then ["c.png"]
    else []

/-- The path that consists of `j` letters `a`. -/
def nameOf (j : Nat) : String := String.mk (List.replicate j 'a')

/-- The first `n` paths `nameOf 0, nameOf 1, ...`. -/
def manyNames (n : Nat) : List String := (List.range n).map nameOf

/-- A material whose diffuse textures are the `n` distinct paths `manyNames n`. -/
def manyTexturesMaterial (n : Nat) : aiMaterial Int :=
  textureMaterial fun textureType =>
    if textureType = aiTextureType_DIFFUSE then manyNames n else []

/-- A texture count of two less than the 32-bit range. -/
def hugeNameCount : Nat := 2 ^ 32 - 2

/-- A texture count of three less than the 32-bit range. -/
def hugeTextureCount : Nat := 2 ^ 32 - 3

/-- The texture array of the scene with the materials `materialAB` and `materialBC`,
loaded from the directory `scenes`. -/
def sampleTextures : List Texture2DD3D12 :=
  [.solid white 1 1, .solid black 1 1, .solid blue 1 1, .fromFile "scenes/a.png",
   .fromFile "scenes/b.png", .fromFile "scenes/c.png"]

/-- A file system in which every texture file loads. -/
def allFilesLoad (_ : String) : Bool := true

/-- A file system in which no texture file loads. -/
def noFileLoads (_ : String) : Bool := false

/-- A material count for which `5 m + 2` exceeds the 32-bit range by one. -/
def hugeMaterialCount : Nat := 858993459

/-- The values of the uninitialised locals in the sample runs. -/
def sampleUninit (_ : Nat) : Int × Int := (7, 9)

/-- Bounding boxes kept as the list of their parts: the box of a mesh records the number
of positions it was built from, a transformed box records the transformation applied to
each part, and a union lists the parts of both boxes. -/
def recordOps : AABBOps Int (List (Nat × f32m4 Int)) :=
  { ofPositions := fun positions _ => [(positions.length, glm.identity)]
    empty := []
    getUnion := fun a b => a ++ b
    getTransformed := fun box m => box.map fun part => (part.1, m * part.2) }

/-- A scene with the given nodes and meshes and nothing else. -/
def sceneOf {B : Type} (m_nodes : List (Node Int)) (m_meshes : List (TriangleMeshD3D12 Int B))
    (m_aabb : B) : Scene Int B :=
  { m_nodes := m_nodes
    m_meshes := m_meshes
    m_aabb := m_aabb
    m_materials := []
    m_textures := []
    m_totalDescriptorCount := 2
    globalVertices := []
    globalIndices := []
    heapWrites := [] }

/-- The scene of `smallTree` with two triangle meshes. -/
def smallScene : Scene Int (List (Nat × f32m4 Int)) :=
  sceneOf (createNodes [] smallTree glm.identity).1
    (createMeshes recordOps.ofPositions [triangleMesh, triangleMesh] []).m_meshes []

/-- The scene of `hugeTree`, without meshes. -/
def hugeScene : Scene Int (List (Nat × f32m4 Int)) :=
  sceneOf (createNodes [] hugeTree glm.identity).1 [] []

/-- A device that reports positive sizes and creates every buffer. -/
def goodDevice : RtDevice :=
  { bottomLevelResultDataMaxSizeInBytes := fun _ => 256
    bottomLevelScratchDataSizeInBytes := fun _ => 128
    topLevelResultDataMaxSizeInBytes := 512
    topLevelScratchDataSizeInBytes := 64
    createCommittedResource := fun _ => true }

/-- A device that reports the result size 0 for the top-level build. -/
def noTopLevelDevice : RtDevice :=
  { goodDevice with topLevelResultDataMaxSizeInBytes := 0 }

/-- A device that reports the result size 0 for the second bottom-level build. -/
def noSecondBottomLevelDevice : RtDevice :=
  { goodDevice with bottomLevelResultDataMaxSizeInBytes := fun i => if i = 1 then 0 else 256 }

/-- Contents of the instance-data array before `createTriangleInstances`. -/
def identityInstances : Nat → InstanceData Int := fun _ => ⟨glm.identity⟩

/-- A source node with the identity transformation that refers to mesh 0. -/
def meshNode : aiNode Int := .mk (aiScaling 1) [0] []

/-- An importer scene with one triangle mesh, the material `materialAB`, and a root node
that refers to the mesh. -/
def texturedScene : aiScene Int :=
  { mMeshes := [triangleMesh], mMaterials := [materialAB], mRootNode := some meshNode }

/-- An importer scene object without meshes, materials and root node. -/
def emptyScene : aiScene Int :=
  { mMeshes := [], mMaterials := [], mRootNode := none }

/-- An environment with the given answers for the path, the importer and the texture
files, and a device that creates every descriptor heap and every buffer of at least one
byte; a vertex takes 52 bytes. -/
def environmentOf (pathExists : Bool) (scene : Option (aiScene Int))
    (fileLoads : String → Bool) : Environment Int :=
  { pathExists := pathExists
    ReadFile := scene
    fileLoads := fileLoads
    mapOrder := fun entries => entries
    uninit := sampleUninit
    CreateDescriptorHeap := fun _ => true
    CreateCommittedResource := fun sizeInBytes => decide (0 < sizeInBytes)
    sizeofVertex := 52 }

/-- A source tree with two nodes: a root with the identity transformation and no mesh,
and one child with the identity transformation that refers to mesh 0. -/
def twoNodeTree : aiNode Int := .mk (aiScaling 1) [] [meshNode]

/-- The importer scene of `twoNodeTree` with one mesh and the given materials. -/
def twoNodeScene (mesh : aiMesh Int) (materials : List (aiMaterial Int)) : aiScene Int :=
  { mMeshes := [mesh], mMaterials := materials, mRootNode := some twoNodeTree }

/-- A source mesh with two vertices that have distinct normals, texture coordinates and
tangents, and no face. -/
def tangentMesh : aiMesh Int :=
  { mVertices := [⟨1, 2, 3⟩, ⟨4, 5, 6⟩]
    mNormals := some [⟨0, 0, 1⟩, ⟨0, 1, 0⟩]
    mTextureCoords0 := some [⟨7, 8, 9⟩, ⟨10, 11, 12⟩]
    mTangents := some [⟨1, 0, 0⟩, ⟨0, 0, 5⟩]
    mFaces := []
    mMaterialIndex := 0 }

/-- A face count whose triple exceeds the 32-bit range by two. -/
def hugeFaceCount : Nat := 1431655766

/-- A source mesh with three vertices and `n` triangular faces. -/
def manyFacesMesh (n : Nat) : aiMesh Int :=
  { triangleMesh with mFaces := List.replicate n ⟨[0, 1, 2]⟩ }

/-- A material whose diffuse textures are the `n` distinct paths `manyNames n` and whose
specular texture is the path `nameOf m`. -/
def duplicateSpecularMaterial (n m : Nat) : aiMaterial Int :=
  textureMaterial fun textureType =>
    if textureType = aiTextureType_DIFFUSE then manyNames n
    else if textureType = aiTextureType_SPECULAR then [nameOf m]
    else []

/-- A material without textures, colours and scalar properties. -/
def plainMaterial : aiMaterial Int := textureMaterial fun _ => []

/-- An environment in which the importer returns the scene of `twoNodeTree` with one
triangle mesh and one plain material. -/
def plainEnvironment : Environment Int :=
  environmentOf true (some (twoNodeScene triangleMesh [plainMaterial])) allFilesLoad

/-- An importer scene with two triangle meshes, one plain material, and the source tree
`smallTree`. -/
def smallInputScene : aiScene Int :=
  { mMeshes := [triangleMesh, triangleMesh]
    mMaterials := [plainMaterial]
    mRootNode := some smallTree }

/-- An environment in which the importer returns `smallInputScene`. -/
def smallEnvironment : Environment Int :=
  environmentOf true (some smallInputScene) allFilesLoad

/-- A material count for which the descriptor index `2 + 5 i` of the last material exceeds
the 32-bit range by one. -/
def hugeMaterialNumber : Nat := 858993460

/-- An importer scene with one triangle mesh that uses material `j`, `n` plain materials,
and a root node that refers to the mesh. -/
def manyMaterialsScene (n j : Nat) : aiScene Int :=
  { mMeshes := [{ triangleMesh with mMaterialIndex := j }]
    mMaterials := List.replicate n plainMaterial
    mRootNode := some meshNode }

/-- A source tree with `n + 1` nodes: a root that refers to mesh 0 and has `n` leaf
children. -/
def flatTree (n : Nat) : aiNode Int := .mk (aiScaling 1) [0] (List.replicate n leafNode)

/-- An importer scene with one triangle mesh, one plain material, and the source tree
`flatTree n`. -/
def flatScene (n : Nat) : aiScene Int :=
  { mMeshes := [triangleMesh], mMaterials := [plainMaterial], mRootNode := some (flatTree n) }

/-- A leaf count of two less than the 32-bit range. -/
def hugeLeafCount : Nat := 2 ^ 32 - 2

/-- A source tree with `n + 8` nodes. The root has three children: a node scaled by 3
whose children are a node that refers to mesh 0 and a node with `n` leaf children; a leaf;
and a node with two leaf children. -/
def wrappedTree (n : Nat) : aiNode Int :=
  .mk (aiScaling 1) []
    [.mk (aiScaling 3) [] [meshNode, .mk (aiScaling 1) [] (List.replicate n leafNode)],
     leafNode,
     .mk (aiScaling 1) [] [leafNode, leafNode]]

/-- An importer scene with one triangle mesh, one plain material, and the source tree
`wrappedTree n`. -/
def wrappedScene (n : Nat) : aiScene Int :=
  { mMeshes := [triangleMesh], mMaterials := [plainMaterial],
    mRootNode := some (wrappedTree n) }

/-- The node array `createNodes` builds for `wrappedTree n` when `n = 2 ^ 32 - 2`: the
root, its first child, the node with the mesh, the node with the `n` leaves, the leaves,
and the four nodes behind them. The root lists the indices 1, 2, 3, and the child list of
node 3 holds the narrowed positions of the leaves and the indices 4 and 5. -/
def wrappedNodes (n : Nat) : List (Node Int) :=
  [{ transformation := aiMatrix4x4ToGlm (aiScaling 1)
     worldSpaceTransformation := glm.identity * aiMatrix4x4ToGlm (aiScaling 1)
     meshIndices := []
     childIndices := [1, 2, 3] },
   { transformation := aiMatrix4x4ToGlm (aiScaling 3)
     worldSpaceTransformation :=
       glm.identity * aiMatrix4x4ToGlm (aiScaling 1) * aiMatrix4x4ToGlm (aiScaling 3)
     meshIndices := []
     childIndices := [2, 3] },
   { transformation := aiMatrix4x4ToGlm (aiScaling 1)
     worldSpaceTransformation :=
       glm.identity * aiMatrix4x4ToGlm (aiScaling 1) * aiMatrix4x4ToGlm (aiScaling 3)
         * aiMatrix4x4ToGlm (aiScaling 1)
     meshIndices := [0]
     childIndices := [] },
   { transformation := aiMatrix4x4ToGlm (aiScaling 1)
     worldSpaceTransformation :=
       glm.identity * aiMatrix4x4ToGlm (aiScaling 1) * aiMatrix4x4ToGlm (aiScaling 3)
         * aiMatrix4x4ToGlm (aiScaling 1)
     meshIndices := []
     childIndices := (List.range n).map (fun j => ui32 (4 + j)) ++ [4, 5] }]
  ++ List.replicate n
      (leafNodeOut
        (glm.identity * aiMatrix4x4ToGlm (aiScaling 1) * aiMatrix4x4ToGlm (aiScaling 3)
          * aiMatrix4x4ToGlm (aiScaling 1)))
  ++ [leafNodeOut (glm.identity * aiMatrix4x4ToGlm (aiScaling 1)),
      { transformation := aiMatrix4x4ToGlm (aiScaling 1)
        worldSpaceTransformation :=
          glm.identity * aiMatrix4x4ToGlm (aiScaling 1) * aiMatrix4x4ToGlm (aiScaling 1)
        meshIndices := []
        childIndices := [] },
      leafNodeOut
        (glm.identity * aiMatrix4x4ToGlm (aiScaling 1) * aiMatrix4x4ToGlm (aiScaling 1)),
      leafNodeOut
        (glm.identity * aiMatrix4x4ToGlm (aiScaling 1) * aiMatrix4x4ToGlm (aiScaling 1))]

/-- A vertex count of half the 32-bit range. -/
def hugeVertexCount : Nat := 2 ^ 31

/-- A source mesh with `2 ^ 31` vertices and no faces. -/
def hugeMesh : aiMesh Int :=
  { mVertices := List.replicate hugeVertexCount ⟨0, 0, 0⟩
    mNormals := none
    mTextureCoords0 := none
    mTangents := none
    mFaces := []
    mMaterialIndex := 0 }

end gims

namespace gims

/-! # Theorems -/

/-! ## Lemmas on the mesh loop -/

theorem triangleOfFace_isSome (base : Nat) (f : aiFace) :
    (triangleOfFace base f).isSome = decide (f.mIndices.length = 3) := by
  unfold triangleOfFace
  rcases f with ⟨l⟩
  match l with
  | [] => simp
  | [_] => simp
  | [_, _] => simp
  | [_, _, _] => simp
  | _ :: _ :: _ :: _ :: _ => simp

theorem length_getTriangleIndicesFromAiMesh {F : Type} (mesh : aiMesh F) (base : Nat) :
    (getTriangleIndicesFromAiMesh mesh base).length = triangleCount mesh := by
  unfold getTriangleIndicesFromAiMesh triangleCount
  split
  · next h => simp [List.isEmpty_iff.mp h]
  · generalize mesh.mFaces = fs
    induction fs with
    | nil => simp
    | cons f fs ih =>
        have h := triangleOfFace_isSome base f
        cases hf : triangleOfFace base f with
        | none =>
            rw [hf] at h
            simp at h
            simp [List.filterMap_cons, hf, List.filter_cons, h, ih]
        | some t =>
            rw [hf] at h
            simp at h
            simp [List.filterMap_cons, hf, List.filter_cons, h, ih]

/-- Length of the index array the mesh constructor stores. -/
theorem length_create_indices {F B : Type} [Zero F] (mkAABB : List (f32v3 F) → Nat → B)
    (ps ns ts : List (f32v3 F)) (nv : Nat) (ib : List ui32v3) (ni : Nat)
    (tg : List (f32v3 F)) (mi : Nat) :
    (TriangleMeshD3D12.create mkAABB ps ns ts nv ib ni tg mi).m_indices.length
      = 3 * (ni / 3) := by
  simp only [TriangleMeshD3D12.create]
  generalize ni / 3 = n
  induction n with
  | zero => simp
  | succ n ih =>
      rw [List.range_succ, List.flatMap_append, List.length_append, ih]
      simp
      omega

/-- The fields of the mesh one loop iteration appends. -/
theorem createMeshesBody_meshes {F B : Type} [Zero F] (mkAABB : List (f32v3 F) → Nat → B)
    (i : Nat) (mesh : aiMesh F) (st : MeshState F B) :
    ∃ m, (createMeshesBody mkAABB i mesh st).m_meshes = st.m_meshes ++ [m] ∧
      m.m_nVertices = mesh.mNumVertices ∧
      m.m_nIndices = ui32 (3 * ui32 (triangleCount mesh)) ∧
      m.m_startVertex = ui32 st.globalVertices.length ∧
      m.m_startIndex = ui32 st.globalIndices.length ∧
      (createMeshesBody mkAABB i mesh st).globalVertices.length
        = st.globalVertices.length + mesh.mNumVertices ∧
      (createMeshesBody mkAABB i mesh st).globalIndices.length
        = st.globalIndices.length + 3 * (ui32 (3 * ui32 (triangleCount mesh)) / 3) := by
  refine ⟨_, rfl, rfl, ?_, rfl, rfl, ?_, ?_⟩
  · simp [TriangleMeshD3D12.create, length_getTriangleIndicesFromAiMesh]
  · simp [createMeshesBody, TriangleMeshD3D12.create]
  · simp only [createMeshesBody, List.length_append]
    rw [length_create_indices, length_getTriangleIndicesFromAiMesh]

/-- Layout of the state after the mesh loop, for any starting state: the stored counts
are the source counts, the stored offsets are the 32-bit narrowings of the running array
lengths, and the arrays grow by the appended lengths. -/
theorem createMeshesLoop_layout {F B : Type} [Zero F] (mkAABB : List (f32v3 F) → Nat → B)
    (ms : List (aiMesh F)) : ∀ (i : Nat) (st : MeshState F B),
    (createMeshesLoop mkAABB i ms st).m_meshes.map (fun x => x.m_nVertices)
      = st.m_meshes.map (fun x => x.m_nVertices) ++ ms.map aiMesh.mNumVertices ∧
    (createMeshesLoop mkAABB i ms st).m_meshes.map (fun x => x.m_nIndices)
      = st.m_meshes.map (fun x => x.m_nIndices) ++ ms.map storedIndexCount ∧
    (createMeshesLoop mkAABB i ms st).m_meshes.map (fun x => x.m_startVertex)
      = st.m_meshes.map (fun x => x.m_startVertex)
        ++ (offsets (ms.map aiMesh.mNumVertices) st.globalVertices.length).map ui32 ∧
    (createMeshesLoop mkAABB i ms st).m_meshes.map (fun x => x.m_startIndex)
      = st.m_meshes.map (fun x => x.m_startIndex)
        ++ (offsets (ms.map storedIndexLength) st.globalIndices.length).map ui32 ∧
    (createMeshesLoop mkAABB i ms st).globalVertices.length
      = st.globalVertices.length + total (ms.map aiMesh.mNumVertices) ∧
    (createMeshesLoop mkAABB i ms st).globalIndices.length
      = st.globalIndices.length + total (ms.map storedIndexLength) := by
  induction ms with
  | nil => intro i st; simp [createMeshesLoop, offsets, total]
  | cons mesh rest ih =>
      intro i st
      obtain ⟨m, hm, h1, h2, h3, h4, h5, h6⟩ := createMeshesBody_meshes mkAABB i mesh st
      obtain ⟨i1, i2, i3, i4, i5, i6⟩ := ih (i + 1) (createMeshesBody mkAABB i mesh st)
      simp only [createMeshesLoop]
      rw [i1, i2, i3, i4, i5, i6, hm, h5, h6]
      simp only [List.map_append, List.map_cons, List.map_nil, List.append_assoc,
        List.singleton_append, offsets, total, List.sum_cons, h1, h2, h3, h4,
        storedIndexLength, storedIndexCount]
      refine ⟨trivial, trivial, trivial, trivial, ?_, ?_⟩ <;> omega

/-- Layout of the result of `createMeshes` on a fresh scene. -/
theorem createMeshes_layout {F B : Type} [Zero F] (mkAABB : List (f32v3 F) → Nat → B)
    (ms : List (aiMesh F)) :
    (createMeshes mkAABB ms []).m_meshes.map (fun x => x.m_nVertices)
      = ms.map aiMesh.mNumVertices ∧
    (createMeshes mkAABB ms []).m_meshes.map (fun x => x.m_nIndices)
      = ms.map storedIndexCount ∧
    (createMeshes mkAABB ms []).m_meshes.map (fun x => x.m_startVertex)
      = (offsets (ms.map aiMesh.mNumVertices) 0).map ui32 ∧
    (createMeshes mkAABB ms []).m_meshes.map (fun x => x.m_startIndex)
      = (offsets (ms.map storedIndexLength) 0).map ui32 ∧
    (createMeshes mkAABB ms []).globalVertices.length = total (ms.map aiMesh.mNumVertices) ∧
    (createMeshes mkAABB ms []).globalIndices.length = total (ms.map storedIndexLength) := by
  have h := createMeshesLoop_layout mkAABB ms 0
    ({ globalVertices := [], globalIndices := [], m_meshes := [] } : MeshState F B)
  simpa [createMeshes] using h

/-! ## Running offsets and tilings -/

theorem length_offsets (cs : List Nat) : ∀ s, (offsets cs s).length = cs.length := by
  induction cs with
  | nil => intro s; rfl
  | cons c cs ih => intro s; simp [offsets, ih]

theorem offsets_getElem? (cs : List Nat) : ∀ (s k a : Nat),
    (offsets cs s)[k]? = some a → a = s + total (cs.take k) := by
  induction cs with
  | nil => intro s k a h; simp [offsets] at h
  | cons c cs ih =>
      intro s k a h
      cases k with
      | zero => simp [offsets] at h; simp [total, h]
      | succ k =>
          simp only [offsets, List.getElem?_cons_succ] at h
          have := ih (s + c) k a h
          simp [total] at this ⊢
          omega

theorem offsets_tiles (cs : List Nat) : ∀ (s : Nat),
    (∀ (k a c : Nat), (offsets cs s)[k]? = some a → cs[k]? = some c →
      s ≤ a ∧ a + c ≤ s + total cs) ∧
    (∀ (j k a c b : Nat), j < k → (offsets cs s)[j]? = some a → cs[j]? = some c →
      (offsets cs s)[k]? = some b → a + c ≤ b) ∧
    (∀ p, s ≤ p → p < s + total cs →
      ∃ (k a c : Nat), (offsets cs s)[k]? = some a ∧ cs[k]? = some c ∧ a ≤ p ∧ p < a + c) := by
  induction cs with
  | nil =>
      intro s
      refine ⟨?_, ?_, ?_⟩
      · intro k a c h; simp [offsets] at h
      · intro j k a c b _ h; simp [offsets] at h
      · intro p h1 h2; simp [total] at h2; omega
  | cons c0 cs ih =>
      intro s
      obtain ⟨ih1, ih2, ih3⟩ := ih (s + c0)
      refine ⟨?_, ?_, ?_⟩
      · intro k a c h hc
        cases k with
        | zero =>
            simp [offsets] at h hc
            subst h; subst hc
            simp [total]
        | succ k =>
            simp only [offsets, List.getElem?_cons_succ] at h hc
            have := ih1 k a c h hc
            simp [total] at this ⊢
            omega
      · intro j k a c b hjk ha hc hb
        cases k with
        | zero => omega
        | succ k =>
            simp only [offsets, List.getElem?_cons_succ] at hb
            cases j with
            | zero =>
                simp [offsets] at ha hc
                subst ha; subst hc
                have hk : k < cs.length := by
                  have := (List.getElem?_eq_some_iff.mp hb).1
                  rwa [length_offsets] at this
                have := ih1 k b (cs[k]) hb (List.getElem?_eq_getElem hk)
                omega
            | succ j =>
                simp only [offsets, List.getElem?_cons_succ] at ha hc
                exact ih2 j k a c b (by omega) ha hc hb
      · intro p h1 h2
        by_cases hp : p < s + c0
        · exact ⟨0, s, c0, by simp [offsets], by simp, h1, hp⟩
        · have h2' : p < s + c0 + total cs := by simp [total] at h2 ⊢; omega
          obtain ⟨k, a, c, ha, hc, hle, hlt⟩ := ih3 p (by omega) h2'
          exact ⟨k + 1, a, c, by simpa [offsets] using ha, by simpa using hc, hle, hlt⟩

/-- A list whose starts are the running offsets of its counts tiles the sum of the counts. -/
theorem tiles_of_consecutive {α : Type} (l : List α) (start cnt : α → Nat)
    (h : l.map start = offsets (l.map cnt) 0) :
    (∀ (k : Nat) (m : α), l[k]? = some m → start m = total ((l.take k).map cnt)) ∧
    Tiles (l.map fun x => (start x, cnt x)) (total (l.map cnt)) := by
  have key : ∀ (k : Nat) (m : α), l[k]? = some m →
      (offsets (l.map cnt) 0)[k]? = some (start m) ∧ (l.map cnt)[k]? = some (cnt m) := by
    intro k m hk
    constructor
    · rw [← h]; simp [hk]
    · simp [hk]
  obtain ⟨t1, t2, t3⟩ := offsets_tiles (l.map cnt) 0
  refine ⟨?_, ?_, ?_, ?_⟩
  · intro k m hk
    have := offsets_getElem? (l.map cnt) 0 k (start m) (key k m hk).1
    simpa [List.map_take] using this
  · intro j k a b hjk ha hb
    simp only [List.getElem?_map, Option.map_eq_some'] at ha hb
    obtain ⟨ma, hma, rfl⟩ := ha
    obtain ⟨mb, hmb, rfl⟩ := hb
    exact t2 j k _ _ _ hjk (key j ma hma).1 (key j ma hma).2 (key k mb hmb).1
  · intro k a ha
    simp only [List.getElem?_map, Option.map_eq_some'] at ha
    obtain ⟨ma, hma, rfl⟩ := ha
    have := (t1 k _ _ (key k ma hma).1 (key k ma hma).2).2
    simpa using this
  · intro p hp
    obtain ⟨k, a, c, ha, hc, hle, hlt⟩ := t3 p (Nat.zero_le _) (by simpa using hp)
    simp only [List.getElem?_map, Option.map_eq_some'] at hc
    obtain ⟨m, hm, rfl⟩ := hc
    have := (key k m hm).1
    rw [ha] at this
    cases this
    exact ⟨k, (start m, cnt m), by simp [hm], hle, hlt⟩

theorem offsets_le (cs : List Nat) : ∀ (s a : Nat), a ∈ offsets cs s → a ≤ s + total cs := by
  induction cs with
  | nil => intro s a h; simp [offsets] at h
  | cons c cs ih =>
      intro s a h
      simp only [offsets, List.mem_cons] at h
      rcases h with h | h
      · subst h; omega
      · have := ih (s + c) a h
        simp [total] at this ⊢
        omega

theorem ui32_of_lt {n : Nat} (h : n < 2 ^ 32) : ui32 n = n := Nat.mod_eq_of_lt h

/-- Offsets below the 32-bit range are unchanged by narrowing. -/
theorem map_ui32_offsets (cs : List Nat) (h : total cs < 2 ^ 32) :
    (offsets cs 0).map ui32 = offsets cs 0 := by
  have : ∀ a ∈ offsets cs 0, ui32 a = id a := by
    intro a ha
    have := offsets_le cs 0 a ha
    exact ui32_of_lt (by omega)
  rw [List.map_congr_left this, List.map_id]

theorem le_total_of_mem {cs : List Nat} {c : Nat} (h : c ∈ cs) : c ≤ total cs :=
  List.single_le_sum (fun _ _ => Nat.zero_le _) c h

/-- Without 32-bit overflow the stored index count of a mesh is three times its number of
triangles, and so is the number of indices copied. -/
theorem storedIndex_of_lt {F : Type} (mesh : aiMesh F) (h : 3 * triangleCount mesh < 2 ^ 32) :
    storedIndexCount mesh = 3 * triangleCount mesh ∧
    storedIndexLength mesh = 3 * triangleCount mesh := by
  have h1 : ui32 (triangleCount mesh) = triangleCount mesh := ui32_of_lt (by omega)
  have h2 : storedIndexCount mesh = 3 * triangleCount mesh := by
    unfold storedIndexCount
    rw [h1, ui32_of_lt h]
  refine ⟨h2, ?_⟩
  unfold storedIndexLength
  rw [h2]
  omega

theorem map_storedIndex_of_lt {F : Type} (ms : List (aiMesh F))
    (h : 3 * total (ms.map triangleCount) < 2 ^ 32) :
    ms.map storedIndexLength = ms.map storedIndexCount ∧
    total (ms.map storedIndexCount) = 3 * total (ms.map triangleCount) := by
  induction ms with
  | nil => simp [total]
  | cons m ms ih =>
      simp only [List.map_cons, total, List.sum_cons] at h ⊢
      have hm := storedIndex_of_lt m (by omega)
      have := ih (by simp only [total]; omega)
      simp only [total] at this
      rw [hm.1, hm.2, this.1, this.2]
      exact ⟨rfl, by omega⟩

/-! ## C1: offsets of the global vertex and index arrays -/

/-- Offset bookkeeping of `createMeshes` when the totals fit in 32 bits. -/
theorem createMeshes_offsetsTile_aux {F B : Type} [Zero F]
    (mkAABB : List (f32v3 F) → Nat → B) (ms : List (aiMesh F))
    (hv : total (ms.map aiMesh.mNumVertices) < 2 ^ 32)
    (hi : 3 * total (ms.map triangleCount) < 2 ^ 32) :
    (createMeshes mkAABB ms []).m_meshes.length = ms.length ∧
    OffsetsTile (createMeshes mkAABB ms []) := by
  obtain ⟨h1, h2, h3, h4, h5, h6⟩ := createMeshes_layout mkAABB ms
  obtain ⟨e1, e2⟩ := map_storedIndex_of_lt ms hi
  rw [map_ui32_offsets _ hv, ← h1] at h3
  rw [e1, map_ui32_offsets _ (by omega), ← h2] at h4
  rw [← h1] at h5
  rw [e1, ← h2] at h6
  obtain ⟨a1, a2⟩ := tiles_of_consecutive _ _ _ h3
  obtain ⟨b1, b2⟩ := tiles_of_consecutive _ _ _ h4
  refine ⟨?_, ?_, h5, h6, ?_, ?_⟩
  · have := congrArg List.length h1
    simpa using this
  · intro k m hk
    exact ⟨a1 k m hk, b1 k m hk⟩
  · rw [h5]; exact a2
  · rw [h6]; exact b2

theorem hugeMesh_mNumVertices : hugeMesh.mNumVertices = hugeVertexCount := by
  unfold aiMesh.mNumVertices hugeMesh
  exact List.length_replicate _ _

/-- A mesh state whose three meshes have `2 ^ 31` vertices each and whose stored start
vertices are the narrowed running sums does not satisfy the offset bookkeeping. -/
theorem not_offsetsTile_of_wrap {F B : Type} (r : MeshState F B)
    (h1 : r.m_meshes.map (fun x => x.m_nVertices)
      = [hugeVertexCount, hugeVertexCount, hugeVertexCount])
    (h3 : r.m_meshes.map (fun x => x.m_startVertex)
      = [ui32 0, ui32 (0 + hugeVertexCount), ui32 (0 + hugeVertexCount + hugeVertexCount)]) :
    ¬ OffsetsTile r := by
  intro hT
  have hlen : r.m_meshes.length = 3 := by simpa using congrArg List.length h1
  have hm2 : r.m_meshes[2]? = some (r.m_meshes[2]) := List.getElem?_eq_getElem (by omega)
  have hs := (hT.1 2 _ hm2).1
  have e3 : (r.m_meshes.map (fun x => x.m_startVertex))[2]?
      = some (r.m_meshes[2]).m_startVertex := by simp [hm2]
  rw [h3] at e3
  rw [List.map_take, h1] at hs
  simp only [List.getElem?_cons_succ, List.getElem?_cons_zero, Option.some.injEq] at e3
  rw [← e3] at hs
  simp [total, ui32, hugeVertexCount] at hs

/-- C1 (amended): when the total vertex count and three times the total triangle count are
below `2 ^ 32`, `createMeshes` on a fresh scene creates one mesh per source mesh, the k-th
mesh starts at the sum of the vertex counts, respectively index counts, of the meshes
before it, the global arrays have the summed lengths, and the vertex ranges and the index
ranges tile the global arrays in creation order. -/
theorem C1_createMeshes_offsets_tile {F B : Type} [Zero F]
    (mkAABB : List (f32v3 F) → Nat → B) (ms : List (aiMesh F))
    (hv : total (ms.map aiMesh.mNumVertices) < 2 ^ 32)
    (hi : 3 * total (ms.map triangleCount) < 2 ^ 32) :
    (createMeshes mkAABB ms []).m_meshes.length = ms.length ∧
    OffsetsTile (createMeshes mkAABB ms []) :=
  createMeshes_offsetsTile_aux mkAABB ms hv hi

/-- C1, witness: two triangle meshes. -/
theorem C1_createMeshes_offsets_tile_witness :
    total ([triangleMesh, triangleMesh].map aiMesh.mNumVertices) < 2 ^ 32 ∧
    3 * total ([triangleMesh, triangleMesh].map triangleCount) < 2 ^ 32 ∧
    (createMeshes noAABB [triangleMesh, triangleMesh] []).m_meshes.length = 2 ∧
    OffsetsTile (createMeshes noAABB [triangleMesh, triangleMesh] []) :=
  ⟨by decide, by decide,
    C1_createMeshes_offsets_tile noAABB [triangleMesh, triangleMesh] (by decide) (by decide)⟩

/-- C1, counterexample: with three source meshes of `2 ^ 31` vertices each, the third mesh
gets `m_startVertex = 0`, not the sum `2 ^ 32` of the vertex counts before it. -/
theorem C1_counterexample :
    ¬ OffsetsTile (createMeshes noAABB [hugeMesh, hugeMesh, hugeMesh] []) := by
  intro hT
  obtain ⟨h1, -, h3, -⟩ := createMeshes_layout noAABB [hugeMesh, hugeMesh, hugeMesh]
  exact not_offsetsTile_of_wrap _ (by rw [h1]; simp [hugeMesh_mNumVertices])
    (by rw [h3]; simp [hugeMesh_mNumVertices, offsets]) hT

/-! ## Contents of the global index array -/

theorem triangleOfFace_eq_some {base : Nat} {f : aiFace} {t : ui32v3}
    (h : triangleOfFace base f = some t) :
    ∃ a b c, f.mIndices = [a, b, c] ∧
      t = ⟨ui32 (a + base), ui32 (b + base), ui32 (c + base)⟩ := by
  unfold triangleOfFace at h
  rcases f with ⟨l⟩
  match l, h with
  | [a, b, c], h =>
      simp only [Option.some.injEq] at h
      exact ⟨a, b, c, rfl, h.symm⟩

/-- Every triple of `getTriangleIndicesFromAiMesh` comes from a three-index face. -/
theorem mem_getTriangleIndicesFromAiMesh {F : Type} {mesh : aiMesh F} {base : Nat}
    {t : ui32v3} (h : t ∈ getTriangleIndicesFromAiMesh mesh base) :
    ∃ f ∈ mesh.mFaces, ∃ a b c, f.mIndices = [a, b, c] ∧
      t = ⟨ui32 (a + base), ui32 (b + base), ui32 (c + base)⟩ := by
  unfold getTriangleIndicesFromAiMesh at h
  split at h
  · simp at h
  · rw [List.mem_filterMap] at h
    obtain ⟨f, hf, hft⟩ := h
    exact ⟨f, hf, triangleOfFace_eq_some hft⟩

theorem ui32_le (n : Nat) : ui32 n ≤ n := Nat.mod_le _ _

/-- The mesh one loop iteration appends, with its provenance. -/
theorem createMeshesBody_content {F B : Type} [Zero F] (mkAABB : List (f32v3 F) → Nat → B)
    (i : Nat) (mesh : aiMesh F) (st : MeshState F B) :
    ∃ m, (createMeshesBody mkAABB i mesh st).m_meshes = st.m_meshes ++ [m] ∧
      (createMeshesBody mkAABB i mesh st).globalVertices = st.globalVertices ++ m.m_vertices ∧
      (createMeshesBody mkAABB i mesh st).globalIndices = st.globalIndices ++ m.m_indices ∧
      m.m_startVertex = ui32 st.globalVertices.length ∧
      m.m_startIndex = ui32 st.globalIndices.length ∧
      MeshFrom mesh m := by
  refine ⟨_, rfl, rfl, rfl, rfl, rfl, rfl, ?_, ?_, ?_, ?_⟩
  · simp [TriangleMeshD3D12.create]
  · simp [TriangleMeshD3D12.create, length_getTriangleIndicesFromAiMesh, storedIndexCount]
  · show (TriangleMeshD3D12.create mkAABB (meshAttributes i mesh).1
        (meshAttributes i mesh).2.1 (meshAttributes i mesh).2.2.1 mesh.mNumVertices
        (getTriangleIndicesFromAiMesh mesh (ui32 st.globalVertices.length))
        (ui32 (3 * ui32 (getTriangleIndicesFromAiMesh mesh
          (ui32 st.globalVertices.length)).length))
        (meshAttributes i mesh).2.2.2
        mesh.mMaterialIndex : TriangleMeshD3D12 F B).m_indices.length = _
    rw [length_create_indices, length_getTriangleIndicesFromAiMesh]
    rfl
  · intro v hv
    have hv : v ∈ (TriangleMeshD3D12.create mkAABB (meshAttributes i mesh).1
        (meshAttributes i mesh).2.1 (meshAttributes i mesh).2.2.1 mesh.mNumVertices
        (getTriangleIndicesFromAiMesh mesh (ui32 st.globalVertices.length))
        (ui32 (3 * ui32 (getTriangleIndicesFromAiMesh mesh
          (ui32 st.globalVertices.length)).length))
        (meshAttributes i mesh).2.2.2 mesh.mMaterialIndex : TriangleMeshD3D12 F B).m_indices :=
      hv
    simp only [TriangleMeshD3D12.create, List.mem_flatMap, List.mem_range] at hv
    obtain ⟨j, hj, hv⟩ := hv
    set ib := getTriangleIndicesFromAiMesh mesh (ui32 st.globalVertices.length) with hib
    have hjl : j < ib.length := by
      have h1 := ui32_le (3 * ui32 ib.length)
      have h2 := ui32_le ib.length
      omega
    have hget : ib.getD j ⟨0, 0, 0⟩ = ib[j] := by
      simp [List.getD_eq_getElem?_getD, List.getElem?_eq_getElem hjl]
    rw [hget] at hv
    obtain ⟨f, hf, a, b, c, hfi, ht⟩ :=
      mem_getTriangleIndicesFromAiMesh (List.getElem_mem hjl)
    rw [ht] at hv
    simp only [List.mem_cons, List.mem_singleton, List.not_mem_nil, or_false] at hv
    show ∃ f ∈ mesh.mFaces, ∃ a ∈ f.mIndices, v = ui32 (a + ui32 st.globalVertices.length)
    rcases hv with hv | hv | hv
    · exact ⟨f, hf, a, by simp [hfi], hv⟩
    · exact ⟨f, hf, b, by simp [hfi], hv⟩
    · exact ⟨f, hf, c, by simp [hfi], hv⟩

/-- Contents of the state after the mesh loop: the global arrays grow by the arrays of the
appended meshes, and every appended mesh has its provenance. -/
theorem createMeshesLoop_content {F B : Type} [Zero F] (mkAABB : List (f32v3 F) → Nat → B)
    (ms : List (aiMesh F)) : ∀ (i : Nat) (st : MeshState F B),
    ∃ Y, (createMeshesLoop mkAABB i ms st).m_meshes = st.m_meshes ++ Y ∧
      (createMeshesLoop mkAABB i ms st).globalVertices
        = st.globalVertices ++ Y.flatMap (fun x => x.m_vertices) ∧
      (createMeshesLoop mkAABB i ms st).globalIndices
        = st.globalIndices ++ Y.flatMap (fun x => x.m_indices) ∧
      List.Forall₂ MeshFrom ms Y := by
  induction ms with
  | nil => intro i st; exact ⟨[], by simp [createMeshesLoop]⟩
  | cons mesh rest ih =>
      intro i st
      obtain ⟨m, hm, hv, hi, -, -, hfrom⟩ := createMeshesBody_content mkAABB i mesh st
      obtain ⟨Y, y1, y2, y3, y4⟩ := ih (i + 1) (createMeshesBody mkAABB i mesh st)
      refine ⟨m :: Y, ?_, ?_, ?_, List.Forall₂.cons hfrom y4⟩
      · simp only [createMeshesLoop]; rw [y1, hm]; simp
      · simp only [createMeshesLoop]; rw [y2, hv]; simp
      · simp only [createMeshesLoop]; rw [y3, hi]; simp

/-- Contents of the result of `createMeshes` on a fresh scene. -/
theorem createMeshes_content {F B : Type} [Zero F] (mkAABB : List (f32v3 F) → Nat → B)
    (ms : List (aiMesh F)) :
    (createMeshes mkAABB ms []).globalVertices
      = (createMeshes mkAABB ms []).m_meshes.flatMap (fun x => x.m_vertices) ∧
    (createMeshes mkAABB ms []).globalIndices
      = (createMeshes mkAABB ms []).m_meshes.flatMap (fun x => x.m_indices) ∧
    List.Forall₂ MeshFrom ms (createMeshes mkAABB ms []).m_meshes := by
  obtain ⟨Y, y1, y2, y3, y4⟩ := createMeshesLoop_content mkAABB ms 0
    ({ globalVertices := [], globalIndices := [], m_meshes := [] } : MeshState F B)
  simp only [createMeshes]
  simp only [List.nil_append] at y1 y2 y3
  rw [y1, y2, y3]
  exact ⟨rfl, rfl, y4⟩

/-- Element `k` of the right list of a pointwise relation has a partner at position `k`. -/
theorem forall₂_getElem?_right {α β : Type} {R : α → β → Prop} {l₁ : List α} {l₂ : List β}
    (h : List.Forall₂ R l₁ l₂) : ∀ (k : Nat) (b : β), l₂[k]? = some b →
    ∃ a, l₁[k]? = some a ∧ R a b := by
  induction h with
  | nil => intro k b hb; simp at hb
  | cons hab _ ih =>
      intro k b hb
      cases k with
      | zero => simp at hb; subst hb; exact ⟨_, by simp, hab⟩
      | succ k => simpa using ih k b (by simpa using hb)

/-- Positions of a concatenation of segments: the entry at a position inside the range of
segment `k` is the entry of that segment at the relative position. -/
theorem getElem?_flatMap_segment {α β : Type} (seg : α → List β) (l : List α) :
    ∀ (k : Nat) (m : α), l[k]? = some m → ∀ (p : Nat),
    total ((l.take k).map fun x => (seg x).length) ≤ p →
    p < total ((l.take k).map fun x => (seg x).length) + (seg m).length →
    (l.flatMap seg)[p]? = (seg m)[p - total ((l.take k).map fun x => (seg x).length)]? := by
  induction l with
  | nil => intro k m hk; simp at hk
  | cons x xs ih =>
      intro k m hk p h1 h2
      cases k with
      | zero =>
          simp at hk; subst hk
          simp only [List.take_zero, List.map_nil, total, List.sum_nil, Nat.zero_add,
            Nat.sub_zero] at h2 ⊢
          rw [List.flatMap_cons, List.getElem?_append_left h2]
      | succ k =>
          simp only [List.getElem?_cons_succ] at hk
          simp only [List.take_succ_cons, List.map_cons, total, List.sum_cons] at h1 h2 ⊢
          rw [List.flatMap_cons, List.getElem?_append_right (by omega)]
          have := ih k m hk (p - (seg x).length) (by simp only [total]; omega)
            (by simp only [total]; omega)
          simp only [total] at this
          rw [this]
          congr 1
          omega

/-- Without 32-bit overflow, every value stored for a mesh in the global index array lies
in the vertex range of that mesh, which lies inside the global vertex array. -/
theorem createMeshes_storedIndex_range {F B : Type} [Zero F]
    (mkAABB : List (f32v3 F) → Nat → B) (ms : List (aiMesh F))
    (hvalid : FaceIndicesValid ms)
    (hv : total (ms.map aiMesh.mNumVertices) < 2 ^ 32)
    (hi : 3 * total (ms.map triangleCount) < 2 ^ 32) :
    ∀ (k : Nat) (m : TriangleMeshD3D12 F B),
      (createMeshes mkAABB ms []).m_meshes[k]? = some m →
      ∀ (p v : Nat), m.m_startIndex ≤ p → p < m.m_startIndex + m.m_nIndices →
        (createMeshes mkAABB ms []).globalIndices[p]? = some v →
        m.m_startVertex ≤ v ∧ v < m.m_startVertex + m.m_nVertices ∧
        m.m_startVertex + m.m_nVertices ≤ (createMeshes mkAABB ms []).globalVertices.length := by
  intro k m hk p v h1 h2 hp
  obtain ⟨-, hgi, hfrom⟩ := createMeshes_content mkAABB ms
  obtain ⟨-, hstart, hgv, -, htv, -⟩ := createMeshes_offsetsTile_aux mkAABB ms hv hi
  obtain ⟨-, -, -, -, hlen, -⟩ := createMeshes_layout mkAABB ms
  obtain ⟨src, hsrc, f1, -, f3, f4, f5⟩ := forall₂_getElem?_right hfrom k m hk
  -- stored counts agree with stored lengths
  have hcount : ∀ x ∈ (createMeshes mkAABB ms []).m_meshes, x.m_nIndices = x.m_indices.length := by
    intro x hx
    obtain ⟨j, hj⟩ := List.mem_iff_getElem?.mp hx
    obtain ⟨sx, hsx, -, -, g3, g4, -⟩ := forall₂_getElem?_right hfrom j x hj
    have hmem : triangleCount sx ∈ ms.map triangleCount :=
      List.mem_map.mpr ⟨sx, List.mem_iff_getElem?.mpr ⟨j, hsx⟩, rfl⟩
    have := le_total_of_mem hmem
    obtain ⟨e1, e2⟩ := storedIndex_of_lt sx (by omega)
    rw [g3, g4, e1, e2]
  have htake : (List.take k (createMeshes mkAABB ms []).m_meshes).map (fun x => x.m_nIndices)
      = (List.take k (createMeshes mkAABB ms []).m_meshes).map
          (fun x => x.m_indices.length) :=
    List.map_congr_left fun x hx => hcount x (List.mem_of_mem_take hx)
  have hsI := (hstart k m hk).2
  rw [htake] at hsI
  have hseg := getElem?_flatMap_segment (fun x : TriangleMeshD3D12 F B => x.m_indices)
    (createMeshes mkAABB ms []).m_meshes k m hk p
  beta_reduce at hseg
  have hseg := hseg (by omega)
    (by rw [← hsI, ← hcount m (List.mem_iff_getElem?.mpr ⟨k, hk⟩)]; exact h2)
  rw [← hgi, hp] at hseg
  have hvm : v ∈ m.m_indices := List.mem_iff_getElem?.mpr ⟨_, hseg.symm⟩
  obtain ⟨f, hf, a, ha, hva⟩ := f5 v hvm
  have hsrcmem : src ∈ ms := List.mem_iff_getElem?.mpr ⟨k, hsrc⟩
  have halt : a < m.m_nVertices := by rw [f1]; exact hvalid src hsrcmem f hf a ha
  have hwithin := htv.2.1 k (m.m_startVertex, m.m_nVertices) (by simp [hk])
  simp only at hwithin
  have hbound : (createMeshes mkAABB ms []).globalVertices.length < 2 ^ 32 := by
    rw [hlen]; exact hv
  rw [ui32_of_lt (by omega)] at hva
  subst hva
  exact ⟨by omega, by omega, hwithin⟩

/-! ## C2: stored index values and the total vertex count -/

/-- The mesh loop keeps every value of the global index array below the length of the
global vertex array, whatever the sizes: a value is the 32-bit sum of a face index and
the narrowed length of the vertex array before the mesh. -/
theorem createMeshesLoop_indices_below {F B : Type} [Zero F]
    (mkAABB : List (f32v3 F) → Nat → B) (ms : List (aiMesh F)) (hvalid : FaceIndicesValid ms) :
    ∀ (i : Nat) (st : MeshState F B),
      (∀ v ∈ st.globalIndices, v < st.globalVertices.length) →
      ∀ v ∈ (createMeshesLoop mkAABB i ms st).globalIndices,
        v < (createMeshesLoop mkAABB i ms st).globalVertices.length := by
  induction ms with
  | nil => intro i st h; exact h
  | cons mesh rest ih =>
      intro i st h
      simp only [createMeshesLoop]
      apply ih (fun x hx => hvalid x (List.mem_cons_of_mem _ hx))
      obtain ⟨m, -, hv, hi, hstart, -, -, hlen, -, -, hfrom⟩ :=
        createMeshesBody_content mkAABB i mesh st
      intro v hmem
      rw [hi] at hmem
      rw [hv, List.length_append, hlen]
      rcases List.mem_append.mp hmem with hold | hnew
      · have := h v hold
        omega
      · obtain ⟨f, hf, a, ha, hva⟩ := hfrom v hnew
        have halt := hvalid mesh (List.mem_cons_self _ _) f hf a ha
        rw [hva, hstart]
        unfold ui32
        omega

/-- C2 (amended): when every source face index is less than the vertex count of its mesh,
every value of the global index array, and so every index value stored for a mesh, which
already includes the start vertex of the mesh, is less than the total global vertex
count. No bound on the sizes is assumed. -/
theorem C2_stored_indices_below_total {F B : Type} [Zero F]
    (mkAABB : List (f32v3 F) → Nat → B) (ms : List (aiMesh F))
    (hvalid : FaceIndicesValid ms) :
    (∀ v ∈ (createMeshes mkAABB ms []).globalIndices,
      v < (createMeshes mkAABB ms []).globalVertices.length) ∧
    StoredIndicesBelowTotal (createMeshes mkAABB ms []) := by
  have hall := createMeshesLoop_indices_below mkAABB ms hvalid 0
    ({ globalVertices := [], globalIndices := [], m_meshes := [] } : MeshState F B)
    (by intro v hv; cases hv)
  refine ⟨hall, ?_⟩
  intro k m _ p v _ _ hp
  exact hall v (List.mem_iff_getElem?.mpr ⟨p, hp⟩)

/-- C2, witness: two triangle meshes. -/
theorem C2_stored_indices_below_total_witness :
    FaceIndicesValid [triangleMesh, triangleMesh] ∧
    StoredIndicesBelowTotal (createMeshes noAABB [triangleMesh, triangleMesh] []) :=
  ⟨by decide,
    (C2_stored_indices_below_total noAABB [triangleMesh, triangleMesh] (by decide)).2⟩

/-- C2, counterexample: for two triangle meshes the face indices are valid, yet the second
mesh has start vertex 3 and stores the value 3 at position 3 of the global index array;
offset by the start vertex this is 6, which is not below the total vertex count 6. -/
theorem C2_counterexample :
    FaceIndicesValid [triangleMesh, triangleMesh] ∧
    ¬ OffsetIndicesBelowTotal (createMeshes noAABB [triangleMesh, triangleMesh] []) := by
  refine ⟨by decide, fun h => ?_⟩
  have := h 1 _ rfl 3 3 (by decide) (by decide) (by decide)
  revert this
  decide

/-! ## The node array is the pre-order layout of the source tree -/

theorem modify_append_left {α : Type} (f : α → α) (l₂ : List α) :
    ∀ (l₁ : List α) (i : Nat), i < l₁.length →
    (l₁ ++ l₂).modify f i = l₁.modify f i ++ l₂ := by
  intro l₁
  induction l₁ with
  | nil => intro i h; simp at h
  | cons a l₁ ih =>
      intro i h
      cases i with
      | zero => simp
      | succ i =>
          simp only [List.cons_append, List.modify_succ_cons, List.cons.injEq, true_and]
          exact ih i (by simpa using h)

theorem modify_append_length {α : Type} (f : α → α) (x : α) (l₂ : List α) :
    ∀ (l₁ : List α), (l₁ ++ x :: l₂).modify f l₁.length = l₁ ++ f x :: l₂ := by
  intro l₁
  induction l₁ with
  | nil => simp
  | cons a l₁ ih => simp [ih]

theorem aiNode.size_pos {F : Type} (t : aiNode F) : 0 < t.size := by
  cases t with
  | mk T ms cs => simp [aiNode.size]

theorem aiNode.total_sizes {F : Type} (cs : List (aiNode F)) :
    total (aiNode.sizes cs) = aiNode.sizeList cs := by
  induction cs with
  | nil => rfl
  | cons c rest ih =>
      simp only [aiNode.sizes, aiNode.sizeList, total, List.sum_cons] at ih ⊢
      rw [ih]

mutual
theorem length_layout {F : Type} [Add F] [Mul F] (t : aiNode F) (w : f32m4 F) (base : Nat) :
    (layout t w base).length = t.size := by
  match t with
  | .mk T ms cs =>
      simp only [layout, aiNode.size, List.length_cons]
      rw [length_layoutChildren]
      omega
theorem length_layoutChildren {F : Type} [Add F] [Mul F] (cs : List (aiNode F))
    (w : f32m4 F) (base : Nat) :
    (layoutChildren cs w base).length = aiNode.sizeList cs := by
  match cs with
  | [] => rfl
  | c :: rest =>
      simp only [layoutChildren, aiNode.sizeList, List.length_append]
      rw [length_layout, length_layoutChildren]
end

/-- Appending several child indices to a node. -/
theorem addChild_comp {F : Type} (a : Nat) (l : List Nat) :
    (fun n : Node F => { n with childIndices := n.childIndices ++ l }) ∘ Node.addChild a
      = fun n : Node F => { n with childIndices := n.childIndices ++ a :: l } := by
  funext n
  simp [Node.addChild]

mutual
/-- When the node count stays within 32 bits, `createNodes` appends the pre-order layout
of the source tree and returns the index of its root. -/
theorem createNodes_eq_layout {F : Type} [Add F] [Mul F] (nodes : List (Node F))
    (t : aiNode F) (w : f32m4 F) (h : nodes.length + t.size ≤ 2 ^ 32) :
    createNodes nodes t w = (nodes ++ layout t w nodes.length, nodes.length) := by
  match t with
  | .mk T ms cs =>
      simp only [aiNode.size] at h
      have hlen : ui32 (nodes.length + 1 - 1) = nodes.length := by
        rw [Nat.add_sub_cancel]; exact ui32_of_lt (by omega)
      simp only [createNodes, layout, hlen]
      rw [createNodesChildren_eq_layout _ cs nodes.length _ (by simp)
        (by simp only [List.length_append, List.length_singleton]; omega)]
      simp only [List.length_append, List.length_singleton]
      rw [modify_append_length]
      simp
/-- The child loop appends the layouts of the children and extends the child list of the
parent by their start indices. -/
theorem createNodesChildren_eq_layout {F : Type} [Add F] [Mul F] (nodes : List (Node F))
    (cs : List (aiNode F)) (idx : Nat) (w : f32m4 F) (hidx : idx < nodes.length)
    (h : nodes.length + aiNode.sizeList cs ≤ 2 ^ 32) :
    createNodesChildren nodes cs idx w
      = nodes.modify (fun n => { n with
          childIndices := n.childIndices ++ offsets (aiNode.sizes cs) nodes.length }) idx
        ++ layoutChildren cs w nodes.length := by
  match cs with
  | [] =>
      simp only [createNodesChildren, layoutChildren, aiNode.sizes, offsets,
        List.append_nil]
      exact (List.modify_id idx nodes).symm
  | c :: rest =>
      simp only [aiNode.sizeList] at h
      simp only [createNodesChildren, layoutChildren, aiNode.sizes, offsets]
      rw [createNodes_eq_layout nodes c w (by omega)]
      simp only []
      rw [modify_append_left _ _ _ _ hidx]
      rw [createNodesChildren_eq_layout _ rest idx w (by simpa using Nat.lt_add_right _ hidx)
        (by simp only [List.length_append, List.length_modify, length_layout]; omega)]
      simp only [List.length_append, List.length_modify, length_layout]
      rw [modify_append_left _ _ _ _ (by simpa using hidx), List.modify_modify_eq,
        addChild_comp, List.append_assoc]
end

/-! ## Child lists of the layout -/

theorem childIndexList_cons {F : Type} (n : Node F) (l : List (Node F)) :
    childIndexList (n :: l) = n.childIndices ++ childIndexList l := by
  simp [childIndexList]

theorem childIndexList_append {F : Type} (l₁ l₂ : List (Node F)) :
    childIndexList (l₁ ++ l₂) = childIndexList l₁ ++ childIndexList l₂ := by
  simp [childIndexList]

mutual
/-- The child lists of the layout of a tree placed at `base` hold every index of the tree
except the root index, each once. -/
theorem childIndexList_layout_perm {F : Type} [Add F] [Mul F] (t : aiNode F) (w : f32m4 F)
    (base : Nat) :
    (childIndexList (layout t w base)).Perm (List.range' (base + 1) (t.size - 1)) := by
  match t with
  | .mk T ms cs =>
      simp only [layout, aiNode.size, childIndexList_cons, Nat.add_sub_cancel_left]
      exact childIndexList_layoutChildren_perm cs _ (base + 1)
/-- The start indices of sibling subtrees together with the child lists inside them hold
every index of the siblings, each once. -/
theorem childIndexList_layoutChildren_perm {F : Type} [Add F] [Mul F] (cs : List (aiNode F))
    (w : f32m4 F) (b : Nat) :
    (offsets (aiNode.sizes cs) b ++ childIndexList (layoutChildren cs w b)).Perm
      (List.range' b (aiNode.sizeList cs)) := by
  match cs with
  | [] => simp [aiNode.sizes, offsets, layoutChildren, childIndexList, aiNode.sizeList]
  | c :: rest =>
      have h1 := childIndexList_layout_perm c w b
      have h2 := childIndexList_layoutChildren_perm rest w (b + c.size)
      have hpos := aiNode.size_pos c
      simp only [aiNode.sizes, offsets, layoutChildren, aiNode.sizeList,
        childIndexList_append, List.cons_append]
      have hhead : List.range' b c.size = b :: List.range' (b + 1) (c.size - 1) := by
        obtain ⟨n, hn⟩ : ∃ n, c.size = n + 1 := ⟨c.size - 1, by omega⟩
        rw [hn, List.range'_succ]
        simp
      rw [Nat.add_comm c.size, ← List.range'_append_1, hhead, List.cons_append]
      refine List.Perm.cons _ ?_
      refine List.Perm.trans ?_ (List.Perm.append h1 h2)
      rw [← List.append_assoc, ← List.append_assoc]
      exact List.Perm.append_right _ List.perm_append_comm
end

theorem offsets_ge (cs : List Nat) : ∀ (s a : Nat), a ∈ offsets cs s → s ≤ a := by
  induction cs with
  | nil => intro s a h; simp [offsets] at h
  | cons c cs ih =>
      intro s a h
      simp only [offsets, List.mem_cons] at h
      rcases h with h | h
      · omega
      · have := ih (s + c) a h
        omega

/-- A start index of a sibling subtree lies strictly below the end of the siblings. -/
theorem offsets_sizes_lt {F : Type} (cs : List (aiNode F)) : ∀ (s a : Nat),
    a ∈ offsets (aiNode.sizes cs) s → a < s + aiNode.sizeList cs := by
  induction cs with
  | nil => intro s a h; simp [aiNode.sizes, offsets] at h
  | cons c cs ih =>
      intro s a h
      have hpos := aiNode.size_pos c
      simp only [aiNode.sizes, offsets, List.mem_cons, aiNode.sizeList] at h ⊢
      rcases h with h | h
      · omega
      · have := ih (s + c.size) a h
        omega

mutual
/-- Every child index stored in the layout of a tree is greater than the index of the node
that stores it and lies inside the tree. -/
theorem layout_child_bounds {F : Type} [Add F] [Mul F] (t : aiNode F) (w : f32m4 F)
    (base q : Nat) (n : Node F) (hq : (layout t w base)[q]? = some n) (c : Nat)
    (hc : c ∈ n.childIndices) : base + q < c ∧ c < base + t.size := by
  match t with
  | .mk T ms cs =>
      simp only [layout] at hq
      simp only [aiNode.size]
      cases q with
      | zero =>
          simp only [List.getElem?_cons_zero, Option.some.injEq] at hq
          subst hq
          simp only at hc
          have h1 := offsets_ge _ _ _ hc
          have h2 := offsets_sizes_lt cs _ _ hc
          omega
      | succ q =>
          simp only [List.getElem?_cons_succ] at hq
          have := layoutChildren_child_bounds cs _ (base + 1) q n hq c hc
          omega
theorem layoutChildren_child_bounds {F : Type} [Add F] [Mul F] (cs : List (aiNode F))
    (w : f32m4 F) (b q : Nat) (n : Node F) (hq : (layoutChildren cs w b)[q]? = some n)
    (c : Nat) (hc : c ∈ n.childIndices) : b + q < c ∧ c < b + aiNode.sizeList cs := by
  match cs with
  | [] => simp [layoutChildren] at hq
  | c0 :: rest =>
      simp only [layoutChildren] at hq
      simp only [aiNode.sizeList]
      by_cases hlt : q < c0.size
      · rw [List.getElem?_append_left (by rw [length_layout]; exact hlt)] at hq
        have := layout_child_bounds c0 w b q n hq c hc
        omega
      · rw [List.getElem?_append_right (by rw [length_layout]; omega), length_layout] at hq
        have := layoutChildren_child_bounds rest w (b + c0.size) (q - c0.size) n hq c hc
        omega
end

/-! ## World transformations in the layout -/

mutual
/-- In the layout of a tree below a parent with world transformation `w`, the root has
world transformation `w` times its own transformation, and every child listed by a node
has the world transformation of that node times its own transformation. -/
theorem layout_world {F : Type} [Add F] [Mul F] (t : aiNode F) (w : f32m4 F) (base : Nat) :
    (∃ n0, (layout t w base)[0]? = some n0 ∧
      n0.worldSpaceTransformation = w * n0.transformation) ∧
    ∀ (q : Nat) (n : Node F) (c : Nat) (nc : Node F), (layout t w base)[q]? = some n →
      c ∈ n.childIndices → (layout t w base)[c - base]? = some nc →
      nc.worldSpaceTransformation = n.worldSpaceTransformation * nc.transformation := by
  match t with
  | .mk T ms cs =>
      obtain ⟨ha, hb⟩ := layoutChildren_world cs (w * aiMatrix4x4ToGlm T) (base + 1)
      refine ⟨⟨_, by simp only [layout, List.getElem?_cons_zero]; rfl, rfl⟩, ?_⟩
      intro q n c nc hq hc hnc
      simp only [layout] at hq hnc
      cases q with
      | zero =>
          simp only [List.getElem?_cons_zero, Option.some.injEq] at hq
          subst hq
          simp only at hc ⊢
          have hge := offsets_ge _ _ _ hc
          obtain ⟨n0, hn0, hw⟩ := ha c hc
          obtain ⟨d, hd⟩ : ∃ d, c - base = d + 1 := ⟨c - base - 1, by omega⟩
          rw [hd, List.getElem?_cons_succ] at hnc
          have hd' : d = c - (base + 1) := by omega
          rw [hd', hn0] at hnc
          cases hnc
          exact hw
      | succ q =>
          simp only [List.getElem?_cons_succ] at hq
          have hbd := layoutChildren_child_bounds cs _ (base + 1) q n hq c hc
          obtain ⟨d, hd⟩ : ∃ d, c - base = d + 1 := ⟨c - base - 1, by omega⟩
          rw [hd, List.getElem?_cons_succ] at hnc
          have hd' : d = c - (base + 1) := by omega
          rw [hd'] at hnc
          exact hb q n c nc hq hc hnc
/-- The same for a list of sibling subtrees below a parent with world transformation
`w`. -/
theorem layoutChildren_world {F : Type} [Add F] [Mul F] (cs : List (aiNode F)) (w : f32m4 F)
    (b : Nat) :
    (∀ a, a ∈ offsets (aiNode.sizes cs) b → ∃ n0, (layoutChildren cs w b)[a - b]? = some n0 ∧
      n0.worldSpaceTransformation = w * n0.transformation) ∧
    ∀ (q : Nat) (n : Node F) (c : Nat) (nc : Node F), (layoutChildren cs w b)[q]? = some n →
      c ∈ n.childIndices → (layoutChildren cs w b)[c - b]? = some nc →
      nc.worldSpaceTransformation = n.worldSpaceTransformation * nc.transformation := by
  match cs with
  | [] =>
      refine ⟨?_, ?_⟩
      · intro a ha; simp [aiNode.sizes, offsets] at ha
      · intro q n c nc hq; simp [layoutChildren] at hq
  | c0 :: rest =>
      obtain ⟨⟨r0, hr0, hrw⟩, h0b⟩ := layout_world c0 w b
      obtain ⟨hra, hrb⟩ := layoutChildren_world rest w (b + c0.size)
      have hpos := aiNode.size_pos c0
      refine ⟨?_, ?_⟩
      · intro a ha
        simp only [aiNode.sizes, offsets, List.mem_cons] at ha
        simp only [layoutChildren]
        rcases ha with ha | ha
        · subst ha
          rw [Nat.sub_self, List.getElem?_append_left (by rw [length_layout]; exact hpos)]
          exact ⟨r0, hr0, hrw⟩
        · have hge := offsets_ge _ _ _ ha
          rw [List.getElem?_append_right (by rw [length_layout]; omega), length_layout]
          have : a - b - c0.size = a - (b + c0.size) := by omega
          rw [this]
          exact hra a ha
      · intro q n c nc hq hc hnc
        simp only [layoutChildren] at hq hnc
        by_cases hlt : q < c0.size
        · rw [List.getElem?_append_left (by rw [length_layout]; exact hlt)] at hq
          have hbd := layout_child_bounds c0 w b q n hq c hc
          rw [List.getElem?_append_left (by rw [length_layout]; omega)] at hnc
          exact h0b q n c nc hq hc hnc
        · rw [List.getElem?_append_right (by rw [length_layout]; omega), length_layout] at hq
          have hbd := layoutChildren_child_bounds rest w (b + c0.size) (q - c0.size) n hq c hc
          rw [List.getElem?_append_right (by rw [length_layout]; omega), length_layout] at hnc
          have : c - b - c0.size = c - (b + c0.size) := by omega
          rw [this] at hnc
          exact hrb (q - c0.size) n c nc hq hc hnc
end

/-! ## C3 and C4: world transformations and tree shape of the node array -/

/-- When the source tree has at most `2 ^ 32` nodes, the node array built from a fresh
scene is the layout of the tree at index 0. -/
theorem createNodes_fresh {F : Type} [Add F] [Mul F] (t : aiNode F) (w : f32m4 F)
    (h : t.size ≤ 2 ^ 32) : (createNodes [] t w).1 = layout t w 0 := by
  rw [createNodes_eq_layout [] t w (by simpa using h)]
  simp

theorem mem_childIndexList {F : Type} {nodes : List (Node F)} {i : Nat} :
    i ∈ childIndexList nodes ↔ ∃ (p : Nat) (np : Node F), nodes[p]? = some np ∧
      i ∈ np.childIndices := by
  simp only [childIndexList, List.mem_flatMap]
  constructor
  · rintro ⟨n, hn, hi⟩
    obtain ⟨p, hp⟩ := List.mem_iff_getElem?.mp hn
    exact ⟨p, n, hp, hi⟩
  · rintro ⟨p, np, hp, hi⟩
    exact ⟨np, List.mem_iff_getElem?.mpr ⟨p, hp⟩, hi⟩

/-- The layout of a tree at index 0 satisfies the world-transformation relation. -/
theorem layout_worldTransformsCompose {F : Type} [Add F] [Mul F] [Zero F] [One F]
    (t : aiNode F) : WorldTransformsCompose (layout t glm.identity 0) := by
  obtain ⟨hroot, hlink⟩ := layout_world t (glm.identity : f32m4 F) 0
  refine ⟨hroot, ?_, ?_⟩
  · intro i h0 hi
    rw [length_layout] at hi
    have hperm := childIndexList_layout_perm t (glm.identity : f32m4 F) 0
    have : i ∈ childIndexList (layout t (glm.identity : f32m4 F) 0) := by
      rw [hperm.mem_iff, List.mem_range'_1]
      omega
    exact mem_childIndexList.mp this
  · intro p np c nc hp hc hnc
    exact hlink p np c nc hp hc (by simpa using hnc)

/-- The layout of a tree at index 0 has child lists that form a tree, with children after
their parents. -/
theorem layout_childListsFormTree {F : Type} [Add F] [Mul F] (t : aiNode F) (w : f32m4 F) :
    ChildListsFormTree (layout t w 0) ∧ ChildrenAfterParents (layout t w 0) := by
  have hperm := childIndexList_layout_perm t w 0
  have hpos := aiNode.size_pos t
  refine ⟨⟨?_, ?_, ?_⟩, ?_⟩
  · intro n hn c hc
    obtain ⟨q, hq⟩ := List.mem_iff_getElem?.mp hn
    have := layout_child_bounds t w 0 q n hq c hc
    rw [length_layout]
    omega
  · rw [hperm.mem_iff, List.mem_range'_1]
    omega
  · intro i h0 hi
    rw [length_layout] at hi
    rw [hperm.count_eq]
    exact List.count_eq_one_of_mem (List.nodup_range' _ _) (by rw [List.mem_range'_1]; omega)
  · intro p np hp c hc
    have := layout_child_bounds t w 0 p np hp c hc
    omega

/-- C3 (amended): for a source tree with at most `2 ^ 32` nodes, in the node array that
`createNodes` builds from the identity the root has world transformation identity times
its transformation, every other node is the child of some node, and every child has the
world transformation of its parent times its own transformation. -/
theorem C3_world_transform_composes {F : Type} [Add F] [Mul F] [Zero F] [One F]
    (t : aiNode F) (h : t.size ≤ 2 ^ 32) :
    WorldTransformsCompose (createNodes [] t glm.identity).1 := by
  rw [createNodes_fresh t _ h]
  exact layout_worldTransformsCompose t

/-- C3, witness: a tree with four nodes. -/
theorem C3_world_transform_composes_witness :
    smallTree.size ≤ 2 ^ 32 ∧
    WorldTransformsCompose (createNodes [] smallTree glm.identity).1 :=
  ⟨by decide, C3_world_transform_composes smallTree (by decide)⟩

/-- C4 (amended): for a source tree with at most `2 ^ 32` nodes, the node array built by
`createNodes` is a tree rooted at index 0: every child index is a valid index, index 0 is
in no child list, every other index occurs exactly once over all child lists, and every
child index is greater than the index of its parent. -/
theorem C4_nodes_form_tree {F : Type} [Add F] [Mul F] (t : aiNode F) (w : f32m4 F)
    (h : t.size ≤ 2 ^ 32) :
    ChildListsFormTree (createNodes [] t w).1 ∧ ChildrenAfterParents (createNodes [] t w).1 := by
  rw [createNodes_fresh t w h]
  exact layout_childListsFormTree t w

/-- C4, witness: a tree with four nodes. -/
theorem C4_nodes_form_tree_witness :
    smallTree.size ≤ 2 ^ 32 ∧
    ChildListsFormTree (createNodes [] smallTree glm.identity).1 ∧
    ChildrenAfterParents (createNodes [] smallTree glm.identity).1 :=
  ⟨by decide, C4_nodes_form_tree smallTree glm.identity (by decide)⟩

theorem createNodes_leaf (nodes : List (Node Int)) (w : f32m4 Int) :
    createNodes nodes leafNode w = (nodes ++ [leafNodeOut w], ui32 nodes.length) := by
  simp [leafNode, createNodes, createNodesChildren, leafNodeOut]

/-- The child loop over `n` leaf children: the leaves are appended and the parent receives
the narrowed positions of the leaves as child indices. -/
theorem createNodesChildren_leaves (n : Nat) : ∀ (nodes : List (Node Int)) (idx : Nat)
    (w : f32m4 Int), idx < nodes.length →
    createNodesChildren nodes (List.replicate n leafNode) idx w
      = nodes.modify (fun nd => { nd with
          childIndices := nd.childIndices
            ++ (List.range n).map (fun j => ui32 (nodes.length + j)) }) idx
        ++ List.replicate n (leafNodeOut w) := by
  induction n with
  | zero =>
      intro nodes idx w _
      simp only [List.replicate_zero, createNodesChildren, List.range_zero, List.map_nil,
        List.append_nil]
      exact (List.modify_id idx nodes).symm
  | succ n ih =>
      intro nodes idx w hidx
      rw [List.replicate_succ, createNodesChildren, createNodes_leaf]
      simp only []
      rw [modify_append_left _ _ _ _ hidx, ih _ idx w (by simpa using Nat.lt_add_right _ hidx)]
      simp only [List.length_append, List.length_modify, List.length_singleton]
      rw [modify_append_left _ _ _ _ (by simpa using hidx), List.modify_modify_eq,
        addChild_comp, List.append_assoc, List.singleton_append, List.range_succ_eq_map]
      simp only [List.map_cons, List.map_map, Nat.add_zero]
      congr 3
      funext nd
      congr 3
      apply List.map_congr_left
      intro j _
      simp only [Function.comp, Nat.succ_eq_add_one]
      congr 1
      omega

/-- The node array of `wideTree n`: the root, its child, and the leaves. The child list
of the second node holds the narrowed positions `2, 3, ...` of the leaves. -/
theorem wideTree_nodes (n : Nat) :
    (createNodes [] (wideTree n) glm.identity).1
      = [{ transformation := aiMatrix4x4ToGlm (aiScaling 2)
           worldSpaceTransformation := glm.identity * aiMatrix4x4ToGlm (aiScaling 2)
           meshIndices := []
           childIndices := [1] },
         { transformation := aiMatrix4x4ToGlm (aiScaling 1)
           worldSpaceTransformation :=
             glm.identity * aiMatrix4x4ToGlm (aiScaling 2) * aiMatrix4x4ToGlm (aiScaling 1)
           meshIndices := []
           childIndices := (List.range n).map (fun j => ui32 (2 + j)) }]
        ++ List.replicate n
            (leafNodeOut
              (glm.identity * aiMatrix4x4ToGlm (aiScaling 2) * aiMatrix4x4ToGlm (aiScaling 1))) := by
  have h0 : ui32 (0 + 1 - 1) = 0 := by decide
  have h1 : ui32 (1 + 1 - 1) = 1 := by decide
  simp only [wideTree, createNodes, createNodesChildren, List.nil_append, List.length_nil,
    List.length_singleton, List.singleton_append, h0, h1]
  rw [createNodesChildren_leaves n _ 1 _ (by simp)]
  simp [Node.addChild]

/-- With more than `2 ^ 32 - 2` leaves, one leaf of `wideTree` receives the index 0. -/
theorem zero_mem_wideTree_children (n : Nat) (h : 2 ^ 32 - 2 < n) :
    0 ∈ (List.range n).map (fun j => ui32 (2 + j)) :=
  List.mem_map.mpr ⟨2 ^ 32 - 2, List.mem_range.mpr h, by decide⟩

theorem hugeChildCount_gt : 2 ^ 32 - 2 < hugeChildCount := by
  unfold hugeChildCount
  decide

/-- C3, counterexample: in the node array of `hugeTree` the leaf at position `2 ^ 32`
receives the index 0, so the second node lists node 0 as a child, and the world
transformation of node 0 is not that of the second node times its own transformation. -/
theorem C3_counterexample :
    ¬ WorldTransformsCompose (createNodes [] hugeTree glm.identity).1 := by
  unfold hugeTree
  have hn := hugeChildCount_gt
  generalize hugeChildCount = n at hn ⊢
  rw [wideTree_nodes]
  intro h
  have h2 := h.2.2 1 _ 0 _ (List.getElem?_cons_succ.trans List.getElem?_cons_zero)
    (zero_mem_wideTree_children n hn) List.getElem?_cons_zero
  dsimp only at h2
  revert h2
  decide

/-- C4, counterexample: in the node array of `hugeTree` index 0 occurs in the child list
of the second node. -/
theorem C4_counterexample :
    ¬ ChildListsFormTree (createNodes [] hugeTree glm.identity).1 := by
  unfold hugeTree
  have hn := hugeChildCount_gt
  generalize hugeChildCount = n at hn ⊢
  rw [wideTree_nodes]
  intro h
  apply h.2.1
  rw [List.cons_append, List.cons_append, childIndexList_cons, childIndexList_cons]
  simp only [List.mem_append]
  exact Or.inr (Or.inl (zero_mem_wideTree_children n hn))

/-! ## The texture map -/

theorem foldl_flatMap {α β γ : Type} (f : γ → β → γ) (g : α → List β) (l : List α) :
    ∀ (init : γ), (l.flatMap g).foldl f init = l.foldl (fun acc a => (g a).foldl f acc) init := by
  induction l with
  | nil => intro init; rfl
  | cons a l ih => intro init; simp [List.flatMap_cons, List.foldl_append, ih]

/-- The three nested loops of `textureFilenameToIndex` are one loop over the scan order. -/
theorem textureFilenameToIndex_eq_foldl {F : Type} (ms : List (aiMaterial F)) :
    textureFilenameToIndex ms
      = ((scanOrder ms).foldl scanPath { map := [], textureIdx := 3 }).map := by
  unfold textureFilenameToIndex scanOrder
  rw [foldl_flatMap]
  congr 2
  funext st material
  rw [foldl_flatMap]

theorem lookup_eq_none_iff_not_mem (m : List (String × Nat)) (p : String) :
    m.lookup p = none ↔ p ∉ m.map Prod.fst := by
  rw [List.lookup_eq_none_iff]
  simp only [List.mem_map, not_exists, not_and, bne_iff_ne, ne_eq]
  constructor
  · intro h e he heq
    exact h e he heq.symm
  · intro h e he heq
    exact h e he heq.symm

theorem ui32_ui32_succ (i : Nat) : ui32 (ui32 i + 1) = ui32 (i + 1) := by
  unfold ui32
  omega

/-- The scan loop, from any state whose counter is the narrowing of `i`: the paths not yet
keys are appended in first-seen order with consecutive 32-bit slots. -/
theorem foldl_scanPath (paths : List String) : ∀ (m : List (String × Nat)) (i : Nat),
    paths.foldl scanPath { map := m, textureIdx := ui32 i }
      = { map := m ++ assignSlots i (firstSeen (m.map Prod.fst) paths)
          textureIdx := ui32 (i + (firstSeen (m.map Prod.fst) paths).length) } := by
  induction paths with
  | nil => intro m i; simp [firstSeen, assignSlots]
  | cons p rest ih =>
      intro m i
      simp only [List.foldl_cons, firstSeen]
      by_cases hp : p ∈ m.map Prod.fst
      · have hl : ∃ v, m.lookup p = some v := by
          cases h : m.lookup p with
          | none => exact absurd hp ((lookup_eq_none_iff_not_mem m p).mp h)
          | some v => exact ⟨v, rfl⟩
        obtain ⟨v, hv⟩ := hl
        have hstep : scanPath { map := m, textureIdx := ui32 i } p
            = { map := m, textureIdx := ui32 i } := by
          simp [scanPath, hv]
        rw [hstep, ih m i, if_pos hp]
      · have hl : m.lookup p = none := (lookup_eq_none_iff_not_mem m p).mpr hp
        have hstep : scanPath { map := m, textureIdx := ui32 i } p
            = { map := m ++ [(p, ui32 i)], textureIdx := ui32 (i + 1) } := by
          simp [scanPath, hl, ui32_ui32_succ]
        rw [hstep, ih (m ++ [(p, ui32 i)]) (i + 1), if_neg hp]
        simp only [List.map_append, List.map_cons, List.map_nil, assignSlots,
          List.append_assoc, List.singleton_append, List.length_cons]
        congr 2
        omega

/-- Closed form of the texture map: the distinct paths of the scan order, in first-seen
order, with consecutive 32-bit slots counted from 3. -/
theorem textureFilenameToIndex_eq_assignSlots {F : Type} (ms : List (aiMaterial F)) :
    textureFilenameToIndex ms = assignSlots 3 (firstSeen [] (scanOrder ms)) := by
  rw [textureFilenameToIndex_eq_foldl]
  have h := foldl_scanPath (scanOrder ms) [] 3
  have h3 : ui32 3 = 3 := by decide
  rw [h3] at h
  rw [h]
  simp

theorem firstSeen_spec (l : List String) : ∀ (seen : List String),
    (firstSeen seen l).Nodup ∧ ∀ p ∈ firstSeen seen l, p ∉ seen ∧ p ∈ l := by
  induction l with
  | nil => intro seen; simp [firstSeen]
  | cons a l ih =>
      intro seen
      simp only [firstSeen]
      by_cases ha : a ∈ seen
      · rw [if_pos ha]
        obtain ⟨h1, h2⟩ := ih seen
        exact ⟨h1, fun p hp => ⟨(h2 p hp).1, List.mem_cons_of_mem _ (h2 p hp).2⟩⟩
      · rw [if_neg ha]
        obtain ⟨h1, h2⟩ := ih (seen ++ [a])
        refine ⟨List.nodup_cons.mpr ⟨?_, h1⟩, ?_⟩
        · intro hmem
          exact (h2 a hmem).1 (by simp)
        · intro p hp
          rcases List.mem_cons.mp hp with rfl | hp
          · exact ⟨ha, List.mem_cons_self _ _⟩
          · have := h2 p hp
            exact ⟨fun hs => this.1 (List.mem_append_left _ hs), List.mem_cons_of_mem _ this.2⟩

theorem map_fst_assignSlots (D : List String) : ∀ (i : Nat),
    (assignSlots i D).map Prod.fst = D := by
  induction D with
  | nil => intro i; rfl
  | cons p D ih => intro i; simp [assignSlots, ih]

theorem length_assignSlots (D : List String) (i : Nat) : (assignSlots i D).length = D.length := by
  have := congrArg List.length (map_fst_assignSlots D i)
  simpa using this

theorem map_snd_assignSlots (D : List String) : ∀ (i : Nat),
    (assignSlots i D).map Prod.snd = (List.range' i D.length).map ui32 := by
  induction D with
  | nil => intro i; rfl
  | cons p D ih => intro i; simp [assignSlots, ih, List.range'_succ]

/-- In the slots of a list of distinct paths, the path at position `k` has slot
`ui32 (i + k)`. -/
theorem lookup_assignSlots (D : List String) : ∀ (i k : Nat) (p : String), D.Nodup →
    D[k]? = some p → (assignSlots i D).lookup p = some (ui32 (i + k)) := by
  induction D with
  | nil => intro i k p _ h; simp at h
  | cons a D ih =>
      intro i k p hnd h
      cases k with
      | zero =>
          simp at h; subst h
          simp [assignSlots]
      | succ k =>
          simp only [List.getElem?_cons_succ] at h
          have hpa : p ≠ a := by
            rintro rfl
            exact (List.nodup_cons.mp hnd).1 (List.mem_iff_getElem?.mpr ⟨k, h⟩)
          have hb : (p == a) = false := by simpa using hpa
          simp only [assignSlots, List.lookup_cons, hb]
          rw [ih (i + 1) k p (List.nodup_cons.mp hnd).2 h]
          congr 2
          omega

/-- Every entry of the slots of a list of paths sits at some position `k` and has slot
`ui32 (i + k)`. -/
theorem lookup_assignSlots_some (D : List String) : ∀ (i : Nat) (p : String) (s : Nat),
    (assignSlots i D).lookup p = some s → ∃ k, D[k]? = some p ∧ s = ui32 (i + k) := by
  induction D with
  | nil => intro i p s h; simp [assignSlots] at h
  | cons a D ih =>
      intro i p s h
      simp only [assignSlots, List.lookup_cons] at h
      by_cases hpa : p = a
      · subst hpa
        simp at h
        exact ⟨0, by simp, by simpa using h.symm⟩
      · have hb : (p == a) = false := by simpa using hpa
        simp only [hb] at h
        obtain ⟨k, hk, hs⟩ := ih (i + 1) p s h
        exact ⟨k + 1, by simpa using hk, by rw [hs]; congr 1; omega⟩

/-- Without 32-bit overflow the texture map assigns the slots `3, 4, ...` in first-seen
order. -/
theorem firstSeenSlots_of_bound {F : Type} (ms : List (aiMaterial F))
    (h : (firstSeen [] (scanOrder ms)).length + 3 ≤ 2 ^ 32) :
    FirstSeenSlots (textureFilenameToIndex ms) (scanOrder ms) := by
  rw [textureFilenameToIndex_eq_assignSlots]
  have hnd := (firstSeen_spec (scanOrder ms) []).1
  unfold FirstSeenSlots
  generalize firstSeen [] (scanOrder ms) = D at h hnd ⊢
  have hlt : ∀ (k : Nat) (p : String), D[k]? = some p → ui32 (3 + k) = 3 + k := by
    intro k p hk
    have := (List.getElem?_eq_some_iff.mp hk).1
    exact ui32_of_lt (by omega)
  refine ⟨map_fst_assignSlots D 3, ?_, ?_, ?_, ?_⟩
  · intro k p hk
    rw [lookup_assignSlots D 3 k p hnd hk, hlt k p hk]
  · rw [map_snd_assignSlots, length_assignSlots]
    have : ∀ a ∈ List.range' 3 D.length, ui32 a = id a := by
      intro a ha
      rw [List.mem_range'_1] at ha
      exact ui32_of_lt (by omega)
    rw [List.map_congr_left this, List.map_id]
  · intro p q s hp hq
    obtain ⟨k1, hk1, hs1⟩ := lookup_assignSlots_some D 3 p s hp
    obtain ⟨k2, hk2, hs2⟩ := lookup_assignSlots_some D 3 q s hq
    rw [hlt k1 p hk1] at hs1
    rw [hlt k2 q hk2] at hs2
    have : k1 = k2 := by omega
    subst this
    rw [hk1] at hk2
    exact Option.some.inj hk2
  · intro p s hp
    obtain ⟨k, hk, hs⟩ := lookup_assignSlots_some D 3 p s hp
    rw [hlt k p hk] at hs
    omega

theorem firstSeen_of_nodup (l : List String) : ∀ (seen : List String), l.Nodup →
    (∀ p ∈ l, p ∉ seen) → firstSeen seen l = l := by
  induction l with
  | nil => intro seen _ _; rfl
  | cons a l ih =>
      intro seen hnd hdis
      simp only [firstSeen]
      rw [if_neg (hdis a (List.mem_cons_self _ _))]
      congr 1
      apply ih _ (List.nodup_cons.mp hnd).2
      intro p hp hmem
      rcases List.mem_append.mp hmem with h | h
      · exact hdis p (List.mem_cons_of_mem _ hp) h
      · simp only [List.mem_singleton] at h
        subst h
        exact (List.nodup_cons.mp hnd).1 hp

theorem nameOf_injective : Function.Injective nameOf := by
  intro j k h
  have := congrArg (fun s : String => s.data.length) h
  simpa [nameOf] using this

theorem manyNames_nodup (n : Nat) : (manyNames n).Nodup :=
  List.Nodup.map nameOf_injective (List.nodup_range n)

theorem scanOrder_manyTextures (n : Nat) :
    scanOrder [manyTexturesMaterial n] = manyNames n := by
  simp [scanOrder, manyTexturesMaterial, textureMaterial, aiTextureType_NONE,
    aiTextureType_UNKNOWN, aiTextureType_DIFFUSE, List.range'_succ]

/-- With more than `2 ^ 32 - 3` distinct paths the path number `2 ^ 32 - 3` is mapped to
slot 0. -/
theorem lookup_manyTextures (n : Nat) (h : 2 ^ 32 - 3 < n) :
    (textureFilenameToIndex [manyTexturesMaterial n]).lookup (nameOf (2 ^ 32 - 3)) = some 0 := by
  rw [textureFilenameToIndex_eq_assignSlots, scanOrder_manyTextures,
    firstSeen_of_nodup _ [] (manyNames_nodup n) (by simp),
    lookup_assignSlots (manyNames n) 3 (2 ^ 32 - 3) _ (manyNames_nodup n)
      (by rw [manyNames, List.getElem?_map, List.getElem?_range h]; rfl)]
  decide

/-! ## C5: slots of the texture map -/

/-- C5 (amended): when the number of distinct texture paths plus 3 is at most `2 ^ 32`,
`textureFilenameToIndex` assigns slots in first-seen order: the keys of the map are the
distinct paths in the order the scan meets them (materials by index, texture types
ascending, texture indices ascending), the k-th of them is mapped to slot `3 + k`, the
slots are exactly `3, ..., 3 + n - 1`, the map is injective and no slot is 0, 1 or 2. The
map is a function of the scan order, so two runs on the same scene give the same map. -/
theorem C5_first_seen_slots {F : Type} (ms : List (aiMaterial F))
    (h : (firstSeen [] (scanOrder ms)).length + 3 ≤ 2 ^ 32) :
    FirstSeenSlots (textureFilenameToIndex ms) (scanOrder ms) :=
  firstSeenSlots_of_bound ms h

/-- C5, witness: two materials that share texture files. -/
theorem C5_first_seen_slots_witness :
    (firstSeen [] (scanOrder [materialAB, materialBC])).length + 3 ≤ 2 ^ 32 ∧
    FirstSeenSlots (textureFilenameToIndex [materialAB, materialBC])
      (scanOrder [materialAB, materialBC]) :=
  ⟨by decide, C5_first_seen_slots [materialAB, materialBC] (by decide)⟩

/-- C5, counterexample: for a material with `2 ^ 32 - 2` distinct diffuse textures the
slot counter wraps, and the path number `2 ^ 32 - 3` is mapped to slot 0. -/
theorem C5_counterexample :
    ¬ FirstSeenSlots (textureFilenameToIndex [manyTexturesMaterial hugeNameCount])
      (scanOrder [manyTexturesMaterial hugeNameCount]) := by
  have hn : 2 ^ 32 - 3 < hugeNameCount := by unfold hugeNameCount; decide
  generalize hugeNameCount = n at hn ⊢
  intro h
  have := h.2.2.2.2 _ _ (lookup_manyTextures n hn)
  omega

/-! ## C6: textures are created once and shared by index -/

theorem length_setAt {α : Type} {l l' : List α} {i : Nat} {v : α} (h : setAt l i v = .ok l') :
    l'.length = l.length := by
  unfold setAt at h
  split at h
  · cases h; simp
  · cases h

theorem setAt_ok {α : Type} (l : List α) (i : Nat) (v : α) (h : i < l.length) :
    setAt l i v = .ok (l.set i v) := by
  simp [setAt, h]

/-- The file loop of `createTextures` when every file loads and every slot is in range
and used once: it succeeds, creates one texture per entry, stores each at its slot, and
leaves the other elements as they were. -/
theorem createFileTextures_ok (fileLoads : String → Bool) (parentPath : String)
    (entries : List (String × Nat)) : ∀ (gpu : List GpuEvent) (T : List Texture2DD3D12),
    (∀ e ∈ entries, fileLoads (texturePath parentPath e.1) = true ∧ e.2 < T.length) →
    (entries.map Prod.snd).Nodup →
    ∃ T', (createFileTextures fileLoads parentPath entries gpu T).result = .ok T' ∧
      T'.length = T.length ∧
      (createFileTextures fileLoads parentPath entries gpu T).gpu
        = gpu ++ entries.map
            (fun e => GpuEvent.createTexture (.fromFile (texturePath parentPath e.1))) ∧
      (∀ e ∈ entries, T'[e.2]? = some (.fromFile (texturePath parentPath e.1))) ∧
      ∀ (i : Nat), i ∉ entries.map Prod.snd → T'[i]? = T[i]? := by
  induction entries with
  | nil =>
      intro gpu T _ _
      exact ⟨T, rfl, rfl, by simp [createFileTextures], by simp, fun _ _ => rfl⟩
  | cons e rest ih =>
      intro gpu T hall hnd
      obtain ⟨hload, hlt⟩ := hall e (List.mem_cons_self _ _)
      simp only [List.map_cons, List.nodup_cons] at hnd
      have hset : setAt T e.2 (.fromFile (texturePath parentPath e.1))
          = .ok (T.set e.2 (.fromFile (texturePath parentPath e.1))) := setAt_ok _ _ _ hlt
      obtain ⟨T', h1, h2, h3, h4, h5⟩ := ih
        (gpu ++ [GpuEvent.createTexture (.fromFile (texturePath parentPath e.1))])
        (T.set e.2 (.fromFile (texturePath parentPath e.1)))
        (fun x hx => ⟨(hall x (List.mem_cons_of_mem _ hx)).1,
          by simpa using (hall x (List.mem_cons_of_mem _ hx)).2⟩) hnd.2
      refine ⟨T', ?_, ?_, ?_, ?_, ?_⟩
      · simp only [createFileTextures, hload, if_true, hset]
        exact h1
      · simpa using h2
      · simp only [createFileTextures, hload, if_true, hset]
        rw [h3]
        simp
      · intro x hx
        rcases List.mem_cons.mp hx with rfl | hx
        · rw [h5 _ hnd.1]
          simp [List.getElem?_set, hlt]
        · exact h4 x hx
      · intro i hi
        simp only [List.map_cons, List.mem_cons, not_or] at hi
        rw [h5 i hi.2]
        simp [List.getElem?_set, Ne.symm hi.1]

/-- The run of `createTextures` on a fresh texture array, for entries whose slots are
distinct and lie in `[3, entries.length + 3)`, when every file loads and the element
count fits in 32 bits. -/
theorem createTextures_ok (fileLoads : String → Bool) (parentPath : String)
    (entries : List (String × Nat)) (hn : entries.length + 3 < 2 ^ 32)
    (hload : ∀ e ∈ entries, fileLoads (texturePath parentPath e.1) = true)
    (hslot : ∀ e ∈ entries, 3 ≤ e.2 ∧ e.2 < entries.length + 3)
    (hnd : (entries.map Prod.snd).Nodup) :
    ∃ T', (createTextures fileLoads entries parentPath [] []).result = .ok T' ∧
      T'.length = entries.length + 3 ∧
      (createTextures fileLoads entries parentPath [] []).gpu
        = [GpuEvent.createTexture (.solid white 1 1),
            GpuEvent.createTexture (.solid black 1 1),
            GpuEvent.createTexture (.solid blue 1 1)]
          ++ entries.map
              (fun e => GpuEvent.createTexture (.fromFile (texturePath parentPath e.1))) ∧
      (∀ e ∈ entries, T'[e.2]? = some (.fromFile (texturePath parentPath e.1))) ∧
      T'[0]? = some (.solid white 1 1) ∧ T'[1]? = some (.solid black 1 1) ∧
      T'[2]? = some (.solid blue 1 1) := by
  have hsize : ui32 (entries.length + 3) = entries.length + 3 := ui32_of_lt hn
  obtain ⟨T0, hT0⟩ : ∃ T0 : List Texture2DD3D12,
      T0 = List.replicate entries.length Texture2DD3D12.unset := ⟨_, rfl⟩
  have hres : resize ([] : List Texture2DD3D12) (entries.length + 3) Texture2DD3D12.unset
      = .unset :: .unset :: .unset :: T0 := by
    simp [resize, hT0, List.replicate_succ]
  have hlen0 : T0.length = entries.length := by simp [hT0]
  obtain ⟨T', h1, h2, h3, h4, h5⟩ := createFileTextures_ok fileLoads parentPath entries
    ([] ++ [GpuEvent.createTexture (.solid white 1 1)]
      ++ [GpuEvent.createTexture (.solid black 1 1)]
      ++ [GpuEvent.createTexture (.solid blue 1 1)])
    (.solid white 1 1 :: .solid black 1 1 :: .solid blue 1 1 :: T0)
    (fun e he => ⟨hload e he, by simp [hlen0]; exact (hslot e he).2⟩) hnd
  have hnot : ∀ i, i < 3 → i ∉ entries.map Prod.snd := by
    intro i hi hmem
    obtain ⟨e, he, rfl⟩ := List.mem_map.mp hmem
    have := (hslot e he).1
    omega
  have hrun : createTextures fileLoads entries parentPath [] []
      = createFileTextures fileLoads parentPath entries
          ([] ++ [GpuEvent.createTexture (.solid white 1 1)]
            ++ [GpuEvent.createTexture (.solid black 1 1)]
            ++ [GpuEvent.createTexture (.solid blue 1 1)])
          (.solid white 1 1 :: .solid black 1 1 :: .solid blue 1 1 :: T0) := by
    simp [createTextures, hsize, hres, setAt]
  rw [hrun]
  refine ⟨T', h1, ?_, ?_, h4, ?_, ?_, ?_⟩
  · rw [h2]; simp [hlen0]
  · rw [h3]; simp
  · rw [h5 0 (hnot 0 (by omega))]; simp
  · rw [h5 1 (hnot 1 (by omega))]; simp
  · rw [h5 2 (hnot 2 (by omega))]; simp

/-- A successful run of the file loop stored every entry in range and left the elements
at other slots as they were. -/
theorem createFileTextures_inv (fileLoads : String → Bool) (parentPath : String)
    (entries : List (String × Nat)) : ∀ (gpu : List GpuEvent) (T T' : List Texture2DD3D12),
    (createFileTextures fileLoads parentPath entries gpu T).result = .ok T' →
    (∀ e ∈ entries, e.2 < T.length) ∧
    ∀ (i : Nat), i ∉ entries.map Prod.snd → T'[i]? = T[i]? := by
  induction entries with
  | nil =>
      intro gpu T T' h
      simp only [createFileTextures] at h
      cases h
      exact ⟨by simp, fun _ _ => rfl⟩
  | cons e rest ih =>
      intro gpu T T' h
      simp only [createFileTextures] at h
      split at h
      · split at h
        · cases h
        · next T1 hset =>
            have hlen := length_setAt hset
            have hlt : e.2 < T.length := by
              unfold setAt at hset
              split at hset
              · assumption
              · cases hset
            have hT1 : T1 = T.set e.2 (.fromFile (texturePath parentPath e.1)) := by
              rw [setAt_ok _ _ _ hlt] at hset
              cases hset
              rfl
            obtain ⟨h1, h2⟩ := ih _ T1 T' h
            refine ⟨?_, ?_⟩
            · intro x hx
              rcases List.mem_cons.mp hx with rfl | hx
              · exact hlt
              · rw [← hlen]; exact h1 x hx
            · intro i hi
              simp only [List.map_cons, List.mem_cons, not_or] at hi
              rw [h2 i hi.2, hT1]
              simp [List.getElem?_set, Ne.symm hi.1]
      · cases h

theorem length_resize_nil {α : Type} (n : Nat) (d : α) : (resize ([] : List α) n d).length = n := by
  simp [resize]

/-- A successful run of `createTextures` on a fresh texture array: the narrowed element
count is at least 3, every entry has its slot below it, and the first three elements are
the default textures unless an entry has their slot. -/
theorem createTextures_inv (fileLoads : String → Bool) (parentPath : String)
    (entries : List (String × Nat)) (gpu : List GpuEvent) (T' : List Texture2DD3D12)
    (h : (createTextures fileLoads entries parentPath gpu []).result = .ok T') :
    3 ≤ ui32 (entries.length + 3) ∧
    (∀ e ∈ entries, e.2 < ui32 (entries.length + 3)) ∧
    (0 ∉ entries.map Prod.snd → T'[0]? = some (.solid white 1 1)) ∧
    (1 ∉ entries.map Prod.snd → T'[1]? = some (.solid black 1 1)) ∧
    (2 ∉ entries.map Prod.snd → T'[2]? = some (.solid blue 1 1)) := by
  simp only [createTextures] at h
  generalize hsz : ui32 (entries.length + 3) = size at h ⊢
  have hlen := length_resize_nil size Texture2DD3D12.unset
  generalize resize ([] : List Texture2DD3D12) size Texture2DD3D12.unset = T0 at h hlen
  split at h
  · cases h
  · next T1 h1 =>
    split at h
    · cases h
    · next T2 h2 =>
      split at h
      · cases h
      · next T3 h3 =>
        have l1 := length_setAt h1
        have l2 := length_setAt h2
        have l3 := length_setAt h3
        have hlt2 : 2 < T2.length := by
          unfold setAt at h3
          split at h3
          · assumption
          · cases h3
        have e1 : T1 = T0.set 0 (.solid white 1 1) := by
          rw [setAt_ok _ _ _ (by omega)] at h1; cases h1; rfl
        have e2 : T2 = T1.set 1 (.solid black 1 1) := by
          rw [setAt_ok _ _ _ (by omega)] at h2; cases h2; rfl
        have e3 : T3 = T2.set 2 (.solid blue 1 1) := by
          rw [setAt_ok _ _ _ (by omega)] at h3; cases h3; rfl
        obtain ⟨f1, f2⟩ := createFileTextures_inv _ _ _ _ _ _ h
        have hT3 : T3.length = size := by rw [l3, l2, l1, hlen]
        have hT2 : T2.length = size := by rw [l2, l1, hlen]
        have hs3 : 3 ≤ size := by rw [← hT2]; exact hlt2
        refine ⟨hs3, ?_, ?_, ?_, ?_⟩
        · intro e he
          rw [← hT3]
          exact f1 e he
        · intro h0
          rw [f2 0 h0, e3, e2, e1]
          have : 0 < T0.length := by rw [hlen]; exact Nat.lt_of_lt_of_le (by decide) hs3
          simp [List.getElem?_set, this]
        · intro h0
          rw [f2 1 h0, e3, e2, e1]
          have : 1 < T0.length := by rw [hlen]; exact Nat.lt_of_lt_of_le (by decide) hs3
          simp [List.getElem?_set, this]
        · intro h0
          rw [f2 2 h0, e3, e2, e1]
          have : 2 < T0.length := by rw [hlen]; exact Nat.lt_of_lt_of_le (by decide) hs3
          simp [List.getElem?_set, this]

theorem mem_assignSlots (D : List String) : ∀ (i k : Nat) (p : String),
    D[k]? = some p → (p, ui32 (i + k)) ∈ assignSlots i D := by
  induction D with
  | nil => intro i k p h; simp at h
  | cons a D ih =>
      intro i k p h
      cases k with
      | zero => simp at h; subst h; simp [assignSlots]
      | succ k =>
          simp only [List.getElem?_cons_succ] at h
          have := ih (i + 1) k p h
          simp only [assignSlots, List.mem_cons]
          right
          have e : i + 1 + k = i + (k + 1) := by omega
          rw [e] at this
          exact this

theorem length_textureFilenameToIndex {F : Type} (ms : List (aiMaterial F)) :
    (textureFilenameToIndex ms).length = (firstSeen [] (scanOrder ms)).length := by
  rw [textureFilenameToIndex_eq_assignSlots, length_assignSlots]

theorem ui32_lt (n : Nat) : ui32 n < 2 ^ 32 := Nat.mod_lt _ (by decide)

/-- A run of `createTextures` over the entries of a texture map that succeeds did not
overflow: the number of keys plus 3 is below `2 ^ 32`. -/
theorem createTextures_ok_bound {F : Type} (ms : List (aiMaterial F))
    (fileLoads : String → Bool) (parentPath : String) (entries : List (String × Nat))
    (gpu : List GpuEvent) (T : List Texture2DD3D12)
    (hperm : entries.Perm (textureFilenameToIndex ms))
    (hrun : (createTextures fileLoads entries parentPath gpu []).result = .ok T) :
    (textureFilenameToIndex ms).length + 3 < 2 ^ 32 := by
  obtain ⟨h3, hslots, -⟩ := createTextures_inv fileLoads parentPath entries gpu T hrun
  rw [hperm.length_eq] at h3 hslots
  rw [length_textureFilenameToIndex] at h3 hslots ⊢
  by_contra hcon
  have hk : 2 ^ 32 - 4 < (firstSeen [] (scanOrder ms)).length := by omega
  have hmem := mem_assignSlots (firstSeen [] (scanOrder ms)) 3 (2 ^ 32 - 4) _
    (List.getElem?_eq_getElem hk)
  rw [← textureFilenameToIndex_eq_assignSlots] at hmem
  have := hslots _ (hperm.mem_iff.mpr hmem)
  have hlt := ui32_lt ((firstSeen [] (scanOrder ms)).length + 3)
  have hval : ui32 (3 + (2 ^ 32 - 4)) = 2 ^ 32 - 1 := by decide
  simp only [hval] at this
  omega

/-- Slots of the entries of a texture map that did not overflow. -/
theorem slots_of_bound {F : Type} (ms : List (aiMaterial F))
    (hn : (textureFilenameToIndex ms).length + 3 < 2 ^ 32) :
    ((textureFilenameToIndex ms).map Prod.snd).Nodup ∧
    ∀ e ∈ textureFilenameToIndex ms, 3 ≤ e.2 ∧ e.2 < (textureFilenameToIndex ms).length + 3 := by
  have hfs := firstSeenSlots_of_bound ms (by rw [← length_textureFilenameToIndex]; omega)
  have hsnd := hfs.2.2.1
  refine ⟨by rw [hsnd]; exact List.nodup_range' _ _, ?_⟩
  intro e he
  have : e.2 ∈ (textureFilenameToIndex ms).map Prod.snd := List.mem_map.mpr ⟨e, he, rfl⟩
  rw [hsnd, List.mem_range'_1] at this
  omega

/-- C6 (amended): when every registered texture file can be loaded and the number of
distinct texture paths plus 3 is below `2 ^ 32`, `createTextures`, in whatever order the
map yields its entries, creates exactly one file texture per key of the map after the
three default textures, the texture array has one element per key and three more, and
the slot of every key holds the texture of its file; and any two texture bindings whose
source texture has the same path bind the same index of the texture array. -/
theorem C6_textures_created_once {F : Type} (ms : List (aiMaterial F))
    (fileLoads : String → Bool) (parentPath : String) (entries : List (String × Nat))
    (hperm : entries.Perm (textureFilenameToIndex ms))
    (hn : (textureFilenameToIndex ms).length + 3 < 2 ^ 32)
    (hload : ∀ e ∈ textureFilenameToIndex ms, fileLoads (texturePath parentPath e.1) = true) :
    TexturesCreatedOnce parentPath (textureFilenameToIndex ms)
      (createTextures fileLoads entries parentPath [] []) ∧
    SharedByIndex (F := F) (textureFilenameToIndex ms) := by
  obtain ⟨hnd, hslot⟩ := slots_of_bound ms hn
  obtain ⟨T', h1, h2, h3, h4, -⟩ := createTextures_ok fileLoads parentPath entries
    (by rw [hperm.length_eq]; exact hn)
    (fun e he => hload e (hperm.mem_iff.mp he))
    (fun e he => by rw [hperm.length_eq]; exact hslot e (hperm.mem_iff.mp he))
    ((hperm.map Prod.snd).nodup_iff.mpr hnd)
  refine ⟨⟨T', _, h1, by rw [h2, hperm.length_eq], h3, hperm.map _, ?_⟩, ?_⟩
  · intro e he
    exact h4 e (hperm.mem_iff.mpr he)
  · intro m1 m2 t1 t2 o1 o2 path r1 r2 e1 e2
    simp [addTextureToDescriptorHeap, e1, e2]

/-- C6, witness: two materials that share texture files, every file loading. -/
theorem C6_textures_created_once_witness :
    (textureFilenameToIndex [materialAB, materialBC]).Perm
      (textureFilenameToIndex [materialAB, materialBC]) ∧
    (textureFilenameToIndex [materialAB, materialBC]).length + 3 < 2 ^ 32 ∧
    (∀ e ∈ textureFilenameToIndex [materialAB, materialBC],
      allFilesLoad (texturePath "scenes" e.1) = true) ∧
    TexturesCreatedOnce "scenes" (textureFilenameToIndex [materialAB, materialBC])
      (createTextures allFilesLoad (textureFilenameToIndex [materialAB, materialBC])
        "scenes" [] []) ∧
    SharedByIndex (F := Int) (textureFilenameToIndex [materialAB, materialBC]) :=
  ⟨List.Perm.refl _, by decide, fun _ _ => rfl,
    C6_textures_created_once [materialAB, materialBC] allFilesLoad "scenes" _
      (List.Perm.refl _) (by decide) (fun _ _ => rfl)⟩

/-- A run of `createTextures` whose narrowed element count is 0 fails at the first
checked access. -/
theorem createTextures_overflow (fileLoads : String → Bool) (parentPath : String)
    (entries : List (String × Nat)) (h : entries.length + 3 = 2 ^ 32) :
    (createTextures fileLoads entries parentPath [] []).result = .error .outOfRange := by
  have hz : ui32 (entries.length + 3) = 0 := by rw [h]; decide
  simp [createTextures, hz, resize, setAt]

theorem length_manyTextures (n : Nat) :
    (textureFilenameToIndex [manyTexturesMaterial n]).length = n := by
  rw [length_textureFilenameToIndex, scanOrder_manyTextures,
    firstSeen_of_nodup _ [] (manyNames_nodup n) (by simp)]
  simp [manyNames]

/-- C6, counterexample: when the texture file `scenes/a.png` of `materialAB` cannot be
loaded, `createTextures` stops with a failure after the default textures; and for a
material with `2 ^ 32 - 3` distinct textures the element count wraps to 0 and the first
checked access fails. -/
theorem C6_counterexample :
    ¬ TexturesCreatedOnce "scenes" (textureFilenameToIndex [materialAB])
      (createTextures noFileLoads (textureFilenameToIndex [materialAB]) "scenes" [] []) ∧
    ¬ TexturesCreatedOnce "scenes"
      (textureFilenameToIndex [manyTexturesMaterial hugeTextureCount])
      (createTextures allFilesLoad
        (textureFilenameToIndex [manyTexturesMaterial hugeTextureCount]) "scenes" [] []) := by
  constructor
  · rintro ⟨T, created, h, -⟩
    have hres : (createTextures noFileLoads (textureFilenameToIndex [materialAB])
        "scenes" [] []).result = .error (.textureLoadFailed "scenes/a.png") := by rfl
    rw [hres] at h
    cases h
  · rintro ⟨T, created, h, -⟩
    have hlen := length_manyTextures hugeTextureCount
    rw [createTextures_overflow _ _ _ (by rw [hlen]; unfold hugeTextureCount; decide)] at h
    cases h

/-! ## C8: default textures -/

/-- A material without a texture of a type binds the default index of the type. -/
theorem addTexture_default {F : Type} (aiTextureTypeValue : Nat) (offset : Int)
    (material : aiMaterial F) (map : List (String × Nat))
    (h : material.textures aiTextureTypeValue = []) :
    (addTextureToDescriptorHeap aiTextureTypeValue offset material map).textureIndex
      = getDefaultTextureIndexForTextureType aiTextureTypeValue := by
  simp [addTextureToDescriptorHeap, h]

/-- C8: when `createTextures`, run over the entries of the texture map in whatever order
the map yields them, has returned the texture array `T`, then for every material and each
of the five texture types of which the material has no texture, the heap write of
`addTextureToDescriptorHeap` binds a 1×1 default texture: ambient and emissive bind index
1, which holds the black texel `(0, 0, 0, 255)`, diffuse and specular bind index 0, which
holds the white texel `(255, 255, 255, 255)`, and height binds index 2, which holds the
blue texel `(0, 0, 255, 255)`. -/
theorem C8_default_textures {F : Type} (ms : List (aiMaterial F))
    (fileLoads : String → Bool) (parentPath : String) (entries : List (String × Nat))
    (gpu : List GpuEvent) (T : List Texture2DD3D12)
    (hperm : entries.Perm (textureFilenameToIndex ms))
    (hrun : (createTextures fileLoads entries parentPath gpu []).result = .ok T)
    (material : aiMaterial F) (offset : Int) :
    (material.textures aiTextureType_AMBIENT = [] →
      BindsDefault T (addTextureToDescriptorHeap aiTextureType_AMBIENT offset material
        (textureFilenameToIndex ms)) 1 black) ∧
    (material.textures aiTextureType_DIFFUSE = [] →
      BindsDefault T (addTextureToDescriptorHeap aiTextureType_DIFFUSE offset material
        (textureFilenameToIndex ms)) 0 white) ∧
    (material.textures aiTextureType_SPECULAR = [] →
      BindsDefault T (addTextureToDescriptorHeap aiTextureType_SPECULAR offset material
        (textureFilenameToIndex ms)) 0 white) ∧
    (material.textures aiTextureType_EMISSIVE = [] →
      BindsDefault T (addTextureToDescriptorHeap aiTextureType_EMISSIVE offset material
        (textureFilenameToIndex ms)) 1 black) ∧
    (material.textures aiTextureType_HEIGHT = [] →
      BindsDefault T (addTextureToDescriptorHeap aiTextureType_HEIGHT offset material
        (textureFilenameToIndex ms)) 2 blue) := by
  have hb := createTextures_ok_bound ms fileLoads parentPath entries gpu T hperm hrun
  obtain ⟨-, hslot⟩ := slots_of_bound ms hb
  have hnot : ∀ i, i < 3 → i ∉ entries.map Prod.snd := by
    intro i hi hmem
    obtain ⟨e, he, rfl⟩ := List.mem_map.mp hmem
    have := (hslot e (hperm.mem_iff.mp he)).1
    omega
  obtain ⟨-, -, t0, t1, t2⟩ := createTextures_inv fileLoads parentPath entries gpu T hrun
  have T0 := t0 (hnot 0 (by decide))
  have T1 := t1 (hnot 1 (by decide))
  have T2 := t2 (hnot 2 (by decide))
  refine ⟨?_, ?_, ?_, ?_, ?_⟩ <;> intro h
  · exact ⟨(addTexture_default _ offset material _ h).trans rfl, T1⟩
  · exact ⟨(addTexture_default _ offset material _ h).trans rfl, T0⟩
  · exact ⟨(addTexture_default _ offset material _ h).trans rfl, T0⟩
  · exact ⟨(addTexture_default _ offset material _ h).trans rfl, T1⟩
  · exact ⟨(addTexture_default _ offset material _ h).trans rfl, T2⟩

/-- C8, witness: the scene with the materials `materialAB` and `materialBC`; `materialBC`
has no specular, emissive and height texture, and `materialAB` no ambient one. -/
theorem C8_default_textures_witness :
    (textureFilenameToIndex [materialAB, materialBC]).Perm
      (textureFilenameToIndex [materialAB, materialBC]) ∧
    (createTextures allFilesLoad (textureFilenameToIndex [materialAB, materialBC])
      "scenes" [] []).result = .ok sampleTextures ∧
    materialBC.textures aiTextureType_SPECULAR = [] ∧
    BindsDefault sampleTextures (addTextureToDescriptorHeap aiTextureType_SPECULAR 4
      materialBC (textureFilenameToIndex [materialAB, materialBC])) 0 white :=
  ⟨List.Perm.refl _, rfl, rfl,
    (C8_default_textures [materialAB, materialBC] allFilesLoad "scenes" _ [] sampleTextures
      (List.Perm.refl _) rfl materialBC 4).2.2.1 rfl⟩

/-! ## C7: descriptor layout of the materials -/

theorem addTexture_fields {F : Type} (aiTextureTypeValue : Nat) (offset : Int)
    (material : aiMaterial F) (map : List (String × Nat)) :
    (addTextureToDescriptorHeap aiTextureTypeValue offset material map).aiTextureTypeValue
      = aiTextureTypeValue ∧
    (addTextureToDescriptorHeap aiTextureTypeValue offset material map).offsetInDescriptors
      = offset := by
  unfold addTextureToDescriptorHeap
  split <;> exact ⟨rfl, rfl⟩

theorem toI32_of_lt {n : Nat} (h : n < 2 ^ 31) : toI32 n = (n : Int) := by
  unfold toI32
  rw [if_pos h]

/-- One iteration of the material loop when the five slots stay below `2 ^ 31`. -/
theorem createMaterialsBody_layout {F : Type} [Zero F] [Add F] (uninit : F × F)
    (map : List (String × Nat)) (st : MaterialState F) (material : aiMaterial F)
    (h : st.descriptorIndex + 5 ≤ 2 ^ 31) :
    (createMaterialsBody uninit map st material).descriptorIndex = st.descriptorIndex + 5 ∧
    (createMaterialsBody uninit map st material).m_materials.map (fun x => x.m_descriptorIndex)
      = st.m_materials.map (fun x => x.m_descriptorIndex) ++ [st.descriptorIndex] ∧
    (createMaterialsBody uninit map st material).heapWrites.map
        (fun w => (w.aiTextureTypeValue, w.offsetInDescriptors))
      = st.heapWrites.map (fun w => (w.aiTextureTypeValue, w.offsetInDescriptors))
        ++ fiveSlots st.descriptorIndex := by
  have e1 : ui32 (st.descriptorIndex + 1) = st.descriptorIndex + 1 := ui32_of_lt (by omega)
  have e2 : ui32 (st.descriptorIndex + 1 + 1) = st.descriptorIndex + 2 := ui32_of_lt (by omega)
  have e3 : ui32 (st.descriptorIndex + 2 + 1) = st.descriptorIndex + 3 := ui32_of_lt (by omega)
  have e4 : ui32 (st.descriptorIndex + 3 + 1) = st.descriptorIndex + 4 := ui32_of_lt (by omega)
  have e5 : ui32 (st.descriptorIndex + 4 + 1) = st.descriptorIndex + 5 := ui32_of_lt (by omega)
  have i0 : toI32 st.descriptorIndex = (st.descriptorIndex : Int) := toI32_of_lt (by omega)
  have i1 : toI32 (st.descriptorIndex + 1) = (st.descriptorIndex : Int) + 1 := by
    rw [toI32_of_lt (by omega)]; push_cast; rfl
  have i2 : toI32 (st.descriptorIndex + 2) = (st.descriptorIndex : Int) + 2 := by
    rw [toI32_of_lt (by omega)]; push_cast; rfl
  have i3 : toI32 (st.descriptorIndex + 3) = (st.descriptorIndex : Int) + 3 := by
    rw [toI32_of_lt (by omega)]; push_cast; rfl
  have i4 : toI32 (st.descriptorIndex + 4) = (st.descriptorIndex : Int) + 4 := by
    rw [toI32_of_lt (by omega)]; push_cast; rfl
  simp only [createMaterialsBody, e1, e2, e3, e4, e5, i0, i1, i2, i3, i4, List.map_append,
    List.map_cons, List.map_nil, addTexture_fields, fiveSlots]
  exact ⟨trivial, trivial, trivial⟩

/-- The material loop from descriptor index `d`, when all slots stay below `2 ^ 31`. -/
theorem createMaterialsLoop_layout {F : Type} [Zero F] [Add F] (uninit : Nat → F × F)
    (map : List (String × Nat)) (ms : List (aiMaterial F)) :
    ∀ (i : Nat) (st : MaterialState F), st.descriptorIndex + 5 * ms.length ≤ 2 ^ 31 →
    (createMaterialsLoop uninit map i ms st).m_materials.map (fun x => x.m_descriptorIndex)
      = st.m_materials.map (fun x => x.m_descriptorIndex)
        ++ (List.range ms.length).map (fun k => st.descriptorIndex + 5 * k) ∧
    (createMaterialsLoop uninit map i ms st).heapWrites.map
        (fun w => (w.aiTextureTypeValue, w.offsetInDescriptors))
      = st.heapWrites.map (fun w => (w.aiTextureTypeValue, w.offsetInDescriptors))
        ++ (List.range ms.length).flatMap (fun k => fiveSlots (st.descriptorIndex + 5 * k)) := by
  induction ms with
  | nil => intro i st _; simp [createMaterialsLoop]
  | cons material rest ih =>
      intro i st h
      simp only [List.length_cons] at h
      obtain ⟨b1, b2, b3⟩ := createMaterialsBody_layout (uninit i) map st material (by omega)
      obtain ⟨h1, h2⟩ := ih (i + 1) (createMaterialsBody (uninit i) map st material)
        (by rw [b1]; omega)
      simp only [createMaterialsLoop]
      rw [h1, h2, b1, b2, b3, List.length_cons, List.range_succ_eq_map]
      simp only [List.map_cons, List.map_map, List.flatMap_cons, List.append_assoc,
        List.singleton_append, Nat.mul_zero, Nat.add_zero, List.flatMap_map]
      refine ⟨?_, ?_⟩
      · congr 2
        apply List.map_congr_left
        intro k _
        simp only [Function.comp, Nat.succ_eq_add_one]
        omega
      · congr 2
        apply List.flatMap_congr
        intro k _
        simp only [Function.comp, Nat.succ_eq_add_one]
        congr 1
        omega

theorem fiveSlots_snd (d : Nat) :
    (fiveSlots d).map Prod.snd = (List.range' d 5).map (fun (k : Nat) => (k : Int)) := by
  simp [fiveSlots, List.range'_succ]
  omega

/-- The slots of the first `m` materials are the consecutive slots from `d` on. -/
theorem flatMap_fiveSlots_snd (d : Nat) (m : Nat) :
    ((List.range m).flatMap (fun k => fiveSlots (d + 5 * k))).map Prod.snd
      = (List.range' d (5 * m)).map (fun (k : Nat) => (k : Int)) := by
  induction m with
  | zero => simp
  | succ m ih =>
      rw [List.range_succ, List.flatMap_append, List.map_append, ih]
      have : 5 * (m + 1) = 5 + 5 * m := by omega
      rw [this, ← List.range'_append_1, List.map_append]
      simp only [List.flatMap_cons, List.flatMap_nil, List.append_nil, fiveSlots_snd]

/-- The GPU objects of a run of the file loop extend those created before it. -/
theorem createFileTextures_gpu_prefix (fileLoads : String → Bool) (parentPath : String)
    (entries : List (String × Nat)) : ∀ (gpu : List GpuEvent) (T : List Texture2DD3D12),
    ∃ more, (createFileTextures fileLoads parentPath entries gpu T).gpu = gpu ++ more := by
  induction entries with
  | nil => intro gpu T; exact ⟨[], by simp [createFileTextures]⟩
  | cons e rest ih =>
      intro gpu T
      simp only [createFileTextures]
      split
      · split
        · exact ⟨[GpuEvent.createTexture (.fromFile (texturePath parentPath e.1))], rfl⟩
        · next T1 _ =>
          obtain ⟨more, hmore⟩ := ih
            (gpu ++ [GpuEvent.createTexture (.fromFile (texturePath parentPath e.1))]) T1
          exact ⟨GpuEvent.createTexture (.fromFile (texturePath parentPath e.1)) :: more,
            by rw [hmore]; simp⟩
      · exact ⟨[], by simp⟩

/-- The GPU objects of a run of `createTextures` extend those created before it by at
least the white default texture. -/
theorem createTextures_gpu_prefix (fileLoads : String → Bool) (entries : List (String × Nat))
    (parentPath : String) (gpu : List GpuEvent) (T : List Texture2DD3D12) :
    ∃ more, (createTextures fileLoads entries parentPath gpu T).gpu
      = gpu ++ GpuEvent.createTexture (.solid white 1 1) :: more := by
  simp only [createTextures]
  split
  · exact ⟨[], rfl⟩
  · split
    · exact ⟨[GpuEvent.createTexture (.solid black 1 1)], by simp⟩
    · split
      · exact ⟨[GpuEvent.createTexture (.solid black 1 1),
          GpuEvent.createTexture (.solid blue 1 1)], by simp⟩
      · next T3 _ =>
        obtain ⟨more, hmore⟩ := createFileTextures_gpu_prefix fileLoads parentPath entries
          (gpu ++ [GpuEvent.createTexture (.solid white 1 1)]
            ++ [GpuEvent.createTexture (.solid black 1 1)]
            ++ [GpuEvent.createTexture (.solid blue 1 1)]) T3
        exact ⟨GpuEvent.createTexture (.solid black 1 1)
          :: GpuEvent.createTexture (.solid blue 1 1) :: more, by rw [hmore]; simp⟩

/-- Anatomy of a successful run of `createFromAssImpScene`: the path exists, the importer
returned a scene with a root node, the bounding-box pass and `createTextures` succeeded,
the returned scene and the GPU objects are assembled from the results of the steps, and
the device created the descriptor heap and the two buffers. -/
theorem createFromAssImpScene_ok {F B : Type} [Zero F] [One F] [Add F] [Mul F]
    (ops : AABBOps F B) (env : Environment F) (absolutePath parentPath : String)
    (scene : Scene F B)
    (h : (createFromAssImpScene ops env absolutePath parentPath).result = .ok scene) :
    ∃ (inputScene : aiScene F) (mRootNode : aiNode F) (m_textures : List Texture2DD3D12),
      env.pathExists = true ∧ env.ReadFile = some inputScene ∧
      inputScene.mRootNode = some mRootNode ∧
      (createTextures env.fileLoads (env.mapOrder (textureFilenameToIndex inputScene.mMaterials))
        parentPath
        [GpuEvent.createDescriptorHeap (numOfDescriptors inputScene.mMaterials.length),
         GpuEvent.createBuffer (indexBufferSize
           (createMeshes ops.ofPositions inputScene.mMeshes []).globalIndices.length),
         GpuEvent.createBuffer (vertexBufferSize
           (createMeshes ops.ofPositions inputScene.mMeshes []).globalVertices.length
           env.sizeofVertex),
         GpuEvent.createBufferView 0, GpuEvent.createBufferView 1] []).result
        = .ok m_textures ∧
      computeSceneAABB ops
        { m_nodes := (createNodes [] mRootNode glm.identity).1
          m_meshes := (createMeshes ops.ofPositions inputScene.mMeshes []).m_meshes
          m_aabb := ops.empty
          m_materials := []
          m_textures := []
          m_totalDescriptorCount := numOfDescriptors inputScene.mMaterials.length
          globalVertices := (createMeshes ops.ofPositions inputScene.mMeshes []).globalVertices
          globalIndices := (createMeshes ops.ofPositions inputScene.mMeshes []).globalIndices
          heapWrites := [] }
        ((createNodes [] mRootNode glm.identity).1.length + 1) ops.empty 0 glm.identity
        = .ok scene.m_aabb ∧
      scene.m_nodes = (createNodes [] mRootNode glm.identity).1 ∧
      scene.m_meshes = (createMeshes ops.ofPositions inputScene.mMeshes []).m_meshes ∧
      scene.globalVertices = (createMeshes ops.ofPositions inputScene.mMeshes []).globalVertices ∧
      scene.globalIndices = (createMeshes ops.ofPositions inputScene.mMeshes []).globalIndices ∧
      scene.m_textures = m_textures ∧
      scene.m_totalDescriptorCount = numOfDescriptors inputScene.mMaterials.length ∧
      scene.m_materials = (createMaterials env.uninit inputScene.mMaterials
        (textureFilenameToIndex inputScene.mMaterials) []).m_materials ∧
      scene.heapWrites = (createMaterials env.uninit inputScene.mMaterials
        (textureFilenameToIndex inputScene.mMaterials) []).heapWrites ∧
      GpuEvent.createDescriptorHeap (numOfDescriptors inputScene.mMaterials.length)
        ∈ (createFromAssImpScene ops env absolutePath parentPath).gpu ∧
      env.CreateDescriptorHeap (numOfDescriptors inputScene.mMaterials.length) = true ∧
      env.CreateCommittedResource (indexBufferSize
        (createMeshes ops.ofPositions inputScene.mMeshes []).globalIndices.length) = true ∧
      env.CreateCommittedResource (vertexBufferSize
        (createMeshes ops.ofPositions inputScene.mMeshes []).globalVertices.length
        env.sizeofVertex) = true := by
  unfold createFromAssImpScene at h ⊢
  split at h
  · cases h
  · next hex =>
    split at h
    · cases h
    · next inputScene hread =>
      simp only at h
      split at h
      · cases h
      · next hheap =>
      split at h
      · cases h
      · next hib =>
      split at h
      · cases h
      · next hvb =>
      split at h
      · cases h
      · next root hroot =>
        split at h
        · cases h
        · next aabb haabb =>
          split at h
          · cases h
          · next textures htex =>
            simp only [Except.ok.injEq] at h
            subst h
            refine ⟨inputScene, root, textures, by simpa using hex, hread, hroot, htex, haabb,
              rfl, rfl, rfl, rfl, rfl, rfl, rfl, rfl, ?_, by simpa using hheap,
              by simpa using hib, by simpa using hvb⟩
            rw [if_neg hex]
            simp only [hread, hroot, haabb, htex, if_neg hheap, if_neg hib, if_neg hvb]
            have hg := createTextures_gpu_prefix env.fileLoads
              (env.mapOrder (textureFilenameToIndex inputScene.mMaterials)) parentPath
              [GpuEvent.createDescriptorHeap (numOfDescriptors inputScene.mMaterials.length),
               GpuEvent.createBuffer (indexBufferSize
                 (createMeshes ops.ofPositions inputScene.mMeshes []).globalIndices.length),
               GpuEvent.createBuffer (vertexBufferSize
                 (createMeshes ops.ofPositions inputScene.mMeshes []).globalVertices.length
                 env.sizeofVertex),
               GpuEvent.createBufferView 0, GpuEvent.createBufferView 1] []
            obtain ⟨more, hmore⟩ := hg
            rw [hmore]
            simp

theorem numOfDescriptors_of_lt (m : Nat) (h : 5 * m + 2 < 2 ^ 32) :
    numOfDescriptors m = 5 * m + 2 := by
  unfold numOfDescriptors
  have e : ui32 (m * 5) = m * 5 := ui32_of_lt (by omega)
  rw [e, ui32_of_lt (by omega)]
  omega

/-- The descriptor layout of `createMaterials` on a fresh material array when all slots
stay below `2 ^ 31`. -/
theorem createMaterials_layout {F : Type} [Zero F] [Add F] (uninit : Nat → F × F)
    (ms : List (aiMaterial F)) (map : List (String × Nat))
    (h : 5 * ms.length + 2 ≤ 2 ^ 31) :
    DescriptorLayout ms.length (numOfDescriptors ms.length) (createMaterials uninit ms map []) := by
  obtain ⟨h1, h2⟩ := createMaterialsLoop_layout uninit map ms 0
    ({ descriptorIndex := 2, m_materials := [], heapWrites := [], gpu := [] } : MaterialState F)
    (by simp only; omega)
  simp only [List.map_nil, List.nil_append] at h1 h2
  have hoff : (createMaterials uninit ms map []).heapWrites.map (fun w => w.offsetInDescriptors)
      = (List.range' 2 (5 * ms.length)).map (fun (k : Nat) => (k : Int)) := by
    rw [← flatMap_fiveSlots_snd 2 ms.length, ← h2, List.map_map]
    rfl
  have hcount := numOfDescriptors_of_lt ms.length (by omega)
  refine ⟨hcount, h1, h2, hoff, ?_⟩
  intro w hw
  have : w.offsetInDescriptors ∈ (List.range' 2 (5 * ms.length)).map
      (fun (k : Nat) => (k : Int)) := by
    rw [← hoff]
    exact List.mem_map.mpr ⟨w, hw, rfl⟩
  obtain ⟨k, hk, hkw⟩ := List.mem_map.mp this
  rw [List.mem_range'_1] at hk
  rw [hcount, ← hkw]
  omega

/-- C7 (amended): for a scene with m materials such that `5 m + 2` is at most `2 ^ 31`,
the descriptor count is exactly `5 m + 2`, `createMaterials` gives material i the
descriptor index `2 + 5 i` and binds its five textures at the contiguous slots from
`2 + 5 i` on in the order ambient, diffuse, specular, emissive, height, so that every slot
in `[2, 5 m + 2)` is written exactly once and no written slot is outside the heap; and in
every successful run of `createFromAssImpScene` the descriptor heap is created with that
count, which is also stored in `m_totalDescriptorCount`, and the materials and heap
writes of the scene are those of `createMaterials`. -/
theorem C7_descriptor_layout {F B : Type} [Zero F] [One F] [Add F] [Mul F]
    (uninit : Nat → F × F) (ms : List (aiMaterial F)) (map : List (String × Nat))
    (h : 5 * ms.length + 2 ≤ 2 ^ 31) :
    DescriptorLayout ms.length (numOfDescriptors ms.length) (createMaterials uninit ms map []) ∧
    ∀ (ops : AABBOps F B) (env : Environment F) (absolutePath parentPath : String)
      (inputScene : aiScene F) (scene : Scene F B),
      env.ReadFile = some inputScene → inputScene.mMaterials = ms →
      (createFromAssImpScene ops env absolutePath parentPath).result = .ok scene →
      scene.m_totalDescriptorCount = 5 * ms.length + 2 ∧
      GpuEvent.createDescriptorHeap (5 * ms.length + 2)
        ∈ (createFromAssImpScene ops env absolutePath parentPath).gpu ∧
      DescriptorLayout ms.length scene.m_totalDescriptorCount
        { descriptorIndex := 2 + 5 * ms.length, m_materials := scene.m_materials,
          heapWrites := scene.heapWrites, gpu := [] } := by
  refine ⟨createMaterials_layout uninit ms map h, ?_⟩
  intro ops env absolutePath parentPath inputScene scene hread hms hrun
  obtain ⟨inputScene', root, textures, -, hread', -, -, -, -, -, -, -, -, hc, hm, hw, hg, -⟩ :=
    createFromAssImpScene_ok ops env absolutePath parentPath scene hrun
  rw [hread] at hread'
  cases hread'
  rw [hms] at hc hm hw hg
  have hcount := numOfDescriptors_of_lt ms.length (by omega)
  rw [hcount] at hc hg
  obtain ⟨d1, d2, d3, d4, d5⟩ := createMaterials_layout env.uninit ms
    (textureFilenameToIndex ms) h
  refine ⟨hc, hg, ?_⟩
  rw [hc]
  simp only [DescriptorLayout, hm, hw]
  rw [hcount] at d5
  exact ⟨trivial, d2, d3, d4, d5⟩

/-- C7, witness: the two materials `materialAB` and `materialBC`. -/
theorem C7_descriptor_layout_witness :
    5 * [materialAB, materialBC].length + 2 ≤ 2 ^ 31 ∧
    DescriptorLayout [materialAB, materialBC].length
      (numOfDescriptors [materialAB, materialBC].length)
      (createMaterials sampleUninit [materialAB, materialBC]
        (textureFilenameToIndex [materialAB, materialBC]) []) :=
  ⟨by decide, (C7_descriptor_layout (B := Unit) sampleUninit [materialAB, materialBC]
    (textureFilenameToIndex [materialAB, materialBC]) (by decide)).1⟩

/-- C7, counterexample: for 858993459 materials the descriptor count `5 m + 2` is computed
in 32 bits and wraps to 1. -/
theorem C7_counterexample :
    ¬ DescriptorLayout hugeMaterialCount
      (numOfDescriptors (List.replicate hugeMaterialCount materialAB).length)
      (createMaterials sampleUninit (List.replicate hugeMaterialCount materialAB)
        (textureFilenameToIndex (List.replicate hugeMaterialCount materialAB)) []) := by
  intro h
  have h1 := h.1
  rw [List.length_replicate] at h1
  revert h1
  unfold hugeMaterialCount
  decide

/-! ## C10: the instance transform is the transposed world matrix -/

/-- C10: for every instance descriptor built by the loop of
`createTriangleInstanceDescriptions`, the entry `Transform[r][c]` of the 3×4 transform,
for r in 0..2 and c in 0..3, is the entry of the world matrix at column c, row r, so the
translation, stored in column 3 of the world matrix, lands in `Transform[r][3]`; and
transposing a matrix twice returns it. -/
theorem C10_instance_transform_transposed {F : Type} (i : Nat) (worldMatrix : f32m4 F)
    (bottomLevelAS : RtResource) :
    (∀ (r : Fin 3) (c : Fin 4),
      (instanceDesc i worldMatrix bottomLevelAS).Transform.get r c
        = worldMatrix.get c (Fin.castSucc r)) ∧
    (∀ (r : Fin 3), (instanceDesc i worldMatrix bottomLevelAS).Transform.get r 3
        = (worldMatrix.c3).get (Fin.castSucc r)) ∧
    (∀ (m_triangleInstanceData : Nat → InstanceData F) (m_bottomLevelAS : Nat → RtResource)
      (d : D3D12_RAYTRACING_INSTANCE_DESC F),
      d ∈ instanceDescArray m_triangleInstanceData m_bottomLevelAS →
      ∃ k, k < 3 ∧ d = instanceDesc k (m_triangleInstanceData k).worldMatrix (m_bottomLevelAS k)) ∧
    glm.transpose (glm.transpose worldMatrix) = worldMatrix := by
  refine ⟨?_, ?_, ?_, rfl⟩
  · intro r c
    fin_cases r <;> fin_cases c <;> rfl
  · intro r
    fin_cases r <;> rfl
  · intro data blas d hd
    simp only [instanceDescArray, List.mem_map, List.mem_range] at hd
    obtain ⟨k, hk, rfl⟩ := hd
    exact ⟨k, hk, rfl⟩

/-! ## C9: the scene bounding box -/

/-- A list of source trees has at most as many entries as nodes. -/
theorem length_sizes_le {F : Type} (cs : List (aiNode F)) :
    (aiNode.sizes cs).length ≤ aiNode.sizeList cs := by
  induction cs with
  | nil => simp [aiNode.sizes, aiNode.sizeList]
  | cons c rest ih =>
      have := aiNode.size_pos c
      simp only [aiNode.sizes, aiNode.sizeList, List.length_cons]
      omega

theorem unionOverNodes_append {F B : Type} (ops : AABBOps F B)
    (m_meshes : List (TriangleMeshD3D12 F B)) (xs ys : List (Node F)) : ∀ (acc : B),
    unionOverNodes ops m_meshes (xs ++ ys) acc
      = match unionOverNodes ops m_meshes xs acc with
        | .error e => .error e
        | .ok acc => unionOverNodes ops m_meshes ys acc := by
  induction xs with
  | nil => intro acc; rfl
  | cons x xs ih =>
      intro acc
      simp only [List.cons_append, unionOverNodes]
      cases mergeMeshAABBs ops m_meshes x.worldSpaceTransformation x.meshIndices acc with
      | error e => rfl
      | ok a => exact ih a

mutual
/-- On a node array that holds the layout of a tree from index `base` on, the pass
started at `base` with the world transformation of the parent computes, with a recursion
depth of at least the size of the tree, the union over the nodes of the layout. -/
theorem computeSceneAABB_layout {F B : Type} [Add F] [Mul F] (ops : AABBOps F B)
    (scene : Scene F B) (t : aiNode F) (w : f32m4 F) (base fuel : Nat) (acc : B)
    (hfuel : t.size ≤ fuel) (hsize : t.size ≤ 2 ^ 32)
    (hsub : ∀ (q : Nat) (n : Node F), (layout t w base)[q]? = some n →
      scene.m_nodes[base + q]? = some n) :
    computeSceneAABB ops scene fuel acc base w
      = unionOverNodes ops scene.m_meshes (layout t w base) acc := by
  match t with
  | .mk T ms cs =>
      cases fuel with
      | zero => simp [aiNode.size] at hfuel
      | succ f =>
          have h0 := hsub 0 _ (by simp only [layout, List.getElem?_cons_zero]; rfl)
          rw [Nat.add_zero] at h0
          simp only [aiNode.size] at hsize
          have hlen := length_sizes_le cs
          simp only [computeSceneAABB, h0, layout, unionOverNodes, length_offsets]
          rw [ui32_of_lt (by omega), List.take_of_length_le (by rw [length_offsets])]
          cases mergeMeshAABBs ops scene.m_meshes (w * aiMatrix4x4ToGlm T) ms acc with
          | error e => rfl
          | ok a =>
              simp only
              apply computeSceneAABB_layoutChildren ops scene cs _ (base + 1) f a
              · simp only [aiNode.size] at hfuel
                omega
              · omega
              · intro q n hq
                have := hsub (q + 1) n (by simp only [layout, List.getElem?_cons_succ]; exact hq)
                rw [← this]
                congr 1
                omega
/-- The child loop of the pass over the start indices of sibling subtrees computes the
union over the nodes of their layouts. -/
theorem computeSceneAABB_layoutChildren {F B : Type} [Add F] [Mul F] (ops : AABBOps F B)
    (scene : Scene F B) (cs : List (aiNode F)) (w : f32m4 F) (base fuel : Nat) (acc : B)
    (hfuel : aiNode.sizeList cs ≤ fuel) (hsize : aiNode.sizeList cs ≤ 2 ^ 32)
    (hsub : ∀ (q : Nat) (n : Node F), (layoutChildren cs w base)[q]? = some n →
      scene.m_nodes[base + q]? = some n) :
    forChildren (fun acc child => computeSceneAABB ops scene fuel acc child w)
        (offsets (aiNode.sizes cs) base) acc
      = unionOverNodes ops scene.m_meshes (layoutChildren cs w base) acc := by
  match cs with
  | [] => rfl
  | c :: rest =>
      simp only [aiNode.sizeList] at hfuel hsize
      simp only [aiNode.sizes, offsets, forChildren, layoutChildren]
      rw [unionOverNodes_append,
        computeSceneAABB_layout ops scene c w base fuel acc (by omega) (by omega) (by
          intro q n hq
          apply hsub q n
          simp only [layoutChildren]
          have hlt : q < (layout c w base).length := by
            by_contra hge
            rw [List.getElem?_eq_none (by omega)] at hq
            cases hq
          rw [List.getElem?_append_left hlt]
          exact hq)]
      cases unionOverNodes ops scene.m_meshes (layout c w base) acc with
      | error e => rfl
      | ok a =>
          simp only
          apply computeSceneAABB_layoutChildren ops scene rest w (base + c.size) fuel a
            (by omega) (by omega)
          intro q n hq
          have := hsub (c.size + q) n (by
            simp only [layoutChildren]
            rw [List.getElem?_append_right (by rw [length_layout]; omega), length_layout]
            rw [show c.size + q - c.size = q by omega]
            exact hq)
          rw [← this]
          congr 1
          omega
end

theorem mergeMeshAABBs_ok {F B : Type} (ops : AABBOps F B)
    (m_meshes : List (TriangleMeshD3D12 F B)) (w : f32m4 F) (meshIndices : List Nat) :
    ∀ (acc : B), (∀ i ∈ meshIndices, i < m_meshes.length) →
      ∃ b, mergeMeshAABBs ops m_meshes w meshIndices acc = .ok b := by
  induction meshIndices with
  | nil => intro acc _; exact ⟨acc, rfl⟩
  | cons i rest ih =>
      intro acc h
      have hi := h i (List.mem_cons_self _ _)
      simp only [mergeMeshAABBs, List.getElem?_eq_getElem hi]
      exact ih _ (fun j hj => h j (List.mem_cons_of_mem _ hj))

theorem unionOverNodes_ok {F B : Type} (ops : AABBOps F B)
    (m_meshes : List (TriangleMeshD3D12 F B)) (nodes : List (Node F)) :
    ∀ (acc : B), (∀ n ∈ nodes, ∀ i ∈ n.meshIndices, i < m_meshes.length) →
      ∃ b, unionOverNodes ops m_meshes nodes acc = .ok b := by
  induction nodes with
  | nil => intro acc _; exact ⟨acc, rfl⟩
  | cons n rest ih =>
      intro acc h
      obtain ⟨a, ha⟩ := mergeMeshAABBs_ok ops m_meshes n.worldSpaceTransformation n.meshIndices
        acc (h n (List.mem_cons_self _ _))
      simp only [unionOverNodes, ha]
      exact ih a (fun m hm => h m (List.mem_cons_of_mem _ hm))

theorem mergeMeshAABBs_ne_diverges {F B : Type} (ops : AABBOps F B)
    (m_meshes : List (TriangleMeshD3D12 F B)) (w : f32m4 F) (meshIndices : List Nat) :
    ∀ (acc : B), mergeMeshAABBs ops m_meshes w meshIndices acc ≠ .error .diverges := by
  induction meshIndices with
  | nil => intro acc h; cases h
  | cons i rest ih =>
      intro acc
      simp only [mergeMeshAABBs]
      cases m_meshes[i]? with
      | none => intro h; cases h
      | some mesh => exact ih _

/-- The union over the nodes is a fold over a list: it never runs out of depth. -/
theorem unionOverNodes_ne_diverges {F B : Type} (ops : AABBOps F B)
    (m_meshes : List (TriangleMeshD3D12 F B)) (nodes : List (Node F)) :
    ∀ (acc : B), unionOverNodes ops m_meshes nodes acc ≠ .error .diverges := by
  induction nodes with
  | nil => intro acc h; cases h
  | cons n rest ih =>
      intro acc
      simp only [unionOverNodes]
      have hm := mergeMeshAABBs_ne_diverges ops m_meshes n.worldSpaceTransformation
        n.meshIndices acc
      cases hmm : mergeMeshAABBs ops m_meshes n.worldSpaceTransformation n.meshIndices acc with
      | error e =>
          rw [hmm] at hm
          intro h
          simp only at h
          exact hm h
      | ok a => exact ih a

/-- A child loop in which every visit returns its accumulator or runs out of depth, and
some visit runs out of depth, runs out of depth. -/
theorem forChildren_diverges {B : Type} (visit : B → Nat → Except LoadError B)
    (children : List Nat) :
    (∀ c ∈ children, ∀ acc, visit acc c = .ok acc ∨ visit acc c = .error .diverges) →
    (∃ c ∈ children, ∀ acc, visit acc c = .error .diverges) →
    ∀ acc, forChildren visit children acc = .error .diverges := by
  induction children with
  | nil => rintro - ⟨c, hc, -⟩; cases hc
  | cons c rest ih =>
      intro hall hex acc
      simp only [forChildren]
      rcases hall c (List.mem_cons_self _ _) acc with h | h
      · rw [h]
        simp only
        obtain ⟨d, hd, hdiv⟩ := hex
        rcases List.mem_cons.mp hd with rfl | hd'
        · rw [hdiv acc] at h
          cases h
        · exact ih (fun x hx => hall x (List.mem_cons_of_mem _ hx)) ⟨d, hd', hdiv⟩ acc
      · rw [h]

/-- On the node array of `wideTree n` with `n = 2 ^ 32 - 1` the pass started at node 0 or
node 1 exceeds every recursion depth: node 1 lists node 0 as a child. -/
theorem wideTree_diverges {B : Type} (ops : AABBOps Int B) (scene : Scene Int B) (n : Nat)
    (hn : n = 2 ^ 32 - 1)
    (hnodes : scene.m_nodes = (createNodes [] (wideTree n) glm.identity).1) :
    ∀ (fuel : Nat),
      (∀ acc w, computeSceneAABB ops scene fuel acc 0 w = .error .diverges) ∧
      (∀ acc w, computeSceneAABB ops scene fuel acc 1 w = .error .diverges) := by
  rw [wideTree_nodes] at hnodes
  intro fuel
  induction fuel with
  | zero => exact ⟨fun _ _ => rfl, fun _ _ => rfl⟩
  | succ f ih =>
      constructor
      · intro acc w
        have hone : ui32 1 = 1 := by decide
        simp only [computeSceneAABB, hnodes, List.cons_append, List.getElem?_cons_zero,
          mergeMeshAABBs, List.length_singleton, hone, List.take_succ_cons, List.take_zero,
          forChildren, ih.2]
      · intro acc w
        simp only [computeSceneAABB, hnodes, List.cons_append, List.getElem?_cons_succ,
          List.getElem?_cons_zero, mergeMeshAABBs, List.length_map, List.length_range]
        rw [ui32_of_lt (by omega), List.take_of_length_le (by simp)]
        apply forChildren_diverges
        · intro c hc acc
          obtain ⟨j, hj, rfl⟩ := List.mem_map.mp hc
          rw [List.mem_range] at hj
          by_cases hlast : j = 2 ^ 32 - 2
          · right
            have : ui32 (2 + j) = 0 := by rw [hlast]; decide
            rw [this]
            exact ih.1 _ _
          · have hc : ui32 (2 + j) = 2 + j := ui32_of_lt (by omega)
            rw [hc]
            cases f with
            | zero => right; rfl
            | succ g =>
                left
                have hleaf : scene.m_nodes[2 + j]? = some (leafNodeOut
                    (glm.identity * aiMatrix4x4ToGlm (aiScaling 2)
                      * aiMatrix4x4ToGlm (aiScaling 1))) := by
                  rw [hnodes, List.getElem?_append_right (by simp)]
                  simp only [List.length_cons, List.length_nil]
                  rw [show 2 + j - (0 + 1 + 1) = j by omega, List.getElem?_replicate,
                    if_pos hj]
                simp only [computeSceneAABB, hleaf, leafNodeOut, mergeMeshAABBs, List.take_nil,
                  forChildren]
        · exact ⟨0, zero_mem_wideTree_children n (by omega), fun acc => ih.1 _ _⟩

/-- C9 (amended): for a source tree with at most `2 ^ 32` nodes, on the node array that
`createNodes` built, which is the depth-first pre-order layout of the tree,
`computeSceneAABB` started at node 0 with the identity and given a recursion depth of at
least the number of nodes returns what the union over the nodes in array order and the
mesh references of each node in list order returns, each mesh box transformed by the
stored world transformation of its node; when every mesh reference is a valid mesh index
the result is a bounding box; and the bounding box of every scene that
`createFromAssImpScene` returns for such a tree is this union started from the empty
box. -/
theorem C9_scene_aabb_is_union {F B : Type} [Zero F] [One F] [Add F] [Mul F]
    (ops : AABBOps F B) (t : aiNode F) (scene : Scene F B) (fuel : Nat) (acc : B)
    (hsize : t.size ≤ 2 ^ 32)
    (hnodes : scene.m_nodes = (createNodes [] t glm.identity).1)
    (hfuel : t.size ≤ fuel) :
    scene.m_nodes = layout t glm.identity 0 ∧
    computeSceneAABB ops scene fuel acc 0 glm.identity
      = unionOverNodes ops scene.m_meshes scene.m_nodes acc ∧
    ((∀ n ∈ scene.m_nodes, ∀ i ∈ n.meshIndices, i < scene.m_meshes.length) →
      ∃ b, computeSceneAABB ops scene fuel acc 0 glm.identity = .ok b) ∧
    ∀ (env : Environment F) (absolutePath parentPath : String) (inputScene : aiScene F)
      (outputScene : Scene F B),
      env.ReadFile = some inputScene → inputScene.mRootNode = some t →
      (createFromAssImpScene ops env absolutePath parentPath).result = .ok outputScene →
      unionOverNodes ops outputScene.m_meshes outputScene.m_nodes ops.empty
        = .ok outputScene.m_aabb := by
  have hlay : scene.m_nodes = layout t glm.identity 0 := by
    rw [hnodes, createNodes_fresh t _ hsize]
  have hrun : computeSceneAABB ops scene fuel acc 0 glm.identity
      = unionOverNodes ops scene.m_meshes scene.m_nodes acc := by
    rw [computeSceneAABB_layout ops scene t glm.identity 0 fuel acc hfuel hsize
      (by intro q n hq; rw [Nat.zero_add, hlay]; exact hq), hlay]
  refine ⟨hlay, hrun, ?_, ?_⟩
  · intro hvalid
    rw [hrun]
    exact unionOverNodes_ok ops scene.m_meshes scene.m_nodes acc hvalid
  · intro env absolutePath parentPath inputScene outputScene hread hroot hok
    obtain ⟨inputScene', root, textures, -, hread', hroot', -, haabb, hn, hm, -⟩ :=
      createFromAssImpScene_ok ops env absolutePath parentPath outputScene hok
    rw [hread] at hread'
    cases hread'
    rw [hroot] at hroot'
    cases hroot'
    rw [← haabb, hn, hm]
    have hl : (createNodes [] t glm.identity).1 = layout t glm.identity 0 :=
      createNodes_fresh t _ hsize
    rw [computeSceneAABB_layout ops _ t glm.identity 0 _ ops.empty
      (by simp only [hl, length_layout]; omega) hsize
      (by intro q n hq; rw [Nat.zero_add]; simp only [hl]; exact hq), hl]

/-- C9, witness: the scene of the four-node tree with two triangle meshes. -/
theorem C9_scene_aabb_is_union_witness :
    smallTree.size ≤ 2 ^ 32 ∧
    smallScene.m_nodes = (createNodes [] smallTree glm.identity).1 ∧
    smallTree.size ≤ 4 ∧
    computeSceneAABB recordOps smallScene 4 [] 0 glm.identity
      = unionOverNodes recordOps smallScene.m_meshes smallScene.m_nodes [] :=
  ⟨by decide, rfl, by decide,
    (C9_scene_aabb_is_union recordOps smallTree smallScene 4 [] (by decide) rfl
      (by decide)).2.1⟩

/-- C9, counterexample: on the node array of `hugeTree`, in which the leaf at position
`2 ^ 32` received the index 0 and node 1 therefore lists node 0 as a child, the pass
exceeds every recursion depth, while the union over the nodes is a bounding box: for no
depth does the pass return the union. -/
theorem C9_counterexample :
    ¬ ∃ fuel, computeSceneAABB recordOps hugeScene fuel [] 0 glm.identity
      = unionOverNodes recordOps hugeScene.m_meshes hugeScene.m_nodes [] := by
  rintro ⟨fuel, h⟩
  have hn : hugeChildCount = 2 ^ 32 - 1 := rfl
  have hdiv : computeSceneAABB recordOps hugeScene fuel [] 0 glm.identity
      = .error .diverges := by
    unfold hugeScene hugeTree
    generalize hugeChildCount = n at hn
    exact (wideTree_diverges recordOps _ n hn rfl fuel).1 _ _
  rw [hdiv] at h
  exact unionOverNodes_ne_diverges _ _ _ _ h.symm

/-! ## The ray-tracing renderer -/

theorem eachFollowed_split (check : RtEvent → List RtEvent → Bool) (e : RtEvent)
    (after : List RtEvent) : ∀ (before : List RtEvent),
    eachFollowed check (before ++ e :: after) = true → check e after = true := by
  intro before
  induction before with
  | nil =>
      intro h
      simp only [List.nil_append, eachFollowed, Bool.and_eq_true] at h
      exact h.1
  | cons x xs ih =>
      intro h
      simp only [List.cons_append, eachFollowed, Bool.and_eq_true] at h
      exact ih h.2

theorem eachPreceded_split (check : RtEvent → List RtEvent → Bool) (e : RtEvent)
    (before after : List RtEvent)
    (h : eachPreceded check (before ++ e :: after) = true) : check e before.reverse = true := by
  unfold eachPreceded at h
  rw [List.reverse_append, List.reverse_cons, List.append_assoc] at h
  exact eachFollowed_split check e _ _ h

theorem releasedAfterWait_of_check (events : List RtEvent)
    (h : eachPreceded checkReleasedAfterWait events = true) : ReleasedAfterWait events := by
  intro resource before after htemp hev
  subst hev
  have := eachPreceded_split _ _ _ _ h
  simpa [checkReleasedAfterWait, htemp] using this

theorem waitAfterSubmission_of_check (events : List RtEvent)
    (h1 : eachPreceded checkWaitAfterSubmission events = true)
    (h2 : eachFollowed checkNoBuildAfterSubmission events = true) :
    WaitAfterSubmission events := by
  constructor
  · intro before after hev
    subst hev
    have := eachPreceded_split _ _ _ _ h1
    simpa [checkWaitAfterSubmission] using this
  · intro before after hev
    subst hev
    have := eachFollowed_split _ _ _ _ h2
    simpa [checkNoBuildAfterSubmission] using this

theorem barrierFollowsBuild_of_check (events : List RtEvent)
    (h : eachFollowed checkBarrierFollowsBuild events = true) : BarrierFollowsBuild events := by
  intro before after i scratch dest hev
  subst hev
  have := eachFollowed_split _ _ _ _ h
  simpa [checkBarrierFollowsBuild] using this

theorem topLevelAfterBarriers_of_check (events : List RtEvent)
    (h : eachPreceded checkTopLevelAfterBarriers events = true) :
    TopLevelAfterBarriers events := by
  intro before after NumDescs InstanceDescs scratch dest hev i hi
  subst hev
  have := eachPreceded_split _ _ _ _ h
  simp only [checkTopLevelAfterBarriers, List.all_eq_true, List.mem_range] at this
  simpa using this i hi

/-- The thirteen courses a run of `createResources` can take on a device: one of the
twelve checks, in program order, is the first to fail, or none fails. -/
theorem device_cases (dev : RtDevice) (P : Prop)
    (z0 : dev.bottomLevelResultDataMaxSizeInBytes 0 = 0 → P)
    (s0 : 0 < dev.bottomLevelResultDataMaxSizeInBytes 0 →
      dev.createCommittedResource (.blasScratch 0) = false → P)
    (r0 : 0 < dev.bottomLevelResultDataMaxSizeInBytes 0 →
      dev.createCommittedResource (.blasScratch 0) = true →
      dev.createCommittedResource (.blasResult 0) = false → P)
    (z1 : 0 < dev.bottomLevelResultDataMaxSizeInBytes 0 →
      dev.createCommittedResource (.blasScratch 0) = true →
      dev.createCommittedResource (.blasResult 0) = true →
      dev.bottomLevelResultDataMaxSizeInBytes 1 = 0 → P)
    (s1 : 0 < dev.bottomLevelResultDataMaxSizeInBytes 0 →
      dev.createCommittedResource (.blasScratch 0) = true →
      dev.createCommittedResource (.blasResult 0) = true →
      0 < dev.bottomLevelResultDataMaxSizeInBytes 1 →
      dev.createCommittedResource (.blasScratch 1) = false → P)
    (r1 : 0 < dev.bottomLevelResultDataMaxSizeInBytes 0 →
      dev.createCommittedResource (.blasScratch 0) = true →
      dev.createCommittedResource (.blasResult 0) = true →
      0 < dev.bottomLevelResultDataMaxSizeInBytes 1 →
      dev.createCommittedResource (.blasScratch 1) = true →
      dev.createCommittedResource (.blasResult 1) = false → P)
    (z2 : 0 < dev.bottomLevelResultDataMaxSizeInBytes 0 →
      dev.createCommittedResource (.blasScratch 0) = true →
      dev.createCommittedResource (.blasResult 0) = true →
      0 < dev.bottomLevelResultDataMaxSizeInBytes 1 →
      dev.createCommittedResource (.blasScratch 1) = true →
      dev.createCommittedResource (.blasResult 1) = true →
      dev.bottomLevelResultDataMaxSizeInBytes 2 = 0 → P)
    (s2 : 0 < dev.bottomLevelResultDataMaxSizeInBytes 0 →
      dev.createCommittedResource (.blasScratch 0) = true →
      dev.createCommittedResource (.blasResult 0) = true →
      0 < dev.bottomLevelResultDataMaxSizeInBytes 1 →
      dev.createCommittedResource (.blasScratch 1) = true →
      dev.createCommittedResource (.blasResult 1) = true →
      0 < dev.bottomLevelResultDataMaxSizeInBytes 2 →
      dev.createCommittedResource (.blasScratch 2) = false → P)
    (r2 : 0 < dev.bottomLevelResultDataMaxSizeInBytes 0 →
      dev.createCommittedResource (.blasScratch 0) = true →
      dev.createCommittedResource (.blasResult 0) = true →
      0 < dev.bottomLevelResultDataMaxSizeInBytes 1 →
      dev.createCommittedResource (.blasScratch 1) = true →
      dev.createCommittedResource (.blasResult 1) = true →
      0 < dev.bottomLevelResultDataMaxSizeInBytes 2 →
      dev.createCommittedResource (.blasScratch 2) = true →
      dev.createCommittedResource (.blasResult 2) = false → P)
    (zt : 0 < dev.bottomLevelResultDataMaxSizeInBytes 0 →
      dev.createCommittedResource (.blasScratch 0) = true →
      dev.createCommittedResource (.blasResult 0) = true →
      0 < dev.bottomLevelResultDataMaxSizeInBytes 1 →
      dev.createCommittedResource (.blasScratch 1) = true →
      dev.createCommittedResource (.blasResult 1) = true →
      0 < dev.bottomLevelResultDataMaxSizeInBytes 2 →
      dev.createCommittedResource (.blasScratch 2) = true →
      dev.createCommittedResource (.blasResult 2) = true →
      dev.topLevelResultDataMaxSizeInBytes = 0 → P)
    (st : 0 < dev.bottomLevelResultDataMaxSizeInBytes 0 →
      dev.createCommittedResource (.blasScratch 0) = true →
      dev.createCommittedResource (.blasResult 0) = true →
      0 < dev.bottomLevelResultDataMaxSizeInBytes 1 →
      dev.createCommittedResource (.blasScratch 1) = true →
      dev.createCommittedResource (.blasResult 1) = true →
      0 < dev.bottomLevelResultDataMaxSizeInBytes 2 →
      dev.createCommittedResource (.blasScratch 2) = true →
      dev.createCommittedResource (.blasResult 2) = true →
      0 < dev.topLevelResultDataMaxSizeInBytes →
      dev.createCommittedResource .tlasScratch = false → P)
    (rt : 0 < dev.bottomLevelResultDataMaxSizeInBytes 0 →
      dev.createCommittedResource (.blasScratch 0) = true →
      dev.createCommittedResource (.blasResult 0) = true →
      0 < dev.bottomLevelResultDataMaxSizeInBytes 1 →
      dev.createCommittedResource (.blasScratch 1) = true →
      dev.createCommittedResource (.blasResult 1) = true →
      0 < dev.bottomLevelResultDataMaxSizeInBytes 2 →
      dev.createCommittedResource (.blasScratch 2) = true →
      dev.createCommittedResource (.blasResult 2) = true →
      0 < dev.topLevelResultDataMaxSizeInBytes →
      dev.createCommittedResource .tlasScratch = true →
      dev.createCommittedResource .tlasResult = false → P)
    (ok : 0 < dev.bottomLevelResultDataMaxSizeInBytes 0 →
      dev.createCommittedResource (.blasScratch 0) = true →
      dev.createCommittedResource (.blasResult 0) = true →
      0 < dev.bottomLevelResultDataMaxSizeInBytes 1 →
      dev.createCommittedResource (.blasScratch 1) = true →
      dev.createCommittedResource (.blasResult 1) = true →
      0 < dev.bottomLevelResultDataMaxSizeInBytes 2 →
      dev.createCommittedResource (.blasScratch 2) = true →
      dev.createCommittedResource (.blasResult 2) = true →
      0 < dev.topLevelResultDataMaxSizeInBytes →
      dev.createCommittedResource .tlasScratch = true →
      dev.createCommittedResource .tlasResult = true → P) : P := by
  rcases Nat.eq_zero_or_pos (dev.bottomLevelResultDataMaxSizeInBytes 0) with h0 | h0
  · exact z0 h0
  cases h1 : dev.createCommittedResource (.blasScratch 0)
  · exact s0 h0 h1
  cases h2 : dev.createCommittedResource (.blasResult 0)
  · exact r0 h0 h1 h2
  rcases Nat.eq_zero_or_pos (dev.bottomLevelResultDataMaxSizeInBytes 1) with h3 | h3
  · exact z1 h0 h1 h2 h3
  cases h4 : dev.createCommittedResource (.blasScratch 1)
  · exact s1 h0 h1 h2 h3 h4
  cases h5 : dev.createCommittedResource (.blasResult 1)
  · exact r1 h0 h1 h2 h3 h4 h5
  rcases Nat.eq_zero_or_pos (dev.bottomLevelResultDataMaxSizeInBytes 2) with h6 | h6
  · exact z2 h0 h1 h2 h3 h4 h5 h6
  cases h7 : dev.createCommittedResource (.blasScratch 2)
  · exact s2 h0 h1 h2 h3 h4 h5 h6 h7
  cases h8 : dev.createCommittedResource (.blasResult 2)
  · exact r2 h0 h1 h2 h3 h4 h5 h6 h7 h8
  rcases Nat.eq_zero_or_pos (dev.topLevelResultDataMaxSizeInBytes) with h9 | h9
  · exact zt h0 h1 h2 h3 h4 h5 h6 h7 h8 h9
  cases h10 : dev.createCommittedResource .tlasScratch
  · exact st h0 h1 h2 h3 h4 h5 h6 h7 h8 h9 h10
  cases h11 : dev.createCommittedResource .tlasResult
  · exact rt h0 h1 h2 h3 h4 h5 h6 h7 h8 h9 h10 h11
  exact ok h0 h1 h2 h3 h4 h5 h6 h7 h8 h9 h10 h11

theorem createResources_chainOrdered {F : Type} [Zero F] [One F] [Neg F] (dev : RtDevice)
    (triangleDistance : F) (data : Nat → InstanceData F) :
    ChainOrdered (createResources dev triangleDistance (RayTracingRenderer.fresh data)).1.events := by
  unfold ChainOrdered
  apply device_cases dev <;> intros <;>
    simp [createResources, createGeometries, createAccelerationStructures,
      createBottomLevelAccelerationStructures, createBottomLevelLoop, createBottomLevelBody,
      createTriangleInstanceDescriptions, createTopLevelAccelerationStructure,
      AllocateUAVBuffer, throwIfZero, throwIfFailed, RayTracingRenderer.issue,
      RayTracingRenderer.fresh, releaseAll, resize, List.range, List.range.loop,
      List.reduceOption, chainStage, *]

theorem createResources_barrierFollowsBuild {F : Type} [Zero F] [One F] [Neg F]
    (dev : RtDevice) (triangleDistance : F) (data : Nat → InstanceData F) :
    BarrierFollowsBuild
      (createResources dev triangleDistance (RayTracingRenderer.fresh data)).1.events := by
  apply barrierFollowsBuild_of_check
  apply device_cases dev <;> intros <;>
    simp [createResources, createGeometries, createAccelerationStructures,
      createBottomLevelAccelerationStructures, createBottomLevelLoop, createBottomLevelBody,
      createTriangleInstanceDescriptions, createTopLevelAccelerationStructure,
      AllocateUAVBuffer, throwIfZero, throwIfFailed, RayTracingRenderer.issue,
      RayTracingRenderer.fresh, releaseAll, resize, List.range, List.range.loop,
      List.reduceOption, eachFollowed, checkBarrierFollowsBuild, *]

theorem createResources_topLevelAfterBarriers {F : Type} [Zero F] [One F] [Neg F]
    (dev : RtDevice) (triangleDistance : F) (data : Nat → InstanceData F) :
    TopLevelAfterBarriers
      (createResources dev triangleDistance (RayTracingRenderer.fresh data)).1.events := by
  apply topLevelAfterBarriers_of_check
  apply device_cases dev <;> intros <;>
    simp [createResources, createGeometries, createAccelerationStructures,
      createBottomLevelAccelerationStructures, createBottomLevelLoop, createBottomLevelBody,
      createTriangleInstanceDescriptions, createTopLevelAccelerationStructure,
      AllocateUAVBuffer, throwIfZero, throwIfFailed, RayTracingRenderer.issue,
      RayTracingRenderer.fresh, releaseAll, resize, List.range, List.range.loop,
      List.reduceOption, eachPreceded, eachFollowed, checkTopLevelAfterBarriers, *]

theorem createResources_ok_events {F : Type} [Zero F] [One F] [Neg F]
    (dev : RtDevice) (triangleDistance : F) (data : Nat → InstanceData F)
    (h : (createResources dev triangleDistance (RayTracingRenderer.fresh data)).2 = .ok ()) :
    (createResources dev triangleDistance (RayTracingRenderer.fresh data)).1.events
      = [.createRootSignature,
         .uploadDefaultBuffer .triangleVertexBuffer,
         .uploadDefaultBuffer .triangleIndexBuffer,
         .uploadDefaultBuffer .instanceBuffer,
         .uploadDefaultBuffer .planeVertexBuffer,
         .uploadDefaultBuffer .planeIndexBuffer,
         .resetCommandList,
         .getPrebuildInfoBottomLevel 0,
         .allocateUAVBuffer (dev.bottomLevelScratchDataSizeInBytes 0) (.blasScratch 0),
         .allocateUAVBuffer (dev.bottomLevelResultDataMaxSizeInBytes 0) (.blasResult 0),
         .buildBottomLevel 0 (.blasScratch 0) (.blasResult 0),
         .uavBarrier (.blasResult 0),
         .getPrebuildInfoBottomLevel 1,
         .allocateUAVBuffer (dev.bottomLevelScratchDataSizeInBytes 1) (.blasScratch 1),
         .allocateUAVBuffer (dev.bottomLevelResultDataMaxSizeInBytes 1) (.blasResult 1),
         .buildBottomLevel 1 (.blasScratch 1) (.blasResult 1),
         .uavBarrier (.blasResult 1),
         .getPrebuildInfoBottomLevel 2,
         .allocateUAVBuffer (dev.bottomLevelScratchDataSizeInBytes 2) (.blasScratch 2),
         .allocateUAVBuffer (dev.bottomLevelResultDataMaxSizeInBytes 2) (.blasResult 2),
         .buildBottomLevel 2 (.blasScratch 2) (.blasResult 2),
         .uavBarrier (.blasResult 2),
         .uploadDefaultBuffer .instanceDescs,
         .getPrebuildInfoTopLevel 3,
         .allocateUAVBuffer dev.topLevelScratchDataSizeInBytes .tlasScratch,
         .allocateUAVBuffer dev.topLevelResultDataMaxSizeInBytes .tlasResult,
         .buildTopLevel 3 .instanceDescs .tlasScratch .tlasResult,
         .close, .executeCommandLists, .waitForGPU,
         .release .instanceDescs,
         .release (.blasScratch 0), .release (.blasScratch 1), .release (.blasScratch 2)] := by
  revert h
  apply device_cases dev <;> intros <;>
    simp_all [createResources, createGeometries, createAccelerationStructures,
      createBottomLevelAccelerationStructures, createBottomLevelLoop, createBottomLevelBody,
      createTriangleInstanceDescriptions, createTopLevelAccelerationStructure,
      AllocateUAVBuffer, throwIfZero, throwIfFailed, RayTracingRenderer.issue,
      RayTracingRenderer.fresh, releaseAll, resize, List.range, List.range.loop,
      List.reduceOption]

/-- C13: on every device, the events that `createResources` issues from the state the
constructor leaves follow the dependency chain: the events occur in the order of their
stages (geometry upload, bottom-level builds and barriers, upload of the instance
descriptors, top-level build, submission, fence wait, releases), every bottom-level
build `i` is immediately followed by a UAV barrier on result buffer `i`, and a top-level
build is recorded only after the barrier of each bottom-level result it references; and
when no step fails, the events are the full chain, in this order. -/
theorem C13_dependency_chain {F : Type} [Zero F] [One F] [Neg F] (dev : RtDevice)
    (triangleDistance : F) (data : Nat → InstanceData F) :
    ChainOrdered
      (createResources dev triangleDistance (RayTracingRenderer.fresh data)).1.events ∧
    BarrierFollowsBuild
      (createResources dev triangleDistance (RayTracingRenderer.fresh data)).1.events ∧
    TopLevelAfterBarriers
      (createResources dev triangleDistance (RayTracingRenderer.fresh data)).1.events ∧
    ((createResources dev triangleDistance (RayTracingRenderer.fresh data)).2 = .ok () →
      (createResources dev triangleDistance (RayTracingRenderer.fresh data)).1.events.filterMap
          (fun e => if (chainStage e).isSome then some e else none)
        = [.uploadDefaultBuffer .triangleVertexBuffer,
           .uploadDefaultBuffer .triangleIndexBuffer,
           .uploadDefaultBuffer .instanceBuffer,
           .uploadDefaultBuffer .planeVertexBuffer,
           .uploadDefaultBuffer .planeIndexBuffer,
           .buildBottomLevel 0 (.blasScratch 0) (.blasResult 0),
           .uavBarrier (.blasResult 0),
           .buildBottomLevel 1 (.blasScratch 1) (.blasResult 1),
           .uavBarrier (.blasResult 1),
           .buildBottomLevel 2 (.blasScratch 2) (.blasResult 2),
           .uavBarrier (.blasResult 2),
           .uploadDefaultBuffer .instanceDescs,
           .buildTopLevel 3 .instanceDescs .tlasScratch .tlasResult,
           .executeCommandLists, .waitForGPU,
           .release .instanceDescs,
           .release (.blasScratch 0), .release (.blasScratch 1),
           .release (.blasScratch 2)]) := by
  refine ⟨createResources_chainOrdered dev triangleDistance data,
    createResources_barrierFollowsBuild dev triangleDistance data,
    createResources_topLevelAfterBarriers dev triangleDistance data, ?_⟩
  intro h
  rw [createResources_ok_events dev triangleDistance data h]
  simp [chainStage]

/-- C13, witness: on a device that reports positive sizes and creates every buffer no
step fails, and the events are the full chain. -/
theorem C13_dependency_chain_witness :
    (createResources goodDevice (7 : Int) (RayTracingRenderer.fresh identityInstances)).2
      = .ok () ∧
    ChainOrdered
      (createResources goodDevice (7 : Int)
        (RayTracingRenderer.fresh identityInstances)).1.events ∧
    RtEvent.waitForGPU ∈
      (createResources goodDevice (7 : Int)
        (RayTracingRenderer.fresh identityInstances)).1.events :=
  ⟨rfl, (C13_dependency_chain goodDevice (7 : Int) identityInstances).1, by decide⟩

theorem createAccelerationStructures_ok_events {F : Type} (dev : RtDevice)
    (data : Nat → InstanceData F)
    (h : (createAccelerationStructures dev (RayTracingRenderer.fresh data)).2 = .ok ()) :
    (createAccelerationStructures dev (RayTracingRenderer.fresh data)).1.events
      = [.resetCommandList,
         .getPrebuildInfoBottomLevel 0,
         .allocateUAVBuffer (dev.bottomLevelScratchDataSizeInBytes 0) (.blasScratch 0),
         .allocateUAVBuffer (dev.bottomLevelResultDataMaxSizeInBytes 0) (.blasResult 0),
         .buildBottomLevel 0 (.blasScratch 0) (.blasResult 0),
         .uavBarrier (.blasResult 0),
         .getPrebuildInfoBottomLevel 1,
         .allocateUAVBuffer (dev.bottomLevelScratchDataSizeInBytes 1) (.blasScratch 1),
         .allocateUAVBuffer (dev.bottomLevelResultDataMaxSizeInBytes 1) (.blasResult 1),
         .buildBottomLevel 1 (.blasScratch 1) (.blasResult 1),
         .uavBarrier (.blasResult 1),
         .getPrebuildInfoBottomLevel 2,
         .allocateUAVBuffer (dev.bottomLevelScratchDataSizeInBytes 2) (.blasScratch 2),
         .allocateUAVBuffer (dev.bottomLevelResultDataMaxSizeInBytes 2) (.blasResult 2),
         .buildBottomLevel 2 (.blasScratch 2) (.blasResult 2),
         .uavBarrier (.blasResult 2),
         .uploadDefaultBuffer .instanceDescs,
         .getPrebuildInfoTopLevel 3,
         .allocateUAVBuffer dev.topLevelScratchDataSizeInBytes .tlasScratch,
         .allocateUAVBuffer dev.topLevelResultDataMaxSizeInBytes .tlasResult,
         .buildTopLevel 3 .instanceDescs .tlasScratch .tlasResult,
         .close, .executeCommandLists, .waitForGPU,
         .release .instanceDescs,
         .release (.blasScratch 0), .release (.blasScratch 1), .release (.blasScratch 2)] ∧
    (createAccelerationStructures dev (RayTracingRenderer.fresh data)).1.m_topLevelScratchResource
      = some .tlasScratch := by
  revert h
  apply device_cases dev <;> intros <;>
    simp_all [createAccelerationStructures,
      createBottomLevelAccelerationStructures, createBottomLevelLoop, createBottomLevelBody,
      createTriangleInstanceDescriptions, createTopLevelAccelerationStructure,
      AllocateUAVBuffer, throwIfZero, throwIfFailed, RayTracingRenderer.issue,
      RayTracingRenderer.fresh, releaseAll, resize, List.range, List.range.loop,
      List.reduceOption]

theorem createAccelerationStructures_keeps_topLevelScratch {F : Type} (dev : RtDevice)
    (data : Nat → InstanceData F) :
    RtEvent.release .tlasScratch
      ∉ (createAccelerationStructures dev (RayTracingRenderer.fresh data)).1.events ∧
    WaitAfterSubmission
      (createAccelerationStructures dev (RayTracingRenderer.fresh data)).1.events := by
  constructor
  · apply device_cases dev <;> intros <;>
      simp [createAccelerationStructures,
        createBottomLevelAccelerationStructures, createBottomLevelLoop, createBottomLevelBody,
        createTriangleInstanceDescriptions, createTopLevelAccelerationStructure,
        AllocateUAVBuffer, throwIfZero, throwIfFailed, RayTracingRenderer.issue,
        RayTracingRenderer.fresh, releaseAll, resize, List.range, List.range.loop,
        List.reduceOption, *]
  · apply waitAfterSubmission_of_check
    · apply device_cases dev <;> intros <;>
        simp [createAccelerationStructures,
          createBottomLevelAccelerationStructures, createBottomLevelLoop,
          createBottomLevelBody,
          createTriangleInstanceDescriptions, createTopLevelAccelerationStructure,
          AllocateUAVBuffer, throwIfZero, throwIfFailed, RayTracingRenderer.issue,
          RayTracingRenderer.fresh, releaseAll, resize, List.range, List.range.loop,
          List.reduceOption, eachPreceded, eachFollowed, checkWaitAfterSubmission, *]
    · apply device_cases dev <;> intros <;>
        simp [createAccelerationStructures,
          createBottomLevelAccelerationStructures, createBottomLevelLoop,
          createBottomLevelBody,
          createTriangleInstanceDescriptions, createTopLevelAccelerationStructure,
          AllocateUAVBuffer, throwIfZero, throwIfFailed, RayTracingRenderer.issue,
          RayTracingRenderer.fresh, releaseAll, resize, List.range, List.range.loop,
          List.reduceOption, eachFollowed, checkNoBuildAfterSubmission, isBuild, *]

/-- C12 (amended): in every run of `createAccelerationStructures`, from the state the
constructor leaves, in which no step fails, every release of a bottom-level scratch
buffer and of the instance-descriptor buffer occurs after `waitForGPU`, and each of
these four buffers is released; the `waitForGPU` occurs after the submission of the
command list, no build command is recorded after the submission, and the top-level
scratch buffer is not released: it is held in the member `m_topLevelScratchResource`. -/
theorem C12_scratch_released_after_wait {F : Type} (dev : RtDevice)
    (data : Nat → InstanceData F)
    (h : (createAccelerationStructures dev (RayTracingRenderer.fresh data)).2 = .ok ()) :
    ReleasedAfterWait
      (createAccelerationStructures dev (RayTracingRenderer.fresh data)).1.events ∧
    (∀ resource ∈ [RtResource.instanceDescs, .blasScratch 0, .blasScratch 1, .blasScratch 2],
      RtEvent.release resource
        ∈ (createAccelerationStructures dev (RayTracingRenderer.fresh data)).1.events) ∧
    WaitAfterSubmission
      (createAccelerationStructures dev (RayTracingRenderer.fresh data)).1.events ∧
    RtEvent.release .tlasScratch
      ∉ (createAccelerationStructures dev (RayTracingRenderer.fresh data)).1.events ∧
    (createAccelerationStructures dev (RayTracingRenderer.fresh data)).1.m_topLevelScratchResource
      = some .tlasScratch := by
  obtain ⟨hev, hmember⟩ := createAccelerationStructures_ok_events dev data h
  obtain ⟨hkeep, hwait⟩ := createAccelerationStructures_keeps_topLevelScratch dev data
  refine ⟨?_, ?_, hwait, hkeep, hmember⟩
  · apply releasedAfterWait_of_check
    rw [hev]
    simp [eachPreceded, eachFollowed, checkReleasedAfterWait, isTemporary]
  · rw [hev]
    simp

/-- C12, witness: a device that reports positive sizes and creates every buffer. -/
theorem C12_scratch_released_after_wait_witness :
    (createAccelerationStructures goodDevice
      (RayTracingRenderer.fresh identityInstances)).2 = .ok () ∧
    ReleasedAfterWait
      (createAccelerationStructures goodDevice
        (RayTracingRenderer.fresh identityInstances)).1.events :=
  ⟨rfl, (C12_scratch_released_after_wait goodDevice identityInstances rfl).1⟩

/-- C12, counterexample: on a device that reports the result size 0 for the top-level
build, `createAccelerationStructures` fails after the three bottom-level builds were
recorded, and the instance-descriptor buffer and the three scratch buffers are released
while the failure propagates, without any `waitForGPU`. -/
theorem C12_counterexample :
    ¬ ReleasedAfterWait
      (createAccelerationStructures noTopLevelDevice
        (RayTracingRenderer.fresh identityInstances)).1.events := by
  intro h
  have := h .instanceDescs
    ((createAccelerationStructures noTopLevelDevice
      (RayTracingRenderer.fresh identityInstances)).1.events.take 18)
    ((createAccelerationStructures noTopLevelDevice
      (RayTracingRenderer.fresh identityInstances)).1.events.drop 19) rfl (by decide)
  revert this
  decide

/-! ## C14: a prebuild size of zero is fatal -/

theorem createResources_bottomLevel_zero {F : Type} [Zero F] [One F] [Neg F] (dev : RtDevice)
    (triangleDistance : F) (data : Nat → InstanceData F) (i : Nat) (hi : i < 3)
    (hz : dev.bottomLevelResultDataMaxSizeInBytes i = 0) :
    (createResources dev triangleDistance (RayTracingRenderer.fresh data)).2 ≠ .ok () ∧
    ∀ e ∈ (createResources dev triangleDistance (RayTracingRenderer.fresh data)).1.events,
      (∀ bufferSize, e ≠ .allocateUAVBuffer bufferSize (.blasScratch i)) ∧
      (∀ bufferSize, e ≠ .allocateUAVBuffer bufferSize (.blasResult i)) ∧
      (∀ scratch dest, e ≠ .buildBottomLevel i scratch dest) := by
  revert hz
  interval_cases i <;> apply device_cases dev <;> intros <;>
    simp_all [createResources, createGeometries, createAccelerationStructures,
      createBottomLevelAccelerationStructures, createBottomLevelLoop, createBottomLevelBody,
      createTriangleInstanceDescriptions, createTopLevelAccelerationStructure,
      AllocateUAVBuffer, throwIfZero, throwIfFailed, RayTracingRenderer.issue,
      RayTracingRenderer.fresh, releaseAll, resize, List.range, List.range.loop,
      List.reduceOption]

theorem createResources_topLevel_zero {F : Type} [Zero F] [One F] [Neg F] (dev : RtDevice)
    (triangleDistance : F) (data : Nat → InstanceData F)
    (hz : dev.topLevelResultDataMaxSizeInBytes = 0) :
    (createResources dev triangleDistance (RayTracingRenderer.fresh data)).2 ≠ .ok () ∧
    ∀ e ∈ (createResources dev triangleDistance (RayTracingRenderer.fresh data)).1.events,
      (∀ bufferSize, e ≠ .allocateUAVBuffer bufferSize .tlasScratch) ∧
      (∀ bufferSize, e ≠ .allocateUAVBuffer bufferSize .tlasResult) ∧
      (∀ NumDescs InstanceDescs scratch dest,
        e ≠ .buildTopLevel NumDescs InstanceDescs scratch dest) := by
  revert hz
  apply device_cases dev <;> intros <;>
    simp_all [createResources, createGeometries, createAccelerationStructures,
      createBottomLevelAccelerationStructures, createBottomLevelLoop, createBottomLevelBody,
      createTriangleInstanceDescriptions, createTopLevelAccelerationStructure,
      AllocateUAVBuffer, throwIfZero, throwIfFailed, RayTracingRenderer.issue,
      RayTracingRenderer.fresh, releaseAll, resize, List.range, List.range.loop,
      List.reduceOption]

/-- C14: a prebuild query whose result size is 0 is fatal. In an iteration of the
bottom-level loop and in `createTopLevelAccelerationStructure`, when the queried
`ResultDataMaxSizeInBytes` is 0 the function fails with the condition "build-size
unavailable" right after the query, having issued no other event: no scratch or result
buffer is allocated and no build command is recorded; when the size is greater than 0
this check does not fail. For `createResources` as a whole: when the size reported for
bottom-level build `i` or for the top-level build is 0, the run fails, and the log holds
no allocation of the scratch or result buffer of that build and no build command for
it. -/
theorem C14_zero_prebuild_size_is_fatal {F : Type} [Zero F] [One F] [Neg F] (dev : RtDevice) :
    (∀ (i : Nat) (st : BlasLoop F), dev.bottomLevelResultDataMaxSizeInBytes i = 0 →
      createBottomLevelBody dev i st
        = ({ st with renderer := st.renderer.issue [.getPrebuildInfoBottomLevel i] },
           .error .buildSizeUnavailable)) ∧
    (∀ (i : Nat) (st : BlasLoop F), 0 < dev.bottomLevelResultDataMaxSizeInBytes i →
      (createBottomLevelBody dev i st).2 ≠ .error .buildSizeUnavailable) ∧
    (∀ (r : RayTracingRenderer F) (instanceDescriptionBuffer : RtResource),
      dev.topLevelResultDataMaxSizeInBytes = 0 →
      createTopLevelAccelerationStructure dev r instanceDescriptionBuffer
        = (r.issue [.getPrebuildInfoTopLevel 3], .error .buildSizeUnavailable)) ∧
    (∀ (r : RayTracingRenderer F) (instanceDescriptionBuffer : RtResource),
      0 < dev.topLevelResultDataMaxSizeInBytes →
      (createTopLevelAccelerationStructure dev r instanceDescriptionBuffer).2
        ≠ .error .buildSizeUnavailable) ∧
    (∀ (triangleDistance : F) (data : Nat → InstanceData F) (i : Nat), i < 3 →
      dev.bottomLevelResultDataMaxSizeInBytes i = 0 →
      (createResources dev triangleDistance (RayTracingRenderer.fresh data)).2 ≠ .ok () ∧
      ∀ e ∈ (createResources dev triangleDistance (RayTracingRenderer.fresh data)).1.events,
        (∀ bufferSize, e ≠ .allocateUAVBuffer bufferSize (.blasScratch i)) ∧
        (∀ bufferSize, e ≠ .allocateUAVBuffer bufferSize (.blasResult i)) ∧
        (∀ scratch dest, e ≠ .buildBottomLevel i scratch dest)) ∧
    (∀ (triangleDistance : F) (data : Nat → InstanceData F),
      dev.topLevelResultDataMaxSizeInBytes = 0 →
      (createResources dev triangleDistance (RayTracingRenderer.fresh data)).2 ≠ .ok () ∧
      ∀ e ∈ (createResources dev triangleDistance (RayTracingRenderer.fresh data)).1.events,
        (∀ bufferSize, e ≠ .allocateUAVBuffer bufferSize .tlasScratch) ∧
        (∀ bufferSize, e ≠ .allocateUAVBuffer bufferSize .tlasResult) ∧
        (∀ NumDescs InstanceDescs scratch dest,
          e ≠ .buildTopLevel NumDescs InstanceDescs scratch dest)) := by
  refine ⟨?_, ?_, ?_, ?_, ?_, ?_⟩
  · intro i st hz
    simp [createBottomLevelBody, throwIfZero, hz]
  · intro i st hpos
    simp only [createBottomLevelBody, throwIfZero, AllocateUAVBuffer, throwIfFailed, gt_iff_lt,
      hpos, decide_True, if_true]
    cases dev.createCommittedResource (.blasScratch i) <;>
      cases dev.createCommittedResource (.blasResult i) <;> simp
  · intro r buffer hz
    simp [createTopLevelAccelerationStructure, throwIfZero, hz]
  · intro r buffer hpos
    simp only [createTopLevelAccelerationStructure, throwIfZero, AllocateUAVBuffer,
      throwIfFailed, gt_iff_lt, hpos, decide_True, if_true]
    cases dev.createCommittedResource .tlasScratch <;>
      cases dev.createCommittedResource .tlasResult <;> simp
  · intro triangleDistance data i hi hz
    exact createResources_bottomLevel_zero dev triangleDistance data i hi hz
  · intro triangleDistance data hz
    exact createResources_topLevel_zero dev triangleDistance data hz

/-- C14, witness: on a device that reports the result size 0 for the top-level build the
run of `createResources` fails with the condition "build-size unavailable". -/
theorem C14_zero_prebuild_size_is_fatal_witness :
    noTopLevelDevice.topLevelResultDataMaxSizeInBytes = 0 ∧
    (createResources noTopLevelDevice (7 : Int)
      (RayTracingRenderer.fresh identityInstances)).2 = .error .buildSizeUnavailable ∧
    (createResources noTopLevelDevice (7 : Int)
      (RayTracingRenderer.fresh identityInstances)).2 ≠ .ok () :=
  ⟨rfl, rfl,
    ((C14_zero_prebuild_size_is_fatal (F := Int) noTopLevelDevice).2.2.2.2.2 7
      identityInstances rfl).1⟩

/-! ## C11: three bottom-level structures and three instance descriptors -/

theorem createResources_ok_state {F : Type} [Zero F] [One F] [Neg F]
    (dev : RtDevice) (triangleDistance : F) (data : Nat → InstanceData F)
    (h : (createResources dev triangleDistance (RayTracingRenderer.fresh data)).2 = .ok ()) :
    (createResources dev triangleDistance (RayTracingRenderer.fresh data)).1.m_bottomLevelAS
      = [some (.blasResult 0), some (.blasResult 1), some (.blasResult 2)] ∧
    (createResources dev triangleDistance (RayTracingRenderer.fresh data)).1.instanceDescs
      = [instanceDesc 0 (createTriangleInstances triangleDistance 0).worldMatrix (.blasResult 0),
         instanceDesc 1 (createTriangleInstances triangleDistance 1).worldMatrix (.blasResult 1),
         instanceDesc 2 (createTriangleInstances triangleDistance 2).worldMatrix
           (.blasResult 2)] := by
  revert h
  apply device_cases dev <;> intros <;>
    simp_all [createResources, createGeometries, createAccelerationStructures,
      createBottomLevelAccelerationStructures, createBottomLevelLoop, createBottomLevelBody,
      createTriangleInstanceDescriptions, createTopLevelAccelerationStructure,
      AllocateUAVBuffer, throwIfZero, throwIfFailed, RayTracingRenderer.issue,
      RayTracingRenderer.fresh, releaseAll, resize, List.range, List.range.loop,
      List.reduceOption, instanceDescArray]

/-- C11: when no step of `createResources` fails, the renderer holds exactly three
bottom-level structures and the uploaded buffer exactly three instance descriptors;
descriptor `i` has instance id `i`, refers to bottom-level structure `i`, has instance
mask 1 and hit-group index 0; the only top-level build is given `NumDescs = 3` and the
buffer of the descriptors; the 3×3 part of every descriptor transform is the identity, so
the three agree in each of its entries, and the translation columns are `(0, 0, 0)`,
`(-triangleDistance, 0, 0)` and `(triangleDistance, 0, 0)`, where `triangleDistance` is
the source constant `0.7f`. -/
theorem C11_three_instances {F : Type} [Zero F] [One F] [Neg F]
    (dev : RtDevice) (triangleDistance : F) (data : Nat → InstanceData F)
    (h : (createResources dev triangleDistance (RayTracingRenderer.fresh data)).2 = .ok ()) :
    (createResources dev triangleDistance (RayTracingRenderer.fresh data)).1.m_bottomLevelAS
      = [some (.blasResult 0), some (.blasResult 1), some (.blasResult 2)] ∧
    (createResources dev triangleDistance
      (RayTracingRenderer.fresh data)).1.instanceDescs.length = 3 ∧
    (∀ (i : Nat) (desc : D3D12_RAYTRACING_INSTANCE_DESC F),
      (createResources dev triangleDistance
        (RayTracingRenderer.fresh data)).1.instanceDescs[i]? = some desc →
      desc.InstanceID = i ∧
      (createResources dev triangleDistance
        (RayTracingRenderer.fresh data)).1.m_bottomLevelAS[i]?
          = some (some desc.AccelerationStructure) ∧
      desc.AccelerationStructure = .blasResult i ∧
      desc.InstanceMask = 1 ∧ desc.InstanceContributionToHitGroupIndex = 0 ∧
      ∀ (row column : Fin 3),
        desc.Transform.get row (Fin.castSucc column) = if row = column then 1 else 0) ∧
    (createResources dev triangleDistance (RayTracingRenderer.fresh data)).1.instanceDescs.map
        (fun desc => (desc.Transform.get 0 3, desc.Transform.get 1 3, desc.Transform.get 2 3))
      = [(0, 0, 0), (-triangleDistance, 0, 0), (triangleDistance, 0, 0)] ∧
    (createResources dev triangleDistance (RayTracingRenderer.fresh data)).1.events.filter
        (fun e => match e with
          | .buildTopLevel _ _ _ _ => true
          | _ => false)
      = [.buildTopLevel 3 .instanceDescs .tlasScratch .tlasResult] := by
  obtain ⟨hblas, hdescs⟩ := createResources_ok_state dev triangleDistance data h
  have hev := createResources_ok_events dev triangleDistance data h
  refine ⟨hblas, by rw [hdescs]; rfl, ?_, ?_, ?_⟩
  · intro i desc hi
    rw [hdescs] at hi
    rw [hblas]
    rcases i with _ | _ | _ | i
    · simp only [List.getElem?_cons_zero, Option.some.injEq] at hi
      subst hi
      refine ⟨rfl, rfl, rfl, rfl, rfl, ?_⟩
      intro row column
      fin_cases row <;> fin_cases column <;> rfl
    · simp only [List.getElem?_cons_succ, List.getElem?_cons_zero, Option.some.injEq] at hi
      subst hi
      refine ⟨rfl, rfl, rfl, rfl, rfl, ?_⟩
      intro row column
      fin_cases row <;> fin_cases column <;> rfl
    · simp only [List.getElem?_cons_succ, List.getElem?_cons_zero, Option.some.injEq] at hi
      subst hi
      refine ⟨rfl, rfl, rfl, rfl, rfl, ?_⟩
      intro row column
      fin_cases row <;> fin_cases column <;> rfl
    · simp at hi
  · rw [hdescs]
    rfl
  · rw [hev]
    rfl

/-- C11, witness: a device that reports positive sizes and creates every buffer, with the
distance 7. -/
theorem C11_three_instances_witness :
    (createResources goodDevice (7 : Int) (RayTracingRenderer.fresh identityInstances)).2
      = .ok () ∧
    (createResources goodDevice (7 : Int)
      (RayTracingRenderer.fresh identityInstances)).1.instanceDescs.map
        (fun desc => (desc.Transform.get 0 3, desc.Transform.get 1 3, desc.Transform.get 2 3))
      = [(0, 0, 0), (-7, 0, 0), (7, 0, 0)] :=
  ⟨rfl, (C11_three_instances goodDevice (7 : Int) identityInstances rfl).2.2.2.1⟩

/-! ## C15 to C17: failures of the factory -/

theorem string_append_cancel (a b c : String) (h : a ++ b = a ++ c) : b = c := by
  have h1 := congrArg String.data h
  simp only [String.data_append, List.append_cancel_left_eq] at h1
  exact String.ext h1

theorem setAt_ne_exception {α : Type} (l : List α) (i : Nat) (v : α) (message : String) :
    setAt l i v ≠ .error (.exception message) := by
  unfold setAt
  split <;> intro h <;> cases h

theorem createFileTextures_ne_exception (fileLoads : String → Bool) (parentPath : String)
    (message : String) (entries : List (String × Nat)) :
    ∀ (gpu : List GpuEvent) (m_textures : List Texture2DD3D12),
      (createFileTextures fileLoads parentPath entries gpu m_textures).result
        ≠ .error (.exception message) := by
  induction entries with
  | nil => intro gpu T h; cases h
  | cons entry rest ih =>
      intro gpu T
      simp only [createFileTextures]
      split
      · cases hs : setAt T entry.2 (Texture2DD3D12.fromFile (texturePath parentPath entry.1)) with
        | error e =>
            intro h
            simp only [Except.error.injEq] at h
            exact setAt_ne_exception _ _ _ message (hs.trans (by rw [h]))
        | ok T' => exact ih _ _
      · intro h
        cases h

/-- A run of `createTextures` does not fail with a message. -/
theorem createTextures_ne_exception (fileLoads : String → Bool) (parentPath : String)
    (message : String) (entries : List (String × Nat)) (gpu : List GpuEvent)
    (m_textures : List Texture2DD3D12) :
    (createTextures fileLoads entries parentPath gpu m_textures).result
      ≠ .error (.exception message) := by
  simp only [createTextures]
  cases h0 : setAt (resize m_textures (ui32 (entries.length + 3)) Texture2DD3D12.unset) 0
      (.solid white 1 1) with
  | error e =>
      intro h
      simp only [Except.error.injEq] at h
      exact setAt_ne_exception _ _ _ message (h0.trans (by rw [h]))
  | ok T0 =>
      simp only
      cases h1 : setAt T0 1 (.solid black 1 1) with
      | error e =>
          intro h
          simp only [Except.error.injEq] at h
          exact setAt_ne_exception _ _ _ message (h1.trans (by rw [h]))
      | ok T1 =>
          simp only
          cases h2 : setAt T1 2 (.solid blue 1 1) with
          | error e =>
              intro h
              simp only [Except.error.injEq] at h
              exact setAt_ne_exception _ _ _ message (h2.trans (by rw [h]))
          | ok T2 => exact createFileTextures_ne_exception _ _ _ _ _ _

theorem mergeMeshAABBs_ne_exception {F B : Type} (ops : AABBOps F B)
    (m_meshes : List (TriangleMeshD3D12 F B)) (w : f32m4 F) (message : String)
    (meshIndices : List Nat) :
    ∀ (acc : B), mergeMeshAABBs ops m_meshes w meshIndices acc ≠ .error (.exception message) := by
  induction meshIndices with
  | nil => intro acc h; cases h
  | cons i rest ih =>
      intro acc
      simp only [mergeMeshAABBs]
      cases m_meshes[i]? with
      | none => intro h; cases h
      | some mesh => exact ih _

theorem forChildren_ne_exception {B : Type} (visit : B → Nat → Except LoadError B)
    (message : String) (hvisit : ∀ acc child, visit acc child ≠ .error (.exception message))
    (children : List Nat) :
    ∀ (acc : B), forChildren visit children acc ≠ .error (.exception message) := by
  induction children with
  | nil => intro acc h; cases h
  | cons c rest ih =>
      intro acc
      simp only [forChildren]
      cases hv : visit acc c with
      | error e =>
          intro h
          simp only [Except.error.injEq] at h
          exact hvisit acc c (hv.trans (by rw [h]))
      | ok a => exact ih a

/-- The bounding-box pass does not fail with a message. -/
theorem computeSceneAABB_ne_exception {F B : Type} [Add F] [Mul F] (ops : AABBOps F B)
    (scene : Scene F B) (message : String) (fuel : Nat) :
    ∀ (acc : B) (nodeIdx : Nat) (w : f32m4 F),
      computeSceneAABB ops scene fuel acc nodeIdx w ≠ .error (.exception message) := by
  induction fuel with
  | zero => intro acc nodeIdx w h; cases h
  | succ f ih =>
      intro acc nodeIdx w
      simp only [computeSceneAABB]
      cases scene.m_nodes[nodeIdx]? with
      | none => intro h; cases h
      | some currentNode =>
          simp only
          cases hm : mergeMeshAABBs ops scene.m_meshes (w * currentNode.transformation)
              currentNode.meshIndices acc with
          | error e =>
              intro h
              simp only [Except.error.injEq] at h
              exact mergeMeshAABBs_ne_exception ops _ _ message _ _ (hm.trans (by rw [h]))
          | ok a =>
              exact forChildren_ne_exception _ message (fun acc child => ih acc child _) _ a

/-- When the importer has returned a scene object, `createFromAssImpScene` does not fail
with a message. -/
theorem createFromAssImpScene_ne_exception {F B : Type} [Zero F] [One F] [Add F] [Mul F]
    (ops : AABBOps F B) (env : Environment F) (absolutePath parentPath : String)
    (inputScene : aiScene F) (hex : env.pathExists = true)
    (hread : env.ReadFile = some inputScene) (message : String) :
    (createFromAssImpScene ops env absolutePath parentPath).result
      ≠ .error (.exception message) := by
  unfold createFromAssImpScene
  rw [if_neg (by simp [hex]), hread]
  simp only
  split
  · intro h; cases h
  · split
    · intro h; cases h
    · split
      · intro h; cases h
      · split
        · intro h; cases h
        · split
          · next e hc =>
              intro h
              simp only [Except.error.injEq] at h
              exact computeSceneAABB_ne_exception ops _ message _ _ _ _ (hc.trans (by rw [h]))
          · split
            · next e ht =>
                intro h
                simp only [Except.error.injEq] at h
                exact createTextures_ne_exception _ _ message _ _ _ (ht.trans (by rw [h]))
            · intro h; cases h

/-- C15: `createFromAssImpScene` fails with the message of the resolved path followed by
" does not exist." if and only if the resolved path does not exist; when the path exists
and the importer returns no scene it fails with the message of the resolved path followed
by " can't be loaded. with Assimp."; in both cases the message begins with the resolved
absolute path, no scene is returned, and no GPU object has been created. -/
theorem C15_missing_path_and_parse_failure {F B : Type} [Zero F] [One F] [Add F] [Mul F]
    (ops : AABBOps F B) (env : Environment F) (absolutePath parentPath : String) :
    ((createFromAssImpScene ops env absolutePath parentPath).result
        = .error (.exception (absolutePath ++ " does not exist."))
      ↔ env.pathExists = false) ∧
    (env.pathExists = true → env.ReadFile = none →
      (createFromAssImpScene ops env absolutePath parentPath).result
        = .error (.exception (absolutePath ++ " can't be loaded. with Assimp."))) ∧
    (env.pathExists = false ∨ env.ReadFile = none →
      (∃ rest, (createFromAssImpScene ops env absolutePath parentPath).result
        = .error (.exception (absolutePath ++ rest))) ∧
      (∀ scene, (createFromAssImpScene ops env absolutePath parentPath).result ≠ .ok scene) ∧
      (createFromAssImpScene ops env absolutePath parentPath).gpu = []) := by
  refine ⟨⟨?_, ?_⟩, ?_, ?_⟩
  · intro h
    by_contra hex
    have hex' : env.pathExists = true := by simpa using hex
    cases hread : env.ReadFile with
    | none =>
        unfold createFromAssImpScene at h
        rw [if_neg (by simp [hex']), hread] at h
        simp only [Except.error.injEq, LoadError.exception.injEq] at h
        have := string_append_cancel _ _ _ h
        revert this
        decide
    | some inputScene =>
        exact createFromAssImpScene_ne_exception ops env absolutePath parentPath inputScene
          hex' hread _ h
  · intro h
    simp [createFromAssImpScene, h]
  · intro hex hread
    simp [createFromAssImpScene, hex, hread]
  · intro h
    by_cases hex : env.pathExists = false
    · simp [createFromAssImpScene, hex]
    · have hread : env.ReadFile = none := by
        rcases h with h | h
        · exact absurd h hex
        · exact h
      simp [createFromAssImpScene, hex, hread]

/-- C15, witness: a path that exists for which the importer returns no scene. -/
theorem C15_missing_path_and_parse_failure_witness :
    (environmentOf true none allFilesLoad).pathExists = true ∧
    (environmentOf true none allFilesLoad).ReadFile = none ∧
    (createFromAssImpScene recordOps (environmentOf true none allFilesLoad)
        "/scenes/a.obj" "/scenes").result
      = .error (.exception ("/scenes/a.obj" ++ " can't be loaded. with Assimp.")) :=
  ⟨rfl, rfl, (C15_missing_path_and_parse_failure recordOps (environmentOf true none allFilesLoad)
    "/scenes/a.obj" "/scenes").2.1 rfl rfl⟩

/-- What `createFromAssImpScene` has created when the importer has returned a scene
object: nothing when the device does not create the descriptor heap, and otherwise the
heap before anything else. -/
theorem createFromAssImpScene_gpu_heap {F B : Type} [Zero F] [One F] [Add F] [Mul F]
    (ops : AABBOps F B) (env : Environment F) (absolutePath parentPath : String)
    (inputScene : aiScene F) (hex : env.pathExists = true)
    (hread : env.ReadFile = some inputScene) :
    (env.CreateDescriptorHeap (numOfDescriptors inputScene.mMaterials.length) = false →
      (createFromAssImpScene ops env absolutePath parentPath).gpu = []) ∧
    (env.CreateDescriptorHeap (numOfDescriptors inputScene.mMaterials.length) = true →
      ∃ more, (createFromAssImpScene ops env absolutePath parentPath).gpu
        = GpuEvent.createDescriptorHeap (numOfDescriptors inputScene.mMaterials.length)
          :: more) := by
  unfold createFromAssImpScene
  rw [if_neg (by simp [hex]), hread]
  simp only
  constructor
  · intro hheap
    rw [if_pos hheap]
  · intro hheap
    rw [if_neg (by simp [hheap])]
    split
    · exact ⟨_, rfl⟩
    · split
      · exact ⟨_, rfl⟩
      · split
        · exact ⟨_, rfl⟩
        · split
          · exact ⟨_, rfl⟩
          · obtain ⟨more, hmore⟩ := createTextures_gpu_prefix env.fileLoads
              (env.mapOrder (textureFilenameToIndex inputScene.mMaterials)) parentPath
              [GpuEvent.createDescriptorHeap (numOfDescriptors inputScene.mMaterials.length),
               GpuEvent.createBuffer (indexBufferSize
                 (createMeshes ops.ofPositions inputScene.mMeshes []).globalIndices.length),
               GpuEvent.createBuffer (vertexBufferSize
                 (createMeshes ops.ofPositions inputScene.mMeshes []).globalVertices.length
                 env.sizeofVertex),
               GpuEvent.createBufferView 0, GpuEvent.createBufferView 1] []
            split
            · exact ⟨_, by rw [hmore]; rfl⟩
            · simp only [hmore, List.append_assoc]
              exact ⟨_, rfl⟩

/-- A scene object without a root node ends the run with the use of a null pointer,
whatever the device creates. -/
theorem createFromAssImpScene_no_root {F B : Type} [Zero F] [One F] [Add F] [Mul F]
    (ops : AABBOps F B) (env : Environment F) (absolutePath parentPath : String)
    (inputScene : aiScene F) (hex : env.pathExists = true)
    (hread : env.ReadFile = some inputScene) (hroot : inputScene.mRootNode = none) :
    (createFromAssImpScene ops env absolutePath parentPath).result
      = .error .nullDereference := by
  unfold createFromAssImpScene
  rw [if_neg (by simp [hex]), hread]
  simp only [hroot]
  split
  · rfl
  · split
    · rfl
    · split
      · rfl
      · rfl

/-- What `createFromAssImpScene` has created when the importer has returned a scene object
and the device creates the descriptor heap and the two buffers: the heap, the index
buffer, the vertex buffer and the two views, before anything else. -/
theorem createFromAssImpScene_gpu_buffers {F B : Type} [Zero F] [One F] [Add F] [Mul F]
    (ops : AABBOps F B) (env : Environment F) (absolutePath parentPath : String)
    (inputScene : aiScene F) (hex : env.pathExists = true)
    (hread : env.ReadFile = some inputScene)
    (hheap : env.CreateDescriptorHeap (numOfDescriptors inputScene.mMaterials.length) = true)
    (hib : env.CreateCommittedResource (indexBufferSize
      (createMeshes ops.ofPositions inputScene.mMeshes []).globalIndices.length) = true)
    (hvb : env.CreateCommittedResource (vertexBufferSize
      (createMeshes ops.ofPositions inputScene.mMeshes []).globalVertices.length
      env.sizeofVertex) = true) :
    ∃ more, (createFromAssImpScene ops env absolutePath parentPath).gpu
      = [GpuEvent.createDescriptorHeap (numOfDescriptors inputScene.mMaterials.length),
         GpuEvent.createBuffer (indexBufferSize
           (createMeshes ops.ofPositions inputScene.mMeshes []).globalIndices.length),
         GpuEvent.createBuffer (vertexBufferSize
           (createMeshes ops.ofPositions inputScene.mMeshes []).globalVertices.length
           env.sizeofVertex),
         GpuEvent.createBufferView 0, GpuEvent.createBufferView 1] ++ more := by
  unfold createFromAssImpScene
  rw [if_neg (by simp [hex]), hread]
  simp only
  rw [if_neg (by simp [hheap]), if_neg (by simp [hib]), if_neg (by simp [hvb])]
  split
  · exact ⟨[], by simp⟩
  · split
    · exact ⟨[], by simp⟩
    · obtain ⟨more, hmore⟩ := createTextures_gpu_prefix env.fileLoads
        (env.mapOrder (textureFilenameToIndex inputScene.mMaterials)) parentPath
        [GpuEvent.createDescriptorHeap (numOfDescriptors inputScene.mMaterials.length),
         GpuEvent.createBuffer (indexBufferSize
           (createMeshes ops.ofPositions inputScene.mMeshes []).globalIndices.length),
         GpuEvent.createBuffer (vertexBufferSize
           (createMeshes ops.ofPositions inputScene.mMeshes []).globalVertices.length
           env.sizeofVertex),
         GpuEvent.createBufferView 0, GpuEvent.createBufferView 1] []
      split
      · exact ⟨_, by rw [hmore]⟩
      · simp only [hmore, List.append_assoc]
        exact ⟨_, rfl⟩

/-- C16 (amended): when the importer returns no scene object, `createFromAssImpScene`
fails with a message that begins with the resolved path, and nothing has been created. A
scene object that the importer returns is not checked for emptiness: for no such object
does the run fail with a message of the factory; construction goes on with the
descriptor heap, which is the first object created whenever the device creates it, and
with the index buffer, the vertex buffer and their views, which follow whenever the
device creates the two buffers of their byte sizes; and a scene object without a root
node ends the run with the use of a null pointer. -/
theorem C16_import_failure {F B : Type} [Zero F] [One F] [Add F] [Mul F]
    (ops : AABBOps F B) (env : Environment F) (absolutePath parentPath : String)
    (hex : env.pathExists = true) :
    (env.ReadFile = none →
      (createFromAssImpScene ops env absolutePath parentPath).result
        = .error (.exception (absolutePath ++ " can't be loaded. with Assimp.")) ∧
      (createFromAssImpScene ops env absolutePath parentPath).gpu = []) ∧
    (∀ (inputScene : aiScene F), env.ReadFile = some inputScene →
      (∀ message, (createFromAssImpScene ops env absolutePath parentPath).result
        ≠ .error (.exception message)) ∧
      (env.CreateDescriptorHeap (numOfDescriptors inputScene.mMaterials.length) = true →
        ∃ more, (createFromAssImpScene ops env absolutePath parentPath).gpu
          = GpuEvent.createDescriptorHeap (numOfDescriptors inputScene.mMaterials.length)
            :: more) ∧
      (env.CreateDescriptorHeap (numOfDescriptors inputScene.mMaterials.length) = true →
        env.CreateCommittedResource (indexBufferSize
          (createMeshes ops.ofPositions inputScene.mMeshes []).globalIndices.length) = true →
        env.CreateCommittedResource (vertexBufferSize
          (createMeshes ops.ofPositions inputScene.mMeshes []).globalVertices.length
          env.sizeofVertex) = true →
        ∃ more, (createFromAssImpScene ops env absolutePath parentPath).gpu
          = [GpuEvent.createDescriptorHeap (numOfDescriptors inputScene.mMaterials.length),
             GpuEvent.createBuffer (indexBufferSize
               (createMeshes ops.ofPositions inputScene.mMeshes []).globalIndices.length),
             GpuEvent.createBuffer (vertexBufferSize
               (createMeshes ops.ofPositions inputScene.mMeshes []).globalVertices.length
               env.sizeofVertex),
             GpuEvent.createBufferView 0, GpuEvent.createBufferView 1] ++ more) ∧
      (inputScene.mRootNode = none →
        (createFromAssImpScene ops env absolutePath parentPath).result
          = .error .nullDereference)) := by
  constructor
  · intro hread
    simp [createFromAssImpScene, hex, hread]
  · intro inputScene hread
    exact ⟨fun message => createFromAssImpScene_ne_exception ops env absolutePath parentPath
      inputScene hex hread message,
      (createFromAssImpScene_gpu_heap ops env absolutePath parentPath inputScene hex hread).2,
      createFromAssImpScene_gpu_buffers ops env absolutePath parentPath inputScene hex hread,
      createFromAssImpScene_no_root ops env absolutePath parentPath inputScene hex hread⟩

/-- C16, witness: when the importer returns no scene object for a path that exists, the
run fails with the message of the path and nothing has been created; and for the scene
object of the four-node tree with two triangle meshes and one material the descriptor
heap of seven descriptors, the index buffer of 24 bytes, the vertex buffer of 312 bytes
and their views are the first objects created. -/
theorem C16_import_failure_witness :
    (environmentOf true none allFilesLoad).pathExists = true ∧
    (environmentOf true none allFilesLoad).ReadFile = none ∧
    (createFromAssImpScene recordOps (environmentOf true none allFilesLoad)
      "/scenes/a.obj" "/scenes").result
      = .error (.exception ("/scenes/a.obj" ++ " can't be loaded. with Assimp.")) ∧
    (createFromAssImpScene recordOps (environmentOf true none allFilesLoad)
      "/scenes/a.obj" "/scenes").gpu = [] ∧
    smallEnvironment.pathExists = true ∧
    smallEnvironment.ReadFile = some smallInputScene ∧
    smallEnvironment.CreateDescriptorHeap 7 = true ∧
    smallEnvironment.CreateCommittedResource 24 = true ∧
    smallEnvironment.CreateCommittedResource 312 = true ∧
    ∃ more, (createFromAssImpScene recordOps smallEnvironment "/scenes/a.obj" "/scenes").gpu
      = [.createDescriptorHeap 7, .createBuffer 24, .createBuffer 312,
         .createBufferView 0, .createBufferView 1] ++ more :=
  ⟨rfl, rfl,
    ((C16_import_failure recordOps (environmentOf true none allFilesLoad)
      "/scenes/a.obj" "/scenes" rfl).1 rfl).1,
    ((C16_import_failure recordOps (environmentOf true none allFilesLoad)
      "/scenes/a.obj" "/scenes" rfl).1 rfl).2,
    rfl, rfl, rfl, rfl, rfl,
    ((C16_import_failure recordOps smallEnvironment "/scenes/a.obj" "/scenes" rfl).2
      smallInputScene rfl).2.2.1 rfl (by rfl) (by rfl)⟩

/-- C16, counterexample: for a scene object without meshes and without a root node the
run does not fail with a message. On the device that creates no buffer of zero bytes the
descriptor heap of two descriptors is created and the run ends with the use of the null
index buffer; and on every device the run ends with the use of a null pointer. -/
theorem C16_counterexample :
    (¬ ∃ message,
      (createFromAssImpScene recordOps (environmentOf true (some emptyScene) allFilesLoad)
        "/scenes/a.obj" "/scenes").result = .error (.exception message)) ∧
    (createFromAssImpScene recordOps (environmentOf true (some emptyScene) allFilesLoad)
      "/scenes/a.obj" "/scenes").result = .error .nullDereference ∧
    (createFromAssImpScene recordOps (environmentOf true (some emptyScene) allFilesLoad)
      "/scenes/a.obj" "/scenes").gpu = [.createDescriptorHeap 2] ∧
    ∀ (heap buffer : Nat → Bool),
      (createFromAssImpScene recordOps
        { environmentOf true (some emptyScene) allFilesLoad with
          CreateDescriptorHeap := heap, CreateCommittedResource := buffer }
        "/scenes/a.obj" "/scenes").result = .error .nullDereference := by
  refine ⟨?_, rfl, rfl, ?_⟩
  · rintro ⟨message, h⟩
    cases h
  · intro heap buffer
    exact createFromAssImpScene_no_root recordOps _ "/scenes/a.obj" "/scenes" emptyScene
      rfl rfl rfl

/-! ## C17: GPU objects at the point of failure -/

/-- A run of the texture loop that ends with a file that cannot be loaded has created the
textures of the entries before that file. -/
theorem createFileTextures_loadFailed (fileLoads : String → Bool) (parentPath path : String)
    (entries : List (String × Nat)) :
    ∀ (gpu : List GpuEvent) (m_textures : List Texture2DD3D12),
      (createFileTextures fileLoads parentPath entries gpu m_textures).result
        = .error (.textureLoadFailed path) →
      ∃ (before : List (String × Nat)) (failing : String × Nat) (after : List (String × Nat)),
        entries = before ++ failing :: after ∧
        path = texturePath parentPath failing.1 ∧ fileLoads path = false ∧
        (∀ e ∈ before, fileLoads (texturePath parentPath e.1) = true) ∧
        (createFileTextures fileLoads parentPath entries gpu m_textures).gpu
          = gpu ++ before.map
              (fun e => GpuEvent.createTexture (.fromFile (texturePath parentPath e.1))) := by
  induction entries with
  | nil => intro gpu T h; cases h
  | cons entry rest ih =>
      intro gpu T h
      simp only [createFileTextures] at h ⊢
      cases hload : fileLoads (texturePath parentPath entry.1) with
      | false =>
          rw [hload] at h
          simp only [Bool.false_eq_true, if_false, Except.error.injEq,
            LoadError.textureLoadFailed.injEq] at h ⊢
          subst h
          refine ⟨[], entry, rest, rfl, rfl, hload, (fun e he => nomatch he), ?_⟩
          simp
      | true =>
          rw [hload] at h
          simp only [if_true] at h ⊢
          cases hs : setAt T entry.2 (Texture2DD3D12.fromFile (texturePath parentPath entry.1))
            with
          | error e =>
              rw [hs] at h
              simp only [Except.error.injEq] at h
              unfold setAt at hs
              split at hs
              · cases hs
              · simp only [Except.error.injEq] at hs
                rw [← hs] at h
                cases h
          | ok T' =>
              rw [hs] at h
              simp only at h ⊢
              obtain ⟨before, failing, after, h1, h2, h3, h4, h5⟩ := ih _ T' h
              refine ⟨entry :: before, failing, after, by rw [h1]; rfl, h2, h3, ?_, ?_⟩
              · intro e he
                rcases List.mem_cons.mp he with rfl | he
                · exact hload
                · exact h4 e he
              · rw [h5]
                simp

/-- A run of `createTextures` that ends with a file that cannot be loaded has created the
three default textures and the textures of the entries before that file. -/
theorem createTextures_loadFailed (fileLoads : String → Bool) (parentPath path : String)
    (entries : List (String × Nat)) (gpu : List GpuEvent) (m_textures : List Texture2DD3D12)
    (h : (createTextures fileLoads entries parentPath gpu m_textures).result
      = .error (.textureLoadFailed path)) :
    ∃ (before : List (String × Nat)) (failing : String × Nat) (after : List (String × Nat)),
      entries = before ++ failing :: after ∧
      path = texturePath parentPath failing.1 ∧ fileLoads path = false ∧
      (∀ e ∈ before, fileLoads (texturePath parentPath e.1) = true) ∧
      (createTextures fileLoads entries parentPath gpu m_textures).gpu
        = gpu ++ [GpuEvent.createTexture (.solid white 1 1),
            GpuEvent.createTexture (.solid black 1 1),
            GpuEvent.createTexture (.solid blue 1 1)]
          ++ before.map
              (fun e => GpuEvent.createTexture (.fromFile (texturePath parentPath e.1))) := by
  have hset : ∀ (T : List Texture2DD3D12) (i : Nat) (v : Texture2DD3D12),
      setAt T i v ≠ .error (.textureLoadFailed path) := by
    intro T i v
    unfold setAt
    split <;> intro h <;> cases h
  simp only [createTextures] at h ⊢
  cases h0 : setAt (resize m_textures (ui32 (entries.length + 3)) Texture2DD3D12.unset) 0
      (.solid white 1 1) with
  | error e =>
      rw [h0] at h
      simp only [Except.error.injEq] at h
      exact absurd (h0.trans (by rw [h])) (hset _ _ _)
  | ok T0 =>
      rw [h0] at h
      simp only at h ⊢
      cases h1 : setAt T0 1 (.solid black 1 1) with
      | error e =>
          rw [h1] at h
          simp only [Except.error.injEq] at h
          exact absurd (h1.trans (by rw [h])) (hset _ _ _)
      | ok T1 =>
          rw [h1] at h
          simp only at h ⊢
          cases h2 : setAt T1 2 (.solid blue 1 1) with
          | error e =>
              rw [h2] at h
              simp only [Except.error.injEq] at h
              exact absurd (h2.trans (by rw [h])) (hset _ _ _)
          | ok T2 =>
              rw [h2] at h
              simp only at h ⊢
              obtain ⟨before, failing, after, e1, e2, e3, e4, e5⟩ :=
                createFileTextures_loadFailed fileLoads parentPath path entries _ T2 h
              refine ⟨before, failing, after, e1, e2, e3, e4, ?_⟩
              rw [e5]
              simp

theorem mergeMeshAABBs_ne_loadFailed {F B : Type} (ops : AABBOps F B)
    (m_meshes : List (TriangleMeshD3D12 F B)) (w : f32m4 F) (path : String)
    (meshIndices : List Nat) :
    ∀ (acc : B), mergeMeshAABBs ops m_meshes w meshIndices acc
      ≠ .error (.textureLoadFailed path) := by
  induction meshIndices with
  | nil => intro acc h; cases h
  | cons i rest ih =>
      intro acc
      simp only [mergeMeshAABBs]
      cases m_meshes[i]? with
      | none => intro h; cases h
      | some mesh => exact ih _

theorem forChildren_ne_loadFailed {B : Type} (visit : B → Nat → Except LoadError B)
    (path : String)
    (hvisit : ∀ acc child, visit acc child ≠ .error (.textureLoadFailed path))
    (children : List Nat) :
    ∀ (acc : B), forChildren visit children acc ≠ .error (.textureLoadFailed path) := by
  induction children with
  | nil => intro acc h; cases h
  | cons c rest ih =>
      intro acc
      simp only [forChildren]
      cases hv : visit acc c with
      | error e =>
          intro h
          simp only [Except.error.injEq] at h
          exact hvisit acc c (hv.trans (by rw [h]))
      | ok a => exact ih a

/-- The bounding-box pass loads no texture file. -/
theorem computeSceneAABB_ne_loadFailed {F B : Type} [Add F] [Mul F] (ops : AABBOps F B)
    (scene : Scene F B) (path : String) (fuel : Nat) :
    ∀ (acc : B) (nodeIdx : Nat) (w : f32m4 F),
      computeSceneAABB ops scene fuel acc nodeIdx w ≠ .error (.textureLoadFailed path) := by
  induction fuel with
  | zero => intro acc nodeIdx w h; cases h
  | succ f ih =>
      intro acc nodeIdx w
      simp only [computeSceneAABB]
      cases scene.m_nodes[nodeIdx]? with
      | none => intro h; cases h
      | some currentNode =>
          simp only
          cases hm : mergeMeshAABBs ops scene.m_meshes (w * currentNode.transformation)
              currentNode.meshIndices acc with
          | error e =>
              intro h
              simp only [Except.error.injEq] at h
              exact mergeMeshAABBs_ne_loadFailed ops _ _ path _ _ (hm.trans (by rw [h]))
          | ok a =>
              exact forChildren_ne_loadFailed _ path (fun acc child => ih acc child _) _ a

/-- C17 (amended): when `createFromAssImpScene` fails because the path is missing or the
importer returns no scene, no GPU object has been created; a failure to load a texture
file occurs in `createTextures`, at the first entry of the texture map, in the order the
map yields them, whose file cannot be loaded: the device has then created the descriptor
heap and the index and vertex buffers, of their byte sizes narrowed to 32 bits, and the
objects created are exactly the heap, the two buffers with their views, the three
default textures, and the textures of the entries before the failing one. -/
theorem C17_gpu_objects_at_failure {F B : Type} [Zero F] [One F] [Add F] [Mul F]
    (ops : AABBOps F B) (env : Environment F) (absolutePath parentPath : String) :
    (env.pathExists = false ∨ env.ReadFile = none →
      (createFromAssImpScene ops env absolutePath parentPath).gpu = [] ∧
      ∃ message, (createFromAssImpScene ops env absolutePath parentPath).result
        = .error (.exception message)) ∧
    (∀ path, (createFromAssImpScene ops env absolutePath parentPath).result
        = .error (.textureLoadFailed path) →
      ∃ (inputScene : aiScene F) (before : List (String × Nat)) (failing : String × Nat)
        (after : List (String × Nat)),
        env.ReadFile = some inputScene ∧
        env.mapOrder (textureFilenameToIndex inputScene.mMaterials)
          = before ++ failing :: after ∧
        path = texturePath parentPath failing.1 ∧ env.fileLoads path = false ∧
        (∀ e ∈ before, env.fileLoads (texturePath parentPath e.1) = true) ∧
        env.CreateDescriptorHeap (numOfDescriptors inputScene.mMaterials.length) = true ∧
        env.CreateCommittedResource (indexBufferSize
          (createMeshes ops.ofPositions inputScene.mMeshes []).globalIndices.length) = true ∧
        env.CreateCommittedResource (vertexBufferSize
          (createMeshes ops.ofPositions inputScene.mMeshes []).globalVertices.length
          env.sizeofVertex) = true ∧
        (createFromAssImpScene ops env absolutePath parentPath).gpu
          = [GpuEvent.createDescriptorHeap (numOfDescriptors inputScene.mMaterials.length),
             GpuEvent.createBuffer (indexBufferSize
               (createMeshes ops.ofPositions inputScene.mMeshes []).globalIndices.length),
             GpuEvent.createBuffer (vertexBufferSize
               (createMeshes ops.ofPositions inputScene.mMeshes []).globalVertices.length
               env.sizeofVertex),
             GpuEvent.createBufferView 0, GpuEvent.createBufferView 1,
             GpuEvent.createTexture (.solid white 1 1),
             GpuEvent.createTexture (.solid black 1 1),
             GpuEvent.createTexture (.solid blue 1 1)]
            ++ before.map
                (fun e => GpuEvent.createTexture
                  (.fromFile (texturePath parentPath e.1)))) := by
  constructor
  · intro h
    by_cases hex : env.pathExists = false
    · simp [createFromAssImpScene, hex]
    · have hread : env.ReadFile = none := by
        rcases h with h | h
        · exact absurd h hex
        · exact h
      simp [createFromAssImpScene, hex, hread]
  · intro path h
    unfold createFromAssImpScene at h ⊢
    split at h
    · cases h
    · next hex =>
      rw [if_neg hex]
      split at h
      · cases h
      · next inputScene hread =>
        simp only at h ⊢
        split at h
        · cases h
        · next hheap =>
        split at h
        · cases h
        · next hib =>
        split at h
        · cases h
        · next hvb =>
        rw [if_neg hheap, if_neg hib, if_neg hvb]
        split at h
        · cases h
        · next root hroot =>
          split at h
          · next e hc =>
            simp only [Except.error.injEq] at h
            subst h
            exact absurd hc (computeSceneAABB_ne_loadFailed ops _ path _ _ _ _)
          · next aabb haabb =>
            split at h
            · next e ht =>
              simp only [Except.error.injEq] at h
              subst h
              obtain ⟨before, failing, after, e1, e2, e3, e4, e5⟩ :=
                createTextures_loadFailed env.fileLoads parentPath path _ _ _ ht
              refine ⟨inputScene, before, failing, after, hread, e1, e2, e3, e4,
                by simpa using hheap, by simpa using hib, by simpa using hvb, ?_⟩
              simp only [ht, e5]
              simp
            · cases h

/-- C17, witness: a path that does not exist, for which nothing is created; and the scene
of one material with the texture files `a.png` and `b.png` when no file can be loaded:
the run fails at `a.png`, after the descriptor heap for one material, the index buffer
for three indices, the vertex buffer for three vertices of 52 bytes, their views and the
three default textures have been created. -/
theorem C17_gpu_objects_at_failure_witness :
    (((environmentOf false none allFilesLoad).pathExists = false ∨
        (environmentOf false none allFilesLoad).ReadFile = none) ∧
      (createFromAssImpScene recordOps (environmentOf false none allFilesLoad)
        "/scenes/a.obj" "/scenes").gpu = []) ∧
    (createFromAssImpScene recordOps (environmentOf true (some texturedScene) noFileLoads)
      "/scenes/a.obj" "/scenes").result = .error (.textureLoadFailed "/scenes/a.png") ∧
    (createFromAssImpScene recordOps (environmentOf true (some texturedScene) noFileLoads)
      "/scenes/a.obj" "/scenes").gpu
      = [.createDescriptorHeap (numOfDescriptors 1),
         .createBuffer (indexBufferSize 3), .createBuffer (vertexBufferSize 3 52),
         .createBufferView 0, .createBufferView 1, .createTexture (.solid white 1 1),
         .createTexture (.solid black 1 1), .createTexture (.solid blue 1 1)] := by
  refine ⟨⟨Or.inl rfl, ((C17_gpu_objects_at_failure recordOps
    (environmentOf false none allFilesLoad) "/scenes/a.obj" "/scenes").1 (Or.inl rfl)).1⟩,
    rfl, ?_⟩
  obtain ⟨inputScene, before, failing, after, hread, -, -, -, hbefore, -, -, -, hgpu⟩ :=
    (C17_gpu_objects_at_failure recordOps
      (environmentOf true (some texturedScene) noFileLoads) "/scenes/a.obj" "/scenes").2
      "/scenes/a.png" rfl
  cases hread
  cases before with
  | nil => rw [hgpu]; rfl
  | cons e rest => cases hbefore e (List.mem_cons_self _ _)

/-- C17, counterexample: when the texture file `a.png` of the scene cannot be loaded, the
run fails after the descriptor heap, the index buffer of 12 bytes and the vertex buffer of
156 bytes, their views and the three default textures have been created. -/
theorem C17_counterexample :
    (createFromAssImpScene recordOps (environmentOf true (some texturedScene) noFileLoads)
      "/scenes/a.obj" "/scenes").result = .error (.textureLoadFailed "/scenes/a.png") ∧
    (createFromAssImpScene recordOps (environmentOf true (some texturedScene) noFileLoads)
      "/scenes/a.obj" "/scenes").gpu
      = [.createDescriptorHeap 7, .createBuffer 12, .createBuffer 156, .createBufferView 0,
         .createBufferView 1, .createTexture (.solid white 1 1),
         .createTexture (.solid black 1 1), .createTexture (.solid blue 1 1)] := by
  constructor
  · rfl
  · decide

/-! ## C20: absent material properties -/

/-- C20, the code at a material without colour and scalar properties: the colour fields of
the payload are the zero vector, while the specular exponent and the reflectivity are the
values the locals `specularExponent` and `reflectivity` held before the calls of
`aiGetMaterialFloat`, here 7 and 9, and not zero. -/
theorem C20_absent_scalars_uninitialised :
    (materialConstants (7, 9) (textureMaterial fun _ => [])).ambientColor = ⟨0, 0, 0, 0⟩ ∧
    (materialConstants (7, 9) (textureMaterial fun _ => [])).diffuseColor = ⟨0, 0, 0, 0⟩ ∧
    (materialConstants (7, 9) (textureMaterial fun _ => [])).specularColorAndExponent
      = ⟨0, 0, 0, 7⟩ ∧
    (materialConstants (7, 9) (textureMaterial fun _ => [])).reflectivity = 9 ∧
    (createMaterials sampleUninit [textureMaterial fun _ => []] [] []).m_materials.map
        (fun material => (material.materialConstantBuffer.specularColorAndExponent.w,
          material.materialConstantBuffer.reflectivity))
      = [(7, 9)] := by
  decide

/-! ## C21: the scene of two nodes -/

/-- C21: when `createFromAssImpScene` returns a scene for the source scene of two nodes (a
root with the identity transformation and no mesh, and one child with the identity
transformation that refers to the one mesh), the scene has exactly two nodes, the root at
index 0 with the child list `[1]` and the child at index 1 with the mesh list `[0]`, and
exactly one mesh, with start vertex 0 and start index 0; and when the empty box is
neutral for the union and the transformation by the identity leaves a box unchanged, the
bounding box of the scene is the bounding box of the mesh. -/
theorem C21_two_node_scene {B : Type} (ops : AABBOps Int B) (env : Environment Int)
    (absolutePath parentPath : String) (mesh : aiMesh Int) (materials : List (aiMaterial Int))
    (scene : Scene Int B)
    (hread : env.ReadFile = some (twoNodeScene mesh materials))
    (hok : (createFromAssImpScene ops env absolutePath parentPath).result = .ok scene) :
    (∃ root child, scene.m_nodes = [root, child] ∧
      root.childIndices = [1] ∧ root.meshIndices = [] ∧
      child.meshIndices = [0] ∧ child.childIndices = []) ∧
    (∃ m, scene.m_meshes = [m] ∧ m.m_startVertex = 0 ∧ m.m_startIndex = 0 ∧
      m.m_nVertices = mesh.mNumVertices ∧
      m.m_aabb = ops.ofPositions (meshAttributes 0 mesh).1 mesh.mNumVertices ∧
      ((∀ b, ops.getUnion ops.empty b = b) → (∀ b, ops.getTransformed b glm.identity = b) →
        scene.m_aabb = m.m_aabb)) := by
  obtain ⟨inputScene, root, textures, -, hread', hroot, -, haabb, hn, hm, -⟩ :=
    createFromAssImpScene_ok ops env absolutePath parentPath scene hok
  rw [hread] at hread'
  cases hread'
  simp only [twoNodeScene, Option.some.injEq] at hroot
  subst hroot
  have hnodes : (createNodes [] twoNodeTree (glm.identity : f32m4 Int)).1
      = [{ transformation := glm.identity, worldSpaceTransformation := glm.identity,
           meshIndices := [], childIndices := [1] },
         { transformation := glm.identity, worldSpaceTransformation := glm.identity,
           meshIndices := [0], childIndices := [] }] := by decide
  have hz : ui32 0 = 0 := by decide
  constructor
  · rw [hn, hnodes]
    exact ⟨_, _, rfl, rfl, rfl, rfl, rfl⟩
  · refine ⟨_, by rw [hm]; rfl, ?_, ?_, rfl, rfl, ?_⟩
    · simp [hz]
    · simp [hz]
    · intro hneutral hid
      rw [hnodes] at haabb
      have hone : ui32 1 = 1 := by decide
      have hmat : (glm.identity : f32m4 Int) * glm.identity = glm.identity := by decide
      simp only [twoNodeScene, createMeshes, createMeshesLoop, createMeshesBody,
        List.length_cons, List.length_nil, computeSceneAABB, List.getElem?_cons_zero,
        List.getElem?_cons_succ, mergeMeshAABBs, hz, hone, hmat, List.take_succ_cons,
        List.take_zero, List.take_nil, forChildren, List.nil_append, hneutral, hid,
        Except.ok.injEq] at haabb
      rw [← haabb]
      simp [hz]

/-- C21, witness: the scene of two nodes with a triangle mesh and no material. -/
theorem C21_two_node_scene_witness :
    (environmentOf true (some (twoNodeScene triangleMesh [])) allFilesLoad).ReadFile
      = some (twoNodeScene triangleMesh []) ∧
    (∃ scene, (createFromAssImpScene recordOps
      (environmentOf true (some (twoNodeScene triangleMesh [])) allFilesLoad)
      "/scenes/a.obj" "/scenes").result = .ok scene ∧
      ∃ root child, scene.m_nodes = [root, child] ∧
        root.childIndices = [1] ∧ root.meshIndices = [] ∧
        child.meshIndices = [0] ∧ child.childIndices = []) :=
  ⟨rfl, _, rfl, (C21_two_node_scene recordOps
    (environmentOf true (some (twoNodeScene triangleMesh [])) allFilesLoad)
    "/scenes/a.obj" "/scenes" triangleMesh [] _ rfl rfl).1⟩

/-! ## C22 to C24: vertices, index counts, matrix conversion -/

/-- The mesh that iteration `i` of the mesh loop appends for the source mesh `src` in the
state `st`. -/
theorem createMeshesBody_appended {F B : Type} [Zero F] (mkAABB : List (f32v3 F) → Nat → B)
    (i : Nat) (src : aiMesh F) (st : MeshState F B) :
    ∃ m, (createMeshesBody mkAABB i src st).m_meshes = st.m_meshes ++ [m] ∧
      m.m_vertices = (List.range src.mNumVertices).map (fun n =>
        ({ position := (meshAttributes i src).1.getD n f32v3.zero
           normal := (meshAttributes i src).2.1.getD n f32v3.zero
           textureCoordinate := (meshAttributes i src).2.2.1.getD n f32v3.zero
           tangent := (meshAttributes i src).2.2.2.getD n f32v3.zero
           materialIndex := src.mMaterialIndex } : Vertex F)) ∧
      m.m_nIndices = storedIndexCount src ∧
      m.m_indices = (List.range (storedIndexCount src / 3)).flatMap (fun j =>
        [((getTriangleIndicesFromAiMesh src m.m_startVertex).getD j ⟨0, 0, 0⟩).x,
         ((getTriangleIndicesFromAiMesh src m.m_startVertex).getD j ⟨0, 0, 0⟩).y,
         ((getTriangleIndicesFromAiMesh src m.m_startVertex).getD j ⟨0, 0, 0⟩).z]) := by
  refine ⟨_, rfl, rfl, ?_, ?_⟩
  · simp [TriangleMeshD3D12.create, length_getTriangleIndicesFromAiMesh, storedIndexCount]
  · simp [TriangleMeshD3D12.create, length_getTriangleIndicesFromAiMesh, storedIndexCount]

/-- Every mesh of the result of the mesh loop is the mesh its iteration appended. -/
theorem createMeshesLoop_appended {F B : Type} [Zero F] (mkAABB : List (f32v3 F) → Nat → B)
    (ms : List (aiMesh F)) : ∀ (i : Nat) (st : MeshState F B) (k : Nat) (src : aiMesh F),
    ms[k]? = some src →
    ∃ (st' : MeshState F B) (m : TriangleMeshD3D12 F B),
      (createMeshesLoop mkAABB i ms st).m_meshes[st.m_meshes.length + k]? = some m ∧
      (createMeshesBody mkAABB (i + k) src st').m_meshes = st'.m_meshes ++ [m] := by
  induction ms with
  | nil => intro i st k src h; simp at h
  | cons mesh rest ih =>
      intro i st k src h
      obtain ⟨m, hm, -⟩ := createMeshesBody_appended mkAABB i mesh st
      cases k with
      | zero =>
          simp only [List.getElem?_cons_zero, Option.some.injEq] at h
          subst h
          obtain ⟨Y, y1, -⟩ := createMeshesLoop_content mkAABB rest (i + 1)
            (createMeshesBody mkAABB i mesh st)
          refine ⟨st, m, ?_, hm⟩
          simp only [createMeshesLoop, y1, hm, Nat.add_zero, List.append_assoc]
          rw [List.getElem?_append_right (Nat.le_refl _)]
          simp
      | succ k =>
          simp only [List.getElem?_cons_succ] at h
          obtain ⟨st', m', h1, h2⟩ := ih (i + 1) (createMeshesBody mkAABB i mesh st) k src h
          have e1 : i + 1 + k = i + (k + 1) := by omega
          have e2 : (createMeshesBody mkAABB i mesh st).m_meshes.length + k
              = st.m_meshes.length + (k + 1) := by
            rw [hm, List.length_append, List.length_singleton]
            omega
          rw [e1] at h2
          rw [e2] at h1
          exact ⟨st', m', h1, h2⟩

/-- C22, the code at a mesh with two vertices that have distinct tangents: positions,
normals and texture coordinates (with third component 0) are those of the same vertex,
but the tangent of every vertex is the tangent the source holds at the position of the
mesh number, here 0, so vertex 1 carries the tangent `(1, 0, 0)` of vertex 0 and not its
own tangent `(0, 0, 5)`. -/
theorem C22_tangent_read_at_mesh_number :
    (createMeshes noAABB [tangentMesh] []).globalVertices.map (fun v => v.position)
      = [⟨1, 2, 3⟩, ⟨4, 5, 6⟩] ∧
    (createMeshes noAABB [tangentMesh] []).globalVertices.map (fun v => v.normal)
      = [⟨0, 0, 1⟩, ⟨0, 1, 0⟩] ∧
    (createMeshes noAABB [tangentMesh] []).globalVertices.map (fun v => v.textureCoordinate)
      = [⟨7, 8, 0⟩, ⟨10, 11, 0⟩] ∧
    (createMeshes noAABB [tangentMesh] []).globalVertices.map (fun v => v.tangent)
      = [⟨1, 0, 0⟩, ⟨1, 0, 0⟩] ∧
    tangentMesh.mTangents = some [⟨1, 0, 0⟩, ⟨0, 0, 5⟩] := by
  decide

/-- The stored entries of a full triple buffer are the indices of the three-index faces,
each offset by the base vertex, in face order. -/
theorem flatMap_triangleOfFace (base : Nat) (faces : List aiFace) :
    (faces.filterMap (triangleOfFace base)).flatMap (fun t => [t.x, t.y, t.z])
      = (faces.filter fun f => f.mIndices.length = 3).flatMap
          (fun f => f.mIndices.map fun a => ui32 (a + base)) := by
  induction faces with
  | nil => rfl
  | cons f rest ih =>
      rcases f with ⟨idx⟩
      match idx with
      | [] => simpa [triangleOfFace, List.filterMap_cons, List.filter_cons] using ih
      | [_] => simpa [triangleOfFace, List.filterMap_cons, List.filter_cons] using ih
      | [_, _] => simpa [triangleOfFace, List.filterMap_cons, List.filter_cons] using ih
      | [a, b, c] =>
          simp [triangleOfFace, List.filterMap_cons, List.filter_cons, ih]
      | _ :: _ :: _ :: _ :: _ =>
          simpa [triangleOfFace, List.filterMap_cons, List.filter_cons] using ih

theorem flatMap_range_getD {α β : Type} (l : List α) (d : α) (f : α → List β) :
    (List.range l.length).flatMap (fun j => f (l.getD j d)) = l.flatMap f := by
  induction l using List.reverseRecOn with
  | nil => rfl
  | append_singleton xs x ih =>
      rw [List.length_append, List.length_singleton, List.range_succ, List.flatMap_append,
        List.flatMap_append]
      congr 1
      · rw [← ih]
        apply List.flatMap_congr
        intro j hj
        rw [List.mem_range] at hj
        simp [List.getD_eq_getElem?_getD, List.getElem?_append_left hj]
      · simp [List.getD_eq_getElem?_getD]

theorem length_flatMap_three {α : Type} (g : Nat → List α) (hg : ∀ j, (g j).length = 3)
    (n : Nat) : ((List.range n).flatMap g).length = 3 * n := by
  induction n with
  | zero => rfl
  | succ n ih =>
      rw [List.range_succ, List.flatMap_append, List.length_append, ih]
      simp only [List.flatMap_singleton, hg]
      omega

/-- C23 (amended): for every mesh that `createMeshes` produces from a source mesh whose
triangle count times 3 is below `2 ^ 32`, the index count is 3 times the number of source
faces that have exactly three indices, the stored index array has exactly that many
entries, and its entries are the indices of those faces, offset by the start vertex, in
face order: faces with another number of indices contribute nothing. -/
theorem C23_index_count_multiple_of_three {F B : Type} [Zero F]
    (mkAABB : List (f32v3 F) → Nat → B) (ms : List (aiMesh F)) (k : Nat) (src : aiMesh F)
    (hsrc : ms[k]? = some src) (hfit : 3 * triangleCount src < 2 ^ 32) :
    ∃ m, (createMeshes mkAABB ms []).m_meshes[k]? = some m ∧
      m.m_nIndices = 3 * triangleCount src ∧
      m.m_indices.length = m.m_nIndices ∧
      m.m_indices = (src.mFaces.filter fun f => f.mIndices.length = 3).flatMap
        (fun f => f.mIndices.map fun a => ui32 (a + m.m_startVertex)) := by
  obtain ⟨st', m, h1, h2⟩ := createMeshesLoop_appended mkAABB ms 0
    { globalVertices := [], globalIndices := [], m_meshes := [] } k src hsrc
  obtain ⟨m', hm', -, hn, hidx⟩ := createMeshesBody_appended mkAABB (0 + k) src st'
  rw [h2] at hm'
  have hmm : m = m' := by simpa using hm'
  subst hmm
  have hcount : storedIndexCount src = 3 * triangleCount src := by
    unfold storedIndexCount
    rw [ui32_of_lt (show triangleCount src < 2 ^ 32 by omega), ui32_of_lt hfit]
  have hcontent : m.m_indices = (src.mFaces.filter fun f => f.mIndices.length = 3).flatMap
      (fun f => f.mIndices.map fun a => ui32 (a + m.m_startVertex)) := by
    rw [hidx, hcount, Nat.mul_div_cancel_left _ (by decide : 0 < 3),
      ← length_getTriangleIndicesFromAiMesh src m.m_startVertex,
      flatMap_range_getD _ _ (fun (t : ui32v3) => [t.x, t.y, t.z])]
    unfold getTriangleIndicesFromAiMesh
    split
    · next hempty => simp [List.isEmpty_iff.mp hempty]
    · exact flatMap_triangleOfFace _ _
  refine ⟨m, by simpa [createMeshes] using h1, by rw [hn, hcount], ?_, hcontent⟩
  rw [hn, hidx, hcount, Nat.mul_div_cancel_left _ (by decide : 0 < 3)]
  exact length_flatMap_three (fun j =>
    [((getTriangleIndicesFromAiMesh src m.m_startVertex).getD j ⟨0, 0, 0⟩).x,
     ((getTriangleIndicesFromAiMesh src m.m_startVertex).getD j ⟨0, 0, 0⟩).y,
     ((getTriangleIndicesFromAiMesh src m.m_startVertex).getD j ⟨0, 0, 0⟩).z])
    (fun _ => rfl) _


/-- C23, witness: the triangle mesh. -/
theorem C23_index_count_multiple_of_three_witness :
    [triangleMesh][0]? = some triangleMesh ∧ 3 * triangleCount triangleMesh < 2 ^ 32 ∧
    ∃ m, (createMeshes noAABB [triangleMesh] []).m_meshes[0]? = some m ∧
      m.m_nIndices = 3 * triangleCount triangleMesh ∧
      m.m_indices.length = m.m_nIndices ∧
      m.m_indices = (triangleMesh.mFaces.filter fun f => f.mIndices.length = 3).flatMap
        (fun f => f.mIndices.map fun a => ui32 (a + m.m_startVertex)) :=
  ⟨rfl, by decide,
    C23_index_count_multiple_of_three noAABB [triangleMesh] 0 triangleMesh rfl (by decide)⟩

theorem triangleCount_manyFaces (n : Nat) : triangleCount (manyFacesMesh n) = n := by
  unfold triangleCount manyFacesMesh
  induction n with
  | zero => rfl
  | succ n ih =>
      simp only [List.replicate_succ, List.filter_cons] at ih ⊢
      simp [ih]

/-- C23, counterexample: for a source mesh with 1431655766 triangular faces the index
count, three times the face count computed in 32 bits, is 2, which is not a multiple
of 3. -/
theorem C23_counterexample :
    ¬ ∀ m ∈ (createMeshes noAABB [manyFacesMesh hugeFaceCount] []).m_meshes,
      3 ∣ m.m_nIndices := by
  intro h
  have hn : hugeFaceCount = 1431655766 := rfl
  obtain ⟨-, h2, -⟩ := createMeshes_layout noAABB [manyFacesMesh hugeFaceCount]
  generalize hugeFaceCount = n at hn h h2
  simp only [List.map_cons, List.map_nil, storedIndexCount, triangleCount_manyFaces] at h2
  have hval : ui32 (3 * ui32 n) = 2 := by rw [hn]; decide
  rw [hval] at h2
  have hmem : 2 ∈ (createMeshes noAABB [manyFacesMesh n] []).m_meshes.map
      (fun x => x.m_nIndices) := by rw [h2]; exact List.mem_singleton_self 2
  obtain ⟨m, hm, hm2⟩ := List.mem_map.mp hmem
  have := h m hm
  rw [hm2] at this
  revert this
  decide

/-- C24: `aiMatrix4x4ToGlm` keeps the matrix: for all rows r and columns c, the entry of
the result at column c, row r is the entry of the source at row r, column c; the fourth
column of the result is the translation `a4, b4, c4` of the source with `d4`. -/
theorem C24_aiMatrix4x4ToGlm_entries {F : Type} (m : aiMatrix4x4 F) :
    (∀ (r c : Fin 4), (aiMatrix4x4ToGlm m).get c r = m.get r c) ∧
    (aiMatrix4x4ToGlm m).c3 = ⟨m.a4, m.b4, m.c4, m.d4⟩ := by
  refine ⟨?_, rfl⟩
  intro r c
  fin_cases r <;> fin_cases c <;> rfl

/-! ## C25: the pre-order layout of the nodes -/

mutual
theorem aiNode.length_preorder {F : Type} (t : aiNode F) : t.preorder.length = t.size := by
  match t with
  | .mk T ms cs =>
      simp only [aiNode.preorder, aiNode.size, List.length_cons]
      rw [aiNode.length_preorderList]
      omega
theorem aiNode.length_preorderList {F : Type} (cs : List (aiNode F)) :
    (aiNode.preorderList cs).length = aiNode.sizeList cs := by
  match cs with
  | [] => rfl
  | c :: rest =>
      simp only [aiNode.preorderList, aiNode.sizeList, List.length_append]
      rw [aiNode.length_preorder, aiNode.length_preorderList]
end

theorem aiNode.preorder_zero {F : Type} (t : aiNode F) : t.preorder[0]? = some t := by
  cases t with
  | mk T ms cs => simp [aiNode.preorder]

/-- The root of the child number `j` of a list of trees stands, in the pre-order of the
list, after the nodes of the children before it. -/
theorem aiNode.preorderList_child {F : Type} (cs : List (aiNode F)) :
    ∀ (j : Nat) (c : aiNode F), cs[j]? = some c →
    (aiNode.preorderList cs)[total ((aiNode.sizes cs).take j)]? = some c := by
  induction cs with
  | nil => intro j c h; simp at h
  | cons c0 rest ih =>
      intro j c h
      cases j with
      | zero =>
          simp only [List.getElem?_cons_zero, Option.some.injEq] at h
          subst h
          simp only [List.take_zero, total, List.sum_nil, aiNode.preorderList]
          rw [List.getElem?_append_left (by rw [aiNode.length_preorder]; exact aiNode.size_pos _)]
          exact aiNode.preorder_zero _
      | succ j =>
          simp only [List.getElem?_cons_succ] at h
          have := ih j c h
          simp only [aiNode.sizes, List.take_succ_cons, total, List.sum_cons,
            aiNode.preorderList] at this ⊢
          rw [List.getElem?_append_right (by rw [aiNode.length_preorder]; omega),
            aiNode.length_preorder, Nat.add_sub_cancel_left]
          exact this

mutual
/-- The child number `j` of the source node at pre-order position `k` stands at position
`k + 1` plus the number of nodes of the children before it. -/
theorem aiNode.preorder_children {F : Type} (t : aiNode F) (k : Nat) (s : aiNode F)
    (hk : t.preorder[k]? = some s) (j : Nat) (c : aiNode F) (hj : s.mChildren[j]? = some c) :
    t.preorder[k + 1 + total ((aiNode.sizes s.mChildren).take j)]? = some c := by
  match t with
  | .mk T ms cs =>
      simp only [aiNode.preorder] at hk ⊢
      cases k with
      | zero =>
          simp only [List.getElem?_cons_zero, Option.some.injEq] at hk
          subst hk
          simp only [aiNode.mChildren] at hj ⊢
          rw [show 0 + 1 + total ((aiNode.sizes cs).take j)
            = total ((aiNode.sizes cs).take j) + 1 by omega, List.getElem?_cons_succ]
          exact aiNode.preorderList_child cs j c hj
      | succ k =>
          simp only [List.getElem?_cons_succ] at hk
          have := aiNode.preorderList_children cs k s hk j c hj
          rw [show k + 1 + 1 + total ((aiNode.sizes s.mChildren).take j)
            = k + 1 + total ((aiNode.sizes s.mChildren).take j) + 1 by omega,
            List.getElem?_cons_succ]
          exact this
theorem aiNode.preorderList_children {F : Type} (cs : List (aiNode F)) (k : Nat)
    (s : aiNode F) (hk : (aiNode.preorderList cs)[k]? = some s) (j : Nat) (c : aiNode F)
    (hj : s.mChildren[j]? = some c) :
    (aiNode.preorderList cs)[k + 1 + total ((aiNode.sizes s.mChildren).take j)]? = some c := by
  match cs with
  | [] => simp [aiNode.preorderList] at hk
  | c0 :: rest =>
      simp only [aiNode.preorderList] at hk ⊢
      by_cases hlt : k < c0.preorder.length
      · rw [List.getElem?_append_left hlt] at hk
        have := aiNode.preorder_children c0 k s hk j c hj
        have hlt2 : k + 1 + total ((aiNode.sizes s.mChildren).take j) < c0.preorder.length := by
          by_contra hge
          rw [List.getElem?_eq_none (by omega)] at this
          cases this
        rw [List.getElem?_append_left hlt2]
        exact this
      · rw [List.getElem?_append_right (by omega)] at hk
        have := aiNode.preorderList_children rest (k - c0.preorder.length) s hk j c hj
        rw [List.getElem?_append_right (by omega)]
        rw [← this]
        congr 1
        omega
end

mutual
/-- The layout stores the source node at pre-order position `k` at position `k`. -/
theorem layout_preorder {F : Type} [Add F] [Mul F] (t : aiNode F) (w : f32m4 F)
    (base k : Nat) (s : aiNode F) (hk : t.preorder[k]? = some s) :
    ∃ n, (layout t w base)[k]? = some n ∧
      n.transformation = aiMatrix4x4ToGlm s.mTransformation ∧
      n.meshIndices = s.mMeshes ∧
      n.childIndices = offsets (aiNode.sizes s.mChildren) (base + k + 1) := by
  match t with
  | .mk T ms cs =>
      simp only [aiNode.preorder] at hk
      simp only [layout]
      cases k with
      | zero =>
          simp only [List.getElem?_cons_zero, Option.some.injEq] at hk
          subst hk
          exact ⟨_, List.getElem?_cons_zero, rfl, rfl, rfl⟩
      | succ k =>
          simp only [List.getElem?_cons_succ] at hk ⊢
          obtain ⟨n, h1, h2, h3, h4⟩ := layoutChildren_preorder cs
            (w * aiMatrix4x4ToGlm T) (base + 1) k s hk
          refine ⟨n, h1, h2, h3, ?_⟩
          rw [h4]
          congr 1
          omega
theorem layoutChildren_preorder {F : Type} [Add F] [Mul F] (cs : List (aiNode F))
    (w : f32m4 F) (base k : Nat) (s : aiNode F)
    (hk : (aiNode.preorderList cs)[k]? = some s) :
    ∃ n, (layoutChildren cs w base)[k]? = some n ∧
      n.transformation = aiMatrix4x4ToGlm s.mTransformation ∧
      n.meshIndices = s.mMeshes ∧
      n.childIndices = offsets (aiNode.sizes s.mChildren) (base + k + 1) := by
  match cs with
  | [] => simp [aiNode.preorderList] at hk
  | c0 :: rest =>
      simp only [aiNode.preorderList] at hk
      simp only [layoutChildren]
      by_cases hlt : k < c0.preorder.length
      · rw [List.getElem?_append_left hlt] at hk
        obtain ⟨n, h1, h2, h3, h4⟩ := layout_preorder c0 w base k s hk
        refine ⟨n, ?_, h2, h3, h4⟩
        rw [List.getElem?_append_left (by rw [length_layout, ← aiNode.length_preorder]; exact hlt)]
        exact h1
      · rw [List.getElem?_append_right (by omega)] at hk
        obtain ⟨n, h1, h2, h3, h4⟩ := layoutChildren_preorder rest w (base + c0.size)
          (k - c0.preorder.length) s hk
        rw [aiNode.length_preorder] at h1 h4 hlt
        refine ⟨n, ?_, h2, h3, ?_⟩
        · rw [List.getElem?_append_right (by rw [length_layout]; omega), length_layout]
          exact h1
        · rw [h4]
          congr 1
          omega
end

theorem offsets_getElem?_of_lt (cs : List Nat) (s j : Nat) (h : j < cs.length) :
    (offsets cs s)[j]? = some (s + total (cs.take j)) := by
  have hlt : j < (offsets cs s).length := by rw [length_offsets]; exact h
  rw [List.getElem?_eq_getElem hlt]
  congr 1
  exact offsets_getElem? cs s j _ (List.getElem?_eq_getElem hlt)

theorem aiNode.length_sizes {F : Type} (cs : List (aiNode F)) :
    (aiNode.sizes cs).length = cs.length := by
  induction cs with
  | nil => rfl
  | cons c rest ih => simp [aiNode.sizes, ih]

/-- The layout of a tree at index 0 is its pre-order layout. -/
theorem layout_preorderLayout {F : Type} [Add F] [Mul F] (t : aiNode F) (w : f32m4 F) :
    PreorderLayout t (layout t w 0) := by
  refine ⟨length_layout t w 0, ?_⟩
  intro k s hk
  obtain ⟨n, h1, h2, h3, h4⟩ := layout_preorder t w 0 k s hk
  rw [Nat.zero_add] at h4
  refine ⟨n, h1, h2, h3, h4, ?_, ?_⟩
  · intro j c hj
    have hjlt : j < (aiNode.sizes s.mChildren).length := by
      rw [aiNode.length_sizes]
      by_contra hge
      rw [List.getElem?_eq_none (by omega)] at hj
      cases hj
    exact ⟨_, by rw [h4]; exact offsets_getElem?_of_lt _ _ _ hjlt,
      aiNode.preorder_children t k s hk j c hj⟩
  · intro i hi
    rw [h4] at hi
    have := offsets_ge _ _ _ hi
    omega

/-- C25 (amended): while the node count stays within `2 ^ 32`, `createNodes` appends to
the node array exactly the nodes of the source tree, in depth-first pre-order, and
returns the index of the root of the subtree; from an empty array, the source node at
pre-order position `k` receives index `k`, with its mesh references verbatim and in
order, its child list holds the indices of its children in source order, and every child
index is greater than the index of its parent. -/
theorem C25_createNodes_preorder {F : Type} [Add F] [Mul F] (nodes : List (Node F))
    (t : aiNode F) (w : f32m4 F) (h : nodes.length + t.size ≤ 2 ^ 32) :
    (createNodes nodes t w).1.length = nodes.length + t.size ∧
    (createNodes nodes t w).1.take nodes.length = nodes ∧
    (createNodes nodes t w).2 = nodes.length ∧
    (createNodes nodes t w).1.drop nodes.length = layout t w nodes.length ∧
    PreorderLayout t (createNodes [] t w).1 := by
  rw [createNodes_eq_layout nodes t w h,
    createNodes_eq_layout [] t w (by simp only [List.length_nil]; omega)]
  refine ⟨by simp [length_layout], by simp, rfl, by simp, ?_⟩
  simpa using layout_preorderLayout t w

/-- C25, witness: the tree with four nodes. -/
theorem C25_createNodes_preorder_witness :
    ([] : List (Node Int)).length + smallTree.size ≤ 2 ^ 32 ∧
    PreorderLayout smallTree (createNodes [] smallTree glm.identity).1 :=
  ⟨by decide, (C25_createNodes_preorder [] smallTree glm.identity (by decide)).2.2.2.2⟩

theorem not_preorderLayout_wideTree (n : Nat) (hn : 2 ^ 32 - 2 < n) :
    ¬ PreorderLayout (wideTree n) (createNodes [] (wideTree n) glm.identity).1 := by
  rw [wideTree_nodes]
  intro h
  obtain ⟨node, h1, -, -, -, -, h6⟩ := h.2 1
    (.mk (aiScaling 1) [] (List.replicate n leafNode))
    (by simp only [wideTree, aiNode.preorder, aiNode.preorderList, List.getElem?_cons_succ,
      List.append_nil, List.getElem?_cons_zero])
  simp only [List.cons_append, List.getElem?_cons_succ, List.getElem?_cons_zero,
    Option.some.injEq] at h1
  subst h1
  have := h6 0 (zero_mem_wideTree_children n hn)
  omega

/-- C25, counterexample: in the node array of `hugeTree` the second node, which stands for
the source node at pre-order position 1, lists the index 0, which is not greater than
its own index. -/
theorem C25_counterexample :
    ¬ PreorderLayout hugeTree (createNodes [] hugeTree glm.identity).1 :=
  not_preorderLayout_wideTree hugeChildCount hugeChildCount_gt

/-! ## C26: custom texture bindings -/

theorem firstSeen_complete (l : List String) : ∀ (seen : List String) (p : String),
    p ∈ l → p ∉ seen → p ∈ firstSeen seen l := by
  induction l with
  | nil => intro seen p h; cases h
  | cons a l ih =>
      intro seen p hp hseen
      simp only [firstSeen]
      by_cases ha : a ∈ seen
      · rw [if_pos ha]
        rcases List.mem_cons.mp hp with rfl | hp'
        · exact absurd ha hseen
        · exact ih seen p hp' hseen
      · rw [if_neg ha]
        by_cases hpa : p = a
        · subst hpa
          exact List.mem_cons_self _ _
        · rcases List.mem_cons.mp hp with h | hp'
          · exact absurd h hpa
          · exact List.mem_cons_of_mem _ (ih (seen ++ [a]) p hp' (by simp [hseen, hpa]))

/-- Every texture path of every material of the scene is met by the scan. -/
theorem mem_scanOrder {F : Type} (ms : List (aiMaterial F)) (material : aiMaterial F)
    (hm : material ∈ ms) (textureType : Nat) (ht : textureType < aiTextureType_UNKNOWN)
    (path : String) (hp : path ∈ material.textures textureType) : path ∈ scanOrder ms := by
  simp only [scanOrder, List.mem_flatMap]
  refine ⟨material, hm, textureType, ?_, hp⟩
  rw [List.mem_range'_1]
  simp only [aiTextureType_NONE, aiTextureType_UNKNOWN] at ht ⊢
  omega

/-- Every texture path of every material of the scene is a key of the texture map. -/
theorem lookup_isSome_of_mem {F : Type} (ms : List (aiMaterial F)) (path : String)
    (hp : path ∈ scanOrder ms) : ∃ slot, (textureFilenameToIndex ms).lookup path = some slot := by
  cases h : (textureFilenameToIndex ms).lookup path with
  | some slot => exact ⟨slot, rfl⟩
  | none =>
      rw [lookup_eq_none_iff_not_mem, textureFilenameToIndex_eq_assignSlots,
        map_fst_assignSlots] at h
      exact absurd (firstSeen_complete _ [] path hp (by simp)) h

theorem createFileTextures_ne_outOfRange (fileLoads : String → Bool) (parentPath : String)
    (entries : List (String × Nat)) : ∀ (gpu : List GpuEvent) (T : List Texture2DD3D12),
    (∀ e ∈ entries, e.2 < T.length) →
    (createFileTextures fileLoads parentPath entries gpu T).result ≠ .error .outOfRange ∧
    ∀ T', (createFileTextures fileLoads parentPath entries gpu T).result = .ok T' →
      T'.length = T.length := by
  induction entries with
  | nil =>
      intro gpu T _
      refine ⟨fun h => (nomatch h), ?_⟩
      intro T' h
      simp only [createFileTextures, Except.ok.injEq] at h
      rw [h]
  | cons entry rest ih =>
      intro gpu T hslot
      simp only [createFileTextures]
      split
      · rw [setAt_ok _ _ _ (hslot entry (List.mem_cons_self _ _))]
        simp only
        obtain ⟨h1, h2⟩ := ih (gpu ++ [GpuEvent.createTexture
            (Texture2DD3D12.fromFile (texturePath parentPath entry.1))])
          (T.set entry.2 (Texture2DD3D12.fromFile (texturePath parentPath entry.1)))
          (fun e he => by
            rw [List.length_set]
            exact hslot e (List.mem_cons_of_mem _ he))
        refine ⟨h1, ?_⟩
        intro T' h
        rw [h2 T' h, List.length_set]
      · exact ⟨fun h => (nomatch h), fun T' h => (nomatch h)⟩

/-- When every slot is at least 3 and below the number of entries plus 3, which is below
`2 ^ 32`, no checked access of `createTextures` is out of range. -/
theorem createTextures_ne_outOfRange (fileLoads : String → Bool) (parentPath : String)
    (entries : List (String × Nat)) (gpu : List GpuEvent)
    (hn : entries.length + 3 < 2 ^ 32)
    (hslot : ∀ e ∈ entries, e.2 < entries.length + 3) :
    (createTextures fileLoads entries parentPath gpu []).result ≠ .error .outOfRange ∧
    ∀ T, (createTextures fileLoads entries parentPath gpu []).result = .ok T →
      T.length = entries.length + 3 := by
  have hsz : ui32 (entries.length + 3) = entries.length + 3 := ui32_of_lt hn
  simp only [createTextures, hsz]
  have hlen := length_resize_nil (entries.length + 3) Texture2DD3D12.unset
  generalize resize ([] : List Texture2DD3D12) (entries.length + 3) Texture2DD3D12.unset = T0
    at hlen
  rw [setAt_ok T0 0 _ (by omega)]
  simp only
  rw [setAt_ok _ 1 _ (by rw [List.length_set]; omega)]
  simp only
  rw [setAt_ok _ 2 _ (by rw [List.length_set, List.length_set]; omega)]
  simp only
  have := createFileTextures_ne_outOfRange fileLoads parentPath entries
    (gpu ++ [GpuEvent.createTexture (.solid white 1 1)]
      ++ [GpuEvent.createTexture (.solid black 1 1)]
      ++ [GpuEvent.createTexture (.solid blue 1 1)])
    (((T0.set 0 (.solid white 1 1)).set 1 (.solid black 1 1)).set 2 (.solid blue 1 1))
    (fun e he => by
      simp only [List.length_set]
      rw [hlen]
      exact hslot e he)
  simp only [List.length_set, hlen] at this
  exact this

/-- C26 (amended): when the number of distinct texture paths plus 3 is below `2 ^ 32`,
every custom texture binding binds the slot registered for its path: whenever a material
of the scene has a texture of one of the five bound types, the path of its first texture
of that type is a key of the texture map, the binding is the slot of that key, which is
at least 3 and below the length of the texture array; and no checked access of
`createTextures` is out of range of the array of one element per key and three more. -/
theorem C26_custom_bindings_registered {F : Type} (ms : List (aiMaterial F))
    (hn : (textureFilenameToIndex ms).length + 3 < 2 ^ 32) :
    CustomBindingsRegistered ms ∧ RegisteredWritesInBounds ms := by
  obtain ⟨-, hslots⟩ := slots_of_bound ms hn
  constructor
  · intro material hm textureType ht offset path rest hpath
    have htype : textureType < aiTextureType_UNKNOWN := by
      simp only [boundTextureTypes, List.mem_cons, List.mem_singleton, List.mem_nil_iff,
        or_false] at ht
      rcases ht with rfl | rfl | rfl | rfl | rfl <;> decide
    obtain ⟨slot, hslot⟩ := lookup_isSome_of_mem ms path
      (mem_scanOrder ms material hm textureType htype path (by rw [hpath]; simp))
    have hmem : (path, slot) ∈ textureFilenameToIndex ms := by
      obtain ⟨l₁, l₂, hl, -⟩ := List.lookup_eq_some_iff.mp hslot
      rw [hl]
      simp
    refine ⟨slot, hslot, ?_, hslots _ hmem⟩
    simp [addTextureToDescriptorHeap, hpath, hslot]
  · intro fileLoads entries parentPath gpu hperm
    have := createTextures_ne_outOfRange fileLoads parentPath entries gpu
      (by rw [hperm.length_eq]; exact hn)
      (fun e he => by
        rw [hperm.length_eq]
        exact (hslots e (hperm.mem_iff.mp he)).2)
    rw [hperm.length_eq] at this
    exact this

/-- C26, witness: two materials that share texture files. -/
theorem C26_custom_bindings_registered_witness :
    (textureFilenameToIndex [materialAB, materialBC]).length + 3 < 2 ^ 32 ∧
    CustomBindingsRegistered [materialAB, materialBC] :=
  ⟨by decide, (C26_custom_bindings_registered [materialAB, materialBC] (by decide)).1⟩

theorem firstSeen_append_seen (l : List String) : ∀ (seen : List String) (p : String),
    p ∈ seen ∨ p ∈ l → firstSeen seen (l ++ [p]) = firstSeen seen l := by
  induction l with
  | nil =>
      intro seen p h
      have hp : p ∈ seen := by
        rcases h with h | h
        · exact h
        · cases h
      simp [firstSeen, hp]
  | cons a l ih =>
      intro seen p h
      simp only [List.cons_append, firstSeen]
      by_cases ha : a ∈ seen
      · rw [if_pos ha, if_pos ha]
        apply ih
        rcases h with h | h
        · exact Or.inl h
        · rcases List.mem_cons.mp h with rfl | h'
          · exact Or.inl ha
          · exact Or.inr h'
      · rw [if_neg ha, if_neg ha]
        congr 1
        apply ih
        rcases h with h | h
        · exact Or.inl (List.mem_append_left _ h)
        · rcases List.mem_cons.mp h with rfl | h'
          · exact Or.inl (by simp)
          · exact Or.inr h'

theorem scanOrder_duplicateSpecular (n m : Nat) :
    scanOrder [duplicateSpecularMaterial n m] = manyNames n ++ [nameOf m] := by
  simp [scanOrder, duplicateSpecularMaterial, textureMaterial, aiTextureType_NONE,
    aiTextureType_UNKNOWN, aiTextureType_DIFFUSE, aiTextureType_SPECULAR, List.range'_succ]

/-- The specular path of `duplicateSpecularMaterial n m` with `m < n` has the slot of the
diffuse path number `m`, the narrowing of `3 + m`. -/
theorem lookup_duplicateSpecular (n m : Nat) (h : m < n) :
    (textureFilenameToIndex [duplicateSpecularMaterial n m]).lookup (nameOf m)
      = some (ui32 (3 + m)) := by
  have hmem : nameOf m ∈ manyNames n :=
    List.mem_map.mpr ⟨m, List.mem_range.mpr h, rfl⟩
  rw [textureFilenameToIndex_eq_assignSlots, scanOrder_duplicateSpecular,
    firstSeen_append_seen _ _ _ (Or.inr hmem),
    firstSeen_of_nodup _ [] (manyNames_nodup n) (by simp),
    lookup_assignSlots (manyNames n) 3 m _ (manyNames_nodup n)
      (by rw [manyNames, List.getElem?_map, List.getElem?_range h]; rfl)]

theorem not_customBindingsRegistered (n : Nat) (h : 2 ^ 32 - 3 < n) :
    ¬ CustomBindingsRegistered [duplicateSpecularMaterial n (2 ^ 32 - 3)] := by
  intro hreg
  obtain ⟨slot, hslot, -, h3, -⟩ := hreg (duplicateSpecularMaterial n (2 ^ 32 - 3))
    (List.mem_singleton_self _) aiTextureType_SPECULAR (by decide) 0
    (nameOf (2 ^ 32 - 3)) []
    (by simp [duplicateSpecularMaterial, textureMaterial, aiTextureType_SPECULAR,
      aiTextureType_DIFFUSE])
  rw [lookup_duplicateSpecular n _ h] at hslot
  have hz : ui32 (3 + (2 ^ 32 - 3)) = 0 := by decide
  rw [hz] at hslot
  simp only [Option.some.injEq] at hslot
  omega

/-- C26, counterexample: a material with `2 ^ 32 - 2` distinct diffuse textures whose
specular texture is the diffuse path number `2 ^ 32 - 3`. The slot counter has wrapped at
that path, so the specular binding finds slot 0, the slot of the default white
texture. -/
theorem C26_counterexample :
    ¬ CustomBindingsRegistered [duplicateSpecularMaterial hugeNameCount (2 ^ 32 - 3)] :=
  not_customBindingsRegistered hugeNameCount (by unfold hugeNameCount; decide)

/-! ## C18: lookups with an index out of range -/

/-- C18 (amended): a traversal step asked to visit a node index that is not below
`getNumberOfNodes()` does not fail: it returns without reading an array and without
recording a command; and `getNode`, `getMesh` and `getMaterial` return the element of the
array for every index below its length. -/
theorem C18_lookups_out_of_range {F B : Type} [Add F] [Mul F] (scene : Scene F B) (i : Nat) :
    (∀ (fuel : Nat) (accuModelView : f32m4 F), scene.getNumberOfNodes ≤ i →
      addToCommandListImpl scene (fuel + 1) i accuModelView = .ok []) ∧
    (∀ node, scene.m_nodes[i]? = some node → scene.getNode i = .ok node) ∧
    (∀ mesh, scene.m_meshes[i]? = some mesh → scene.getMesh i = .ok mesh) ∧
    (∀ material, scene.m_materials[i]? = some material →
      scene.getMaterial i = .ok material) := by
  refine ⟨?_, ?_, ?_, ?_⟩
  · intro fuel accuModelView h
    simp [addToCommandListImpl, h]
  · intro node h
    simp [Scene.getNode, h]
  · intro mesh h
    simp [Scene.getMesh, h]
  · intro material h
    simp [Scene.getMaterial, h]

/-- C18, witness: the scene of the four-node tree, at index 1 and at index 4. -/
theorem C18_lookups_out_of_range_witness :
    smallScene.getNumberOfNodes ≤ 4 ∧
    addToCommandListImpl smallScene (0 + 1) 4 glm.identity = .ok [] ∧
    (∃ node, smallScene.m_nodes[1]? = some node ∧ smallScene.getNode 1 = .ok node) :=
  ⟨by decide, (C18_lookups_out_of_range smallScene 4).1 0 glm.identity (by decide),
    _, rfl, (C18_lookups_out_of_range smallScene 1).2.1 _ rfl⟩

/-- C18, counterexample: the scene of the four-node tree has four nodes, and a traversal
step asked to visit node 4, or node 1000, does not fail: it returns with no command
recorded. -/
theorem C18_counterexample :
    smallScene.m_nodes.length = 4 ∧
    addToCommandListImpl smallScene 1 4 glm.identity = .ok [] ∧
    addToCommandListImpl smallScene 1 1000 glm.identity = .ok [] :=
  ⟨by decide, rfl, rfl⟩

/-! ## C30: a draw reads the geometry of its own mesh -/

/-- Without 32-bit overflow, the ranges of a mesh in the two global arrays hold the index
and vertex arrays of that mesh. -/
theorem createMeshes_segments {F B : Type} [Zero F]
    (mkAABB : List (f32v3 F) → Nat → B) (ms : List (aiMesh F))
    (hv : total (ms.map aiMesh.mNumVertices) < 2 ^ 32)
    (hi : 3 * total (ms.map triangleCount) < 2 ^ 32)
    (k : Nat) (m : TriangleMeshD3D12 F B)
    (hk : (createMeshes mkAABB ms []).m_meshes[k]? = some m) :
    m.m_indices.length = m.m_nIndices ∧ m.m_vertices.length = m.m_nVertices ∧
    (∀ p, m.m_startIndex ≤ p → p < m.m_startIndex + m.m_nIndices →
      (createMeshes mkAABB ms []).globalIndices[p]? = m.m_indices[p - m.m_startIndex]?) ∧
    (∀ q, m.m_startVertex ≤ q → q < m.m_startVertex + m.m_nVertices →
      (createMeshes mkAABB ms []).globalVertices[q]? = m.m_vertices[q - m.m_startVertex]?) := by
  obtain ⟨hgv, hgi, hfrom⟩ := createMeshes_content mkAABB ms
  obtain ⟨-, hstart, -, -, -, -⟩ := createMeshes_offsetsTile_aux mkAABB ms hv hi
  have hcount : ∀ x ∈ (createMeshes mkAABB ms []).m_meshes,
      x.m_nIndices = x.m_indices.length ∧ x.m_nVertices = x.m_vertices.length := by
    intro x hx
    obtain ⟨j, hj⟩ := List.mem_iff_getElem?.mp hx
    obtain ⟨sx, hsx, g1, g2, g3, g4, -⟩ := forall₂_getElem?_right hfrom j x hj
    have hmem : triangleCount sx ∈ ms.map triangleCount :=
      List.mem_map.mpr ⟨sx, List.mem_iff_getElem?.mpr ⟨j, hsx⟩, rfl⟩
    have := le_total_of_mem hmem
    obtain ⟨e1, e2⟩ := storedIndex_of_lt sx (by omega)
    exact ⟨by rw [g3, g4, e1, e2], by rw [g1, g2]⟩
  have hm := hcount m (List.mem_iff_getElem?.mpr ⟨k, hk⟩)
  have htakeI : (List.take k (createMeshes mkAABB ms []).m_meshes).map (fun x => x.m_nIndices)
      = (List.take k (createMeshes mkAABB ms []).m_meshes).map
          (fun x => x.m_indices.length) :=
    List.map_congr_left fun x hx => (hcount x (List.mem_of_mem_take hx)).1
  have htakeV : (List.take k (createMeshes mkAABB ms []).m_meshes).map (fun x => x.m_nVertices)
      = (List.take k (createMeshes mkAABB ms []).m_meshes).map
          (fun x => x.m_vertices.length) :=
    List.map_congr_left fun x hx => (hcount x (List.mem_of_mem_take hx)).2
  have hsI := (hstart k m hk).2
  have hsV := (hstart k m hk).1
  rw [htakeI] at hsI
  rw [htakeV] at hsV
  refine ⟨hm.1.symm, hm.2.symm, ?_, ?_⟩
  · intro p h1 h2
    have hseg := getElem?_flatMap_segment (fun x : TriangleMeshD3D12 F B => x.m_indices)
      (createMeshes mkAABB ms []).m_meshes k m hk p
    beta_reduce at hseg
    have hseg := hseg (by omega) (by rw [← hsI, ← hm.1]; exact h2)
    rw [← hgi, ← hsI] at hseg
    exact hseg
  · intro q h1 h2
    have hseg := getElem?_flatMap_segment (fun x : TriangleMeshD3D12 F B => x.m_vertices)
      (createMeshes mkAABB ms []).m_meshes k m hk q
    beta_reduce at hseg
    have hseg := hseg (by omega) (by rw [← hsV, ← hm.2]; exact h2)
    rw [← hgv, ← hsV] at hseg
    exact hseg

/-- C30: when every source face index is less than the vertex count of its mesh and the
totals fit in 32 bits, the draw call of every mesh uses the index count `m_nIndices`, the
start index `m_startIndex` and the base vertex 0; the positions
`[m_startIndex, m_startIndex + m_nIndices)` of the global index array hold exactly the
indices of that mesh; and every value stored there lies in
`[m_startVertex, m_startVertex + m_nVertices)`, the range of the global vertex array that
holds exactly the vertices of that mesh. -/
theorem C30_draw_reads_own_geometry {F B : Type} [Zero F]
    (mkAABB : List (f32v3 F) → Nat → B) (ms : List (aiMesh F))
    (hvalid : FaceIndicesValid ms)
    (hv : total (ms.map aiMesh.mNumVertices) < 2 ^ 32)
    (hi : 3 * total (ms.map triangleCount) < 2 ^ 32)
    (k : Nat) (m : TriangleMeshD3D12 F B)
    (hk : (createMeshes mkAABB ms []).m_meshes[k]? = some m) :
    m.addToCommandList
      = { IndexCountPerInstance := m.m_nIndices, InstanceCount := 1,
          StartIndexLocation := m.m_startIndex, BaseVertexLocation := 0,
          StartInstanceLocation := 0 } ∧
    m.m_indices.length = m.m_nIndices ∧ m.m_vertices.length = m.m_nVertices ∧
    (∀ p, m.m_startIndex ≤ p → p < m.m_startIndex + m.m_nIndices →
      (createMeshes mkAABB ms []).globalIndices[p]? = m.m_indices[p - m.m_startIndex]?) ∧
    (∀ q, m.m_startVertex ≤ q → q < m.m_startVertex + m.m_nVertices →
      (createMeshes mkAABB ms []).globalVertices[q]? = m.m_vertices[q - m.m_startVertex]?) ∧
    (∀ (p v : Nat), m.m_startIndex ≤ p → p < m.m_startIndex + m.m_nIndices →
      (createMeshes mkAABB ms []).globalIndices[p]? = some v →
      m.m_startVertex ≤ v ∧ v < m.m_startVertex + m.m_nVertices ∧
      m.m_startVertex + m.m_nVertices ≤ (createMeshes mkAABB ms []).globalVertices.length) := by
  obtain ⟨h1, h2, h3, h4⟩ := createMeshes_segments mkAABB ms hv hi k m hk
  exact ⟨rfl, h1, h2, h3, h4, createMeshes_storedIndex_range mkAABB ms hvalid hv hi k m hk⟩

/-- C30, witness: two triangle meshes; the second is drawn with 3 indices from start
index 3. -/
theorem C30_draw_reads_own_geometry_witness :
    FaceIndicesValid [triangleMesh, triangleMesh] ∧
    total ([triangleMesh, triangleMesh].map aiMesh.mNumVertices) < 2 ^ 32 ∧
    3 * total ([triangleMesh, triangleMesh].map triangleCount) < 2 ^ 32 ∧
    ∃ m, (createMeshes noAABB [triangleMesh, triangleMesh] []).m_meshes[1]? = some m ∧
      m.addToCommandList
        = { IndexCountPerInstance := 3, InstanceCount := 1, StartIndexLocation := 3,
            BaseVertexLocation := 0, StartInstanceLocation := 0 } ∧
      ∀ (p v : Nat), m.m_startIndex ≤ p → p < m.m_startIndex + m.m_nIndices →
        (createMeshes noAABB [triangleMesh, triangleMesh] []).globalIndices[p]? = some v →
        m.m_startVertex ≤ v ∧ v < m.m_startVertex + m.m_nVertices ∧
        m.m_startVertex + m.m_nVertices
          ≤ (createMeshes noAABB [triangleMesh, triangleMesh] []).globalVertices.length :=
  ⟨by decide, by decide, by decide, _, rfl, by decide,
    (C30_draw_reads_own_geometry noAABB [triangleMesh, triangleMesh] (by decide) (by decide)
      (by decide) 1 _ rfl).2.2.2.2.2⟩

/-! ## The traversal on the pre-order layout -/

theorem aiNode.mem_preorder_self {F : Type} (t : aiNode F) : t ∈ t.preorder :=
  List.mem_iff_getElem?.mpr ⟨0, aiNode.preorder_zero t⟩

mutual
/-- On a node array of fewer than `2 ^ 32` nodes that holds the layout of a tree from index
`base` on, the traversal started at `base`, with a recursion depth of at least the size
of the tree, is the recursion on the tree. -/
theorem addToCommandListImpl_layout {F B : Type} [Add F] [Mul F] (scene : Scene F B)
    (t : aiNode F) (w : f32m4 F) (base fuel : Nat) (accu : f32m4 F)
    (hfuel : t.size ≤ fuel) (hlen : scene.m_nodes.length < 2 ^ 32)
    (hbound : base + t.size ≤ scene.m_nodes.length)
    (hfit : ∀ s ∈ t.preorder, s.mMeshes.length < 2 ^ 32)
    (hsub : ∀ (q : Nat) (n : Node F), (layout t w base)[q]? = some n →
      scene.m_nodes[base + q]? = some n) :
    addToCommandListImpl scene fuel base accu = preorderTrace scene t base accu := by
  match t with
  | .mk T ms cs =>
      cases fuel with
      | zero => simp [aiNode.size] at hfuel
      | succ f =>
          have h0 := hsub 0 _ (by simp only [layout, List.getElem?_cons_zero]; rfl)
          rw [Nat.add_zero] at h0
          simp only [aiNode.size] at hbound hfuel
          have hcount : scene.getNumberOfNodes = scene.m_nodes.length := ui32_of_lt hlen
          have hms : ms.length < 2 ^ 32 :=
            hfit (.mk T ms cs) (aiNode.mem_preorder_self _)
          have hcs := length_sizes_le cs
          simp only [addToCommandListImpl, preorderTrace, hcount, Scene.getNode, h0,
            length_offsets]
          rw [if_neg (by omega), ui32_of_lt hms, ui32_of_lt (by omega),
            List.take_of_length_le (Nat.le_refl _),
            List.take_of_length_le (by rw [length_offsets])]
          cases drawMeshes scene base (accu * aiMatrix4x4ToGlm T) (w * aiMatrix4x4ToGlm T) ms with
          | error e => rfl
          | ok draws =>
              simp only
              rw [addToCommandListImpl_layoutChildren scene cs (w * aiMatrix4x4ToGlm T)
                (base + 1) f (accu * aiMatrix4x4ToGlm T) (by omega) hlen (by omega)
                (fun s hs => hfit s (by
                  simp only [aiNode.preorder]
                  exact List.mem_cons_of_mem _ hs))
                (by
                  intro q n hq
                  have := hsub (q + 1) n
                    (by simp only [layout, List.getElem?_cons_succ]; exact hq)
                  rw [← this]
                  congr 1
                  omega)]
/-- The child loop of the traversal over the start indices of sibling subtrees. -/
theorem addToCommandListImpl_layoutChildren {F B : Type} [Add F] [Mul F] (scene : Scene F B)
    (cs : List (aiNode F)) (w : f32m4 F) (base fuel : Nat) (accu : f32m4 F)
    (hfuel : aiNode.sizeList cs ≤ fuel) (hlen : scene.m_nodes.length < 2 ^ 32)
    (hbound : base + aiNode.sizeList cs ≤ scene.m_nodes.length)
    (hfit : ∀ s ∈ aiNode.preorderList cs, s.mMeshes.length < 2 ^ 32)
    (hsub : ∀ (q : Nat) (n : Node F), (layoutChildren cs w base)[q]? = some n →
      scene.m_nodes[base + q]? = some n) :
    visitChildren (fun child => addToCommandListImpl scene fuel child accu)
        (offsets (aiNode.sizes cs) base)
      = preorderTraceChildren scene cs base accu := by
  match cs with
  | [] => rfl
  | c :: rest =>
      simp only [aiNode.sizeList] at hfuel hbound
      simp only [aiNode.sizes, offsets, visitChildren, preorderTraceChildren]
      rw [addToCommandListImpl_layout scene c w base fuel accu (by omega) hlen (by omega)
        (fun s hs => hfit s (by
          simp only [aiNode.preorderList]
          exact List.mem_append_left _ hs))
        (by
          intro q n hq
          apply hsub q n
          simp only [layoutChildren]
          have hlt : q < (layout c w base).length := by
            by_contra hge
            rw [List.getElem?_eq_none (by omega)] at hq
            cases hq
          rw [List.getElem?_append_left hlt]
          exact hq)]
      cases preorderTrace scene c base accu with
      | error e => rfl
      | ok events =>
          simp only
          rw [addToCommandListImpl_layoutChildren scene rest w (base + c.size) fuel accu
            (by omega) hlen (by omega)
            (fun s hs => hfit s (by
              simp only [aiNode.preorderList]
              exact List.mem_append_right _ hs))
            (by
              intro q n hq
              have := hsub (c.size + q) n (by
                simp only [layoutChildren]
                rw [List.getElem?_append_right (by rw [length_layout]; omega), length_layout]
                rw [show c.size + q - c.size = q by omega]
                exact hq)
              rw [← this]
              congr 1
              omega)]
          cases preorderTraceChildren scene rest (base + c.size) accu <;> rfl
end

/-- What the mesh loop records: every event is the draw of a mesh of the list, with the
two transformations handed in, the material of the mesh, and the draw call of the
mesh. -/
theorem drawMeshes_mem {F B : Type} (scene : Scene F B) (k : Nat) (accu world : f32m4 F)
    (meshIndices : List Nat) : ∀ (events : List (TraversalEvent F)),
    drawMeshes scene k accu world meshIndices = .ok events → ∀ e ∈ events,
    ∃ (meshIdx : Nat) (mesh : TriangleMeshD3D12 F B) (material : Material F),
      meshIdx ∈ meshIndices ∧ scene.m_meshes[meshIdx]? = some mesh ∧
      scene.m_materials[mesh.m_materialIndex]? = some material ∧
      e = .draw k meshIdx mesh.m_materialIndex
        { accuModelView := accu
          worldTransformation := world
          isReflectiveFlag := if mesh.m_isReflective then 1 else 0
          meshDescriptorIndex := meshDescriptorIndexOf material.m_descriptorIndex
          materialConstantBuffer := material.materialConstantBuffer
          draw := mesh.addToCommandList } := by
  induction meshIndices with
  | nil =>
      intro events h e he
      simp only [drawMeshes, Except.ok.injEq] at h
      subst h
      cases he
  | cons i rest ih =>
      intro events h e he
      simp only [drawMeshes, Scene.getMesh, Scene.getMaterial] at h
      cases hmesh : scene.m_meshes[i]? with
      | none => rw [hmesh] at h; cases h
      | some mesh =>
          rw [hmesh] at h
          simp only at h
          cases hmat : scene.m_materials[mesh.m_materialIndex]? with
          | none => rw [hmat] at h; cases h
          | some material =>
              rw [hmat] at h
              simp only at h
              cases hrest : drawMeshes scene k accu world rest with
              | error err => rw [hrest] at h; cases h
              | ok more =>
                  rw [hrest] at h
                  simp only [Except.ok.injEq] at h
                  subst h
                  rcases List.mem_cons.mp he with rfl | he
                  · exact ⟨i, mesh, material, List.mem_cons_self _ _, hmesh, hmat, rfl⟩
                  · obtain ⟨j, m, mat, hj, h1, h2, h3⟩ := ih more hrest e he
                    exact ⟨j, m, mat, List.mem_cons_of_mem _ hj, h1, h2, h3⟩

/-- The mesh loop succeeds when every mesh index and every material index it reads is
valid. -/
theorem drawMeshes_ok {F B : Type} (scene : Scene F B) (k : Nat) (accu world : f32m4 F)
    (hmat : ∀ m ∈ scene.m_meshes, m.m_materialIndex < scene.m_materials.length)
    (meshIndices : List Nat) (hmesh : ∀ i ∈ meshIndices, i < scene.m_meshes.length) :
    ∃ events, drawMeshes scene k accu world meshIndices = .ok events := by
  induction meshIndices with
  | nil => exact ⟨[], rfl⟩
  | cons i rest ih =>
      have hi := hmesh i (List.mem_cons_self _ _)
      have hm := hmat _ (List.getElem_mem hi)
      obtain ⟨more, hmore⟩ := ih (fun j hj => hmesh j (List.mem_cons_of_mem _ hj))
      simp only [drawMeshes, Scene.getMesh, Scene.getMaterial, List.getElem?_eq_getElem hi,
        List.getElem?_eq_getElem hm, hmore]
      exact ⟨_, rfl⟩

/-- The mesh loop has no recursion to exceed. -/
theorem drawMeshes_ne_diverges {F B : Type} (scene : Scene F B) (k : Nat) (accu world : f32m4 F)
    (meshIndices : List Nat) :
    drawMeshes scene k accu world meshIndices ≠ .error .diverges := by
  induction meshIndices with
  | nil => intro h; cases h
  | cons i rest ih =>
      intro h
      simp only [drawMeshes, Scene.getMesh, Scene.getMaterial] at h
      cases hmesh : scene.m_meshes[i]? with
      | none => rw [hmesh] at h; cases h
      | some mesh =>
          rw [hmesh] at h
          simp only at h
          cases hmat : scene.m_materials[mesh.m_materialIndex]? with
          | none => rw [hmat] at h; cases h
          | some material =>
              rw [hmat] at h
              simp only at h
              cases hrest : drawMeshes scene k accu world rest with
              | error err =>
                  rw [hrest] at h
                  simp only [Except.error.injEq] at h
                  exact ih (by rw [hrest, h])
              | ok more => rw [hrest] at h; cases h

/-- The mesh loop visits no node. -/
theorem visitedNodes_drawMeshes {F B : Type} (scene : Scene F B) (k : Nat) (accu world : f32m4 F)
    (meshIndices : List Nat) (events : List (TraversalEvent F))
    (h : drawMeshes scene k accu world meshIndices = .ok events) : visitedNodes events = [] := by
  unfold visitedNodes
  rw [List.filterMap_eq_nil_iff]
  intro e he
  obtain ⟨j, m, mat, -, -, -, rfl⟩ := drawMeshes_mem scene k accu world meshIndices events h e he
  rfl

theorem visitedNodes_append {F : Type} (a b : List (TraversalEvent F)) :
    visitedNodes (a ++ b) = visitedNodes a ++ visitedNodes b := by
  simp [visitedNodes, List.filterMap_append]

mutual
/-- The recursion on the tree visits the indices of the subtree in increasing order. -/
theorem visitedNodes_preorderTrace {F B : Type} [Add F] [Mul F] (scene : Scene F B)
    (t : aiNode F) (k : Nat) (accu : f32m4 F) (events : List (TraversalEvent F))
    (h : preorderTrace scene t k accu = .ok events) :
    visitedNodes events = List.range' k t.size := by
  match t with
  | .mk T ms cs =>
      simp only [preorderTrace] at h
      cases hnode : scene.getNode k with
      | error e => rw [hnode] at h; cases h
      | ok node =>
          rw [hnode] at h
          simp only at h
          cases hd : drawMeshes scene k (accu * aiMatrix4x4ToGlm T)
              node.worldSpaceTransformation ms with
          | error e => rw [hd] at h; cases h
          | ok draws =>
              rw [hd] at h
              simp only at h
              cases hc : preorderTraceChildren scene cs (k + 1)
                  (accu * aiMatrix4x4ToGlm T) with
              | error e => rw [hc] at h; cases h
              | ok more =>
                  rw [hc] at h
                  simp only [Except.ok.injEq] at h
                  subst h
                  have h1 := visitedNodes_drawMeshes scene k _ _ ms draws hd
                  have h2 := visitedNodes_preorderTraceChildren scene cs (k + 1) _ more hc
                  have hcons : visitedNodes (TraversalEvent.getNode k :: (draws ++ more))
                      = k :: visitedNodes (draws ++ more) := rfl
                  rw [List.cons_append, hcons, visitedNodes_append, h1, h2, aiNode.size,
                    List.nil_append, Nat.add_comm 1, List.range'_succ]
/-- The recursion over sibling subtrees visits their indices in increasing order. -/
theorem visitedNodes_preorderTraceChildren {F B : Type} [Add F] [Mul F] (scene : Scene F B)
    (cs : List (aiNode F)) (k : Nat) (accu : f32m4 F) (events : List (TraversalEvent F))
    (h : preorderTraceChildren scene cs k accu = .ok events) :
    visitedNodes events = List.range' k (aiNode.sizeList cs) := by
  match cs with
  | [] =>
      simp only [preorderTraceChildren, Except.ok.injEq] at h
      subst h
      rfl
  | c :: rest =>
      simp only [preorderTraceChildren] at h
      cases hc : preorderTrace scene c k accu with
      | error e => rw [hc] at h; cases h
      | ok first =>
          rw [hc] at h
          simp only at h
          cases hr : preorderTraceChildren scene rest (k + c.size) accu with
          | error e => rw [hr] at h; cases h
          | ok more =>
              rw [hr] at h
              simp only [Except.ok.injEq] at h
              subst h
              rw [visitedNodes_append, visitedNodes_preorderTrace scene c k accu first hc,
                visitedNodes_preorderTraceChildren scene rest (k + c.size) accu more hr,
                aiNode.sizeList, List.range'_append_1, Nat.add_comm]
end

mutual
/-- The recursion on the tree returns a sequence when the subtree lies in the node
array and every mesh index and material index read is valid. -/
theorem preorderTrace_ok {F B : Type} [Add F] [Mul F] (scene : Scene F B)
    (hmat : ∀ m ∈ scene.m_meshes, m.m_materialIndex < scene.m_materials.length)
    (t : aiNode F) (k : Nat) (accu : f32m4 F)
    (hbound : k + t.size ≤ scene.m_nodes.length)
    (hmesh : ∀ s ∈ t.preorder, ∀ i ∈ s.mMeshes, i < scene.m_meshes.length) :
    ∃ events, preorderTrace scene t k accu = .ok events := by
  match t with
  | .mk T ms cs =>
      simp only [aiNode.size] at hbound
      have hk : k < scene.m_nodes.length := by omega
      obtain ⟨draws, hd⟩ := drawMeshes_ok scene k (accu * aiMatrix4x4ToGlm T)
        (scene.m_nodes[k]).worldSpaceTransformation hmat ms
        (hmesh (.mk T ms cs) (aiNode.mem_preorder_self _))
      obtain ⟨more, hc⟩ := preorderTraceChildren_ok scene hmat cs (k + 1)
        (accu * aiMatrix4x4ToGlm T) (by omega)
        (fun s hs => hmesh s (by
          simp only [aiNode.preorder]
          exact List.mem_cons_of_mem _ hs))
      simp only [preorderTrace, Scene.getNode, List.getElem?_eq_getElem hk, hd, hc]
      exact ⟨_, rfl⟩
/-- The recursion over sibling subtrees returns a sequence under the same conditions. -/
theorem preorderTraceChildren_ok {F B : Type} [Add F] [Mul F] (scene : Scene F B)
    (hmat : ∀ m ∈ scene.m_meshes, m.m_materialIndex < scene.m_materials.length)
    (cs : List (aiNode F)) (k : Nat) (accu : f32m4 F)
    (hbound : k + aiNode.sizeList cs ≤ scene.m_nodes.length)
    (hmesh : ∀ s ∈ aiNode.preorderList cs, ∀ i ∈ s.mMeshes, i < scene.m_meshes.length) :
    ∃ events, preorderTraceChildren scene cs k accu = .ok events := by
  match cs with
  | [] => exact ⟨[], rfl⟩
  | c :: rest =>
      simp only [aiNode.sizeList] at hbound
      obtain ⟨first, hc⟩ := preorderTrace_ok scene hmat c k accu (by omega)
        (fun s hs => hmesh s (by
          simp only [aiNode.preorderList]
          exact List.mem_append_left _ hs))
      obtain ⟨more, hr⟩ := preorderTraceChildren_ok scene hmat rest (k + c.size) accu
        (by omega)
        (fun s hs => hmesh s (by
          simp only [aiNode.preorderList]
          exact List.mem_append_right _ hs))
      simp only [preorderTraceChildren, hc, hr]
      exact ⟨_, rfl⟩
end

mutual
/-- The recursion on the tree exceeds no recursion depth when the subtree lies in the
node array. -/
theorem preorderTrace_ne_diverges {F B : Type} [Add F] [Mul F] (scene : Scene F B)
    (t : aiNode F) (k : Nat) (accu : f32m4 F) :
    preorderTrace scene t k accu ≠ .error .diverges := by
  match t with
  | .mk T ms cs =>
      intro h
      simp only [preorderTrace, Scene.getNode] at h
      cases hnode : scene.m_nodes[k]? with
      | none => rw [hnode] at h; cases h
      | some node =>
          rw [hnode] at h
          simp only at h
          cases hd : drawMeshes scene k (accu * aiMatrix4x4ToGlm T)
              node.worldSpaceTransformation ms with
          | error e =>
              rw [hd] at h
              simp only [Except.error.injEq] at h
              exact drawMeshes_ne_diverges scene k _ _ ms (by rw [hd, h])
          | ok draws =>
              rw [hd] at h
              simp only at h
              cases hc : preorderTraceChildren scene cs (k + 1)
                  (accu * aiMatrix4x4ToGlm T) with
              | error e =>
                  rw [hc] at h
                  simp only [Except.error.injEq] at h
                  exact preorderTraceChildren_ne_diverges scene cs (k + 1) _ (by rw [hc, h])
              | ok more => rw [hc] at h; cases h
/-- The recursion over sibling subtrees exceeds no recursion depth. -/
theorem preorderTraceChildren_ne_diverges {F B : Type} [Add F] [Mul F] (scene : Scene F B)
    (cs : List (aiNode F)) (k : Nat) (accu : f32m4 F) :
    preorderTraceChildren scene cs k accu ≠ .error .diverges := by
  match cs with
  | [] => intro h; cases h
  | c :: rest =>
      intro h
      simp only [preorderTraceChildren] at h
      cases hc : preorderTrace scene c k accu with
      | error e =>
          rw [hc] at h
          simp only [Except.error.injEq] at h
          exact preorderTrace_ne_diverges scene c k accu (by rw [hc, h])
      | ok first =>
          rw [hc] at h
          simp only at h
          cases hr : preorderTraceChildren scene rest (k + c.size) accu with
          | error e =>
              rw [hr] at h
              simp only [Except.error.injEq] at h
              exact preorderTraceChildren_ne_diverges scene rest (k + c.size) accu
                (by rw [hr, h])
          | ok more => rw [hr] at h; cases h
end

/-- Over a commutative ring the matrix product is associative. -/
theorem f32m4.mul_assoc {F : Type} [CommRing F] (a b c : f32m4 F) :
    a * b * c = a * (b * c) := by
  rcases a with ⟨⟨a00, a01, a02, a03⟩, ⟨a10, a11, a12, a13⟩, ⟨a20, a21, a22, a23⟩,
    ⟨a30, a31, a32, a33⟩⟩
  rcases b with ⟨⟨b00, b01, b02, b03⟩, ⟨b10, b11, b12, b13⟩, ⟨b20, b21, b22, b23⟩,
    ⟨b30, b31, b32, b33⟩⟩
  rcases c with ⟨⟨c00, c01, c02, c03⟩, ⟨c10, c11, c12, c13⟩, ⟨c20, c21, c22, c23⟩,
    ⟨c30, c31, c32, c33⟩⟩
  show f32m4.mul (f32m4.mul _ _) _ = f32m4.mul _ (f32m4.mul _ _)
  simp only [f32m4.mul, f32m4.mulVec, f32v4.scale, f32v4.add, f32m4.mk.injEq,
    f32v4.mk.injEq]
  refine ⟨⟨?_, ?_, ?_, ?_⟩, ⟨?_, ?_, ?_, ?_⟩, ⟨?_, ?_, ?_, ?_⟩, ⟨?_, ?_, ?_, ?_⟩⟩ <;> ring

/-- Over a commutative ring the identity matrix is neutral on the right. -/
theorem f32m4.mul_identity {F : Type} [CommRing F] (a : f32m4 F) : a * glm.identity = a := by
  rcases a with ⟨⟨a00, a01, a02, a03⟩, ⟨a10, a11, a12, a13⟩, ⟨a20, a21, a22, a23⟩,
    ⟨a30, a31, a32, a33⟩⟩
  show f32m4.mul _ _ = _
  simp only [f32m4.mul, f32m4.mulVec, f32v4.scale, f32v4.add, glm.identity, f32m4.mk.injEq,
    f32v4.mk.injEq]
  refine ⟨⟨?_, ?_, ?_, ?_⟩, ⟨?_, ?_, ?_, ?_⟩, ⟨?_, ?_, ?_, ?_⟩, ⟨?_, ?_, ?_, ?_⟩⟩ <;> ring

mutual
/-- Over a commutative ring, on a node array that holds the layout of a tree from index
`k` on, below a parent with world transformation `w`, every draw of the walk started with
the accumulated transformation `R * w` is the draw of a node of the array and carries the
product of `R` and the stored world transformation of that node. -/
theorem preorderTrace_accu {F B : Type} [CommRing F] (scene : Scene F B) (t : aiNode F)
    (R w : f32m4 F) (k : Nat)
    (hsub : ∀ (q : Nat) (n : Node F), (layout t w k)[q]? = some n →
      scene.m_nodes[k + q]? = some n)
    (events : List (TraversalEvent F)) (h : preorderTrace scene t k (R * w) = .ok events)
    (nodeIdx meshIdx materialIdx : Nat) (call : DrawCall F)
    (he : TraversalEvent.draw nodeIdx meshIdx materialIdx call ∈ events) :
    ∃ node, scene.m_nodes[nodeIdx]? = some node ∧
      call.worldTransformation = node.worldSpaceTransformation ∧
      call.accuModelView = R * node.worldSpaceTransformation := by
  match t with
  | .mk T ms cs =>
      have h0 := hsub 0 _ (by simp only [layout, List.getElem?_cons_zero]; rfl)
      rw [Nat.add_zero] at h0
      simp only [preorderTrace, Scene.getNode, h0] at h
      cases hd : drawMeshes scene k (R * w * aiMatrix4x4ToGlm T)
          (w * aiMatrix4x4ToGlm T) ms with
      | error e => rw [hd] at h; cases h
      | ok draws =>
          rw [hd] at h
          simp only at h
          cases hc : preorderTraceChildren scene cs (k + 1) (R * w * aiMatrix4x4ToGlm T) with
          | error e => rw [hc] at h; cases h
          | ok more =>
              rw [hc] at h
              simp only [Except.ok.injEq] at h
              subst h
              rw [List.cons_append, List.mem_cons, List.mem_append] at he
              rcases he with he | he | he
              · cases he
              · obtain ⟨j, mesh, material, -, -, -, hev⟩ :=
                  drawMeshes_mem scene k _ _ ms draws hd _ he
                simp only [TraversalEvent.draw.injEq] at hev
                obtain ⟨rfl, -, -, rfl⟩ := hev
                exact ⟨_, h0, rfl, f32m4.mul_assoc R w _⟩
              · rw [f32m4.mul_assoc] at hc
                exact preorderTraceChildren_accu scene cs R (w * aiMatrix4x4ToGlm T) (k + 1)
                  (by
                    intro q n hq
                    have := hsub (q + 1) n
                      (by simp only [layout, List.getElem?_cons_succ]; exact hq)
                    rw [← this]
                    congr 1
                    omega)
                  more hc nodeIdx meshIdx materialIdx call he
/-- The same for the walk over sibling subtrees. -/
theorem preorderTraceChildren_accu {F B : Type} [CommRing F] (scene : Scene F B)
    (cs : List (aiNode F)) (R w : f32m4 F) (k : Nat)
    (hsub : ∀ (q : Nat) (n : Node F), (layoutChildren cs w k)[q]? = some n →
      scene.m_nodes[k + q]? = some n)
    (events : List (TraversalEvent F))
    (h : preorderTraceChildren scene cs k (R * w) = .ok events)
    (nodeIdx meshIdx materialIdx : Nat) (call : DrawCall F)
    (he : TraversalEvent.draw nodeIdx meshIdx materialIdx call ∈ events) :
    ∃ node, scene.m_nodes[nodeIdx]? = some node ∧
      call.worldTransformation = node.worldSpaceTransformation ∧
      call.accuModelView = R * node.worldSpaceTransformation := by
  match cs with
  | [] =>
      simp only [preorderTraceChildren, Except.ok.injEq] at h
      subst h
      cases he
  | c :: rest =>
      simp only [preorderTraceChildren] at h
      cases hc : preorderTrace scene c k (R * w) with
      | error e => rw [hc] at h; cases h
      | ok first =>
          rw [hc] at h
          simp only at h
          cases hr : preorderTraceChildren scene rest (k + c.size) (R * w) with
          | error e => rw [hr] at h; cases h
          | ok more =>
              rw [hr] at h
              simp only [Except.ok.injEq] at h
              subst h
              rcases List.mem_append.mp he with he | he
              · exact preorderTrace_accu scene c R w k
                  (by
                    intro q n hq
                    apply hsub q n
                    simp only [layoutChildren]
                    have hlt : q < (layout c w k).length := by
                      by_contra hge
                      rw [List.getElem?_eq_none (by omega)] at hq
                      cases hq
                    rw [List.getElem?_append_left hlt]
                    exact hq)
                  first hc nodeIdx meshIdx materialIdx call he
              · exact preorderTraceChildren_accu scene rest R w (k + c.size)
                  (by
                    intro q n hq
                    have := hsub (c.size + q) n (by
                      simp only [layoutChildren]
                      rw [List.getElem?_append_right (by rw [length_layout]; omega),
                        length_layout]
                      rw [show c.size + q - c.size = q by omega]
                      exact hq)
                    rw [← this]
                    congr 1
                    omega)
                  more hr nodeIdx meshIdx materialIdx call he
end

/-- What the specification says of one event of a traversal: it is the visit of a node, or
the draw of a mesh reference of a node `k` of the scene, which carries the world
transformation stored in the node, the reflectivity flag of the mesh, the descriptor
offset and the constant buffer of the material of the mesh, and the draw call of the
mesh. -/
theorem drawMeshes_event {F B : Type} (scene : Scene F B) (k : Nat) (node : Node F)
    (accu : f32m4 F) (meshIndices : List Nat) (events : List (TraversalEvent F))
    (hnode : scene.m_nodes[k]? = some node)
    (hsub : ∀ i ∈ meshIndices, i ∈ node.meshIndices)
    (h : drawMeshes scene k accu node.worldSpaceTransformation meshIndices = .ok events) :
    ∀ e ∈ events, ∃ (k : Nat) (node : Node F) (meshIdx : Nat) (mesh : TriangleMeshD3D12 F B)
      (material : Material F) (accu : f32m4 F),
      scene.m_nodes[k]? = some node ∧ meshIdx ∈ node.meshIndices ∧
      scene.m_meshes[meshIdx]? = some mesh ∧
      scene.m_materials[mesh.m_materialIndex]? = some material ∧
      e = .draw k meshIdx mesh.m_materialIndex
        { accuModelView := accu
          worldTransformation := node.worldSpaceTransformation
          isReflectiveFlag := if mesh.m_isReflective then 1 else 0
          meshDescriptorIndex := meshDescriptorIndexOf material.m_descriptorIndex
          materialConstantBuffer := material.materialConstantBuffer
          draw := mesh.addToCommandList } := by
  intro e he
  obtain ⟨j, mesh, material, hj, h1, h2, h3⟩ := drawMeshes_mem scene k _ _ _ events h e he
  exact ⟨k, node, j, mesh, material, accu, hnode, hsub j hj, h1, h2, h3⟩

/-- A property of all events of the visits of the children holds for all events of the
child loop. -/
theorem visitChildren_forall {E : Type} (visit : Nat → Except LoadError (List E))
    (P : E → Prop) (children : List Nat)
    (hvisit : ∀ child events, visit child = .ok events → ∀ e ∈ events, P e) :
    ∀ (events : List E), visitChildren visit children = .ok events → ∀ e ∈ events, P e := by
  induction children with
  | nil =>
      intro events h e he
      simp only [visitChildren, Except.ok.injEq] at h
      subst h
      cases he
  | cons c rest ih =>
      intro events h e he
      simp only [visitChildren] at h
      cases hc : visit c with
      | error err => rw [hc] at h; cases h
      | ok first =>
          rw [hc] at h
          simp only at h
          cases hr : visitChildren visit rest with
          | error err => rw [hr] at h; cases h
          | ok more =>
              rw [hr] at h
              simp only [Except.ok.injEq] at h
              subst h
              rcases List.mem_append.mp he with he | he
              · exact hvisit c first hc e he
              · exact ih more hr e he

/-- Every event of a traversal of any scene, from any node, is the visit of a node or the
draw of a mesh reference of a node, with the contents the specification states. -/
theorem addToCommandListImpl_event {F B : Type} [Add F] [Mul F] (scene : Scene F B) :
    ∀ (fuel nodeIdx : Nat) (accu : f32m4 F) (events : List (TraversalEvent F)),
    addToCommandListImpl scene fuel nodeIdx accu = .ok events → ∀ e ∈ events,
    (∃ k, e = .getNode k) ∨
    ∃ (k : Nat) (node : Node F) (meshIdx : Nat) (mesh : TriangleMeshD3D12 F B)
      (material : Material F) (accu : f32m4 F),
      scene.m_nodes[k]? = some node ∧ meshIdx ∈ node.meshIndices ∧
      scene.m_meshes[meshIdx]? = some mesh ∧
      scene.m_materials[mesh.m_materialIndex]? = some material ∧
      e = .draw k meshIdx mesh.m_materialIndex
        { accuModelView := accu
          worldTransformation := node.worldSpaceTransformation
          isReflectiveFlag := if mesh.m_isReflective then 1 else 0
          meshDescriptorIndex := meshDescriptorIndexOf material.m_descriptorIndex
          materialConstantBuffer := material.materialConstantBuffer
          draw := mesh.addToCommandList } := by
  intro fuel
  induction fuel with
  | zero => intro nodeIdx accu events h; cases h
  | succ f ih =>
      intro nodeIdx accu events h e he
      simp only [addToCommandListImpl, Scene.getNode] at h
      split at h
      · simp only [Except.ok.injEq] at h
        subst h
        cases he
      · cases hnode : scene.m_nodes[nodeIdx]? with
        | none => rw [hnode] at h; cases h
        | some node =>
            rw [hnode] at h
            simp only at h
            cases hd : drawMeshes scene nodeIdx (accu * node.transformation)
                node.worldSpaceTransformation
                (node.meshIndices.take (ui32 node.meshIndices.length)) with
            | error err => rw [hd] at h; cases h
            | ok draws =>
                rw [hd] at h
                simp only at h
                cases hc : visitChildren
                    (fun child => addToCommandListImpl scene f child
                      (accu * node.transformation))
                    (node.childIndices.take (ui32 node.childIndices.length)) with
                | error err => rw [hc] at h; cases h
                | ok more =>
                    rw [hc] at h
                    simp only [Except.ok.injEq] at h
                    subst h
                    rw [List.cons_append, List.mem_cons, List.mem_append] at he
                    rcases he with he | he | he
                    · exact .inl ⟨nodeIdx, he⟩
                    · exact .inr (drawMeshes_event scene nodeIdx node _ _ draws hnode
                        (fun i hi => List.mem_of_mem_take hi) hd e he)
                    · exact visitChildren_forall _ _ _
                        (fun child events hev => ih child _ events hev) more hc e he

/-- The node array of a scene that `createFromAssImpScene` returns for a source tree of
at most `2 ^ 32` nodes is the layout of the tree. -/
theorem createFromAssImpScene_nodes {F B : Type} [Zero F] [One F] [Add F] [Mul F]
    (ops : AABBOps F B) (env : Environment F) (absolutePath parentPath : String)
    (inputScene : aiScene F) (t : aiNode F) (scene : Scene F B)
    (hread : env.ReadFile = some inputScene) (hroot : inputScene.mRootNode = some t)
    (hok : (createFromAssImpScene ops env absolutePath parentPath).result = .ok scene)
    (hsize : t.size ≤ 2 ^ 32) :
    scene.m_nodes = layout t glm.identity 0 ∧
    scene.m_materials = (createMaterials env.uninit inputScene.mMaterials
      (textureFilenameToIndex inputScene.mMaterials) []).m_materials := by
  obtain ⟨inputScene', root, textures, -, hread', hroot', -, -, hn, -, -, -, -, -, hmat, -⟩ :=
    createFromAssImpScene_ok ops env absolutePath parentPath scene hok
  rw [hread] at hread'
  cases hread'
  rw [hroot] at hroot'
  cases hroot'
  exact ⟨by rw [hn, createNodes_fresh t _ hsize], hmat⟩

/-- On a scene that `createFromAssImpScene` returns for a source tree of fewer than
`2 ^ 32` nodes whose mesh counts fit 32 bits, the traversal with a recursion depth of at
least the number of nodes is the recursion on the tree. -/
theorem addToCommandList_factory {F B : Type} [Zero F] [One F] [Add F] [Mul F]
    (ops : AABBOps F B) (env : Environment F) (absolutePath parentPath : String)
    (inputScene : aiScene F) (t : aiNode F) (scene : Scene F B)
    (hread : env.ReadFile = some inputScene) (hroot : inputScene.mRootNode = some t)
    (hok : (createFromAssImpScene ops env absolutePath parentPath).result = .ok scene)
    (hsize : t.size < 2 ^ 32) (hfit : t.MeshCountsFit)
    (fuel : Nat) (hfuel : t.size ≤ fuel) (R : f32m4 F) :
    scene.addToCommandList fuel R = preorderTrace scene t 0 R := by
  have hn := (createFromAssImpScene_nodes ops env absolutePath parentPath inputScene t scene
    hread hroot hok (by omega)).1
  have hlen : scene.m_nodes.length = t.size := by rw [hn, length_layout]
  exact addToCommandListImpl_layout scene t glm.identity 0 fuel R hfuel (by omega)
    (by omega) hfit (by intro q n hq; rw [Nat.zero_add, hn]; exact hq)

/-! ## The traversal and the sequence of the specification -/

mutual
/-- The traversal written as a recursion on the source tree returns what the
specification describes, when the mesh loop records the draws the specification describes
for the mesh references of its list. -/
theorem preorderTrace_eq_walk {F B : Type} [Add F] [Mul F] (scene : Scene F B)
    (hdraws : ∀ (k : Nat) (accu world : f32m4 F) (meshIndices : List Nat),
      drawMeshes scene k accu world meshIndices
        = resultOfWalk
            (allDefined (meshIndices.map (drawOfMeshReference scene k accu world))))
    (t : aiNode F) (k : Nat) (accu : f32m4 F) :
    preorderTrace scene t k accu = resultOfWalk (preorderWalk scene t k accu) := by
  match t with
  | .mk T ms cs =>
      simp only [preorderTrace, preorderWalk, Scene.getNode]
      cases hnode : scene.m_nodes[k]? with
      | none => rfl
      | some node =>
          simp only
          rw [hdraws]
          cases allDefined (ms.map (drawOfMeshReference scene k (accu * aiMatrix4x4ToGlm T)
              node.worldSpaceTransformation)) with
          | none => rfl
          | some draws =>
              simp only [resultOfWalk]
              rw [preorderTraceChildren_eq_walk scene hdraws cs (k + 1)
                (accu * aiMatrix4x4ToGlm T)]
              cases preorderWalkChildren scene cs (k + 1) (accu * aiMatrix4x4ToGlm T) <;> rfl
/-- The same for a list of sibling subtrees. -/
theorem preorderTraceChildren_eq_walk {F B : Type} [Add F] [Mul F] (scene : Scene F B)
    (hdraws : ∀ (k : Nat) (accu world : f32m4 F) (meshIndices : List Nat),
      drawMeshes scene k accu world meshIndices
        = resultOfWalk
            (allDefined (meshIndices.map (drawOfMeshReference scene k accu world))))
    (cs : List (aiNode F)) (k : Nat) (accu : f32m4 F) :
    preorderTraceChildren scene cs k accu
      = resultOfWalk (preorderWalkChildren scene cs k accu) := by
  match cs with
  | [] => rfl
  | c :: rest =>
      simp only [preorderTraceChildren, preorderWalkChildren]
      rw [preorderTrace_eq_walk scene hdraws c k accu]
      cases preorderWalk scene c k accu with
      | none => rfl
      | some events =>
          simp only [resultOfWalk]
          rw [preorderTraceChildren_eq_walk scene hdraws rest (k + c.size) accu]
          cases preorderWalkChildren scene rest (k + c.size) accu <;> rfl
end

theorem drawnReferences_append {F : Type} (a b : List (TraversalEvent F)) :
    drawnReferences (a ++ b) = drawnReferences a ++ drawnReferences b := by
  simp [drawnReferences, List.filterMap_append]

theorem meshReferencesFrom_append {F : Type} (a b : List (Node F)) (k : Nat) :
    meshReferencesFrom k (a ++ b)
      = meshReferencesFrom k a ++ meshReferencesFrom (k + a.length) b := by
  induction a generalizing k with
  | nil => rfl
  | cons n rest ih =>
      rw [List.cons_append]
      simp only [meshReferencesFrom, List.length_cons, List.append_assoc]
      rw [ih (k + 1), show k + 1 + rest.length = k + (rest.length + 1) by omega]

/-- The draws the specification describes for the mesh references of a node are one for
each reference, in list order. -/
theorem drawnReferences_draws {F B : Type} (scene : Scene F B) (k : Nat) (accu world : f32m4 F)
    (meshIndices : List Nat) : ∀ (draws : List (TraversalEvent F)),
    allDefined (meshIndices.map (drawOfMeshReference scene k accu world)) = some draws →
    drawnReferences draws = meshIndices.map (fun meshIdx => (k, meshIdx)) := by
  induction meshIndices with
  | nil =>
      intro draws h
      simp only [List.map_nil, allDefined, Option.some.injEq] at h
      subst h
      rfl
  | cons i rest ih =>
      intro draws h
      simp only [List.map_cons, drawOfMeshReference] at h
      cases hmesh : scene.m_meshes[i]? with
      | none => rw [hmesh] at h; cases h
      | some mesh =>
          rw [hmesh] at h
          simp only at h
          cases hmat : scene.m_materials[mesh.m_materialIndex]? with
          | none => rw [hmat] at h; cases h
          | some material =>
              rw [hmat] at h
              simp only [allDefined] at h
              cases hrest : allDefined (rest.map (drawOfMeshReference scene k accu world)) with
              | none => rw [hrest] at h; cases h
              | some more =>
                  rw [hrest] at h
                  simp only [Option.some.injEq] at h
                  subst h
                  simp only [drawnReferences, List.filterMap_cons, List.map_cons]
                  exact congrArg _ (ih more hrest)

mutual
/-- The sequence of the specification draws the mesh references of the layout of the
tree: those of each node in index order, each once. -/
theorem drawnReferences_preorderWalk {F B : Type} [Add F] [Mul F] (scene : Scene F B)
    (t : aiNode F) (w : f32m4 F) (k : Nat) (accu : f32m4 F)
    (events : List (TraversalEvent F)) (h : preorderWalk scene t k accu = some events) :
    drawnReferences events = meshReferencesFrom k (layout t w k) := by
  match t with
  | .mk T ms cs =>
      simp only [preorderWalk] at h
      cases hnode : scene.m_nodes[k]? with
      | none => rw [hnode] at h; cases h
      | some node =>
          rw [hnode] at h
          simp only at h
          cases hd : allDefined (ms.map (drawOfMeshReference scene k
              (accu * aiMatrix4x4ToGlm T) node.worldSpaceTransformation)) with
          | none => rw [hd] at h; cases h
          | some draws =>
              rw [hd] at h
              simp only at h
              cases hc : preorderWalkChildren scene cs (k + 1) (accu * aiMatrix4x4ToGlm T) with
              | none => rw [hc] at h; cases h
              | some more =>
                  rw [hc] at h
                  simp only [Option.some.injEq] at h
                  subst h
                  rw [List.cons_append]
                  simp only [layout, meshReferencesFrom]
                  rw [← drawnReferences_draws scene k _ _ ms draws hd,
                    ← drawnReferences_preorderWalkChildren scene cs (w * aiMatrix4x4ToGlm T)
                      (k + 1) _ more hc, ← drawnReferences_append]
                  rfl
/-- The same for a list of sibling subtrees. -/
theorem drawnReferences_preorderWalkChildren {F B : Type} [Add F] [Mul F]
    (scene : Scene F B) (cs : List (aiNode F)) (w : f32m4 F) (k : Nat) (accu : f32m4 F)
    (events : List (TraversalEvent F))
    (h : preorderWalkChildren scene cs k accu = some events) :
    drawnReferences events = meshReferencesFrom k (layoutChildren cs w k) := by
  match cs with
  | [] =>
      simp only [preorderWalkChildren, Option.some.injEq] at h
      subst h
      rfl
  | c :: rest =>
      simp only [preorderWalkChildren] at h
      cases hc : preorderWalk scene c k accu with
      | none => rw [hc] at h; cases h
      | some first =>
          rw [hc] at h
          simp only at h
          cases hr : preorderWalkChildren scene rest (k + c.size) accu with
          | none => rw [hr] at h; cases h
          | some more =>
              rw [hr] at h
              simp only [Option.some.injEq] at h
              subst h
              simp only [layoutChildren]
              rw [drawnReferences_append, meshReferencesFrom_append, length_layout,
                drawnReferences_preorderWalk scene c w k accu first hc,
                drawnReferences_preorderWalkChildren scene rest w (k + c.size) accu more hr]
end

/-- The layout holds the mesh list of every source node. -/
theorem layout_mem_of_preorder {F : Type} [Add F] [Mul F] (t : aiNode F) (w : f32m4 F)
    (s : aiNode F) (hs : s ∈ t.preorder) :
    ∃ n ∈ layout t w 0, n.meshIndices = s.mMeshes := by
  obtain ⟨k, hk⟩ := List.mem_iff_getElem?.mp hs
  obtain ⟨n, hn, -, hm, -⟩ := layout_preorder t w 0 k s hk
  exact ⟨n, List.mem_iff_getElem?.mpr ⟨k, hn⟩, hm⟩

/-! ## C19, C27, C28: the traversal of a scene -/

/-- C19 (amended): on every scene that `createFromAssImpScene` returns for a source tree
of fewer than `2 ^ 32` nodes whose mesh counts fit 32 bits, `Scene::addToCommandList`
with root transformation `R` and a recursion depth of at least the number of nodes
returns the sequence of the walk over the tree from node 0 in pre-order (the visit of a
node, one draw for each mesh reference of the node in list order, then each child in list
order), in which every draw carries `R` multiplied by the local transformations along the
path from the root to the node, the world transformation stored in the node, the
reflectivity flag of the mesh, and the descriptor offset and constant buffer of the
material of the mesh; it fails with an invalid read exactly when the sequence of this
walk is not defined, a node, a mesh or the material of a mesh that the walk refers to
being absent from the scene. The result is a function of the scene and `R` alone, the
same at every such recursion depth. When every mesh reference of every node is less than
the mesh count and the material index of every mesh is less than the material count, a
sequence is returned. The draws of a returned sequence are, in this order, one for each
mesh reference of each node of the scene, the nodes in index order and the references of
a node in list order; and every event of it is the visit of a node or the draw of a mesh
reference of a node with the contents named above. -/
theorem C19_traversal_is_preorder_walk {F B : Type} [Zero F] [One F] [Add F] [Mul F]
    (ops : AABBOps F B) (env : Environment F) (absolutePath parentPath : String)
    (inputScene : aiScene F) (t : aiNode F) (scene : Scene F B)
    (hread : env.ReadFile = some inputScene) (hroot : inputScene.mRootNode = some t)
    (hok : (createFromAssImpScene ops env absolutePath parentPath).result = .ok scene)
    (hsize : t.size < 2 ^ 32) (hfit : t.MeshCountsFit)
    (fuel : Nat) (hfuel : t.size ≤ fuel) (R : f32m4 F) :
    scene.addToCommandList fuel R = resultOfWalk (preorderWalk scene t 0 R) ∧
    (∀ (fuel2 : Nat), t.size ≤ fuel2 →
      scene.addToCommandList fuel2 R = scene.addToCommandList fuel R) ∧
    ((∀ n ∈ scene.m_nodes, ∀ i ∈ n.meshIndices, i < scene.m_meshes.length) →
      (∀ m ∈ scene.m_meshes, m.m_materialIndex < scene.m_materials.length) →
      ∃ events, scene.addToCommandList fuel R = .ok events) ∧
    ∀ (events : List (TraversalEvent F)), scene.addToCommandList fuel R = .ok events →
      drawnReferences events = meshReferences scene.m_nodes ∧
      ∀ e ∈ events, (∃ k, e = .getNode k) ∨
        ∃ (k : Nat) (node : Node F) (meshIdx : Nat) (mesh : TriangleMeshD3D12 F B)
          (material : Material F) (accu : f32m4 F),
          scene.m_nodes[k]? = some node ∧ meshIdx ∈ node.meshIndices ∧
          scene.m_meshes[meshIdx]? = some mesh ∧
          scene.m_materials[mesh.m_materialIndex]? = some material ∧
          e = .draw k meshIdx mesh.m_materialIndex
            { accuModelView := accu
              worldTransformation := node.worldSpaceTransformation
              isReflectiveFlag := if mesh.m_isReflective then 1 else 0
              meshDescriptorIndex := meshDescriptorIndexOf material.m_descriptorIndex
              materialConstantBuffer := material.materialConstantBuffer
              draw := mesh.addToCommandList } := by
  have h := addToCommandList_factory ops env absolutePath parentPath inputScene t scene hread
    hroot hok hsize hfit
  have hn := (createFromAssImpScene_nodes ops env absolutePath parentPath inputScene t scene
    hread hroot hok (by omega)).1
  have hlen : scene.m_nodes.length = t.size := by rw [hn, length_layout]
  have hdraws : ∀ (k : Nat) (accu world : f32m4 F) (meshIndices : List Nat),
      drawMeshes scene k accu world meshIndices
        = resultOfWalk
            (allDefined (meshIndices.map (drawOfMeshReference scene k accu world))) := by
    intro k accu world meshIndices
    induction meshIndices with
    | nil => rfl
    | cons i rest ih =>
        simp only [drawMeshes, Scene.getMesh, Scene.getMaterial, List.map_cons,
          drawOfMeshReference]
        cases hmesh : scene.m_meshes[i]? with
        | none => rfl
        | some mesh =>
            simp only
            cases hmat : scene.m_materials[mesh.m_materialIndex]? with
            | none => rfl
            | some material =>
                simp only [allDefined]
                rw [ih]
                cases allDefined (rest.map (drawOfMeshReference scene k accu world)) <;> rfl
  refine ⟨?_, ?_, ?_, ?_⟩
  · rw [h fuel hfuel R, preorderTrace_eq_walk scene hdraws]
  · intro fuel2 hfuel2
    rw [h fuel hfuel R, h fuel2 hfuel2 R]
  · intro hmesh hmat
    obtain ⟨events, hev⟩ := preorderTrace_ok scene hmat t 0 R (by omega)
      (by
        intro s hs i hi
        obtain ⟨n, hnmem, hnm⟩ := layout_mem_of_preorder t glm.identity s hs
        rw [← hn] at hnmem
        exact hmesh n hnmem i (by rw [hnm]; exact hi))
    rw [← h fuel hfuel R] at hev
    exact ⟨events, hev⟩
  · intro events hrun
    refine ⟨?_, addToCommandListImpl_event scene fuel 0 R events hrun⟩
    rw [h fuel hfuel R, preorderTrace_eq_walk scene hdraws] at hrun
    cases hwalk : preorderWalk scene t 0 R with
    | none => rw [hwalk] at hrun; cases hrun
    | some walk =>
        rw [hwalk] at hrun
        simp only [resultOfWalk, Except.ok.injEq] at hrun
        subst hrun
        rw [meshReferences, hn]
        exact drawnReferences_preorderWalk scene t glm.identity 0 R walk hwalk

/-- C19, witness: the scene of the four-node tree with two triangle meshes, whose root
refers to mesh 0 and whose node 2 refers to mesh 1. With the identity as root
transformation the traversal returns the visit of node 0, the draw of mesh 0 with the
scaling by 2 of the root, the visits of nodes 1 and 2, the draw of mesh 1 with the
scaling by 10 of the path to node 2, and the visit of node 3: one draw for each of the
two mesh references of the node array; and it returns the same at the recursion depth
9. -/
theorem C19_traversal_is_preorder_walk_witness :
    ∃ scene call0 call2,
      smallEnvironment.ReadFile = some smallInputScene ∧
      smallInputScene.mRootNode = some smallTree ∧
      (createFromAssImpScene recordOps smallEnvironment "/scenes/a.obj" "/scenes").result
        = .ok scene ∧
      smallTree.size < 2 ^ 32 ∧ smallTree.MeshCountsFit ∧ smallTree.size ≤ 4 ∧
      preorderWalk scene smallTree 0 glm.identity
        = some [.getNode 0, .draw 0 0 0 call0, .getNode 1, .getNode 2, .draw 2 1 0 call2,
            .getNode 3] ∧
      call0.accuModelView = aiMatrix4x4ToGlm (aiScaling 2) ∧
      call0.worldTransformation = aiMatrix4x4ToGlm (aiScaling 2) ∧
      call2.accuModelView = aiMatrix4x4ToGlm (aiScaling 10) ∧
      call2.worldTransformation = aiMatrix4x4ToGlm (aiScaling 10) ∧
      meshReferences scene.m_nodes = [(0, 0), (2, 1)] ∧
      scene.addToCommandList 4 glm.identity
        = .ok [.getNode 0, .draw 0 0 0 call0, .getNode 1, .getNode 2, .draw 2 1 0 call2,
            .getNode 3] ∧
      scene.addToCommandList 9 glm.identity = scene.addToCommandList 4 glm.identity ∧
      (∀ n ∈ scene.m_nodes, ∀ i ∈ n.meshIndices, i < scene.m_meshes.length) ∧
      (∀ m ∈ scene.m_meshes, m.m_materialIndex < scene.m_materials.length) ∧
      (∃ events, scene.addToCommandList 4 glm.identity = .ok events) ∧
      drawnReferences [.getNode 0, .draw 0 0 0 call0, .getNode 1, .getNode 2,
          .draw 2 1 0 call2, .getNode 3] = meshReferences scene.m_nodes :=
  ⟨_, _, _, rfl, rfl, rfl, by decide, by unfold aiNode.MeshCountsFit; decide, by decide,
    rfl, rfl, rfl, rfl, rfl, rfl,
    (C19_traversal_is_preorder_walk recordOps smallEnvironment "/scenes/a.obj" "/scenes"
      smallInputScene smallTree _ rfl rfl (by rfl) (by decide)
      (by unfold aiNode.MeshCountsFit; decide) 4 (by decide) glm.identity).1,
    (C19_traversal_is_preorder_walk recordOps smallEnvironment "/scenes/a.obj" "/scenes"
      smallInputScene smallTree _ rfl rfl (by rfl) (by decide)
      (by unfold aiNode.MeshCountsFit; decide) 4 (by decide) glm.identity).2.1 9
        (by decide),
    by decide, by decide,
    (C19_traversal_is_preorder_walk recordOps smallEnvironment "/scenes/a.obj" "/scenes"
      smallInputScene smallTree _ rfl rfl (by rfl) (by decide)
      (by unfold aiNode.MeshCountsFit; decide) 4 (by decide) glm.identity).2.2.1
        (by decide) (by decide),
    ((C19_traversal_is_preorder_walk recordOps smallEnvironment "/scenes/a.obj" "/scenes"
      smallInputScene smallTree _ rfl rfl (by rfl) (by decide)
      (by unfold aiNode.MeshCountsFit; decide) 4 (by decide) glm.identity).2.2.2 _
        (by rfl)).1⟩

/-- C27 (amended): on every scene that `createFromAssImpScene` returns for a source tree
of fewer than `2 ^ 32` nodes whose mesh counts fit 32 bits, the traversal with a
recursion depth of at least the number of nodes never exceeds the depth; every sequence
it returns visits the nodes 0, 1, ..., N-1 in this order, each once; and when every mesh
reference of every node is less than the mesh count and the material index of every mesh
is less than the material count, the traversal reads no node, mesh or material out of
range and returns such a sequence. -/
theorem C27_traversal_visits_each_node_once {F B : Type} [Zero F] [One F] [Add F] [Mul F]
    (ops : AABBOps F B) (env : Environment F) (absolutePath parentPath : String)
    (inputScene : aiScene F) (t : aiNode F) (scene : Scene F B)
    (hread : env.ReadFile = some inputScene) (hroot : inputScene.mRootNode = some t)
    (hok : (createFromAssImpScene ops env absolutePath parentPath).result = .ok scene)
    (hsize : t.size < 2 ^ 32) (hfit : t.MeshCountsFit)
    (fuel : Nat) (hfuel : t.size ≤ fuel) (R : f32m4 F) :
    scene.addToCommandList fuel R ≠ .error .diverges ∧
    (∀ (events : List (TraversalEvent F)), scene.addToCommandList fuel R = .ok events →
      visitedNodes events = List.range scene.m_nodes.length) ∧
    ((∀ n ∈ scene.m_nodes, ∀ i ∈ n.meshIndices, i < scene.m_meshes.length) →
      (∀ m ∈ scene.m_meshes, m.m_materialIndex < scene.m_materials.length) →
      ∃ events, scene.addToCommandList fuel R = .ok events ∧
        visitedNodes events = List.range scene.m_nodes.length) := by
  have h := addToCommandList_factory ops env absolutePath parentPath inputScene t scene hread
    hroot hok hsize hfit fuel hfuel R
  have hn := (createFromAssImpScene_nodes ops env absolutePath parentPath inputScene t scene
    hread hroot hok (by omega)).1
  have hlen : scene.m_nodes.length = t.size := by rw [hn, length_layout]
  have hvisited : ∀ (events : List (TraversalEvent F)),
      scene.addToCommandList fuel R = .ok events →
      visitedNodes events = List.range scene.m_nodes.length := by
    intro events hrun
    rw [h] at hrun
    rw [visitedNodes_preorderTrace scene t 0 R events hrun, hlen, List.range_eq_range']
  refine ⟨?_, hvisited, ?_⟩
  · rw [h]
    exact preorderTrace_ne_diverges scene t 0 R
  · intro hmesh hmat
    obtain ⟨events, hev⟩ := preorderTrace_ok scene hmat t 0 R (by omega)
      (by
        intro s hs i hi
        obtain ⟨n, hnmem, hnm⟩ := layout_mem_of_preorder t glm.identity s hs
        rw [← hn] at hnmem
        exact hmesh n hnmem i (by rw [hnm]; exact hi))
    rw [← h] at hev
    exact ⟨events, hev, hvisited events hev⟩

/-- C27, witness: the scene of the four-node tree; the traversal visits 0, 1, 2, 3. -/
theorem C27_traversal_visits_each_node_once_witness :
    ∃ scene,
      smallEnvironment.ReadFile = some smallInputScene ∧
      smallInputScene.mRootNode = some smallTree ∧
      (createFromAssImpScene recordOps smallEnvironment "/scenes/a.obj" "/scenes").result
        = .ok scene ∧
      smallTree.size < 2 ^ 32 ∧ smallTree.MeshCountsFit ∧ smallTree.size ≤ 4 ∧
      (∀ n ∈ scene.m_nodes, ∀ i ∈ n.meshIndices, i < scene.m_meshes.length) ∧
      (∀ m ∈ scene.m_meshes, m.m_materialIndex < scene.m_materials.length) ∧
      ∃ events, scene.addToCommandList 4 glm.identity = .ok events ∧
        visitedNodes events = List.range scene.m_nodes.length :=
  ⟨_, rfl, rfl, rfl, by decide, by unfold aiNode.MeshCountsFit; decide, by decide,
    by decide, by decide,
    (C27_traversal_visits_each_node_once recordOps smallEnvironment "/scenes/a.obj" "/scenes"
      smallInputScene smallTree _ rfl rfl (by rfl) (by decide)
      (by unfold aiNode.MeshCountsFit; decide) 4 (by decide) glm.identity).2.2
      (by decide) (by decide)⟩

/-- C28 (amended): over a commutative ring, on every scene that `createFromAssImpScene`
returns for a source tree of fewer than `2 ^ 32` nodes whose mesh counts fit 32 bits, for
every root transformation `R`, every draw that the traversal with a recursion depth of at
least the number of nodes issues during the visit of a node `n` carries the world
transformation stored in `n` and the accumulated transformation
`R × n.worldSpaceTransformation`. -/
theorem C28_accumulated_transform {F B : Type} [CommRing F]
    (ops : AABBOps F B) (env : Environment F) (absolutePath parentPath : String)
    (inputScene : aiScene F) (t : aiNode F) (scene : Scene F B)
    (hread : env.ReadFile = some inputScene) (hroot : inputScene.mRootNode = some t)
    (hok : (createFromAssImpScene ops env absolutePath parentPath).result = .ok scene)
    (hsize : t.size < 2 ^ 32) (hfit : t.MeshCountsFit)
    (fuel : Nat) (hfuel : t.size ≤ fuel) (R : f32m4 F) (events : List (TraversalEvent F))
    (hrun : scene.addToCommandList fuel R = .ok events)
    (nodeIdx meshIdx materialIdx : Nat) (call : DrawCall F)
    (hdraw : TraversalEvent.draw nodeIdx meshIdx materialIdx call ∈ events) :
    ∃ n, scene.m_nodes[nodeIdx]? = some n ∧
      call.worldTransformation = n.worldSpaceTransformation ∧
      call.accuModelView = R * n.worldSpaceTransformation := by
  have h := addToCommandList_factory ops env absolutePath parentPath inputScene t scene hread
    hroot hok hsize hfit fuel hfuel R
  have hn := (createFromAssImpScene_nodes ops env absolutePath parentPath inputScene t scene
    hread hroot hok (by omega)).1
  rw [h, ← f32m4.mul_identity R] at hrun
  exact preorderTrace_accu scene t R glm.identity 0
    (by intro q n hq; rw [Nat.zero_add, hn]; exact hq) events hrun nodeIdx meshIdx materialIdx
    call hdraw

/-- C28, witness: the scene of the four-node tree with the root transformation of scaling
by 7; the draw of mesh 1 at node 2 carries 7 times the stored world transformation. -/
theorem C28_accumulated_transform_witness :
    ∃ scene events call,
      smallEnvironment.ReadFile = some smallInputScene ∧
      smallInputScene.mRootNode = some smallTree ∧
      (createFromAssImpScene recordOps smallEnvironment "/scenes/a.obj" "/scenes").result
        = .ok scene ∧
      smallTree.size < 2 ^ 32 ∧ smallTree.MeshCountsFit ∧ smallTree.size ≤ 4 ∧
      scene.addToCommandList 4 (aiMatrix4x4ToGlm (aiScaling 7)) = .ok events ∧
      TraversalEvent.draw 2 1 0 call ∈ events ∧
      ∃ n, scene.m_nodes[2]? = some n ∧
        call.worldTransformation = n.worldSpaceTransformation ∧
        call.accuModelView = aiMatrix4x4ToGlm (aiScaling 7) * n.worldSpaceTransformation :=
  ⟨_, _, _, rfl, rfl, rfl, by decide, by unfold aiNode.MeshCountsFit; decide, by decide, rfl,
    .tail _ (.tail _ (.tail _ (.tail _ (.head _)))),
    C28_accumulated_transform recordOps smallEnvironment "/scenes/a.obj" "/scenes"
      smallInputScene smallTree _ rfl rfl (by rfl) (by decide)
      (by unfold aiNode.MeshCountsFit; decide) 4 (by decide) (aiMatrix4x4ToGlm (aiScaling 7))
      _ (by rfl) 2 1 0 _ (by exact .tail _ (.tail _ (.tail _ (.tail _ (.head _)))))⟩

/-! ## C29: the descriptor offset of a draw -/

/-- C29 (amended): when all descriptor slots stay below `2 ^ 31` (`5 m + 2 ≤ 2 ^ 31` for
`m` source materials), then on every scene that `createFromAssImpScene` returns, every
draw of every traversal that returns is the draw of a mesh of the scene with the material
of the mesh; the descriptor index of the material is at least 2, and the descriptor
offset passed with the draw is that index minus 2, which is 5 times the material index of
the mesh. -/
theorem C29_descriptor_offset {F B : Type} [Zero F] [One F] [Add F] [Mul F]
    (ops : AABBOps F B) (env : Environment F) (absolutePath parentPath : String)
    (inputScene : aiScene F) (scene : Scene F B)
    (hread : env.ReadFile = some inputScene)
    (hok : (createFromAssImpScene ops env absolutePath parentPath).result = .ok scene)
    (hslots : 5 * inputScene.mMaterials.length + 2 ≤ 2 ^ 31)
    (fuel : Nat) (R : f32m4 F) (events : List (TraversalEvent F))
    (hrun : scene.addToCommandList fuel R = .ok events)
    (nodeIdx meshIdx materialIdx : Nat) (call : DrawCall F)
    (hdraw : TraversalEvent.draw nodeIdx meshIdx materialIdx call ∈ events) :
    ∃ (mesh : TriangleMeshD3D12 F B) (material : Material F),
      scene.m_meshes[meshIdx]? = some mesh ∧ mesh.m_materialIndex = materialIdx ∧
      scene.m_materials[materialIdx]? = some material ∧
      2 ≤ material.m_descriptorIndex ∧
      call.meshDescriptorIndex = (material.m_descriptorIndex : Int) - 2 ∧
      call.meshDescriptorIndex = 5 * (materialIdx : Int) := by
  obtain ⟨inputScene', root, textures, -, hread', -, -, -, -, -, -, -, -, -, hmat, -⟩ :=
    createFromAssImpScene_ok ops env absolutePath parentPath scene hok
  rw [hread] at hread'
  cases hread'
  obtain ⟨-, hidx, -⟩ := createMaterials_layout env.uninit inputScene.mMaterials
    (textureFilenameToIndex inputScene.mMaterials) hslots
  rw [← hmat] at hidx
  rcases addToCommandListImpl_event scene fuel 0 R events hrun _ hdraw with ⟨k, hk⟩ | h
  · cases hk
  · obtain ⟨k, node, j, mesh, material, accu, -, -, hmesh, hmaterial, hev⟩ := h
    simp only [TraversalEvent.draw.injEq] at hev
    obtain ⟨-, rfl, rfl, rfl⟩ := hev
    have hd : (scene.m_materials.map fun x => x.m_descriptorIndex)[mesh.m_materialIndex]?
        = some material.m_descriptorIndex := by
      rw [List.getElem?_map, hmaterial]
      rfl
    rw [hidx, List.getElem?_map] at hd
    have hlt : mesh.m_materialIndex < inputScene.mMaterials.length := by
      by_contra hge
      rw [List.getElem?_eq_none (by rw [List.length_range]; omega)] at hd
      cases hd
    rw [List.getElem?_range hlt] at hd
    simp only [Option.map_some', Option.some.injEq] at hd
    refine ⟨mesh, material, hmesh, rfl, hmaterial, by omega, ?_, ?_⟩
    · simp only [meshDescriptorIndexOf]
      have e : ui32 (material.m_descriptorIndex + 2 ^ 32 - 2) = material.m_descriptorIndex - 2 := by
        unfold ui32
        omega
      rw [e, toI32_of_lt (by omega)]
      omega
    · simp only [meshDescriptorIndexOf]
      have e : ui32 (material.m_descriptorIndex + 2 ^ 32 - 2) = material.m_descriptorIndex - 2 := by
        unfold ui32
        omega
      rw [e, toI32_of_lt (by omega)]
      omega

/-- C29, witness: the scene of two nodes with a triangle mesh and one material; the one
draw passes the offset 0. -/
theorem C29_descriptor_offset_witness :
    ∃ scene events call,
      plainEnvironment.ReadFile = some (twoNodeScene triangleMesh [plainMaterial]) ∧
      (createFromAssImpScene recordOps plainEnvironment "/scenes/a.obj" "/scenes").result
        = .ok scene ∧
      5 * (twoNodeScene triangleMesh [plainMaterial]).mMaterials.length + 2 ≤ 2 ^ 31 ∧
      scene.addToCommandList 2 glm.identity = .ok events ∧
      TraversalEvent.draw 1 0 0 call ∈ events ∧
      ∃ (mesh : TriangleMeshD3D12 Int (List (Nat × f32m4 Int))) (material : Material Int),
        scene.m_meshes[0]? = some mesh ∧ mesh.m_materialIndex = 0 ∧
        scene.m_materials[0]? = some material ∧
        2 ≤ material.m_descriptorIndex ∧
        call.meshDescriptorIndex = (material.m_descriptorIndex : Int) - 2 ∧
        call.meshDescriptorIndex = 5 * ((0 : Nat) : Int) :=
  ⟨_, _, _, rfl, rfl, by decide, rfl, .tail _ (.tail _ (.head _)),
    C29_descriptor_offset recordOps plainEnvironment "/scenes/a.obj" "/scenes"
      (twoNodeScene triangleMesh [plainMaterial]) _ rfl rfl (by decide) 2 glm.identity _ rfl
      1 0 0 _ (.tail _ (.tail _ (.head _)))⟩

/-- The run of `createFromAssImpScene` when the device creates the heap and the buffers
and every step succeeds: the scene is assembled from the results of the steps. -/
theorem createFromAssImpScene_result {F B : Type} [Zero F] [One F] [Add F] [Mul F]
    (ops : AABBOps F B) (env : Environment F) (absolutePath parentPath : String)
    (inputScene : aiScene F) (t : aiNode F) (aabb : B) (textures : List Texture2DD3D12)
    (hex : env.pathExists = true) (hread : env.ReadFile = some inputScene)
    (hroot : inputScene.mRootNode = some t)
    (hheap : env.CreateDescriptorHeap (numOfDescriptors inputScene.mMaterials.length) = true)
    (hib : env.CreateCommittedResource (indexBufferSize
      (createMeshes ops.ofPositions inputScene.mMeshes []).globalIndices.length) = true)
    (hvb : env.CreateCommittedResource (vertexBufferSize
      (createMeshes ops.ofPositions inputScene.mMeshes []).globalVertices.length
      env.sizeofVertex) = true)
    (haabb : computeSceneAABB ops
        { m_nodes := (createNodes [] t glm.identity).1
          m_meshes := (createMeshes ops.ofPositions inputScene.mMeshes []).m_meshes
          m_aabb := ops.empty
          m_materials := []
          m_textures := []
          m_totalDescriptorCount := numOfDescriptors inputScene.mMaterials.length
          globalVertices := (createMeshes ops.ofPositions inputScene.mMeshes []).globalVertices
          globalIndices := (createMeshes ops.ofPositions inputScene.mMeshes []).globalIndices
          heapWrites := [] }
        ((createNodes [] t glm.identity).1.length + 1) ops.empty 0 glm.identity = .ok aabb)
    (htex : (createTextures env.fileLoads
        (env.mapOrder (textureFilenameToIndex inputScene.mMaterials)) parentPath
        [GpuEvent.createDescriptorHeap (numOfDescriptors inputScene.mMaterials.length),
         GpuEvent.createBuffer (indexBufferSize
           (createMeshes ops.ofPositions inputScene.mMeshes []).globalIndices.length),
         GpuEvent.createBuffer (vertexBufferSize
           (createMeshes ops.ofPositions inputScene.mMeshes []).globalVertices.length
           env.sizeofVertex),
         GpuEvent.createBufferView 0, GpuEvent.createBufferView 1] []).result
        = .ok textures) :
    (createFromAssImpScene ops env absolutePath parentPath).result
      = .ok
        { m_nodes := (createNodes [] t glm.identity).1
          m_meshes := (createMeshes ops.ofPositions inputScene.mMeshes []).m_meshes
          m_aabb := aabb
          m_materials := (createMaterials env.uninit inputScene.mMaterials
            (textureFilenameToIndex inputScene.mMaterials) []).m_materials
          m_textures := textures
          m_totalDescriptorCount := numOfDescriptors inputScene.mMaterials.length
          globalVertices := (createMeshes ops.ofPositions inputScene.mMeshes []).globalVertices
          globalIndices := (createMeshes ops.ofPositions inputScene.mMeshes []).globalIndices
          heapWrites := (createMaterials env.uninit inputScene.mMaterials
            (textureFilenameToIndex inputScene.mMaterials) []).heapWrites } := by
  unfold createFromAssImpScene
  rw [if_neg (by simp [hex])]
  simp only [hread, hroot, haabb, htex, hheap, hib, hvb]
  rfl

/-- Plain materials add no entry to the texture map. -/
theorem textureFilenameToIndex_plain (n : Nat) :
    textureFilenameToIndex (List.replicate n plainMaterial) = [] := by
  have hinner : ∀ (types : List Nat) (st : ScanState),
      types.foldl (fun (st : ScanState) (textureType : Nat) =>
        (plainMaterial.textures textureType).foldl scanPath st) st = st := by
    intro types
    induction types with
    | nil => intro st; rfl
    | cons ty rest ih => intro st; exact ih st
  have houter : ∀ (n : Nat) (st : ScanState),
      (List.replicate n plainMaterial).foldl (fun (st : ScanState) (material : aiMaterial Int) =>
        (List.range' aiTextureType_NONE (aiTextureType_UNKNOWN - aiTextureType_NONE)).foldl
          (fun (st : ScanState) (textureType : Nat) =>
            (material.textures textureType).foldl scanPath st) st) st = st := by
    intro n
    induction n with
    | zero => intro st; rfl
    | succ n ih =>
        intro st
        rw [List.replicate_succ, List.foldl_cons, hinner]
        exact ih st
  unfold textureFilenameToIndex
  rw [houter]

/-- Without a bound on the slots, the material loop gives the `k`-th further material the
32-bit narrowing of the descriptor index `D + 5 k`. -/
theorem createMaterialsLoop_descriptorIndex {F : Type} [Zero F] [Add F]
    (uninit : Nat → F × F) (map : List (String × Nat)) (ms : List (aiMaterial F)) :
    ∀ (i D : Nat) (st : MaterialState F), st.descriptorIndex = ui32 D →
    (createMaterialsLoop uninit map i ms st).m_materials.map (fun x => x.m_descriptorIndex)
      = st.m_materials.map (fun x => x.m_descriptorIndex)
        ++ (List.range ms.length).map (fun k => ui32 (D + 5 * k)) := by
  induction ms with
  | nil => intro i D st _; simp [createMaterialsLoop]
  | cons material rest ih =>
      intro i D st h
      have hnext : (createMaterialsBody (uninit i) map st material).descriptorIndex
          = ui32 (D + 5) := by
        simp only [createMaterialsBody, h]
        unfold ui32
        omega
      simp only [createMaterialsLoop]
      rw [ih (i + 1) (D + 5) _ hnext, List.length_cons, List.range_succ_eq_map]
      simp only [createMaterialsBody, List.map_append, List.map_cons, List.map_nil,
        List.append_assoc, List.singleton_append, List.map_map, h, Nat.mul_zero, Nat.add_zero]
      congr 2
      apply List.map_congr_left
      intro k _
      simp only [Function.comp, Nat.succ_eq_add_one]
      congr 1
      omega

/-- The scene `createFromAssImpScene` returns for `manyMaterialsScene n j` with `j < n`,
and its traversal: the one draw reads material `j`, whose descriptor index is the 32-bit
narrowing of `2 + 5 j`. -/
theorem manyMaterials_draw (n j : Nat) (hj : j < n) :
    ∃ (scene : Scene Int (List (Nat × f32m4 Int))) (material : Material Int)
      (events : List (TraversalEvent Int)) (call : DrawCall Int),
      (createFromAssImpScene recordOps
        (environmentOf true (some (manyMaterialsScene n j)) allFilesLoad)
        "/scenes/a.obj" "/scenes").result = .ok scene ∧
      scene.m_materials[j]? = some material ∧
      material.m_descriptorIndex = ui32 (2 + 5 * j) ∧
      scene.addToCommandList 1 glm.identity = .ok events ∧
      TraversalEvent.draw 0 0 j call ∈ events ∧
      call.meshDescriptorIndex = meshDescriptorIndexOf (ui32 (2 + 5 * j)) := by
  have hmap := createMaterialsLoop_descriptorIndex sampleUninit
    (textureFilenameToIndex (List.replicate n plainMaterial)) (List.replicate n plainMaterial)
    0 2 { descriptorIndex := 2, m_materials := [], heapWrites := [], gpu := [] } (by decide)
  simp only [List.map_nil, List.nil_append, List.length_replicate] at hmap
  have hat : ((createMaterials sampleUninit (List.replicate n plainMaterial)
      (textureFilenameToIndex (List.replicate n plainMaterial)) []).m_materials.map
        (fun x => x.m_descriptorIndex))[j]? = some (ui32 (2 + 5 * j)) := by
    unfold createMaterials
    rw [hmap, List.getElem?_map, List.getElem?_range hj]
    rfl
  rw [List.getElem?_map] at hat
  cases hmat : (createMaterials sampleUninit (List.replicate n plainMaterial)
      (textureFilenameToIndex (List.replicate n plainMaterial)) []).m_materials[j]? with
  | none => rw [hmat] at hat; cases hat
  | some material =>
      rw [hmat] at hat
      simp only [Option.map_some', Option.some.injEq] at hat
      have hone : ui32 1 = 1 := by decide
      have hzero : ui32 0 = 0 := by decide
      have hnode : (createNodes [] meshNode (glm.identity : f32m4 Int)).1
          = [{ transformation := glm.identity, worldSpaceTransformation := glm.identity,
               meshIndices := [0], childIndices := [] }] := by decide
      obtain ⟨m, hm, hmj⟩ : ∃ m,
          (createMeshes recordOps.ofPositions (manyMaterialsScene n j).mMeshes []).m_meshes
            = [m] ∧ m.m_materialIndex = j := ⟨_, rfl, rfl⟩
      have hil : (createMeshes recordOps.ofPositions (manyMaterialsScene n j).mMeshes
          []).globalIndices.length = 3 := by
        simp [manyMaterialsScene, createMeshes, createMeshesLoop, createMeshesBody,
          TriangleMeshD3D12.create, getTriangleIndicesFromAiMesh, triangleMesh,
          triangleOfFace, ui32]
        rfl
      have hvl : (createMeshes recordOps.ofPositions (manyMaterialsScene n j).mMeshes
          []).globalVertices.length = 3 := rfl
      have hres := createFromAssImpScene_result recordOps
        (environmentOf true (some (manyMaterialsScene n j)) allFilesLoad)
        "/scenes/a.obj" "/scenes" (manyMaterialsScene n j) meshNode
        [(3, glm.identity * glm.identity * glm.identity)]
        [.solid white 1 1, .solid black 1 1, .solid blue 1 1] rfl rfl rfl rfl
        (by rw [hil]; rfl) (by rw [hvl]; rfl)
        (by
          simp only [hnode, computeSceneAABB, List.getElem?_cons_zero, List.length_singleton,
            List.length_nil, hzero, List.take_zero, forChildren, mergeMeshAABBs,
            manyMaterialsScene, createMeshes, createMeshesLoop, createMeshesBody]
          rfl)
        (by
          simp only [manyMaterialsScene, environmentOf, textureFilenameToIndex_plain]
          rfl)
      have hmat2 : (createMaterials
          (environmentOf true (some (manyMaterialsScene n j)) allFilesLoad).uninit
          (manyMaterialsScene n j).mMaterials
          (textureFilenameToIndex (manyMaterialsScene n j).mMaterials) []).m_materials[j]?
            = some material := hmat
      refine ⟨_, material,
        [.getNode 0, .draw 0 0 j
          { accuModelView := glm.identity * glm.identity
            worldTransformation := glm.identity
            isReflectiveFlag := if m.m_isReflective then 1 else 0
            meshDescriptorIndex := meshDescriptorIndexOf material.m_descriptorIndex
            materialConstantBuffer := material.materialConstantBuffer
            draw := m.addToCommandList }], _,
        hres, hmat, hat, ?_, .tail _ (.head _), by rw [hat]⟩
      simp only [Scene.addToCommandList, addToCommandListImpl, Scene.getNumberOfNodes,
        Scene.getNode, hnode, List.length_singleton, List.length_nil, hone, hzero,
        List.getElem?_cons_zero, List.take_succ_cons, List.take_zero, drawMeshes,
        Scene.getMesh, Scene.getMaterial, hm, hmj, hmat2, visitChildren]
      rfl

/-! ## Scenes of `2 ^ 32` and more nodes -/

/-- Every node of the layout holds the mesh list of a source node. -/
theorem preorder_of_layout_mem {F : Type} [Add F] [Mul F] (t : aiNode F) (w : f32m4 F)
    (n : Node F) (hn : n ∈ layout t w 0) : ∃ s ∈ t.preorder, n.meshIndices = s.mMeshes := by
  obtain ⟨k, hk⟩ := List.mem_iff_getElem?.mp hn
  have hlt : k < t.preorder.length := by
    rw [aiNode.length_preorder, ← length_layout t w 0]
    by_contra hge
    rw [List.getElem?_eq_none (by omega)] at hk
    cases hk
  obtain ⟨n2, hn2, -, hm, -⟩ := layout_preorder t w 0 k _ (List.getElem?_eq_getElem hlt)
  rw [hk] at hn2
  cases hn2
  exact ⟨_, List.getElem_mem hlt, hm⟩

/-- The run of `createFromAssImpScene` succeeds for a source tree of at most `2 ^ 32` nodes
whose mesh references are valid, when the device creates the heap and the buffers and the
textures can be created; the node array of the scene is the layout of the tree. -/
theorem createFromAssImpScene_small {F B : Type} [Zero F] [One F] [Add F] [Mul F]
    (ops : AABBOps F B) (env : Environment F) (absolutePath parentPath : String)
    (inputScene : aiScene F) (t : aiNode F) (textures : List Texture2DD3D12)
    (hex : env.pathExists = true) (hread : env.ReadFile = some inputScene)
    (hroot : inputScene.mRootNode = some t)
    (hheap : env.CreateDescriptorHeap (numOfDescriptors inputScene.mMaterials.length) = true)
    (hib : env.CreateCommittedResource (indexBufferSize
      (createMeshes ops.ofPositions inputScene.mMeshes []).globalIndices.length) = true)
    (hvb : env.CreateCommittedResource (vertexBufferSize
      (createMeshes ops.ofPositions inputScene.mMeshes []).globalVertices.length
      env.sizeofVertex) = true)
    (hsize : t.size ≤ 2 ^ 32)
    (hmesh : ∀ s ∈ t.preorder, ∀ i ∈ s.mMeshes,
      i < (createMeshes ops.ofPositions inputScene.mMeshes []).m_meshes.length)
    (htex : (createTextures env.fileLoads
        (env.mapOrder (textureFilenameToIndex inputScene.mMaterials)) parentPath
        [GpuEvent.createDescriptorHeap (numOfDescriptors inputScene.mMaterials.length),
         GpuEvent.createBuffer (indexBufferSize
           (createMeshes ops.ofPositions inputScene.mMeshes []).globalIndices.length),
         GpuEvent.createBuffer (vertexBufferSize
           (createMeshes ops.ofPositions inputScene.mMeshes []).globalVertices.length
           env.sizeofVertex),
         GpuEvent.createBufferView 0, GpuEvent.createBufferView 1] []).result
        = .ok textures) :
    ∃ scene, (createFromAssImpScene ops env absolutePath parentPath).result = .ok scene ∧
      scene.m_nodes = layout t glm.identity 0 ∧
      scene.m_meshes = (createMeshes ops.ofPositions inputScene.mMeshes []).m_meshes ∧
      scene.m_materials = (createMaterials env.uninit inputScene.mMaterials
        (textureFilenameToIndex inputScene.mMaterials) []).m_materials := by
  have hl : (createNodes [] t (glm.identity : f32m4 F)).1 = layout t glm.identity 0 :=
    createNodes_fresh t _ hsize
  obtain ⟨aabb, haabb⟩ := unionOverNodes_ok ops
    (createMeshes ops.ofPositions inputScene.mMeshes []).m_meshes
    (layout t (glm.identity : f32m4 F) 0) ops.empty
    (by
      intro n hn i hi
      obtain ⟨s, hs, hm⟩ := preorder_of_layout_mem t glm.identity n hn
      exact hmesh s hs i (by rw [← hm]; exact hi))
  refine ⟨_, createFromAssImpScene_result ops env absolutePath parentPath inputScene t aabb
    textures hex hread hroot hheap hib hvb ?_ htex, hl, rfl, rfl⟩
  rw [computeSceneAABB_layout ops _ t glm.identity 0 _ ops.empty
    (by simp only [hl, length_layout]; omega) hsize
    (by intro q n hq; rw [Nat.zero_add]; simp only [hl]; exact hq)]
  simp only [hl]
  exact haabb

theorem sizeList_replicate_leaf (n : Nat) :
    aiNode.sizeList (List.replicate n leafNode) = n := by
  induction n with
  | zero => rfl
  | succ n ih =>
      rw [List.replicate_succ, aiNode.sizeList, ih]
      simp only [leafNode, aiNode.size, aiNode.sizeList]
      omega

theorem preorderList_replicate_leaf (n : Nat) :
    aiNode.preorderList (List.replicate n leafNode) = List.replicate n leafNode := by
  induction n with
  | zero => rfl
  | succ n ih =>
      rw [List.replicate_succ, aiNode.preorderList, ih]
      rfl

/-- The scene `createFromAssImpScene` returns for `flatTree n` with `n = 2 ^ 32 - 1`: it
has `2 ^ 32` nodes, node 0 refers to mesh 0, and the traversal returns at once, for every
root transformation and every positive recursion depth, because `getNumberOfNodes()`
is 0. -/
theorem flatTree_traversal (n : Nat) (hn : n = 2 ^ 32 - 1) :
    ∃ (scene : Scene Int (List (Nat × f32m4 Int))) (node : Node Int),
      (createFromAssImpScene recordOps (environmentOf true (some (flatScene n)) allFilesLoad)
        "/scenes/a.obj" "/scenes").result = .ok scene ∧
      scene.m_nodes.length = 2 ^ 32 ∧
      scene.m_nodes[0]? = some node ∧ node.meshIndices = [0] ∧
      ∀ (fuel : Nat) (R : f32m4 Int), scene.addToCommandList (fuel + 1) R = .ok [] := by
  have hsize : (flatTree n).size = 2 ^ 32 := by
    simp only [flatTree, aiNode.size, sizeList_replicate_leaf]
    omega
  obtain ⟨scene, hok, hnodes, -, -⟩ := createFromAssImpScene_small recordOps
    (environmentOf true (some (flatScene n)) allFilesLoad) "/scenes/a.obj" "/scenes"
    (flatScene n) (flatTree n) [.solid white 1 1, .solid black 1 1, .solid blue 1 1]
    rfl rfl rfl rfl rfl rfl (by omega)
    (by
      intro s hs i hi
      simp only [flatTree, aiNode.preorder, preorderList_replicate_leaf, List.mem_cons] at hs
      rcases hs with rfl | hs
      · simp only [aiNode.mMeshes, List.mem_singleton] at hi
        subst hi
        exact Nat.zero_lt_one
      · rw [List.eq_of_mem_replicate hs] at hi
        cases hi)
    rfl
  have hlen : scene.m_nodes.length = 2 ^ 32 := by rw [hnodes, length_layout, hsize]
  refine ⟨scene, _, hok, hlen,
    by rw [hnodes]; simp only [flatTree, layout]; exact List.getElem?_cons_zero, rfl, ?_⟩
  intro fuel R
  have hcount : scene.getNumberOfNodes = 0 := by
    unfold Scene.getNumberOfNodes
    rw [hlen]
    decide
  simp only [Scene.addToCommandList, addToCommandListImpl, hcount]
  rfl

theorem createNodes_mk {F : Type} [Add F] [Mul F] (nodes : List (Node F))
    (T : aiMatrix4x4 F) (ms : List Nat) (cs : List (aiNode F)) (w : f32m4 F) :
    createNodes nodes (.mk T ms cs) w
      = (createNodesChildren
          (nodes ++ [{ transformation := aiMatrix4x4ToGlm T
                       worldSpaceTransformation := w * aiMatrix4x4ToGlm T
                       meshIndices := ms
                       childIndices := [] }]) cs (ui32 (nodes.length + 1 - 1))
          (w * aiMatrix4x4ToGlm T), ui32 (nodes.length + 1 - 1)) := by
  rw [createNodes]

theorem createNodesChildren_nil {F : Type} [Add F] [Mul F] (nodes : List (Node F))
    (idx : Nat) (w : f32m4 F) : createNodesChildren nodes [] idx w = nodes := by
  rw [createNodesChildren]

theorem createNodesChildren_cons {F : Type} [Add F] [Mul F] (nodes : List (Node F))
    (c : aiNode F) (rest : List (aiNode F)) (idx : Nat) (w : f32m4 F) :
    createNodesChildren nodes (c :: rest) idx w
      = createNodesChildren ((createNodes nodes c w).1.modify
          (Node.addChild (createNodes nodes c w).2) idx) rest idx w := by
  rw [createNodesChildren]

/-- The node array of `wrappedTree n` for `n = 2 ^ 32 - 2`. The nodes behind position
`2 ^ 32 - 1` received narrowed indices: the second child of the root the index 2, the
third one the index 3, and its two children were entered in the child list of node 3,
which thereby holds `2 ^ 32` entries. -/
theorem wrappedTree_nodes (n : Nat) (hn : n = 2 ^ 32 - 2) :
    (createNodes [] (wrappedTree n) glm.identity).1 = wrappedNodes n := by
  unfold wrappedNodes
  have h0 : ui32 (0 + 1 - 1) = 0 := by decide
  have h1 : ui32 (1 + 1 - 1) = 1 := by decide
  have h2 : ui32 (2 + 1 - 1) = 2 := by decide
  have h3 : ui32 (3 + 1 - 1) = 3 := by decide
  simp only [wrappedTree, meshNode, createNodes_mk, createNodesChildren_cons,
    createNodesChildren_nil, createNodes_leaf, List.nil_append,
    List.length_nil, List.length_singleton, List.singleton_append, h0, h1, h2, h3,
    List.length_cons, List.cons_append, List.modify_succ_cons, List.modify_zero_cons,
    Node.addChild]
  rw [createNodesChildren_leaves n _ 3 _ (by simp)]
  simp only [List.modify_succ_cons, List.modify_zero_cons, List.length_cons, List.length_nil,
    List.nil_append, createNodes_leaf, List.length_append, List.length_replicate,
    List.cons_append, createNodes_mk, createNodesChildren_cons, createNodesChildren_nil,
    Nat.add_sub_cancel, List.append_assoc, List.singleton_append, Node.addChild]
  have e4 : ui32 (n + 1 + 1 + 1 + 1) = 2 := by rw [hn]; decide
  have e5 : ui32 (n + (0 + 1) + 1 + 1 + 1 + 1) = 3 := by rw [hn]; decide
  have e6 : ui32 (n + (0 + 1 + 1) + 1 + 1 + 1 + 1) = 4 := by rw [hn]; decide
  have e7 : ui32 (n + (0 + 1 + 1 + 1) + 1 + 1 + 1 + 1) = 5 := by rw [hn]; decide
  have four : (0 + 1 + 1 + 1 + 1 : Nat) = 4 := rfl
  simp only [e4, e5, e6, List.modify_succ_cons, List.modify_zero_cons, List.length_cons,
    List.length_nil, List.length_append, List.length_replicate, List.length_modify,
    Node.addChild, List.cons_append, List.append_assoc, List.singleton_append, four,
    List.nil_append, e7]

/-- The bounding-box pass on a scene with the node array `wrappedNodes n`, `n = 2 ^ 32 - 2`,
whose mesh 0 exists, returns with a recursion depth of 3: the child loop of node 3 runs
over none of its `2 ^ 32` entries. -/
theorem wrappedNodes_aabb {B : Type} (ops : AABBOps Int B) (scene : Scene Int B) (n : Nat)
    (hn : n = 2 ^ 32 - 2) (hnodes : scene.m_nodes = wrappedNodes n)
    (mesh : TriangleMeshD3D12 Int B) (hmesh : scene.m_meshes[0]? = some mesh)
    (fuel : Nat) (acc : B) (w : f32m4 Int) :
    ∃ aabb, computeSceneAABB ops scene (fuel + 3) acc 0 w = .ok aabb := by
  have h3 : ui32 3 = 3 := by decide
  have h2 : ui32 2 = 2 := by decide
  have h0 : ui32 0 = 0 := by decide
  have hw : ui32 (n + 2) = 0 := by rw [hn]; decide
  simp only [computeSceneAABB, hnodes, wrappedNodes, List.cons_append, List.nil_append,
    List.getElem?_cons_zero, List.getElem?_cons_succ, mergeMeshAABBs, List.length_cons,
    List.length_nil, List.length_append, List.length_map, List.length_range, h3, h2, h0, hw,
    List.take_succ_cons, List.take_zero, List.take_nil, forChildren, hmesh,
    Except.ok.injEq, exists_eq']

/-- The traversal of a scene with the node array `wrappedNodes n`, `n = 2 ^ 32 - 2`, whose
mesh 0 uses material 0: `getNumberOfNodes()` is 6; the root visits the nodes 1, 2 and 3,
node 1 visits the nodes 2 and 3, and node 3 visits no child. Node 2 is drawn twice, the
second time with the accumulated transformation of a child of the root. -/
theorem wrappedNodes_trace {B : Type} (scene : Scene Int B) (n : Nat) (hn : n = 2 ^ 32 - 2)
    (hnodes : scene.m_nodes = wrappedNodes n)
    (mesh : TriangleMeshD3D12 Int B) (hmesh : scene.m_meshes[0]? = some mesh)
    (hidx : mesh.m_materialIndex = 0)
    (material : Material Int) (hmat : scene.m_materials[0]? = some material)
    (fuel : Nat) (R : f32m4 Int) :
    scene.addToCommandList (fuel + 3) R = .ok
      [.getNode 0, .getNode 1, .getNode 2,
       .draw 2 0 0
         { accuModelView := R * aiMatrix4x4ToGlm (aiScaling 1) * aiMatrix4x4ToGlm (aiScaling 3)
             * aiMatrix4x4ToGlm (aiScaling 1)
           worldTransformation := glm.identity * aiMatrix4x4ToGlm (aiScaling 1)
             * aiMatrix4x4ToGlm (aiScaling 3) * aiMatrix4x4ToGlm (aiScaling 1)
           isReflectiveFlag := if mesh.m_isReflective then 1 else 0
           meshDescriptorIndex := meshDescriptorIndexOf material.m_descriptorIndex
           materialConstantBuffer := material.materialConstantBuffer
           draw := mesh.addToCommandList },
       .getNode 3, .getNode 2,
       .draw 2 0 0
         { accuModelView := R * aiMatrix4x4ToGlm (aiScaling 1) * aiMatrix4x4ToGlm (aiScaling 1)
           worldTransformation := glm.identity * aiMatrix4x4ToGlm (aiScaling 1)
             * aiMatrix4x4ToGlm (aiScaling 3) * aiMatrix4x4ToGlm (aiScaling 1)
           isReflectiveFlag := if mesh.m_isReflective then 1 else 0
           meshDescriptorIndex := meshDescriptorIndexOf material.m_descriptorIndex
           materialConstantBuffer := material.materialConstantBuffer
           draw := mesh.addToCommandList },
       .getNode 3] := by
  have h3 : ui32 3 = 3 := by decide
  have h2 : ui32 2 = 2 := by decide
  have h1 : ui32 1 = 1 := by decide
  have h0 : ui32 0 = 0 := by decide
  have hw : ui32 (n + 2) = 0 := by rw [hn]; decide
  have hlen : scene.m_nodes.length = n + 8 := by
    rw [hnodes]
    simp only [wrappedNodes, List.length_append, List.length_cons, List.length_nil,
      List.length_replicate]
    omega
  have hcount : scene.getNumberOfNodes = 6 := by
    unfold Scene.getNumberOfNodes
    rw [hlen, hn]
    decide
  have c0 : ¬ (0 ≥ 6) := by decide
  have c1 : ¬ (1 ≥ 6) := by decide
  have c2 : ¬ (2 ≥ 6) := by decide
  have c3 : ¬ (3 ≥ 6) := by decide
  simp only [Scene.addToCommandList, addToCommandListImpl, hcount, c0, c1, c2, c3, if_false,
    Scene.getNode, hnodes, wrappedNodes, List.cons_append, List.nil_append,
    List.getElem?_cons_zero, List.getElem?_cons_succ, List.length_cons,
    List.length_nil, List.length_append, List.length_map, List.length_range, h3, h2, h1, h0,
    hw, List.take_succ_cons, List.take_zero, List.take_nil, drawMeshes, visitChildren,
    Scene.getMesh, Scene.getMaterial, hmesh, hidx, hmat, List.append_nil]

/-- The scene `createFromAssImpScene` returns for `wrappedScene n`, `n = 2 ^ 32 - 2`: the
bounding-box pass returns, the node array is `wrappedNodes n`, and mesh 0 uses
material 0. -/
theorem wrappedScene_result (n : Nat) (hn : n = 2 ^ 32 - 2) :
    ∃ (scene : Scene Int (List (Nat × f32m4 Int)))
      (mesh : TriangleMeshD3D12 Int (List (Nat × f32m4 Int))) (material : Material Int),
      (createFromAssImpScene recordOps
        (environmentOf true (some (wrappedScene n)) allFilesLoad)
        "/scenes/a.obj" "/scenes").result = .ok scene ∧
      scene.m_nodes = wrappedNodes n ∧
      scene.m_meshes[0]? = some mesh ∧ mesh.m_materialIndex = 0 ∧
      scene.m_materials[0]? = some material := by
  have hnodes := wrappedTree_nodes n hn
  have hlen : (wrappedNodes n).length + 1 = (n + 6) + 3 := by
    simp only [wrappedNodes, List.length_append, List.length_cons, List.length_nil,
      List.length_replicate]
    omega
  obtain ⟨aabb, haabb⟩ := wrappedNodes_aabb recordOps
    { m_nodes := (createNodes [] (wrappedTree n) glm.identity).1
      m_meshes := (createMeshes recordOps.ofPositions (wrappedScene n).mMeshes []).m_meshes
      m_aabb := recordOps.empty
      m_materials := []
      m_textures := []
      m_totalDescriptorCount := numOfDescriptors (wrappedScene n).mMaterials.length
      globalVertices :=
        (createMeshes recordOps.ofPositions (wrappedScene n).mMeshes []).globalVertices
      globalIndices :=
        (createMeshes recordOps.ofPositions (wrappedScene n).mMeshes []).globalIndices
      heapWrites := [] }
    n hn hnodes _ rfl (n + 6) recordOps.empty glm.identity
  refine ⟨_, _, _, createFromAssImpScene_result recordOps
    (environmentOf true (some (wrappedScene n)) allFilesLoad) "/scenes/a.obj" "/scenes"
    (wrappedScene n) (wrappedTree n) aabb
    [.solid white 1 1, .solid black 1 1, .solid blue 1 1] rfl rfl rfl rfl rfl rfl ?_ rfl,
    hnodes, rfl, rfl, rfl⟩
  rw [hnodes, hlen]
  rw [hnodes] at haabb
  exact haabb

/-! ## C19, C27, C28, C29: counterexamples beyond the 32-bit range -/

/-- C19, counterexample: the scene `createFromAssImpScene` returns for the source tree of
`2 ^ 32` nodes whose root refers to mesh 0 and has `2 ^ 32 - 1` leaf children. Node 0 of
the scene holds the mesh reference, yet `getNumberOfNodes()` is 0 and the traversal
emits nothing, for every root transformation and every positive recursion depth. -/
theorem C19_counterexample :
    ∃ (scene : Scene Int (List (Nat × f32m4 Int))) (node : Node Int),
      (createFromAssImpScene recordOps
        (environmentOf true (some (flatScene hugeChildCount)) allFilesLoad)
        "/scenes/a.obj" "/scenes").result = .ok scene ∧
      scene.m_nodes[0]? = some node ∧ node.meshIndices = [0] ∧
      ∀ (fuel : Nat) (R : f32m4 Int), scene.addToCommandList (fuel + 1) R = .ok [] := by
  obtain ⟨scene, node, h1, -, h3, h4, h5⟩ := flatTree_traversal hugeChildCount rfl
  exact ⟨scene, node, h1, h3, h4, h5⟩

/-- C27, counterexample: on the scene of `2 ^ 32` nodes that `createFromAssImpScene`
returns for the source tree with `2 ^ 32 - 1` leaf children, the traversal visits no
node. -/
theorem C27_counterexample :
    ∃ (scene : Scene Int (List (Nat × f32m4 Int))) (events : List (TraversalEvent Int)),
      (createFromAssImpScene recordOps
        (environmentOf true (some (flatScene hugeChildCount)) allFilesLoad)
        "/scenes/a.obj" "/scenes").result = .ok scene ∧
      scene.m_nodes.length = 2 ^ 32 ∧
      scene.addToCommandList 1 glm.identity = .ok events ∧
      visitedNodes events = [] ∧
      visitedNodes events ≠ List.range scene.m_nodes.length := by
  obtain ⟨scene, node, h1, h2, -, -, h5⟩ := flatTree_traversal hugeChildCount rfl
  refine ⟨scene, [], h1, h2, h5 0 glm.identity, rfl, ?_⟩
  intro h
  have hl := congrArg List.length h
  rw [List.length_range, h2] at hl
  exact absurd hl (by decide)

/-- C28, counterexample: the scene `createFromAssImpScene` returns for the source tree
`wrappedTree` with `2 ^ 32 - 2` leaves, which has `2 ^ 32 + 6` nodes. The root lists node
2, the node with the mesh, as a child, because the index of its second child was
narrowed to 2. With the identity as root transformation and every recursion depth of at
least 3, the traversal draws the mesh of node 2 with an accumulated transformation that
is not the world transformation stored in node 2, which is the scaling by 3. -/
theorem C28_counterexample :
    ∃ (scene : Scene Int (List (Nat × f32m4 Int))) (node : Node Int),
      (createFromAssImpScene recordOps
        (environmentOf true (some (wrappedScene hugeLeafCount)) allFilesLoad)
        "/scenes/a.obj" "/scenes").result = .ok scene ∧
      scene.m_nodes[2]? = some node ∧
      ∀ (fuel : Nat), ∃ (events : List (TraversalEvent Int)) (call : DrawCall Int),
        scene.addToCommandList (fuel + 3) glm.identity = .ok events ∧
        TraversalEvent.draw 2 0 0 call ∈ events ∧
        call.worldTransformation = node.worldSpaceTransformation ∧
        call.accuModelView ≠ glm.identity * node.worldSpaceTransformation := by
  obtain ⟨scene, mesh, material, hok, hnodes, hmesh, hidx, hmat⟩ :=
    wrappedScene_result hugeLeafCount rfl
  have h2 : scene.m_nodes[2]? = some
      { transformation := aiMatrix4x4ToGlm (aiScaling 1)
        worldSpaceTransformation := glm.identity * aiMatrix4x4ToGlm (aiScaling 1)
          * aiMatrix4x4ToGlm (aiScaling 3) * aiMatrix4x4ToGlm (aiScaling 1)
        meshIndices := [0]
        childIndices := [] } := by
    rw [hnodes]
    simp only [wrappedNodes, List.cons_append, List.getElem?_cons_succ,
      List.getElem?_cons_zero]
  refine ⟨scene, _, hok, h2, ?_⟩
  intro fuel
  refine ⟨_, _, wrappedNodes_trace scene hugeLeafCount rfl hnodes mesh hmesh hidx material
    hmat fuel glm.identity,
    .tail _ (.tail _ (.tail _ (.tail _ (.tail _ (.tail _ (.head _)))))), rfl, ?_⟩
  show (glm.identity : f32m4 Int) * aiMatrix4x4ToGlm (aiScaling 1)
      * aiMatrix4x4ToGlm (aiScaling 1)
    ≠ glm.identity * (glm.identity * aiMatrix4x4ToGlm (aiScaling 1)
      * aiMatrix4x4ToGlm (aiScaling 3) * aiMatrix4x4ToGlm (aiScaling 1))
  decide

/-- C29, counterexample: the scene `createFromAssImpScene` returns for 858993460 materials
and a mesh that uses the last of them. The descriptor index `2 + 5 * 858993459` of that
material is narrowed to 1, and the draw of the mesh passes the descriptor offset -1. -/
theorem C29_counterexample :
    ∃ (scene : Scene Int (List (Nat × f32m4 Int))) (material : Material Int)
      (events : List (TraversalEvent Int)) (call : DrawCall Int),
      (createFromAssImpScene recordOps
        (environmentOf true (some (manyMaterialsScene hugeMaterialNumber 858993459))
          allFilesLoad)
        "/scenes/a.obj" "/scenes").result = .ok scene ∧
      scene.m_materials[858993459]? = some material ∧
      material.m_descriptorIndex = 1 ∧
      scene.addToCommandList 1 glm.identity = .ok events ∧
      TraversalEvent.draw 0 0 858993459 call ∈ events ∧
      call.meshDescriptorIndex = -1 := by
  obtain ⟨scene, material, events, call, h1, h2, h3, h4, h5, h6⟩ :=
    manyMaterials_draw hugeMaterialNumber 858993459 (by decide)
  exact ⟨scene, material, events, call, h1, h2, by rw [h3]; decide, h4, h5,
    by rw [h6]; decide⟩
end gims
